import Mathlib

/-! # Instant-messaging relay: wire codec, framer, roster and router

A shallow embedding of the server of the repository (`src/server`) and of the codec of its
client (`src/client/network/protocol.cpp`, under the namespace `Client`):

* `protocol.cpp`  : byte order helpers, `validateHeader`, the `pack*` / `parse*` codec and
  the per-connection framer `parseData`;
* `client_manager.cpp` : the roster (`std::map<int, ClientInfo>`) and `checkTimeout`;
* `server.cpp` : `ClientHandler::handleRead`, `handleWrite`, `queueSend` and `flushOut`,
  `Server::sendResponse`, the router `Server::handleMessage` with the handlers it dispatches
  to, and the deferred teardown (`queueDisconnect`, `processPendingDisconnects`,
  `handleClientDisconnect`).

Conventions.  A byte (`uint8_t`, `char`) is a `Nat`; loading an integer from bytes and
testing a byte for NUL reduce it modulo 256.  Unsigned machine integers are `Nat`, reduced
modulo `2^w` where they are stored.  A `std::string` is the list of its bytes.  The byte order
of the host is the parameter `be` (`true` on a big-endian host); `htonl`, `htons` and the
`memcpy` of an integer depend on it.  Descriptors are `Int`.  The clocks are parameters of the
functions that read them.  The sockets are the environment: the results of the calls of
`send(2)` are a script held in the server state, the results of the calls of `recv(2)` are
an argument of `handleRead`.  What the router sends is observed in the
field `sent` of the server state, which records every frame passed to
`ClientHandler::queueSend` together with the descriptor of the connection.

The definitions come first; the theorems follow from the heading "Theorems" on.
-/

namespace IM

/-! ## Byte order and memory representation -/

/-- Byte reversal of a 16-bit word. -/
def bswap16 (v : Nat) : Nat :=
  (v % 256) * 2 ^ 8 + v / 2 ^ 8 % 256

/-- Byte reversal of a 32-bit word. -/
def bswap32 (v : Nat) : Nat :=
  (v % 256) * 2 ^ 24 + (v / 2 ^ 8 % 256) * 2 ^ 16 + (v / 2 ^ 16 % 256) * 2 ^ 8 + v / 2 ^ 24 % 256

/-- Library `htons`: the identity on a big-endian host, a byte swap otherwise. -/
def htons (be : Bool) (v : Nat) : Nat := if be then v % 2 ^ 16 else bswap16 v

/-- Library `ntohs`. -/
def ntohs (be : Bool) (v : Nat) : Nat := if be then v % 2 ^ 16 else bswap16 v

/-- Library `htonl`: the identity on a big-endian host, a byte swap otherwise. -/
def htonl (be : Bool) (v : Nat) : Nat := if be then v % 2 ^ 32 else bswap32 v

/-- Library `ntohl`. -/
def ntohl (be : Bool) (v : Nat) : Nat := if be then v % 2 ^ 32 else bswap32 v

/-- The `n` low bytes of `v`, least significant first. -/
def leBytes : Nat → Nat → List Nat
  | 0, _ => []
  | n + 1, v => (v % 256) :: leBytes n (v / 256)

/-- The value of a byte string read least significant byte first. -/
def leValue : List Nat → Nat
  | [] => 0
  | b :: bs => b % 256 + 256 * leValue bs

/-- The object representation of an `n`-byte unsigned integer on the host (`memcpy` out of it). -/
def memStore (be : Bool) (n v : Nat) : List Nat :=
  if be then (leBytes n v).reverse else leBytes n v

/-- The unsigned integer whose object representation on the host is `bs` (`memcpy` into it). -/
def memLoad (be : Bool) (bs : List Nat) : Nat :=
  if be then leValue bs.reverse else leValue bs

/-- Function `swap64` of protocol.cpp, lines 6-9. -/
def swap64 (be : Bool) (value : Nat) : Nat :=
  ((htonl be ((value &&& 0xFFFFFFFF) % 2 ^ 32)) <<< 32) % 2 ^ 64
    ||| htonl be ((value >>> 32) % 2 ^ 32)

/-- Function `hostToNetwork64` of protocol.cpp, lines 11-17. -/
def hostToNetwork64 (be : Bool) (value : Nat) : Nat :=
  if be then value else swap64 be value

/-- Function `networkToHost64` of protocol.cpp, lines 19-25. -/
def networkToHost64 (be : Bool) (value : Nat) : Nat :=
  if be then value else swap64 be value

/-! ## C strings and fixed-width text fields -/

/-- Function `boundedStrnlen` of utils.h: the number of bytes before the first NUL, at most
`max_len`. -/
def boundedStrnlen : List Nat → Nat → Nat
  | [], _ => 0
  | _ :: _, 0 => 0
  | c :: cs, n + 1 => if c % 256 = 0 then 0 else boundedStrnlen cs n + 1

/-- The characters `s.c_str()` shows to a C string function: those before the first NUL. -/
def c_str (s : List Nat) : List Nat := s.takeWhile (fun c => c % 256 != 0)

/-- Library `std::strncpy(dst, src, n)` on the array `dst`: the first `n` characters of the C string
`src`, NUL-padded to `n` bytes; the bytes of `dst` from index `n` on are kept. -/
def strncpy (dst src : List Nat) (n : Nat) : List Nat :=
  ((c_str src).take n ++ List.replicate (n - ((c_str src).take n).length) 0) ++ dst.drop n

/-- Assignment `field[sizeof(field) - 1] = 0` on a `char` array of `w` bytes. -/
def terminate (field : List Nat) (w : Nat) : List Nat :=
  field.take (w - 1) ++ [0]

/-- Constructor `std::string(field, boundedStrnlen(field, w))`: the text of a fixed-width field. -/
def fieldString (field : List Nat) (w : Nat) : List Nat :=
  field.take (boundedStrnlen field w)

/-! ## Messages (`common/message.h`) -/

/-- Packed `struct MessageHeader`, 16 bytes when packed. -/
structure MessageHeader where
  magic : Nat
  version : Nat
  msgType : Nat
  bodyLength : Nat
  sequence : Nat
deriving DecidableEq, Repr

/-- Packed `struct ChatMessage`, 393 bytes when packed. -/
structure ChatMessage where
  chatType : Nat
  fromId : List Nat
  fromNick : List Nat
  toId : List Nat
  timestamp : Nat
  message : List Nat
deriving DecidableEq, Repr

/-- Packed `struct LoginRequest`, 96 bytes when packed. -/
structure LoginRequest where
  clientId : List Nat
  nickname : List Nat
deriving DecidableEq, Repr

/-- Packed `struct UserInfo`, 96 bytes when packed. -/
structure UserInfo where
  clientId : List Nat
  nickname : List Nat
deriving DecidableEq, Repr

/-- Enumeration `enum ChatScope : uint8_t`. -/
inductive ChatScope where
  | CHAT_GROUP
  | CHAT_PRIVATE
deriving DecidableEq, Repr

/-- The enumerator value of a chat scope. -/
def ChatScope.toNat : ChatScope → Nat
  | .CHAT_GROUP => 0
  | .CHAT_PRIVATE => 1

def MAGIC_NUMBER : Nat := 0x12345678

def PROTOCOL_VERSION : Nat := 0x0001

def MSG_HEARTBEAT_REQ : Nat := 0x0001

def MSG_HEARTBEAT_RSP : Nat := 0x0002

def MSG_LOGIN_REQ : Nat := 0x0101

def MSG_LOGIN_RSP : Nat := 0x0102

def MSG_LOGOUT_REQ : Nat := 0x0103

def MSG_CHAT_MSG : Nat := 0x0201

def MSG_USER_LIST_REQ : Nat := 0x0202

def MSG_USER_LIST_RSP : Nat := 0x0203

def MSG_FILE_OFFER : Nat := 0x0301

def MSG_FILE_OFFER_RSP : Nat := 0x0302

def MSG_FILE_DATA : Nat := 0x0303

def MSG_FILE_DATA_ACK : Nat := 0x0304

def LOGIN_SUCCESS : Nat := 0

def LOGIN_INVALID_PARAM : Nat := 1

def LOGIN_SERVER_FULL : Nat := 2

def LOGIN_ALREADY_ONLINE : Nat := 3

def LOGIN_NICKNAME_TAKEN : Nat := 4

def FILE_OFFER_ACCEPT : Nat := 0

def FILE_OFFER_DECLINE : Nat := 1

def FILE_OFFER_BUSY : Nat := 2

/-- The value of `sizeof(MessageHeader)` under `#pragma pack(push, 1)`: the sum of its members. -/
def sizeofMessageHeader : Nat := 4 + 2 + 2 + 4 + 4

/-- The value of `sizeof(LoginRequest)`. -/
def sizeofLoginRequest : Nat := 32 + 64

/-- The value of `sizeof(LoginResponse)`. -/
def sizeofLoginResponse : Nat := 4 + 128

/-- The value of `sizeof(ChatMessage)`. -/
def sizeofChatMessage : Nat := 1 + 32 + 64 + 32 + 8 + 256

/-- The value of `sizeof(UserInfo)`. -/
def sizeofUserInfo : Nat := 32 + 64

/-- The object representation of a packed `MessageHeader` (`memcpy(buffer, &header, 16)`). -/
def MessageHeader.bytes (be : Bool) (h : MessageHeader) : List Nat :=
  memStore be 4 h.magic ++ memStore be 2 h.version ++ memStore be 2 h.msgType
    ++ memStore be 4 h.bodyLength ++ memStore be 4 h.sequence

/-- A packed `MessageHeader` read from the first 16 bytes of a buffer (`memcpy(&header, p, 16)`). -/
def MessageHeader.load (be : Bool) (p : List Nat) : MessageHeader :=
  { magic := memLoad be (p.take 4)
    version := memLoad be ((p.drop 4).take 2)
    msgType := memLoad be ((p.drop 6).take 2)
    bodyLength := memLoad be ((p.drop 8).take 4)
    sequence := memLoad be ((p.drop 12).take 4) }

/-- The object representation of a packed `ChatMessage`. -/
def ChatMessage.bytes (be : Bool) (m : ChatMessage) : List Nat :=
  [m.chatType % 256] ++ m.fromId ++ m.fromNick ++ m.toId ++ memStore be 8 m.timestamp
    ++ m.message

/-- A packed `ChatMessage` read from the first 389 bytes of a buffer. -/
def ChatMessage.load (be : Bool) (p : List Nat) : ChatMessage :=
  { chatType := (p.headD 0) % 256
    fromId := (p.drop 1).take 32
    fromNick := (p.drop 33).take 64
    toId := (p.drop 97).take 32
    timestamp := memLoad be ((p.drop 129).take 8)
    message := (p.drop 137).take 256 }

/-! ## Codec (`protocol.cpp`) -/

/-- Function `ProtocolParser::validateHeader`, protocol.cpp lines 63-74. -/
def validateHeader (header : MessageHeader) : Bool :=
  if header.magic != MAGIC_NUMBER then false
  else if header.version != PROTOCOL_VERSION then false
  else if header.bodyLength > 1024 * 1024 then false
  else true

/-- The header every `pack*` function builds: all fields converted to network order. -/
def mkHeader (be : Bool) (msgType bodyLength sequence : Nat) : MessageHeader :=
  { magic := htonl be MAGIC_NUMBER
    version := htons be PROTOCOL_VERSION
    msgType := htons be msgType
    bodyLength := htonl be (bodyLength % 2 ^ 32)
    sequence := htonl be sequence }

/-- Function `ProtocolParser::packChatMessage`, protocol.cpp lines 113-142. -/
def packChatMessage (be : Bool) (sequence : Nat) (scope : ChatScope)
    (fromId fromNick toId message : List Nat) (timestamp : Nat) : List Nat :=
  let header := mkHeader be MSG_CHAT_MSG sizeofChatMessage sequence
  let msg : ChatMessage :=
    { chatType := scope.toNat
      fromId := strncpy (List.replicate 32 0) fromId (32 - 1)
      fromNick := strncpy (List.replicate 64 0) fromNick (64 - 1)
      toId := strncpy (List.replicate 32 0) toId (32 - 1)
      timestamp := hostToNetwork64 be timestamp
      message := strncpy (List.replicate 256 0) message (256 - 1) }
  header.bytes be ++ msg.bytes be

/-- Function `ProtocolParser::parseChatMessage`, protocol.cpp lines 259-272; `none` is
`return false`. -/
def parseChatMessage (be : Bool) (data : List Nat) : Option ChatMessage :=
  if data.length < sizeofChatMessage then none
  else
    let msg := ChatMessage.load be data
    some { chatType := msg.chatType
           fromId := terminate msg.fromId 32
           fromNick := terminate msg.fromNick 64
           toId := terminate msg.toId 32
           message := terminate msg.message 256
           timestamp := networkToHost64 be msg.timestamp }

/-! ## Framer (`ProtocolParser::parseData`) -/

/-- The header of protocol.cpp lines 36-43: `memcpy` from the front of the buffer, then every
field converted to host order. -/
def decodeHeader (be : Bool) (buffer : List Nat) : MessageHeader :=
  let header := MessageHeader.load be buffer
  { magic := ntohl be header.magic
    version := ntohs be header.version
    msgType := ntohs be header.msgType
    bodyLength := ntohl be header.bodyLength
    sequence := ntohl be header.sequence }

/-- The `while` loop of `ProtocolParser::parseData`, protocol.cpp lines 35-60, on the
accumulator `buffer` of one connection.  `callback` is the message callback, threaded through
the state `st` it acts on; `fuel` bounds the number of iterations.  The result is the
accumulator left behind and the state after all callbacks. -/
def parseLoop {σ : Type} (be : Bool) (fd : Int)
    (callback : σ → Int → MessageHeader → List Nat → σ) :
    Nat → List Nat → σ → List Nat × σ
  | 0, buffer, st => (buffer, st)
  | fuel + 1, buffer, st =>
    if buffer.length ≥ sizeofMessageHeader then
      let header := decodeHeader be buffer
      if !validateHeader header then
        ([], st)
      else
        let totalLen := sizeofMessageHeader + header.bodyLength
        if buffer.length < totalLen then
          (buffer, st)
        else
          let body := (buffer.drop sizeofMessageHeader).take header.bodyLength
          parseLoop be fd callback fuel (buffer.drop totalLen) (callback st fd header body)
    else
      (buffer, st)

/-- Function `ProtocolParser::parseData`, protocol.cpp lines 31-61, for the accumulator of one
connection: append the new bytes, then run the loop.  Every iteration that goes on removes at
least 16 bytes, so a fuel of the accumulator length plus one is never used up
(`parseLoop_fuel`). -/
def parseData {σ : Type} (be : Bool) (fd : Int) (buffer data : List Nat)
    (callback : σ → Int → MessageHeader → List Nat → σ) (st : σ) : List Nat × σ :=
  parseLoop be fd callback ((buffer ++ data).length + 1) (buffer ++ data) st

/-- The callback that records the `(header, body)` pairs it is invoked with, in order. -/
def recordMessage (trace : List (MessageHeader × List Nat)) (_fd : Int) (header : MessageHeader)
    (body : List Nat) : List (MessageHeader × List Nat) :=
  trace ++ [(header, body)]

/-- Feeding the chunks one after another to `parseData` for one connection, starting from the
accumulator `buffer`: the accumulator left behind and the state after all callbacks. -/
def feedChunks {σ : Type} (be : Bool) (fd : Int)
    (callback : σ → Int → MessageHeader → List Nat → σ) :
    List (List Nat) → List Nat → σ → List Nat × σ
  | [], buffer, st => (buffer, st)
  | chunk :: rest, buffer, st =>
    let r := parseData be fd buffer chunk callback st
    feedChunks be fd callback rest r.1 r.2

/-- The loop of `parseData` run on `buffer` never takes the branch of protocol.cpp lines 45-48,
that is, it meets no header that fails `validateHeader` (no resynchronisation). -/
def resyncFree (be : Bool) : Nat → List Nat → Bool
  | 0, _ => true
  | fuel + 1, buffer =>
    if buffer.length ≥ sizeofMessageHeader then
      let header := decodeHeader be buffer
      if !validateHeader header then
        false
      else
        let totalLen := sizeofMessageHeader + header.bodyLength
        if buffer.length < totalLen then
          true
        else
          resyncFree be fuel (buffer.drop totalLen)
    else
      true

/-! ## The other messages of the codec -/

/-- Packed `struct LoginResponse`, 132 bytes. -/
structure LoginResponse where
  result : Nat
  message : List Nat
deriving DecidableEq, Repr

/-- Packed `struct FileOffer`. -/
structure FileOffer where
  fileId : List Nat
  fromId : List Nat
  fromNick : List Nat
  toId : List Nat
  fileSize : Nat
  fileName : List Nat
deriving DecidableEq, Repr

/-- Packed `struct FileOfferResponse`, 105 bytes. -/
structure FileOfferResponse where
  fileId : List Nat
  result : Nat
  message : List Nat
deriving DecidableEq, Repr

/-- The value of `sizeof(FileOffer)` under `#pragma pack(push, 1)`. -/
def sizeofFileOffer : Nat := 37 + 32 + 64 + 32 + 8 + 256

/-- The value of `sizeof(FileOfferResponse)`. -/
def sizeofFileOfferResponse : Nat := 37 + 4 + 64

/-- The constant `kFileIdSize` of server.cpp. -/
def kFileIdSize : Nat := 37

/-- The constant `kMaxOnlineClients` of server.cpp. -/
def kMaxOnlineClients : Nat := 1024

/-- The bytes of an ASCII string literal of the source. -/
def ascii (s : String) : List Nat := s.toList.map Char.toNat

/-- Function `ProtocolParser::packHeartbeatResponse`, protocol.cpp lines 76-88. -/
def packHeartbeatResponse (be : Bool) (sequence : Nat) : List Nat :=
  (mkHeader be MSG_HEARTBEAT_RSP 0 sequence).bytes be

/-- Function `ProtocolParser::packLoginResponse`, protocol.cpp lines 90-111. -/
def packLoginResponse (be : Bool) (sequence result : Nat) (message : List Nat) : List Nat :=
  let header := mkHeader be MSG_LOGIN_RSP sizeofLoginResponse sequence
  let rsp : LoginResponse :=
    { result := htonl be result
      message := strncpy (List.replicate 128 0) message (128 - 1) }
  header.bytes be ++ (memStore be 4 rsp.result ++ rsp.message)

/-- The object representation of a packed `UserInfo`. -/
def UserInfo.bytes (u : UserInfo) : List Nat := u.clientId ++ u.nickname

/-- Function `ProtocolParser::packUserListResponse`, protocol.cpp lines 144-169. -/
def packUserListResponse (be : Bool) (sequence : Nat) (users : List UserInfo) : List Nat :=
  let count := users.length % 2 ^ 32
  let bodyLen := 4 + users.length * sizeofUserInfo
  let header := mkHeader be MSG_USER_LIST_RSP bodyLen sequence
  let countNet := htonl be count
  header.bytes be ++ memStore be 4 countNet ++ (users.map UserInfo.bytes).flatten

/-- Function `ProtocolParser::packFileOffer`, protocol.cpp lines 171-200. -/
def packFileOffer (be : Bool) (sequence : Nat) (fileId fileName : List Nat) (fileSize : Nat)
    (fromId fromNick toId : List Nat) : List Nat :=
  let header := mkHeader be MSG_FILE_OFFER sizeofFileOffer sequence
  let offer : FileOffer :=
    { fileId := strncpy (List.replicate 37 0) fileId (37 - 1)
      fromId := strncpy (List.replicate 32 0) fromId (32 - 1)
      fromNick := strncpy (List.replicate 64 0) fromNick (64 - 1)
      toId := strncpy (List.replicate 32 0) toId (32 - 1)
      fileSize := hostToNetwork64 be fileSize
      fileName := strncpy (List.replicate 256 0) fileName (256 - 1) }
  header.bytes be ++ (offer.fileId ++ offer.fromId ++ offer.fromNick ++ offer.toId
    ++ memStore be 8 offer.fileSize ++ offer.fileName)

/-- Function `ProtocolParser::packFileOfferResponse`, protocol.cpp lines 202-225. -/
def packFileOfferResponse (be : Bool) (sequence : Nat) (fileId : List Nat) (result : Nat)
    (message : List Nat) : List Nat :=
  let header := mkHeader be MSG_FILE_OFFER_RSP sizeofFileOfferResponse sequence
  let rsp : FileOfferResponse :=
    { fileId := strncpy (List.replicate 37 0) fileId (37 - 1)
      result := htonl be result
      message := strncpy (List.replicate 64 0) message (64 - 1) }
  header.bytes be ++ (rsp.fileId ++ memStore be 4 rsp.result ++ rsp.message)

/-- Function `ProtocolParser::packRawMessage`, protocol.cpp lines 227-246. -/
def packRawMessage (be : Bool) (msgType sequence : Nat) (body : List Nat) : List Nat :=
  let header := mkHeader be msgType body.length sequence
  header.bytes be ++ body

/-- Function `ProtocolParser::parseLoginRequest`, protocol.cpp lines 248-257. -/
def parseLoginRequest (data : List Nat) : Option LoginRequest :=
  if data.length < sizeofLoginRequest then none
  else
    some { clientId := terminate (data.take 32) 32
           nickname := terminate ((data.drop 32).take 64) 64 }

/-- Function `ProtocolParser::parseFileOffer`, protocol.cpp lines 274-288. -/
def parseFileOffer (be : Bool) (data : List Nat) : Option FileOffer :=
  if data.length < sizeofFileOffer then none
  else
    some { fileId := terminate (data.take 37) 37
           fromId := terminate ((data.drop 37).take 32) 32
           fromNick := terminate ((data.drop 69).take 64) 64
           toId := terminate ((data.drop 133).take 32) 32
           fileName := terminate ((data.drop 173).take 256) 256
           fileSize := networkToHost64 be (memLoad be ((data.drop 165).take 8)) }

/-- Function `ProtocolParser::parseFileOfferResponse`, protocol.cpp lines 290-301. -/
def parseFileOfferResponse (be : Bool) (data : List Nat) : Option FileOfferResponse :=
  if data.length < sizeofFileOfferResponse then none
  else
    some { fileId := terminate (data.take 37) 37
           result := ntohl be (memLoad be ((data.drop 37).take 4))
           message := terminate ((data.drop 41).take 64) 64 }

/-- Function `extractFileId` of server.cpp, lines 38-46. -/
def extractFileId (body : List Nat) : List Nat :=
  if body.length < kFileIdSize then []
  else fieldString (terminate (body.take kFileIdSize) kFileIdSize) kFileIdSize

/-! ## Roster (`client_manager.cpp`) -/

/-- A `std::map<int, α>`: the entries in ascending key order. -/
abbrev FdMap (α : Type) := List (Int × α)

/-- Lookup `m.find(fd)`. -/
def FdMap.find? {α : Type} : FdMap α → Int → Option α
  | [], _ => none
  | (k, v) :: rest, fd => if k = fd then some v else FdMap.find? rest fd

/-- Assignment `m[fd] = v` (an existing entry is replaced, a new one is put in key order). -/
def FdMap.insert {α : Type} : FdMap α → Int → α → FdMap α
  | [], fd, v => [(fd, v)]
  | (k, w) :: rest, fd, v =>
    if fd < k then (fd, v) :: (k, w) :: rest
    else if fd = k then (fd, v) :: rest
    else (k, w) :: FdMap.insert rest fd v

/-- Removal `m.erase(fd)`. -/
def FdMap.erase {α : Type} (m : FdMap α) (fd : Int) : FdMap α :=
  m.filter (fun e => e.1 != fd)

/-- The entry of key `fd`, when there is one, replaced by its image under `f`
(`it = m.find(fd); if (it != m.end()) it->second = f(it->second)`). -/
def FdMap.modify {α : Type} : FdMap α → Int → (α → α) → FdMap α
  | [], _, _ => []
  | (k, v) :: rest, fd, f =>
    if k = fd then (k, f v) :: rest else (k, v) :: FdMap.modify rest fd f

/-- Record `struct ClientInfo` of client_manager.h; `lastHeartbeat` is a reading of the
steady clock. -/
structure ClientInfo where
  fd : Int
  clientId : List Nat
  nickname : List Nat
  ip : List Nat
  port : Int
  lastHeartbeat : Nat
  isOnline : Bool
deriving DecidableEq, Repr

/-- Function `ClientManager::addClient`, client_manager.cpp lines 8-20; `now` is the reading
of `steady_clock::now()`. -/
def addClient (clients : FdMap ClientInfo) (fd : Int) (ip : List Nat) (port : Int) (now : Nat) :
    FdMap ClientInfo :=
  let info : ClientInfo :=
    { fd := fd, clientId := [], nickname := [], ip := ip, port := port, lastHeartbeat := now,
      isOnline := false }
  FdMap.insert clients fd info

/-- Function `ClientManager::removeClient`, client_manager.cpp lines 22-25. -/
def removeClient (clients : FdMap ClientInfo) (fd : Int) : FdMap ClientInfo :=
  FdMap.erase clients fd

/-- Function `ClientManager::updateHeartbeat`, client_manager.cpp lines 27-34. -/
def updateHeartbeat (clients : FdMap ClientInfo) (fd : Int) (now : Nat) : FdMap ClientInfo :=
  FdMap.modify clients fd (fun info => { info with lastHeartbeat := now })

/-- Function `ClientManager::getClientInfo`, client_manager.cpp lines 64-73; `none` is
`return false`. -/
def getClientInfo (clients : FdMap ClientInfo) (fd : Int) : Option ClientInfo :=
  FdMap.find? clients fd

/-- Function `ClientManager::setClientIdentity`, client_manager.cpp lines 75-87: the new map
and the returned flag. -/
def setClientIdentity (clients : FdMap ClientInfo) (fd : Int) (clientId nickname : List Nat) :
    FdMap ClientInfo × Bool :=
  match FdMap.find? clients fd with
  | none => (clients, false)
  | some _ =>
    (FdMap.modify clients fd
      (fun info => { info with clientId := clientId, nickname := nickname, isOnline := true }),
     true)

/-- Function `ClientManager::isClientIdOnline`, client_manager.cpp lines 89-108. -/
def isClientIdOnline (clients : FdMap ClientInfo) (clientId : List Nat) (excludeFd : Int) :
    Bool :=
  if clientId.isEmpty then false
  else clients.any (fun e => e.1 != excludeFd && e.2.isOnline && e.2.clientId == clientId)

/-- Function `ClientManager::isNicknameOnline`, client_manager.cpp lines 110-129. -/
def isNicknameOnline (clients : FdMap ClientInfo) (nickname : List Nat) (excludeFd : Int) :
    Bool :=
  if nickname.isEmpty then false
  else clients.any (fun e => e.1 != excludeFd && e.2.isOnline && e.2.nickname == nickname)

/-- Function `ClientManager::getFdByClientId`, client_manager.cpp lines 131-147. -/
def getFdByClientId (clients : FdMap ClientInfo) (clientId : List Nat) : Int :=
  if clientId.isEmpty then -1
  else
    match List.find? (fun e => e.2.isOnline && e.2.clientId == clientId) clients with
    | some e => e.1
    | none => -1

/-- Function `ClientManager::getOnlineClients`, client_manager.cpp lines 149-160. -/
def getOnlineClients (clients : FdMap ClientInfo) : List ClientInfo :=
  (clients.filter (fun e => e.2.isOnline)).map Prod.snd

/-- Function `ClientManager::getOnlineCount`, client_manager.cpp lines 192-201. -/
def getOnlineCount (clients : FdMap ClientInfo) : Nat :=
  (clients.filter (fun e => e.2.isOnline)).length

/-- Function `ClientManager::getAllFds`, client_manager.cpp lines 181-190. -/
def getAllFds (clients : FdMap ClientInfo) : List Int :=
  clients.map Prod.fst

/-! ## Connections (`ClientHandler` of server.cpp) and the server state -/

/-- What one call of `send(2)` on a non-blocking socket does: accept `min (k + 1) len` of the
`len` bytes offered (`bytes k`), return 0, fail with `EINTR`, fail with `EAGAIN` or
`EWOULDBLOCK`, or fail with another error. -/
inductive SendResult where
  | bytes (k : Nat)
  | zero
  | eintr
  | eagain
  | error
deriving DecidableEq, Repr

/-- How a loop around `send` ends. -/
inductive LoopExit where
  | completed
  | wouldBlock
  | peerClosed
  | sendError
deriving DecidableEq, Repr

/-- The constant `EVENT_READ` of reactor.h. -/
def EVENT_READ : Nat := 1

/-- The constant `EVENT_WRITE` of reactor.h. -/
def EVENT_WRITE : Nat := 2

/-- One `ClientHandler` together with the interest set the reactor holds for it (`events`) and,
as an observation, the bytes its socket has accepted so far (`wire`). -/
structure Connection where
  closing : Bool
  outbuf : List Nat
  outOffset : Nat
  events : Nat
  wire : List Nat
deriving DecidableEq, Repr

/-- Record `Server::FileSession` of server.h. -/
structure FileSession where
  senderFd : Int
  receiverFd : Int
deriving DecidableEq, Repr

/-- The state of the server.  `sendScript` is the environment: the results of the coming
calls of `send(2)`, in order (once it is used up every call would block).  `sent` is an
observation: the frames the router has passed to `ClientHandler::queueSend`, in order, each
with the descriptor of the connection it was passed to. -/
structure Server where
  clients : FdMap ClientInfo
  clientHandlers : FdMap Connection
  recvBuffers : FdMap (List Nat)
  pendingDisconnects : List Int
  fileSessions : List (List Nat × FileSession)
  running : Bool
  sendScript : List SendResult
  sent : List (Int × List Nat)
deriving DecidableEq, Repr

/-- The server right after `Server::start`: nothing registered. -/
def Server.initial (running : Bool) (sendScript : List SendResult) : Server :=
  { clients := [], clientHandlers := [], recvBuffers := [], pendingDisconnects := [],
    fileSessions := [], running := running, sendScript := sendScript, sent := [] }

/-- Function `Server::queueDisconnect`, server.cpp lines 836-839. -/
def queueDisconnect (s : Server) (clientFd : Int) : Server :=
  { s with pendingDisconnects := s.pendingDisconnects ++ [clientFd] }

/-- The loop of `ClientHandler::queueSend`, server.cpp lines 169-191, over `len` bytes: the
offset reached, the results of `send` left over and the way the loop ended. -/
def immediateSend (len : Nat) : List SendResult → Nat → Nat × List SendResult × LoopExit
  | [], offset => (offset, [], if offset < len then .wouldBlock else .completed)
  | r :: rest, offset =>
    if offset < len then
      match r with
      | .bytes k => immediateSend len rest (offset + min (k + 1) (len - offset))
      | .zero => (offset, rest, .peerClosed)
      | .eintr => immediateSend len rest offset
      | .eagain => (offset, rest, .wouldBlock)
      | .error => (offset, rest, .sendError)
    else (offset, r :: rest, .completed)

/-- Function `ClientHandler::pending`, server.cpp lines 206-208. -/
def Connection.pending (c : Connection) : Nat := c.outbuf.length - c.outOffset

/-- Function `ClientHandler::appendOut`, server.cpp lines 210-219. -/
def Connection.appendOut (c : Connection) (data : List Nat) : Connection :=
  if data.length = 0 then c
  else if c.pending = 0 then { c with outbuf := data, outOffset := 0 }
  else { c with outbuf := c.outbuf ++ data }

/-- Function `ClientHandler::requestClose`, server.cpp lines 257-264, for the handler `c` of
descriptor `fd`. -/
def requestClose (s : Server) (fd : Int) (c : Connection) : Server :=
  if c.closing then s
  else
    queueDisconnect { s with clientHandlers := FdMap.modify s.clientHandlers fd
                                                  (fun _ => { c with closing := true }) } fd

/-- Function `ClientHandler::queueSend`, server.cpp lines 159-203, for the handler `c` of
descriptor `fd`: the new state and the returned flag.  The call is recorded in `sent`. -/
def queueSend (s : Server) (fd : Int) (c : Connection) (data : List Nat) : Server × Bool :=
  let s := { s with sent := s.sent ++ [(fd, data)] }
  if c.closing || fd < 0 then (s, false)
  else if data.isEmpty then (s, true)
  else
    if c.pending = 0 then
      let r := immediateSend data.length s.sendScript 0
      let offset := r.1
      let c := { c with wire := c.wire ++ data.take offset }
      let s := { s with sendScript := r.2.1
                        clientHandlers := FdMap.modify s.clientHandlers fd (fun _ => c) }
      match r.2.2 with
      | .peerClosed => (requestClose s fd c, false)
      | .sendError => (requestClose s fd c, false)
      | _ =>
        if offset = data.length then (s, true)
        else
          let c := { c.appendOut (data.drop offset) with events := EVENT_READ ||| EVENT_WRITE }
          ({ s with clientHandlers := FdMap.modify s.clientHandlers fd (fun _ => c) }, true)
    else
      let c := { c.appendOut data with events := EVENT_READ ||| EVENT_WRITE }
      ({ s with clientHandlers := FdMap.modify s.clientHandlers fd (fun _ => c) }, true)

/-- Function `Server::sendResponse`, server.cpp lines 923-935. -/
def sendResponse (s : Server) (clientFd : Int) (data : List Nat) : Server × Bool :=
  match FdMap.find? s.clientHandlers clientFd with
  | none => (s, false)
  | some c =>
    let r := queueSend s clientFd c data
    if !r.2 then (queueDisconnect r.1 clientFd, false)
    else (r.1, true)

/-! ## Router (`Server::handleMessage` and the handlers it dispatches to) -/

/-- The `UserInfo` records built in `sendUserList` and `broadcastUserList`, server.cpp lines
884-890 and 909-915. -/
def userInfos (clients : List ClientInfo) : List UserInfo :=
  clients.map (fun info =>
    { clientId := strncpy (List.replicate 32 0) info.clientId (32 - 1)
      nickname := strncpy (List.replicate 64 0) info.nickname (64 - 1) })

/-- A loop `for (target : targets) sendResponse(target, packet)`. -/
def sendToAll (s : Server) (targets : List Int) (packet : List Nat) : Server :=
  targets.foldl (fun st fd => (sendResponse st fd packet).1) s

/-- Function `Server::sendUserList`, server.cpp lines 875-894. -/
def sendUserList (be : Bool) (s : Server) (clientFd : Int) (sequence : Nat) : Server :=
  let clients := getOnlineClients s.clients
  let packet := packUserListResponse be sequence (userInfos clients)
  (sendResponse s clientFd packet).1

/-- Function `Server::broadcastUserList`, server.cpp lines 896-921. -/
def broadcastUserList (be : Bool) (s : Server) : Server :=
  let clients := getOnlineClients s.clients
  if clients.isEmpty then s
  else
    let packet := packUserListResponse be 0 (userInfos clients)
    sendToAll s (clients.map (fun info => info.fd)) packet

/-- The `MSG_LOGIN_REQ` case of `Server::handleMessage`, server.cpp lines 472-532. -/
def handleLogin (be : Bool) (s : Server) (clientFd : Int) (header : MessageHeader)
    (body : List Nat) : Server :=
  match parseLoginRequest body with
  | none =>
    (sendResponse s clientFd
      (packLoginResponse be header.sequence LOGIN_INVALID_PARAM (ascii "Invalid parameters"))).1
  | some req =>
    let clientId := fieldString req.clientId 32
    let nickname := fieldString req.nickname 64
    if clientId.isEmpty || nickname.isEmpty then
      (sendResponse s clientFd
        (packLoginResponse be header.sequence LOGIN_INVALID_PARAM
          (ascii "Invalid parameters"))).1
    else if isClientIdOnline s.clients clientId clientFd then
      (sendResponse s clientFd
        (packLoginResponse be header.sequence LOGIN_ALREADY_ONLINE
          (ascii "Client already online"))).1
    else if isNicknameOnline s.clients nickname clientFd then
      (sendResponse s clientFd
        (packLoginResponse be header.sequence LOGIN_NICKNAME_TAKEN (ascii "Nickname taken"))).1
    else if getOnlineCount s.clients ≥ kMaxOnlineClients then
      (sendResponse s clientFd
        (packLoginResponse be header.sequence LOGIN_SERVER_FULL (ascii "Server full"))).1
    else
      let r := setClientIdentity s.clients clientFd clientId nickname
      if !r.2 then
        (sendResponse s clientFd
          (packLoginResponse be header.sequence LOGIN_INVALID_PARAM
            (ascii "Invalid parameters"))).1
      else
        let s := { s with clients := r.1 }
        let s := (sendResponse s clientFd
          (packLoginResponse be header.sequence LOGIN_SUCCESS (ascii "OK"))).1
        broadcastUserList be s

/-- The scope of server.cpp line 583: PRIVATE for chatType 1, GROUP for every other value. -/
def chatScopeOf (msg : ChatMessage) : ChatScope :=
  if msg.chatType = ChatScope.CHAT_PRIVATE.toNat then ChatScope.CHAT_PRIVATE
  else ChatScope.CHAT_GROUP

/-- The frame of server.cpp lines 579-592: the chat re-encoded with the clientId and
nickname of the roster entry `sender`; `epoch` is the value `currentEpochSeconds()` would
return. -/
def chatPacket (be : Bool) (epoch : Nat) (header : MessageHeader) (sender : ClientInfo)
    (msg : ChatMessage) : List Nat :=
  let toId := fieldString msg.toId 32
  let text := fieldString msg.message 256
  let timestamp := if msg.timestamp = 0 then epoch else msg.timestamp
  packChatMessage be header.sequence (chatScopeOf msg) sender.clientId sender.nickname toId text
    timestamp

/-- The part of `Server::handleChatMessage` after a successful parse, server.cpp lines
573-618. -/
def forwardChat (be : Bool) (epoch : Nat) (s : Server) (clientFd : Int)
    (header : MessageHeader) (msg : ChatMessage) : Server :=
  match getClientInfo s.clients clientFd with
  | none => s
  | some sender =>
    if !sender.isOnline then s
    else
      let toId := fieldString msg.toId 32
      let packet := chatPacket be epoch header sender msg
      if chatScopeOf msg = ChatScope.CHAT_GROUP then
        let targets := getOnlineClients s.clients
        sendToAll s ((targets.filter (fun t => t.fd != clientFd)).map (fun t => t.fd)) packet
      else if toId.isEmpty then s
      else
        let targetFd := getFdByClientId s.clients toId
        if targetFd < 0 then s
        else (sendResponse s targetFd packet).1

/-- Function `Server::handleChatMessage`, server.cpp lines 564-618; `epoch` is the value
`currentEpochSeconds()` would return. -/
def handleChatMessage (be : Bool) (epoch : Nat) (s : Server) (clientFd : Int)
    (header : MessageHeader) (body : List Nat) : Server :=
  match parseChatMessage be body with
  | none => s
  | some msg => forwardChat be epoch s clientFd header msg

/-- Function `Server::handleUserListRequest`, server.cpp lines 620-631. -/
def handleUserListRequest (be : Bool) (s : Server) (clientFd : Int) (header : MessageHeader) :
    Server :=
  match getClientInfo s.clients clientFd with
  | none => s
  | some info => if !info.isOnline then s else sendUserList be s clientFd header.sequence

/-- Lookup `fileSessions_.find(fileId)` in the file-session table. -/
def fsFind (t : List (List Nat × FileSession)) (fileId : List Nat) : Option FileSession :=
  (List.find? (fun e => e.1 == fileId) t).map Prod.snd

/-- Removal `fileSessions_.erase(it)` of the session of `fileId`. -/
def fsErase (t : List (List Nat × FileSession)) (fileId : List Nat) :
    List (List Nat × FileSession) :=
  t.filter (fun e => !(e.1 == fileId))

/-- Assignment `fileSessions_[fileId] = session`. -/
def fsInsert (t : List (List Nat × FileSession)) (fileId : List Nat) (session : FileSession) :
    List (List Nat × FileSession) :=
  fsErase t fileId ++ [(fileId, session)]

/-- The loop of server.cpp lines 691-698: the offer sent to every target but the offering
connection, and whether one send succeeded. -/
def offerToAll (s : Server) (clientFd : Int) (packet : List Nat) :
    List ClientInfo → Bool → Server × Bool
  | [], sent => (s, sent)
  | target :: rest, sent =>
    if target.fd = clientFd then offerToAll s clientFd packet rest sent
    else
      let r := sendResponse s target.fd packet
      offerToAll r.1 clientFd packet rest (if r.2 then true else sent)

/-- Function `Server::handleFileOffer`, server.cpp lines 633-711. -/
def handleFileOffer (be : Bool) (s : Server) (clientFd : Int) (header : MessageHeader)
    (body : List Nat) : Server :=
  match parseFileOffer be body with
  | none => s
  | some offer =>
    match getClientInfo s.clients clientFd with
    | none => s
    | some sender =>
      if !sender.isOnline then s
      else
        let fileId := fieldString offer.fileId 37
        let fileName := fieldString offer.fileName 256
        let toId := fieldString offer.toId 32
        if fileId.isEmpty then
          (sendResponse s clientFd
            (packFileOfferResponse be header.sequence [] FILE_OFFER_DECLINE
              (ascii "Invalid file id"))).1
        else if toId.isEmpty then
          (sendResponse s clientFd
            (packFileOfferResponse be header.sequence fileId FILE_OFFER_DECLINE
              (ascii "Target required"))).1
        else
          let targetFd := if !toId.isEmpty then getFdByClientId s.clients toId else -1
          if !toId.isEmpty && targetFd < 0 then
            (sendResponse s clientFd
              (packFileOfferResponse be header.sequence fileId FILE_OFFER_BUSY
                (ascii "Target offline"))).1
          else
            let packet := packFileOffer be header.sequence fileId fileName offer.fileSize
              sender.clientId sender.nickname toId
            if targetFd ≥ 0 then
              let s := (sendResponse s targetFd packet).1
              { s with fileSessions := fsInsert s.fileSessions fileId ⟨clientFd, targetFd⟩ }
            else
              let r := offerToAll s clientFd packet (getOnlineClients s.clients) false
              if !r.2 then
                (sendResponse r.1 clientFd
                  (packFileOfferResponse be header.sequence fileId FILE_OFFER_BUSY
                    (ascii "No recipients online"))).1
              else
                { r.1 with fileSessions := fsInsert r.1.fileSessions fileId ⟨clientFd, targetFd⟩ }

/-- Function `Server::handleFileOfferResponse`, server.cpp lines 713-768. -/
def handleFileOfferResponse (be : Bool) (s : Server) (clientFd : Int) (header : MessageHeader)
    (body : List Nat) : Server :=
  match parseFileOfferResponse be body with
  | none => s
  | some rsp =>
    let fileId := fieldString rsp.fileId 37
    if fileId.isEmpty then s
    else
      match fsFind s.fileSessions fileId with
      | none => s
      | some found =>
        if found.receiverFd ≠ -1 && found.receiverFd ≠ clientFd then s
        else
          let bind := found.receiverFd = -1 && rsp.result = FILE_OFFER_ACCEPT
          let session : FileSession := if bind then { found with receiverFd := clientFd } else found
          let table :=
            if bind then
              s.fileSessions.map (fun e => if e.1 == fileId then (e.1, session) else e)
            else s.fileSessions
          let eraseSession :=
            rsp.result ≠ FILE_OFFER_ACCEPT
              && (session.receiverFd = -1 || session.receiverFd = clientFd)
          let table := if eraseSession then fsErase table fileId else table
          let s := { s with fileSessions := table }
          if session.senderFd < 0 then s
          else
            (sendResponse s session.senderFd
              (packFileOfferResponse be header.sequence fileId rsp.result
                (c_str rsp.message))).1

/-- Function `Server::handleFileData`, server.cpp lines 770-807. -/
def handleFileData (be : Bool) (s : Server) (clientFd : Int) (header : MessageHeader)
    (body : List Nat) : Server :=
  let fileId := extractFileId body
  if fileId.isEmpty then s
  else
    match fsFind s.fileSessions fileId with
    | none => s
    | some session =>
      if clientFd = session.senderFd then
        if session.receiverFd < 0 then s
        else (sendResponse s session.receiverFd
                (packRawMessage be (header.msgType % 2 ^ 16) header.sequence body)).1
      else if clientFd = session.receiverFd then
        if session.senderFd < 0 then s
        else (sendResponse s session.senderFd
                (packRawMessage be (header.msgType % 2 ^ 16) header.sequence body)).1
      else s

/-- Function `Server::handleMessage`, server.cpp lines 456-562.  `now` is the reading of the
steady clock and `epoch` the value of `currentEpochSeconds()` at the time of the call. -/
def handleMessage (be : Bool) (now epoch : Nat) (s : Server) (clientFd : Int)
    (header : MessageHeader) (body : List Nat) : Server :=
  if header.msgType = MSG_HEARTBEAT_REQ then
    if body.length ≠ 0 then s
    else
      let s := { s with clients := updateHeartbeat s.clients clientFd now }
      (sendResponse s clientFd (packHeartbeatResponse be header.sequence)).1
  else if header.msgType = MSG_LOGIN_REQ then handleLogin be s clientFd header body
  else if header.msgType = MSG_LOGOUT_REQ then queueDisconnect s clientFd
  else if header.msgType = MSG_CHAT_MSG then handleChatMessage be epoch s clientFd header body
  else if header.msgType = MSG_USER_LIST_REQ then handleUserListRequest be s clientFd header
  else if header.msgType = MSG_FILE_OFFER then handleFileOffer be s clientFd header body
  else if header.msgType = MSG_FILE_OFFER_RSP then
    handleFileOfferResponse be s clientFd header body
  else if header.msgType = MSG_FILE_DATA ∨ header.msgType = MSG_FILE_DATA_ACK then
    handleFileData be s clientFd header body
  else s

/-- Function `Server::cleanupFileSessionsForFd`, server.cpp lines 937-946. -/
def cleanupFileSessionsForFd (t : List (List Nat × FileSession)) (clientFd : Int) :
    List (List Nat × FileSession) :=
  t.filter (fun e => !(e.2.senderFd = clientFd || e.2.receiverFd = clientFd))

/-- Function `Server::handleClientDisconnect`, server.cpp lines 809-834. -/
def handleClientDisconnect (be : Bool) (s : Server) (clientFd : Int) : Server :=
  if clientFd < 0 then s
  else
    let s := { s with clientHandlers := FdMap.erase s.clientHandlers clientFd
                      clients := removeClient s.clients clientFd
                      recvBuffers := FdMap.erase s.recvBuffers clientFd
                      fileSessions := cleanupFileSessionsForFd s.fileSessions clientFd }
    if s.running then broadcastUserList be s else s

/-- Function `Server::registerClient`, server.cpp lines 423-444, when `setNonBlocking` and
`registerHandler` succeed (otherwise the state is left as it is). -/
def registerClient (s : Server) (clientFd : Int) (ip : List Nat) (port : Int) (now : Nat) :
    Server :=
  { s with
    clients := addClient s.clients clientFd ip port now
    clientHandlers :=
      match FdMap.find? s.clientHandlers clientFd with
      | none => FdMap.insert s.clientHandlers clientFd
          { closing := false, outbuf := [], outOffset := 0, events := EVENT_READ, wire := [] }
      | some _ =>
        FdMap.modify s.clientHandlers clientFd (fun c => { c with events := EVENT_READ }) }

/-- Function `Server::onClientData`, server.cpp lines 446-454: the bytes of one `recv` go
through the framer of the connection, with `handleMessage` as callback. -/
def onClientData (be : Bool) (now epoch : Nat) (s : Server) (clientFd : Int) (data : List Nat) :
    Server :=
  let buffer := (FdMap.find? s.recvBuffers clientFd).getD []
  let r := parseData be clientFd buffer data (handleMessage be now epoch) s
  { r.2 with recvBuffers := FdMap.insert r.2.recvBuffers clientFd r.1 }

/-- The server states reachable from the state right after start-up by accepts
(`registerClient` on the descriptor `accept(2)` returned, which is not negative, see
`ListenHandler::handleRead`), dispatched messages (`handleMessage`), disconnects
(`handleClientDisconnect`), disconnect requests of the heartbeat monitor
(`queueDisconnect`) and changes of the environment (the running flag, the results of the
coming calls of `send`), on a host of byte order `be`. -/
inductive Reachable (be : Bool) : Server → Prop where
  | start (running : Bool) (script : List SendResult) :
      Reachable be (Server.initial running script)
  | accept {s : Server} (fd : Int) (ip : List Nat) (port : Int) (now : Nat) :
      0 ≤ fd → Reachable be s → Reachable be (registerClient s fd ip port now)
  | message {s : Server} (now epoch : Nat) (fd : Int) (header : MessageHeader)
      (body : List Nat) :
      Reachable be s → Reachable be (handleMessage be now epoch s fd header body)
  | disconnect {s : Server} (fd : Int) :
      Reachable be s → Reachable be (handleClientDisconnect be s fd)
  | queued {s : Server} (fd : Int) : Reachable be s → Reachable be (queueDisconnect s fd)
  | environment {s : Server} (running : Bool) (script : List SendResult) :
      Reachable be s → Reachable be { s with running := running, sendScript := script }

/-- The reachable states when, as the operating system guarantees, `accept(2)` never returns
a descriptor that is still open: the roster entries are descriptors that are still open (an
entry is removed in `handleClientDisconnect`, right before `close`), so an accepted
descriptor is not in the roster. -/
inductive ReachableFresh (be : Bool) : Server → Prop where
  | start (running : Bool) (script : List SendResult) :
      ReachableFresh be (Server.initial running script)
  | accept {s : Server} (fd : Int) (ip : List Nat) (port : Int) (now : Nat) :
      0 ≤ fd → FdMap.find? s.clients fd = none →
      ReachableFresh be s → ReachableFresh be (registerClient s fd ip port now)
  | message {s : Server} (now epoch : Nat) (fd : Int) (header : MessageHeader)
      (body : List Nat) :
      ReachableFresh be s → ReachableFresh be (handleMessage be now epoch s fd header body)
  | disconnect {s : Server} (fd : Int) :
      ReachableFresh be s → ReachableFresh be (handleClientDisconnect be s fd)
  | queued {s : Server} (fd : Int) :
      ReachableFresh be s → ReachableFresh be (queueDisconnect s fd)
  | environment {s : Server} (running : Bool) (script : List SendResult) :
      ReachableFresh be s → ReachableFresh be { s with running := running, sendScript := script }

/-! ## Well-formedness of the roster and of the file-session table -/

/-- The roster is a well-formed map of accepted descriptors: keys strictly ascending (a
`std::map` holds each key once), each entry records its own key, no key is negative. -/
def RosterWF (clients : FdMap ClientInfo) : Prop :=
  clients.Pairwise (fun a b => a.1 < b.1) ∧ ∀ e ∈ clients, e.2.fd = e.1 ∧ 0 ≤ e.1

/-- No two entries of the roster with different keys are both online with the same clientId
or the same nickname. -/
def RosterUnique (clients : FdMap ClientInfo) : Prop :=
  ∀ e1 ∈ clients, ∀ e2 ∈ clients, e1.1 ≠ e2.1 → e1.2.isOnline = true → e2.2.isOnline = true →
    e1.2.clientId ≠ e2.2.clientId ∧ e1.2.nickname ≠ e2.2.nickname

/-- The connection `fd` is in the roster and online. -/
def isOnlineFd (clients : FdMap ClientInfo) (fd : Int) : Bool :=
  match FdMap.find? clients fd with
  | some info => info.isOnline
  | none => false

/-- Both endpoints of every file session are online connections of the roster. -/
def SessionsOnline (s : Server) : Prop :=
  ∀ e ∈ s.fileSessions,
    isOnlineFd s.clients e.2.senderFd = true ∧ isOnlineFd s.clients e.2.receiverFd = true

instance (clients : FdMap ClientInfo) : Decidable (RosterWF clients) := by
  unfold RosterWF; infer_instance

instance (clients : FdMap ClientInfo) : Decidable (RosterUnique clients) := by
  unfold RosterUnique; infer_instance

instance (s : Server) : Decidable (SessionsOnline s) := by
  unfold SessionsOnline; infer_instance

/-- The step from `s` to `t` leaves the roster, the file-session table, the receive buffers
and the running flag as they are. -/
def OnlySends (s t : Server) : Prop :=
  t.clients = s.clients ∧ t.fileSessions = s.fileSessions ∧ t.recvBuffers = s.recvBuffers
    ∧ t.running = s.running

/-- Every connection of the roster has a handler. -/
def HandlersCover (s : Server) : Prop :=
  ∀ e ∈ s.clients, (FdMap.find? s.clientHandlers e.1).isSome = true

/-! ## Statements of the specification and sample data -/

/-- The clientId a login body decodes to: `parseLoginRequest` followed by the
`std::string` construction of server.cpp lines 481-482. -/
def loginClientId (body : List Nat) : List Nat :=
  fieldString (terminate (body.take 32) 32) 32

/-- The nickname a login body decodes to: `parseLoginRequest` followed by the
`std::string` construction of server.cpp lines 483-484. -/
def loginNickname (body : List Nat) : List Nat :=
  fieldString (terminate ((body.drop 32).take 64) 64) 64

/-- The login decision in the words of the specification: INVALID_PARAM if the body is
shorter than 96 bytes or the id or the nickname is empty; otherwise ALREADY_ONLINE if some
online connection other than `c` has the id; otherwise NICKNAME_TAKEN if some online
connection other than `c` has the nickname; otherwise SERVER_FULL if the online count is at
least 1024; otherwise SUCCESS. -/
def loginDecisionSpec (clients : FdMap ClientInfo) (c : Int) (body : List Nat) : Nat :=
  if body.length < 96 ∨ loginClientId body = [] ∨ loginNickname body = [] then
    LOGIN_INVALID_PARAM
  else if ∃ e ∈ clients, e.1 ≠ c ∧ e.2.isOnline = true ∧ e.2.clientId = loginClientId body then
    LOGIN_ALREADY_ONLINE
  else if ∃ e ∈ clients, e.1 ≠ c ∧ e.2.isOnline = true ∧ e.2.nickname = loginNickname body then
    LOGIN_NICKNAME_TAKEN
  else if (clients.filter (fun e => e.2.isOnline)).length ≥ 1024 then
    LOGIN_SERVER_FULL
  else
    LOGIN_SUCCESS

/-- The human-readable message the server puts in the login response of each result. -/
def loginText (result : Nat) : List Nat :=
  if result = LOGIN_SUCCESS then ascii "OK"
  else if result = LOGIN_SERVER_FULL then ascii "Server full"
  else if result = LOGIN_ALREADY_ONLINE then ascii "Client already online"
  else if result = LOGIN_NICKNAME_TAKEN then ascii "Nickname taken"
  else ascii "Invalid parameters"

/-- A 96-byte login body with the given id and nickname. -/
def demoLoginBody (id nick : String) : List Nat :=
  strncpy (List.replicate 32 0) (ascii id) 31 ++ strncpy (List.replicate 64 0) (ascii nick) 63

/-- A decoded header of the given type and sequence for a body of `len` bytes. -/
def demoHeader (msgType len sequence : Nat) : MessageHeader :=
  { magic := MAGIC_NUMBER, version := PROTOCOL_VERSION, msgType := msgType, bodyLength := len,
    sequence := sequence }

/-- Sample state: the connections 5, 6 and 7 accepted, nobody logged in; every `send` would
block. -/
def demoAccepted : Server :=
  registerClient (registerClient (registerClient (Server.initial true []) 5 [] 1 0) 6 [] 1 0)
    7 [] 1 0

/-- Sample state: connection 5 has logged in as alice/Alice. -/
def demoAlice : Server :=
  handleMessage false 0 0 demoAccepted 5 (demoHeader MSG_LOGIN_REQ 96 11)
    (demoLoginBody "alice" "Alice")

/-- Sample state: alice/Alice on connection 5, bob/Bob on 6 and carol/Carol on 7 are online. -/
def demoAll : Server :=
  handleMessage false 0 0
    (handleMessage false 0 0 demoAlice 6 (demoHeader MSG_LOGIN_REQ 96 12)
      (demoLoginBody "bob" "Bob"))
    7 (demoHeader MSG_LOGIN_REQ 96 13) (demoLoginBody "carol" "Carol")

/-- A chat body with the given scope, claimed sender, target and text, and timestamp 0. -/
def demoChatBody (scope : ChatScope) (fromId fromNick toId text : String) : List Nat :=
  (packChatMessage false 0 scope (ascii fromId) (ascii fromNick) (ascii toId) (ascii text)
    0).drop 16

/-- The decoded form of a chat body (all zero when the body is too short). -/
def demoChatMsg (body : List Nat) : ChatMessage :=
  match parseChatMessage false body with
  | some msg => msg
  | none => { chatType := 0, fromId := [], fromNick := [], toId := [], timestamp := 0,
              message := [] }

/-- The roster entry of a connection (a blank entry when it is not in the roster). -/
def demoEntry (s : Server) (fd : Int) : ClientInfo :=
  match getClientInfo s.clients fd with
  | some info => info
  | none => { fd := -1, clientId := [], nickname := [], ip := [], port := 0,
              lastHeartbeat := 0, isOnline := false }

/-! ## Sample data of the file-transfer messages -/

/-- A 429-byte file-offer body for the file a.txt of 1024 bytes with the given fileId and
target; the claimed sender is x/X. -/
def demoOfferBody (fileId toId : String) : List Nat :=
  (packFileOffer false 0 (ascii fileId) (ascii "a.txt") 1024 (ascii "x") (ascii "X")
    (ascii toId)).drop 16

/-- The decoded form of a file-offer body (all zero when the body is too short). -/
def demoOffer (body : List Nat) : FileOffer :=
  match parseFileOffer false body with
  | some offer => offer
  | none => { fileId := [], fromId := [], fromNick := [], toId := [], fileSize := 0,
              fileName := [] }

/-- Sample state: alice on connection 5 has offered the file f1 to bob. -/
def demoOffered : Server :=
  handleMessage false 0 0 demoAll 5 (demoHeader MSG_FILE_OFFER 429 31)
    (demoOfferBody "f1" "bob")

/-- A 105-byte file-offer-response body with the given fileId, result and message. -/
def demoOfferRspBody (fileId : String) (result : Nat) (message : String) : List Nat :=
  (packFileOfferResponse false 0 (ascii fileId) result (ascii message)).drop 16

/-- The decoded form of a file-offer-response body (all zero when the body is too short). -/
def demoOfferRsp (body : List Nat) : FileOfferResponse :=
  match parseFileOfferResponse false body with
  | some rsp => rsp
  | none => { fileId := [], result := 0, message := [] }

/-- A FILE_DATA frame of sequence 51 for the given fileId: the 49-byte `FileDataHeader`
(offset 0, chunkSize 3 in network order) and three bytes of payload. -/
def demoDataFrame (fileId : String) : List Nat :=
  packRawMessage false MSG_FILE_DATA 51
    (strncpy (List.replicate 37 0) (ascii fileId) 36 ++ List.replicate 8 0 ++ [0, 0, 0, 3]
      ++ [1, 2, 3])

/-- A private chat body for the given target and text with the given timestamp; the claimed
sender is x/X. -/
def demoStampedBody (toId text : String) (timestamp : Nat) : List Nat :=
  (packChatMessage false 0 ChatScope.CHAT_PRIVATE (ascii "x") (ascii "X") (ascii toId)
    (ascii text) timestamp).drop 16

/-! ## The codec of the client (`src/client/network/protocol.cpp`)

The client declares the packed structures, the message types and the two protocol constants
again in `src/client/network/protocol.h`; its codec is embedded here from its own source,
under the namespace `Client`.  `size_t` is 64 bits wide. -/

/-- Packed `struct FileDataHeader`, 49 bytes. -/
structure FileDataHeader where
  fileId : List Nat
  offset : Nat
  chunkSize : Nat
deriving DecidableEq, Repr

/-- The constant `MAGIC_NUMBER` of the client's `ProtocolParser`. -/
def Client.MAGIC_NUMBER : Nat := 0x12345678

/-- The constant `PROTOCOL_VERSION` of the client's `ProtocolParser`. -/
def Client.PROTOCOL_VERSION : Nat := 0x0001

/-- Enumerator `MSG_LOGIN_REQ` of the client's `MessageType`. -/
def Client.MSG_LOGIN_REQ : Nat := 0x0101

/-- Enumerator `MSG_CHAT_MSG` of the client's `MessageType`. -/
def Client.MSG_CHAT_MSG : Nat := 0x0201

/-- Enumerator `MSG_FILE_OFFER` of the client's `MessageType`. -/
def Client.MSG_FILE_OFFER : Nat := 0x0301

/-- Enumerator `MSG_FILE_OFFER_RSP` of the client's `MessageType`. -/
def Client.MSG_FILE_OFFER_RSP : Nat := 0x0302

/-- Enumerator `MSG_FILE_DATA` of the client's `MessageType`. -/
def Client.MSG_FILE_DATA : Nat := 0x0303

/-- The value of `sizeof(LoginRequest)` in the client. -/
def Client.sizeofLoginRequest : Nat := 32 + 64

/-- The value of `sizeof(ChatMessage)` in the client. -/
def Client.sizeofChatMessage : Nat := 1 + 32 + 64 + 32 + 8 + 256

/-- The value of `sizeof(UserInfo)` in the client. -/
def Client.sizeofUserInfo : Nat := 32 + 64

/-- The value of `sizeof(FileOffer)` in the client. -/
def Client.sizeofFileOffer : Nat := 37 + 32 + 64 + 32 + 8 + 256

/-- The value of `sizeof(FileOfferResponse)` in the client. -/
def Client.sizeofFileOfferResponse : Nat := 37 + 4 + 64

/-- The value of `sizeof(FileDataHeader)` in the client. -/
def Client.sizeofFileDataHeader : Nat := 37 + 8 + 4

/-- Function `swap64` of the client's protocol.cpp, lines 4-7. -/
def Client.swap64 (be : Bool) (value : Nat) : Nat :=
  ((htonl be ((value &&& 0xFFFFFFFF) % 2 ^ 32)) <<< 32) % 2 ^ 64
    ||| htonl be ((value >>> 32) % 2 ^ 32)

/-- Function `hostToNetwork64` of the client's protocol.cpp, lines 9-15. -/
def Client.hostToNetwork64 (be : Bool) (value : Nat) : Nat :=
  if be then value else Client.swap64 be value

/-- Function `networkToHost64` of the client's protocol.cpp, lines 17-23. -/
def Client.networkToHost64 (be : Bool) (value : Nat) : Nat :=
  if be then value else Client.swap64 be value

/-- Function `ProtocolParser::validateHeader` of the client, protocol.cpp lines 26-37. -/
def Client.validateHeader (header : MessageHeader) : Bool :=
  if header.magic != Client.MAGIC_NUMBER then false
  else if header.version != Client.PROTOCOL_VERSION then false
  else if header.bodyLength > 1024 * 1024 then false
  else true

/-- The header every `pack*` function of the client builds: all fields converted to network
order. -/
def Client.mkHeader (be : Bool) (msgType bodyLength sequence : Nat) : MessageHeader :=
  { magic := htonl be Client.MAGIC_NUMBER
    version := htons be Client.PROTOCOL_VERSION
    msgType := htons be msgType
    bodyLength := htonl be (bodyLength % 2 ^ 32)
    sequence := htonl be sequence }

/-- Function `ProtocolParser::packLoginRequest` of the client, protocol.cpp lines 53-74. -/
def Client.packLoginRequest (be : Bool) (sequence : Nat) (clientId nickname : List Nat) :
    List Nat :=
  let header := Client.mkHeader be Client.MSG_LOGIN_REQ Client.sizeofLoginRequest sequence
  let req : LoginRequest :=
    { clientId := strncpy (List.replicate 32 0) clientId (32 - 1)
      nickname := strncpy (List.replicate 64 0) nickname (64 - 1) }
  header.bytes be ++ (req.clientId ++ req.nickname)

/-- Function `ProtocolParser::packChatMessage` of the client, protocol.cpp lines 90-119. -/
def Client.packChatMessage (be : Bool) (sequence : Nat) (scope : ChatScope)
    (fromId fromNick toId message : List Nat) (timestamp : Nat) : List Nat :=
  let header := Client.mkHeader be Client.MSG_CHAT_MSG Client.sizeofChatMessage sequence
  let msg : ChatMessage :=
    { chatType := scope.toNat
      fromId := strncpy (List.replicate 32 0) fromId (32 - 1)
      fromNick := strncpy (List.replicate 64 0) fromNick (64 - 1)
      toId := strncpy (List.replicate 32 0) toId (32 - 1)
      timestamp := Client.hostToNetwork64 be timestamp
      message := strncpy (List.replicate 256 0) message (256 - 1) }
  header.bytes be ++ msg.bytes be

/-- Function `ProtocolParser::packFileOffer` of the client, protocol.cpp lines 135-164. -/
def Client.packFileOffer (be : Bool) (sequence : Nat) (fileId fileName : List Nat)
    (fileSize : Nat) (fromId fromNick toId : List Nat) : List Nat :=
  let header := Client.mkHeader be Client.MSG_FILE_OFFER Client.sizeofFileOffer sequence
  let offer : FileOffer :=
    { fileId := strncpy (List.replicate 37 0) fileId (37 - 1)
      fromId := strncpy (List.replicate 32 0) fromId (32 - 1)
      fromNick := strncpy (List.replicate 64 0) fromNick (64 - 1)
      toId := strncpy (List.replicate 32 0) toId (32 - 1)
      fileSize := Client.hostToNetwork64 be fileSize
      fileName := strncpy (List.replicate 256 0) fileName (256 - 1) }
  header.bytes be ++ (offer.fileId ++ offer.fromId ++ offer.fromNick ++ offer.toId
    ++ memStore be 8 offer.fileSize ++ offer.fileName)

/-- Function `ProtocolParser::packFileOfferResponse` of the client, protocol.cpp lines
166-189. -/
def Client.packFileOfferResponse (be : Bool) (sequence : Nat) (fileId : List Nat)
    (result : Nat) (message : List Nat) : List Nat :=
  let header :=
    Client.mkHeader be Client.MSG_FILE_OFFER_RSP Client.sizeofFileOfferResponse sequence
  let rsp : FileOfferResponse :=
    { fileId := strncpy (List.replicate 37 0) fileId (37 - 1)
      result := htonl be result
      message := strncpy (List.replicate 64 0) message (64 - 1) }
  header.bytes be ++ (rsp.fileId ++ memStore be 4 rsp.result ++ rsp.message)

/-- Function `ProtocolParser::packFileData` of the client, protocol.cpp lines 191-218. -/
def Client.packFileData (be : Bool) (sequence : Nat) (fileId : List Nat) (offset : Nat)
    (data : List Nat) : List Nat :=
  let header := Client.mkHeader be Client.MSG_FILE_DATA
    (Client.sizeofFileDataHeader + data.length) sequence
  let fileHeader : FileDataHeader :=
    { fileId := strncpy (List.replicate 37 0) fileId (37 - 1)
      offset := Client.hostToNetwork64 be offset
      chunkSize := htonl be (data.length % 2 ^ 32) }
  header.bytes be ++ (fileHeader.fileId ++ memStore be 8 fileHeader.offset
    ++ memStore be 4 fileHeader.chunkSize) ++ data

/-- Function `ProtocolParser::parseChatMessage` of the client, protocol.cpp lines 232-245. -/
def Client.parseChatMessage (be : Bool) (data : List Nat) : Option ChatMessage :=
  if data.length < Client.sizeofChatMessage then none
  else
    let msg := ChatMessage.load be data
    some { chatType := msg.chatType
           fromId := terminate msg.fromId 32
           fromNick := terminate msg.fromNick 64
           toId := terminate msg.toId 32
           message := terminate msg.message 256
           timestamp := Client.networkToHost64 be msg.timestamp }

/-- The loop of `parseUserListResponse`, client protocol.cpp lines 266-273: `count` records
read from `offset` on, each with its two text fields NUL-terminated. -/
def Client.readUsers (data : List Nat) : Nat → Nat → List UserInfo
  | 0, _ => []
  | count + 1, offset =>
    { clientId := terminate ((data.drop offset).take 32) 32
      nickname := terminate ((data.drop (offset + 32)).take 64) 64 }
      :: Client.readUsers data count (offset + Client.sizeofUserInfo)

/-- Function `ProtocolParser::parseUserListResponse` of the client, protocol.cpp lines
247-276; `none` is `return false`. -/
def Client.parseUserListResponse (be : Bool) (data : List Nat) : Option (List UserInfo) :=
  if data.length < 4 then none
  else
    let count := ntohl be (memLoad be (data.take 4))
    let expected := (4 + count * Client.sizeofUserInfo) % 2 ^ 64
    if data.length < expected then none
    else some (Client.readUsers data count 4)

/-- Function `ProtocolParser::parseFileOffer` of the client, protocol.cpp lines 278-292. -/
def Client.parseFileOffer (be : Bool) (data : List Nat) : Option FileOffer :=
  if data.length < Client.sizeofFileOffer then none
  else
    some { fileId := terminate (data.take 37) 37
           fromId := terminate ((data.drop 37).take 32) 32
           fromNick := terminate ((data.drop 69).take 64) 64
           toId := terminate ((data.drop 133).take 32) 32
           fileName := terminate ((data.drop 173).take 256) 256
           fileSize := Client.networkToHost64 be (memLoad be ((data.drop 165).take 8)) }

/-- Function `ProtocolParser::parseFileOfferResponse` of the client, protocol.cpp lines
294-307. -/
def Client.parseFileOfferResponse (be : Bool) (data : List Nat) : Option FileOfferResponse :=
  if data.length < Client.sizeofFileOfferResponse then none
  else
    some { fileId := terminate (data.take 37) 37
           result := ntohl be (memLoad be ((data.drop 37).take 4))
           message := terminate ((data.drop 41).take 64) 64 }

/-- Function `ProtocolParser::parseFileData` of the client, protocol.cpp lines 309-334: the
decoded header and the `payloadLen` bytes at `payload`; `none` is `return false`. -/
def Client.parseFileData (be : Bool) (data : List Nat) :
    Option (FileDataHeader × List Nat) :=
  if data.length < Client.sizeofFileDataHeader then none
  else
    let header : FileDataHeader :=
      { fileId := terminate (data.take 37) 37
        offset := Client.networkToHost64 be (memLoad be ((data.drop 37).take 8))
        chunkSize := ntohl be (memLoad be ((data.drop 45).take 4)) }
    let total := (Client.sizeofFileDataHeader + header.chunkSize) % 2 ^ 64
    if data.length < total then none
    else some (header, (data.drop Client.sizeofFileDataHeader).take header.chunkSize)

/-! ## The frame layout in the words of the specification -/

/-- The 16 header bytes in the words of the specification: the big-endian encodings of the
magic 0x12345678 (4 bytes), the version 0x0001 (2), the message type (2), the body length (4)
and the sequence (4). -/
def networkHeader (msgType bodyLength sequence : Nat) : List Nat :=
  [0x12, 0x34, 0x56, 0x78, 0x00, 0x01, msgType / 2 ^ 8 % 256, msgType % 256,
   bodyLength / 2 ^ 24 % 256, bodyLength / 2 ^ 16 % 256, bodyLength / 2 ^ 8 % 256,
   bodyLength % 256,
   sequence / 2 ^ 24 % 256, sequence / 2 ^ 16 % 256, sequence / 2 ^ 8 % 256, sequence % 256]

/-- A text field in the words of the specification: the first `min(len, w - 1)` bytes of the
string, taken up to its first NUL, followed by zero bytes up to the width `w`. -/
def paddedField (w : Nat) (s : List Nat) : List Nat :=
  (c_str s).take (w - 1) ++ List.replicate (w - min (c_str s).length (w - 1)) 0

/-! ## Reading, flushing, timeouts and the disconnect queue -/

/-- What one call of `recv(2)` on a non-blocking socket does: deliver bytes, return 0 (the
peer closed), fail with `EINTR`, fail with `EAGAIN` or `EWOULDBLOCK`, or fail with another
error. -/
inductive RecvResult where
  | data (bytes : List Nat)
  | closed
  | eintr
  | eagain
  | error
deriving DecidableEq, Repr

/-- The call `requestClose(reason)` of a handler on itself, on the handler the server holds
for `fd`. -/
def requestCloseFd (s : Server) (fd : Int) : Server :=
  match FdMap.find? s.clientHandlers fd with
  | none => s
  | some c => requestClose s fd c

/-- The `while` loop of `ClientHandler::handleRead`, server.cpp lines 117-136, over the
results of the coming calls of `recv` (once they are used up `recv` would block). -/
def handleReadLoop (be : Bool) (now epoch : Nat) (fd : Int) : List RecvResult → Server → Server
  | [], s => s
  | .data bytes :: rest, s =>
    handleReadLoop be now epoch fd rest (onClientData be now epoch s fd bytes)
  | .closed :: _, s => requestCloseFd s fd
  | .eintr :: rest, s => handleReadLoop be now epoch fd rest s
  | .eagain :: _, s => s
  | .error :: _, s => requestCloseFd s fd

/-- Function `ClientHandler::handleRead`, server.cpp lines 111-137, for the handler of `fd`. -/
def handleRead (be : Bool) (now epoch : Nat) (s : Server) (fd : Int)
    (recvs : List RecvResult) : Server :=
  match FdMap.find? s.clientHandlers fd with
  | none => s
  | some c => if c.closing then s else handleReadLoop be now epoch fd recvs s

/-- Function `ClientManager::checkTimeout`, client_manager.cpp lines 36-52.  `now` is the
reading of the steady clock in ticks and `ticksPerSecond` the number of ticks of that clock in
a second (`duration_cast<seconds>` truncates). -/
def checkTimeout (ticksPerSecond : Nat) (clients : FdMap ClientInfo) (now : Nat)
    (timeoutSeconds : Int) : List Int :=
  (clients.filter (fun e =>
    Int.tdiv ((now : Int) - (e.2.lastHeartbeat : Int)) (ticksPerSecond : Int)
      > timeoutSeconds)).map Prod.fst

/-- The constant `kHeartbeatTimeoutSec` of server.cpp. -/
def kHeartbeatTimeoutSec : Int := 10

/-- The constant `kWriteTrimThreshold` of server.cpp. -/
def kWriteTrimThreshold : Nat := 4096

/-- The bookkeeping of `flushOut` after a successful `send`, server.cpp lines 228-237: an
emptied buffer is cleared, a consumed prefix of at least `kWriteTrimThreshold` bytes is
erased. -/
def Connection.compact (c : Connection) : Connection :=
  if c.pending = 0 then { c with outbuf := [], outOffset := 0 }
  else if c.outOffset ≥ kWriteTrimThreshold then
    { c with outbuf := c.outbuf.drop c.outOffset, outOffset := 0 }
  else c

/-- Function `ClientHandler::flushOut`, server.cpp lines 221-255, over the results of the
coming calls of `send`: the handler afterwards, the results left over and the way the loop
ended (`completed` and `wouldBlock` are `return true`). -/
def flushOut (c : Connection) : List SendResult → Connection × List SendResult × LoopExit
  | [] => (c, [], if c.pending > 0 then .wouldBlock else .completed)
  | r :: rest =>
    if c.pending > 0 then
      match r with
      | .bytes k =>
        let n := min (k + 1) c.pending
        let c1 := { c with wire := c.wire ++ (c.outbuf.drop c.outOffset).take n
                           outOffset := c.outOffset + n }
        flushOut c1.compact rest
      | .zero => (c, rest, .peerClosed)
      | .eintr => flushOut c rest
      | .eagain => (c, rest, .wouldBlock)
      | .error => (c, rest, .sendError)
    else (c, r :: rest, .completed)

/-- Function `ClientHandler::handleWrite`, server.cpp lines 139-149, for the handler of
`fd`. -/
def handleWrite (s : Server) (fd : Int) : Server :=
  match FdMap.find? s.clientHandlers fd with
  | none => s
  | some c =>
    if c.closing then s
    else
      let r := flushOut c s.sendScript
      let s := { s with sendScript := r.2.1
                        clientHandlers := FdMap.modify s.clientHandlers fd (fun _ => r.1) }
      match r.2.2 with
      | .peerClosed => requestClose s fd r.1
      | .sendError => requestClose s fd r.1
      | _ =>
        if r.1.pending = 0 then
          { s with clientHandlers :=
              FdMap.modify s.clientHandlers fd (fun h => { h with events := EVENT_READ }) }
        else s

/-- What the reactor and the router do to the outbound side of one connection: a frame is
passed to `sendResponse`, or the socket became writable and `handleWrite` runs. -/
inductive ConnOp where
  | queue (data : List Nat)
  | write
deriving DecidableEq, Repr

/-- One operation on the connection `fd`. -/
def connStep (fd : Int) (s : Server) : ConnOp → Server
  | .queue data => (sendResponse s fd data).1
  | .write => handleWrite s fd

/-- The frames queued by a sequence of operations, in order. -/
def queuedBytes : List ConnOp → List Nat
  | [] => []
  | .queue data :: rest => data ++ queuedBytes rest
  | .write :: rest => queuedBytes rest

/-- The part of the outbound buffer that has not been handed to the socket yet. -/
def Connection.unsent (c : Connection) : List Nat := c.outbuf.drop c.outOffset

/-- Library `std::unique` on a vector of descriptors: of each run of equal neighbours one
is kept. -/
def uniqueAdjacent : List Int → List Int
  | [] => []
  | a :: rest =>
    match rest with
    | [] => [a]
    | b :: _ => if a = b then uniqueAdjacent rest else a :: uniqueAdjacent rest

/-- Function `Server::processPendingDisconnects`, server.cpp lines 841-857: the queue is
swapped out, sorted (`std::sort`), stripped of duplicates (`std::unique`) and each
descriptor left is torn down. -/
def processPendingDisconnects (be : Bool) (s : Server) : Server :=
  if s.pendingDisconnects.isEmpty then s
  else
    let pending := s.pendingDisconnects
    let s := { s with pendingDisconnects := [] }
    let pending := uniqueAdjacent (pending.insertionSort (fun a b => a ≤ b))
    pending.foldl (fun st fd => handleClientDisconnect be st fd) s

/-- A LOGOUT_REQ frame of sequence 71: a header and no body. -/
def demoLogoutFrame : List Nat := packRawMessage false MSG_LOGOUT_REQ 71 []

/-- A group CHAT_MSG frame of sequence 72 with the text hi. -/
def demoChatFrame : List Nat :=
  packChatMessage false 72 ChatScope.CHAT_GROUP (ascii "x") (ascii "X") [] (ascii "hi") 0

/-- Sample state: in the state with alice, bob and carol online, the peer of connection 6 has
closed its socket (`handleRead` saw `recv` return 0) and connection 5 has sent a
LOGOUT_REQ; the pending-disconnect queue holds 6 and 5. -/
def demoTwoQueued : Server :=
  handleMessage false 0 0 (handleRead false 0 0 demoAll 6 [.closed]) 5
    (demoHeader MSG_LOGOUT_REQ 0 81) []

/-- One framed message as `handleMessage` receives it: the connection it came from, the
readings of the steady clock and of the wall clock at that moment, the decoded header and the
body. -/
structure Incoming where
  fd : Int
  now : Nat
  epoch : Nat
  header : MessageHeader
  body : List Nat

/-- The messages handled one after another. -/
def handleMessages (be : Bool) (s : Server) (msgs : List Incoming) : Server :=
  msgs.foldl (fun st m => handleMessage be m.now m.epoch st m.fd m.header m.body) s

/-- The last-heartbeat readings of the roster, by connection id. -/
def heartbeats (clients : FdMap ClientInfo) : List (Int × Nat) :=
  clients.map (fun e => (e.1, e.2.lastHeartbeat))

/-- Sample traffic without a heartbeat: at clock reading 9 000 000 000 connection 6 logs in
as bob/Bob, connection 5 sends a group chat and asks for the user list. -/
def demoBusy : List Incoming :=
  [ { fd := 6, now := 9000000000, epoch := 9, header := demoHeader MSG_LOGIN_REQ 96 91,
      body := demoLoginBody "bob" "Bob" },
    { fd := 5, now := 9000000000, epoch := 9, header := demoHeader MSG_CHAT_MSG 393 92,
      body := demoChatBody ChatScope.CHAT_GROUP "x" "X" "" "hi" },
    { fd := 5, now := 9000000000, epoch := 9, header := demoHeader MSG_USER_LIST_REQ 0 93,
      body := [] } ]

/-- Every `sendResponse` of the loop `sendToAll` returns true. -/
def sendToAllAccepted (s : Server) : List Int → List Nat → Bool
  | [], _ => true
  | fd :: rest, packet =>
    (sendResponse s fd packet).2 && sendToAllAccepted (sendResponse s fd packet).1 rest packet

/-- Every `sendResponse` of `broadcastUserList` returns true. -/
def broadcastAccepted (be : Bool) (s : Server) : Bool :=
  let clients := getOnlineClients s.clients
  if clients.isEmpty then true
  else
    sendToAllAccepted s (clients.map (fun info => info.fd))
      (packUserListResponse be 0 (userInfos clients))

/-- Every `sendResponse` of the user-list broadcast of `handleClientDisconnect` returns
true. -/
def teardownAccepted (be : Bool) (s : Server) (clientFd : Int) : Bool :=
  if clientFd < 0 then true
  else
    let s := { s with clientHandlers := FdMap.erase s.clientHandlers clientFd
                      clients := removeClient s.clients clientFd
                      recvBuffers := FdMap.erase s.recvBuffers clientFd
                      fileSessions := cleanupFileSessionsForFd s.fileSessions clientFd }
    if s.running then broadcastAccepted be s else true

/-- Every `sendResponse` of the teardowns of the descriptors `fds`, run one after another,
returns true. -/
def teardownsAccepted (be : Bool) : List Int → Server → Bool
  | [], _ => true
  | fd :: rest, s =>
    teardownAccepted be s fd && teardownsAccepted be rest (handleClientDisconnect be s fd)

/-- Sample state: alice, bob and carol are online, the outbound buffer of connection 7 has
been flushed, connection 5 has sent a LOGOUT_REQ, and the next `send` will fail with an
error. -/
def demoSendFails : Server :=
  { handleMessage false 0 0 (handleWrite { demoAll with sendScript := [.bytes 100000] } 7) 5
      (demoHeader MSG_LOGOUT_REQ 0 82) [] with
    sendScript := [.error] }

/-! # Theorems -/

/-! ## Byte order and text fields -/

theorem leBytes_length (n v : Nat) : (leBytes n v).length = n := by
  induction n generalizing v with
  | zero => rfl
  | succ n ih => simp [leBytes, ih]

theorem leValue_leBytes (n v : Nat) : leValue (leBytes n v) = v % 256 ^ n := by
  induction n generalizing v with
  | zero => simp [leBytes, leValue, Nat.mod_one]
  | succ n ih =>
    simp only [leBytes, leValue, ih, Nat.mod_mod]
    rw [Nat.pow_succ, Nat.mul_comm (256 ^ n) 256, Nat.mod_mul]

theorem memStore_length (be : Bool) (n v : Nat) : (memStore be n v).length = n := by
  cases be <;> simp [memStore, leBytes_length]

theorem memLoad_memStore (be : Bool) (n v : Nat) :
    memLoad be (memStore be n v) = v % 256 ^ n := by
  cases be <;> simp [memLoad, memStore, leValue_leBytes]

theorem bswap32_lt (v : Nat) : bswap32 v < 2 ^ 32 := by
  unfold bswap32; omega

theorem bswap32_bytes (a b c d : Nat) (ha : a < 256) (hb : b < 256) (hc : c < 256)
    (hd : d < 256) :
    bswap32 (a * 2 ^ 24 + b * 2 ^ 16 + c * 2 ^ 8 + d) = d * 2 ^ 24 + c * 2 ^ 16 + b * 2 ^ 8 + a := by
  unfold bswap32; omega

theorem bswap32_bswap32 (v : Nat) : bswap32 (bswap32 v) = v % 2 ^ 32 := by
  have h := bswap32_bytes (v % 256) (v / 2 ^ 8 % 256) (v / 2 ^ 16 % 256) (v / 2 ^ 24 % 256)
    (Nat.mod_lt _ (by norm_num)) (Nat.mod_lt _ (by norm_num)) (Nat.mod_lt _ (by norm_num))
    (Nat.mod_lt _ (by norm_num))
  have e : bswap32 v = v % 256 * 2 ^ 24 + v / 2 ^ 8 % 256 * 2 ^ 16 + v / 2 ^ 16 % 256 * 2 ^ 8
      + v / 2 ^ 24 % 256 := rfl
  rw [e, h]
  have h1 : v / 2 ^ 24 / 256 = v / 2 ^ 32 := by rw [Nat.div_div_eq_div_mul]; norm_num
  have h2 : v / 2 ^ 16 / 256 = v / 2 ^ 24 := by rw [Nat.div_div_eq_div_mul]; norm_num
  have h3 : v / 2 ^ 8 / 256 = v / 2 ^ 16 := by rw [Nat.div_div_eq_div_mul]; norm_num
  clear e h
  omega

theorem htonl_lt (be : Bool) (v : Nat) : htonl be v < 2 ^ 32 := by
  cases be
  · exact bswap32_lt v
  · simp only [htonl, if_true]; exact Nat.mod_lt _ (by norm_num)

theorem swap64_eq (be : Bool) (v : Nat) :
    swap64 be v = htonl be (v % 2 ^ 32) * 2 ^ 32 + htonl be (v / 2 ^ 32 % 2 ^ 32) := by
  unfold swap64
  have h1 : v &&& 0xFFFFFFFF = v % 2 ^ 32 := by
    have := Nat.and_pow_two_sub_one_eq_mod v 32
    simpa using this
  rw [h1, Nat.shiftRight_eq_div_pow, Nat.shiftLeft_eq, Nat.mod_mod]
  have hlt := htonl_lt be (v % 2 ^ 32)
  have hlt2 := htonl_lt be (v / 2 ^ 32 % 2 ^ 32)
  have h3 : htonl be (v % 2 ^ 32) * 2 ^ 32 % 2 ^ 64 = htonl be (v % 2 ^ 32) * 2 ^ 32 := by
    apply Nat.mod_eq_of_lt; omega
  rw [h3, Nat.mul_comm, ← Nat.mul_add_lt_is_or hlt2]

theorem swap64_swap64 (v : Nat) (hv : v < 2 ^ 64) : swap64 false (swap64 false v) = v := by
  rw [swap64_eq, swap64_eq]
  simp only [htonl, Bool.false_eq_true, if_false]
  have a := bswap32_lt (v % 2 ^ 32)
  have b := bswap32_lt (v / 2 ^ 32 % 2 ^ 32)
  have e1 : (bswap32 (v % 2 ^ 32) * 2 ^ 32 + bswap32 (v / 2 ^ 32 % 2 ^ 32)) % 2 ^ 32
      = bswap32 (v / 2 ^ 32 % 2 ^ 32) := by omega
  have e2 : (bswap32 (v % 2 ^ 32) * 2 ^ 32 + bswap32 (v / 2 ^ 32 % 2 ^ 32)) / 2 ^ 32 % 2 ^ 32
      = bswap32 (v % 2 ^ 32) := by omega
  rw [e1, e2, bswap32_bswap32, bswap32_bswap32]
  omega

theorem swap64_lt (be : Bool) (v : Nat) : swap64 be v < 2 ^ 64 := by
  rw [swap64_eq]
  have a := htonl_lt be (v % 2 ^ 32)
  have b := htonl_lt be (v / 2 ^ 32 % 2 ^ 32)
  omega

theorem timestamp_roundtrip (be : Bool) (ts : Nat) (h : ts < 2 ^ 64) :
    networkToHost64 be (memLoad be (memStore be 8 (hostToNetwork64 be ts))) = ts := by
  rw [memLoad_memStore]
  cases be
  · simp only [networkToHost64, hostToNetwork64, Bool.false_eq_true, if_false]
    rw [Nat.mod_eq_of_lt (by have := swap64_lt false ts; omega), swap64_swap64 ts h]
  · simp only [networkToHost64, hostToNetwork64, if_true]
    exact Nat.mod_eq_of_lt (by omega)

theorem c_str_of_nulFree (s : List Nat) (h : ∀ c ∈ s, 0 < c ∧ c < 256) : c_str s = s := by
  unfold c_str
  rw [List.takeWhile_eq_self_iff]
  intro c hc
  have := h c hc
  have h2 : c % 256 = c := Nat.mod_eq_of_lt this.2
  simp [h2]; omega

theorem strncpy_zeroed (w : Nat) (s : List Nat) (h : ∀ c ∈ s, 0 < c ∧ c < 256)
    (hl : s.length + 1 ≤ w) :
    strncpy (List.replicate w 0) s (w - 1) = s ++ List.replicate (w - s.length) 0 := by
  unfold strncpy
  rw [c_str_of_nulFree s h, List.take_of_length_le (by omega)]
  have e : w - s.length = (w - 1 - s.length) + (w - (w - 1)) := by omega
  rw [List.drop_replicate, List.append_assoc, e, List.replicate_add]

theorem terminate_padded (w : Nat) (s : List Nat) (hl : s.length + 1 ≤ w) :
    terminate (s ++ List.replicate (w - s.length) 0) w = s ++ List.replicate (w - s.length) 0 := by
  unfold terminate
  have e : w - s.length = (w - 1 - s.length) + 1 := by omega
  rw [e, List.replicate_succ', ← List.append_assoc]
  congr 1
  apply List.take_left'
  simp; omega

theorem boundedStrnlen_padded (s r : List Nat) (w : Nat) (h : ∀ c ∈ s, 0 < c ∧ c < 256)
    (hl : s.length < w) : boundedStrnlen (s ++ 0 :: r) w = s.length := by
  induction s generalizing w with
  | nil =>
    cases w with
    | zero => omega
    | succ n => simp [boundedStrnlen]
  | cons c cs ih =>
    cases w with
    | zero => simp at hl
    | succ n =>
      have hc := h c (List.mem_cons_self _ _)
      have h2 : c % 256 = c := Nat.mod_eq_of_lt hc.2
      have h3 : c ≠ 0 := by omega
      show boundedStrnlen (c :: (cs ++ 0 :: r)) (n + 1) = _
      rw [boundedStrnlen, h2, if_neg h3,
        ih n (fun x hx => h x (List.mem_cons_of_mem _ hx)) (by simpa using hl)]
      rfl

theorem fieldString_padded (w : Nat) (s : List Nat) (h : ∀ c ∈ s, 0 < c ∧ c < 256)
    (hl : s.length + 1 ≤ w) :
    fieldString (s ++ List.replicate (w - s.length) 0) w = s := by
  unfold fieldString
  have e : w - s.length = (w - 1 - s.length) + 1 := by omega
  rw [e, List.replicate_succ, boundedStrnlen_padded s _ w h (by omega)]
  simp

/-- A text field written by `strncpy` into a zeroed array and read back by a decoder. -/
theorem field_roundtrip (w : Nat) (s : List Nat) (h : ∀ c ∈ s, 0 < c ∧ c < 256)
    (hl : s.length + 1 ≤ w) :
    fieldString (terminate (strncpy (List.replicate w 0) s (w - 1)) w) w = s
      ∧ (strncpy (List.replicate w 0) s (w - 1)).length = w := by
  rw [strncpy_zeroed w s h hl, terminate_padded w s hl, fieldString_padded w s h hl]
  simp; omega

theorem strncpy_length (dst src : List Nat) (n : Nat) (h : n ≤ dst.length) :
    (strncpy dst src n).length = dst.length := by
  unfold strncpy
  simp only [List.length_append, List.length_replicate, List.length_drop, List.length_take]
  omega

theorem headerBytes_length (be : Bool) (h : MessageHeader) : (h.bytes be).length = 16 := by
  simp [MessageHeader.bytes, memStore_length]

theorem mid_of_append (a b c : List Nat) (n k : Nat) (ha : a.length = n) (hb : b.length = k) :
    ((a ++ (b ++ c)).drop n).take k = b := by
  rw [List.drop_left' ha, List.take_left' hb]

theorem chatMessage_load_bytes (be : Bool) (m : ChatMessage) (rest : List Nat)
    (h1 : m.fromId.length = 32) (h2 : m.fromNick.length = 64) (h3 : m.toId.length = 32)
    (h4 : m.message.length = 256) :
    ChatMessage.load be (m.bytes be ++ rest) =
      { m with chatType := m.chatType % 256, timestamp := m.timestamp % 2 ^ 64 } := by
  have hts := memStore_length be 8 m.timestamp
  have f0 : (m.bytes be ++ rest).headD 0 = m.chatType % 256 := by
    simp [ChatMessage.bytes]
  have f1 : ((m.bytes be ++ rest).drop 1).take 32 = m.fromId := by
    have := mid_of_append [m.chatType % 256] m.fromId
      (m.fromNick ++ (m.toId ++ (memStore be 8 m.timestamp ++ (m.message ++ rest)))) 1 32 rfl h1
    simpa [ChatMessage.bytes, List.append_assoc] using this
  have f2 : ((m.bytes be ++ rest).drop 33).take 64 = m.fromNick := by
    have := mid_of_append ([m.chatType % 256] ++ m.fromId) m.fromNick
      (m.toId ++ (memStore be 8 m.timestamp ++ (m.message ++ rest))) 33 64 (by simp [h1]) h2
    simpa [ChatMessage.bytes, List.append_assoc] using this
  have f3 : ((m.bytes be ++ rest).drop 97).take 32 = m.toId := by
    have := mid_of_append ([m.chatType % 256] ++ (m.fromId ++ m.fromNick)) m.toId
      (memStore be 8 m.timestamp ++ (m.message ++ rest)) 97 32 (by simp [h1, h2]) h3
    simpa [ChatMessage.bytes, List.append_assoc] using this
  have f4 : ((m.bytes be ++ rest).drop 129).take 8 = memStore be 8 m.timestamp := by
    have := mid_of_append ([m.chatType % 256] ++ (m.fromId ++ (m.fromNick ++ m.toId)))
      (memStore be 8 m.timestamp) (m.message ++ rest) 129 8 (by simp [h1, h2, h3]) hts
    simpa [ChatMessage.bytes, List.append_assoc] using this
  have f5 : ((m.bytes be ++ rest).drop 137).take 256 = m.message := by
    have := mid_of_append
      ([m.chatType % 256] ++ (m.fromId ++ (m.fromNick ++ (m.toId ++ memStore be 8 m.timestamp))))
      m.message rest 137 256 (by simp [h1, h2, h3, hts]) h4
    simpa [ChatMessage.bytes, List.append_assoc] using this
  unfold ChatMessage.load
  rw [f0, f1, f2, f3, f4, f5, memLoad_memStore, Nat.mod_mod]
  norm_num

/-! ## Codec claims -/

/-- C1 (as amended): chat round trip. For every host byte order, sequence number, scope,
64-bit timestamp and NUL-free byte strings within the field capacities, the frame built by
`packChatMessage` has 16 + 393 bytes and `parseChatMessage` applied to the 393 body bytes that
follow the 16-byte header succeeds and returns the same chatType, the same timestamp and,
reading each text field up to its first NUL, the same four strings. -/
theorem chat_roundtrip (be : Bool) (sequence : Nat) (scope : ChatScope) (timestamp : Nat)
    (fromId fromNick toId message : List Nat)
    (hts : timestamp < 2 ^ 64)
    (hFromId : ∀ c ∈ fromId, 0 < c ∧ c < 256) (lFromId : fromId.length ≤ 31)
    (hFromNick : ∀ c ∈ fromNick, 0 < c ∧ c < 256) (lFromNick : fromNick.length ≤ 63)
    (hToId : ∀ c ∈ toId, 0 < c ∧ c < 256) (lToId : toId.length ≤ 31)
    (hMessage : ∀ c ∈ message, 0 < c ∧ c < 256) (lMessage : message.length ≤ 255) :
    (packChatMessage be sequence scope fromId fromNick toId message timestamp).length = 16 + 393
    ∧ ∃ m, parseChatMessage be
          ((packChatMessage be sequence scope fromId fromNick toId message timestamp).drop 16)
        = some m
      ∧ m.chatType = scope.toNat ∧ m.timestamp = timestamp
      ∧ fieldString m.fromId 32 = fromId ∧ fieldString m.fromNick 64 = fromNick
      ∧ fieldString m.toId 32 = toId ∧ fieldString m.message 256 = message := by
  have r1 := field_roundtrip 32 fromId hFromId (by omega)
  have r2 := field_roundtrip 64 fromNick hFromNick (by omega)
  have r3 := field_roundtrip 32 toId hToId (by omega)
  have r4 := field_roundtrip 256 message hMessage (by omega)
  have hh := headerBytes_length be (mkHeader be MSG_CHAT_MSG sizeofChatMessage sequence)
  have hsc : scope.toNat % 256 = scope.toNat := by cases scope <;> rfl
  unfold packChatMessage
  simp only []
  refine ⟨?_, ?_⟩
  · simp only [List.length_append, hh, ChatMessage.bytes, memStore_length, r1.2, r2.2, r3.2,
      r4.2, List.length_singleton, List.length_cons, List.length_nil]
  · rw [List.drop_left' hh]
    unfold parseChatMessage
    have hlen : ¬ (ChatMessage.bytes be
        { chatType := scope.toNat
          fromId := strncpy (List.replicate 32 0) fromId (32 - 1)
          fromNick := strncpy (List.replicate 64 0) fromNick (64 - 1)
          toId := strncpy (List.replicate 32 0) toId (32 - 1)
          timestamp := hostToNetwork64 be timestamp
          message := strncpy (List.replicate 256 0) message (256 - 1) }).length
        < sizeofChatMessage := by
      simp only [ChatMessage.bytes, List.length_append, memStore_length, r1.2, r2.2, r3.2, r4.2,
        List.length_singleton, sizeofChatMessage]
      omega
    rw [if_neg hlen]
    have hl := chatMessage_load_bytes be
        { chatType := scope.toNat
          fromId := strncpy (List.replicate 32 0) fromId (32 - 1)
          fromNick := strncpy (List.replicate 64 0) fromNick (64 - 1)
          toId := strncpy (List.replicate 32 0) toId (32 - 1)
          timestamp := hostToNetwork64 be timestamp
          message := strncpy (List.replicate 256 0) message (256 - 1) } [] r1.2 r2.2 r3.2 r4.2
    rw [List.append_nil] at hl
    refine ⟨_, rfl, ?_, ?_, ?_, ?_, ?_, ?_⟩
    · simp only [hl, hsc]
    · have := timestamp_roundtrip be timestamp hts
      rw [memLoad_memStore] at this
      simp only [hl]
      exact this
    · simp only [hl]; exact r1.1
    · simp only [hl]; exact r2.1
    · simp only [hl]; exact r3.1
    · simp only [hl]; exact r4.1

theorem chat_roundtrip_witness :
    (packChatMessage false 7 ChatScope.CHAT_PRIVATE [97] [65] [98] [104, 105] 1700000000).length
        = 16 + 393
    ∧ ∃ m, parseChatMessage false
          ((packChatMessage false 7 ChatScope.CHAT_PRIVATE [97] [65] [98] [104, 105]
            1700000000).drop 16) = some m
      ∧ m.chatType = ChatScope.CHAT_PRIVATE.toNat ∧ m.timestamp = 1700000000
      ∧ fieldString m.fromId 32 = [97] ∧ fieldString m.fromNick 64 = [65]
      ∧ fieldString m.toId 32 = [98] ∧ fieldString m.message 256 = [104, 105] :=
  chat_roundtrip false 7 ChatScope.CHAT_PRIVATE 1700000000 [97] [65] [98] [104, 105]
    (by norm_num) (by decide) (by decide) (by decide) (by decide) (by decide) (by decide)
    (by decide) (by decide)

set_option maxRecDepth 100000 in
/-- C1 (as stated) fails: the body that follows the 16-byte header has 393 bytes, not 389,
and `parseChatMessage` rejects its first 389 bytes. -/
theorem chat_body_389_rejected :
    (packChatMessage false 7 ChatScope.CHAT_GROUP [97] [65] [] [104, 105] 1).length = 16 + 393
    ∧ parseChatMessage false
        (((packChatMessage false 7 ChatScope.CHAT_GROUP [97] [65] [] [104, 105] 1).drop 16).take
          389) = none := by
  constructor
  · simp [packChatMessage, MessageHeader.bytes, ChatMessage.bytes, memStore_length, strncpy_length]
  · unfold parseChatMessage
    rw [if_pos]
    simp only [List.length_take, sizeofChatMessage]
    omega

/-- C2: `validateHeader` accepts a decoded header exactly when magic = 0x12345678,
version = 0x0001 and bodyLength <= 1048576; bodyLength = 1048576 is accepted, 1048577 is
rejected, and msgType and sequence never influence the result. -/
theorem validateHeader_iff :
    (∀ h : MessageHeader, validateHeader h = true ↔
        (h.magic = 0x12345678 ∧ h.version = 0x0001 ∧ h.bodyLength ≤ 1048576))
    ∧ (∀ t s : Nat, validateHeader ⟨0x12345678, 0x0001, t, 1048576, s⟩ = true)
    ∧ (∀ t s : Nat, validateHeader ⟨0x12345678, 0x0001, t, 1048577, s⟩ = false)
    ∧ (∀ (h : MessageHeader) (t s : Nat),
        validateHeader { h with msgType := t, sequence := s } = validateHeader h) := by
  refine ⟨?_, ?_, ?_, ?_⟩
  · intro h
    unfold validateHeader MAGIC_NUMBER PROTOCOL_VERSION
    by_cases h1 : h.magic = 0x12345678 <;> by_cases h2 : h.version = 0x0001 <;>
      by_cases h3 : h.bodyLength ≤ 1048576 <;> simp [h1, h2, h3]
  · intro t s; simp [validateHeader, MAGIC_NUMBER, PROTOCOL_VERSION]
  · intro t s; simp [validateHeader, MAGIC_NUMBER, PROTOCOL_VERSION]
  · intro h t s; simp [validateHeader]

/-! ## Framer claims -/

theorem take_drop_append (b q : List Nat) (i n : Nat) (h : i + n ≤ b.length) :
    ((b ++ q).drop i).take n = (b.drop i).take n := by
  rw [List.drop_append_of_le_length (by omega), List.take_append_of_le_length]
  rw [List.length_drop]; omega

theorem decodeHeader_append (be : Bool) (b q : List Nat) (h : 16 ≤ b.length) :
    decodeHeader be (b ++ q) = decodeHeader be b := by
  have e0 := take_drop_append b q 0 4 (by omega)
  have e1 := take_drop_append b q 4 2 (by omega)
  have e2 := take_drop_append b q 6 2 (by omega)
  have e3 := take_drop_append b q 8 4 (by omega)
  have e4 := take_drop_append b q 12 4 (by omega)
  simp only [List.drop_zero] at e0
  simp only [decodeHeader, MessageHeader.load, e0, e1, e2, e3, e4]

/-- The fuel of the framer loop is never used up: any two fuels above the accumulator length
give the same result. -/
theorem parseLoop_fuel {σ : Type} (be : Bool) (fd : Int)
    (cb : σ → Int → MessageHeader → List Nat → σ) (f g : Nat) (buffer : List Nat) (st : σ)
    (hf : buffer.length < f) (hg : buffer.length < g) :
    parseLoop be fd cb f buffer st = parseLoop be fd cb g buffer st := by
  induction f generalizing g buffer st with
  | zero => omega
  | succ f ih =>
    cases g with
    | zero => omega
    | succ g =>
      simp only [parseLoop]
      split
      · rename_i h16
        split
        · rfl
        · split
          · rfl
          · rename_i hlen
            simp only [sizeofMessageHeader] at h16 hlen
            apply ih
            · rw [List.length_drop]; simp only [sizeofMessageHeader]; omega
            · rw [List.length_drop]; simp only [sizeofMessageHeader]; omega
      · rfl

theorem resyncFree_fuel (be : Bool) (f g : Nat) (buffer : List Nat)
    (hf : buffer.length < f) (hg : buffer.length < g) :
    resyncFree be f buffer = resyncFree be g buffer := by
  induction f generalizing g buffer with
  | zero => omega
  | succ f ih =>
    cases g with
    | zero => omega
    | succ g =>
      simp only [resyncFree]
      split
      · rename_i h16
        split
        · rfl
        · split
          · rfl
          · rename_i hlen
            simp only [sizeofMessageHeader] at h16 hlen
            apply ih
            · rw [List.length_drop]; simp only [sizeofMessageHeader]; omega
            · rw [List.length_drop]; simp only [sizeofMessageHeader]; omega
      · rfl

/-- A resync-free run on `b` is the first part of the run on `b ++ q`: the loop on `b ++ q`
performs the same callbacks and then goes on from what the loop on `b` left, followed by `q`. -/
theorem parseLoop_append {σ : Type} (be : Bool) (fd : Int)
    (cb : σ → Int → MessageHeader → List Nat → σ) (f : Nat) (b q : List Nat) (st : σ)
    (hf : b.length < f) (hclean : resyncFree be f b = true) :
    ∀ g, (b ++ q).length < g →
      parseLoop be fd cb g (b ++ q) st
        = parseLoop be fd cb g ((parseLoop be fd cb f b st).1 ++ q) (parseLoop be fd cb f b st).2
      ∧ (parseLoop be fd cb f b st).1.length ≤ b.length := by
  induction f generalizing b st with
  | zero => omega
  | succ f ih =>
    intro g hg
    simp only [resyncFree] at hclean
    simp only [parseLoop]
    by_cases h16 : b.length ≥ sizeofMessageHeader
    · simp only [h16, if_true] at hclean ⊢
      by_cases hv : validateHeader (decodeHeader be b) = true
      · simp only [hv, Bool.not_true, Bool.false_eq_true, if_false] at hclean ⊢
        by_cases hlen : b.length < sizeofMessageHeader + (decodeHeader be b).bodyLength
        · simp only [hlen, if_true]
          exact ⟨trivial, le_refl _⟩
        · simp only [hlen, if_false] at hclean ⊢
          simp only [sizeofMessageHeader] at h16 hlen
          have hd : (b.drop (sizeofMessageHeader + (decodeHeader be b).bodyLength)).length < f := by
            rw [List.length_drop]; simp only [sizeofMessageHeader]; omega
          cases g with
          | zero => omega
          | succ g =>
            have hbq : (b ++ q).length ≥ sizeofMessageHeader := by
              simp only [List.length_append, sizeofMessageHeader]; omega
            have hlen2 : ¬ (b ++ q).length
                < sizeofMessageHeader + (decodeHeader be b).bodyLength := by
              simp only [List.length_append, sizeofMessageHeader]; omega
            have hbody : ((b ++ q).drop sizeofMessageHeader).take (decodeHeader be b).bodyLength
                = (b.drop sizeofMessageHeader).take (decodeHeader be b).bodyLength :=
              take_drop_append b q _ _ (by simp only [sizeofMessageHeader]; omega)
            have hdrop : (b ++ q).drop (sizeofMessageHeader + (decodeHeader be b).bodyLength)
                = b.drop (sizeofMessageHeader + (decodeHeader be b).bodyLength) ++ q :=
              List.drop_append_of_le_length (by simp only [sizeofMessageHeader]; omega)
            have step := ih (b.drop (sizeofMessageHeader + (decodeHeader be b).bodyLength))
              (cb st fd (decodeHeader be b)
                ((b.drop sizeofMessageHeader).take (decodeHeader be b).bodyLength)) hd hclean
            have hgq : (b.drop (sizeofMessageHeader + (decodeHeader be b).bodyLength)
                ++ q).length < g := by
              simp only [List.length_append, List.length_drop, sizeofMessageHeader] at hg ⊢
              omega
            have s1 := step g hgq
            have hle := s1.2
            rw [List.length_drop] at hle
            refine ⟨?_, by omega⟩
            conv_lhs =>
              rw [parseLoop]
              simp only [hbq, if_true, decodeHeader_append be b q h16, hv, Bool.not_true,
                Bool.false_eq_true, if_false, hlen2, hbody, hdrop]
            rw [s1.1]
            apply parseLoop_fuel
            · simp only [List.length_append] at hgq ⊢; omega
            · simp only [List.length_append] at hgq ⊢; omega
      · simp [hv] at hclean
    · simp only [h16, if_false]
      exact ⟨trivial, le_refl _⟩

/-- A run that never resynchronises does not resynchronise on a prefix of the stream either. -/
theorem resyncFree_of_append (be : Bool) (f : Nat) (b q : List Nat) (hf : (b ++ q).length < f)
    (h : resyncFree be f (b ++ q) = true) : resyncFree be f b = true := by
  induction f generalizing b with
  | zero => rfl
  | succ f ih =>
    simp only [resyncFree, sizeofMessageHeader, Nat.reduceAdd] at h ⊢
    by_cases h16 : b.length ≥ 16
    · have hbq : (b ++ q).length ≥ 16 := by
        simp only [List.length_append]; omega
      simp only [hbq, if_true, decodeHeader_append be b q h16] at h
      simp only [h16, if_true]
      by_cases hv : validateHeader (decodeHeader be b) = true
      · simp only [hv, Bool.not_true, Bool.false_eq_true, if_false] at h ⊢
        by_cases hlen : b.length < 16 + (decodeHeader be b).bodyLength
        · simp only [hlen, if_true]
        · simp only [hlen, if_false]
          have hlen2 : ¬ (b ++ q).length < 16 + (decodeHeader be b).bodyLength := by
            simp only [List.length_append]; omega
          simp only [hlen2, if_false] at h
          rw [List.drop_append_of_le_length (by omega)] at h
          apply ih _ _ h
          simp only [List.length_append, List.length_drop] at hf ⊢
          omega
      · simp [hv] at h
    · simp only [h16, if_false]

theorem feedChunks_eq_single {σ : Type} (be : Bool) (fd : Int)
    (cb : σ → Int → MessageHeader → List Nat → σ) (chunks : List (List Nat)) (b : List Nat)
    (st : σ)
    (hclean : resyncFree be ((b ++ chunks.flatten).length + 1) (b ++ chunks.flatten) = true) :
    feedChunks be fd cb chunks (parseLoop be fd cb (b.length + 1) b st).1
        (parseLoop be fd cb (b.length + 1) b st).2
      = parseLoop be fd cb ((b ++ chunks.flatten).length + 1) (b ++ chunks.flatten) st := by
  induction chunks generalizing b with
  | nil => simp [feedChunks]
  | cons c cs ih =>
    simp only [List.flatten_cons, ← List.append_assoc] at hclean ⊢
    have hb : resyncFree be (b.length + 1) b = true := by
      have h1 := resyncFree_of_append be ((b ++ c ++ cs.flatten).length + 1) b (c ++ cs.flatten)
        (by simp only [List.length_append]; omega)
        (by simpa only [List.append_assoc] using hclean)
      rw [resyncFree_fuel be _ (b.length + 1) b (by simp only [List.length_append]; omega)
        (by omega)] at h1
      exact h1
    have happ := parseLoop_append be fd cb (b.length + 1) b c st (by omega) hb
      ((b ++ c).length + 1) (by omega)
    rw [← ih (b ++ c) hclean]
    simp only [feedChunks, parseData]
    rw [happ.1]
    have hfu := parseLoop_fuel be fd cb ((b ++ c).length + 1)
      (((parseLoop be fd cb (b.length + 1) b st).1 ++ c).length + 1)
      ((parseLoop be fd cb (b.length + 1) b st).1 ++ c)
      (parseLoop be fd cb (b.length + 1) b st).2
      (by have := happ.2; simp only [List.length_append]; omega) (by omega)
    rw [hfu]

/-- C3 (as amended): chunking invariance of the framer on streams that never trigger a
resynchronisation. For every host byte order, connection, callback and byte stream split into
consecutive chunks, if the loop of `parseData` run on the whole stream meets no header that
fails `validateHeader`, then feeding the chunks one after another from an empty accumulator
invokes the callback with the same sequence of (header, body) pairs as feeding the whole
stream in a single call, and leaves the same accumulator. -/
theorem chunking_invariance (be : Bool) (fd : Int) (chunks : List (List Nat))
    (hclean : resyncFree be (chunks.flatten.length + 1) chunks.flatten = true) :
    feedChunks be fd recordMessage chunks [] []
      = parseData be fd [] chunks.flatten recordMessage [] := by
  have h := feedChunks_eq_single be fd recordMessage chunks [] [] (by simpa using hclean)
  simpa [parseData, parseLoop] using h

theorem chunking_invariance_witness :
    resyncFree false
        ([[0x12, 0x34, 0x56], [0x78, 0, 1, 2, 1, 0, 0, 0, 3, 0, 0, 0, 9, 7, 8],
          [9, 0x12, 0x34]].flatten.length + 1)
        [[0x12, 0x34, 0x56], [0x78, 0, 1, 2, 1, 0, 0, 0, 3, 0, 0, 0, 9, 7, 8],
          [9, 0x12, 0x34]].flatten = true
    ∧ feedChunks false 5 recordMessage
        [[0x12, 0x34, 0x56], [0x78, 0, 1, 2, 1, 0, 0, 0, 3, 0, 0, 0, 9, 7, 8], [9, 0x12, 0x34]]
        [] []
      = parseData false 5 []
        [[0x12, 0x34, 0x56], [0x78, 0, 1, 2, 1, 0, 0, 0, 3, 0, 0, 0, 9, 7, 8],
          [9, 0x12, 0x34]].flatten recordMessage [] :=
  ⟨by decide, chunking_invariance false 5 _ (by decide)⟩

/-- C3 (as stated) fails: a stream made of 16 zero bytes followed by a valid heartbeat frame
yields no message when fed in a single call (the whole accumulator is discarded at the bad
header) and one message when the frame arrives as a second chunk. -/
theorem chunking_resync_differs :
    (feedChunks false 5 recordMessage
        [List.replicate 16 0, [0x12, 0x34, 0x56, 0x78, 0, 1, 0, 1, 0, 0, 0, 0, 0, 0, 0, 9]]
        [] []).2
      = [(⟨0x12345678, 1, 1, 0, 9⟩, [])]
    ∧ (parseData false 5 []
        (List.replicate 16 0 ++ [0x12, 0x34, 0x56, 0x78, 0, 1, 0, 1, 0, 0, 0, 0, 0, 0, 0, 9])
        recordMessage []).2 = [] := by
  constructor <;> decide

/-! ## Maps keyed by descriptor -/

theorem FdMap.find?_modify {α : Type} (m : FdMap α) (k k' : Int) (f : α → α) :
    FdMap.find? (FdMap.modify m k f) k'
      = if k' = k then (FdMap.find? m k).map f else FdMap.find? m k' := by
  induction m with
  | nil => simp [FdMap.modify, FdMap.find?]
  | cons e rest ih =>
    obtain ⟨k0, v0⟩ := e
    simp only [FdMap.modify]
    by_cases h0 : k0 = k
    · subst h0
      by_cases h1 : k' = k0
      · subst h1; simp [FdMap.find?]
      · have h2 : ¬ k0 = k' := fun h => h1 h.symm
        simp [FdMap.find?, h1, h2]
    · simp only [h0, if_false, FdMap.find?]
      by_cases h1 : k0 = k'
      · subst h1
        have : ¬ k0 = k := h0
        simp [this]
      · simp only [h1, if_false, ih]

theorem FdMap.keys_modify {α : Type} (m : FdMap α) (k : Int) (f : α → α) :
    (FdMap.modify m k f).map Prod.fst = m.map Prod.fst := by
  induction m with
  | nil => rfl
  | cons e rest ih =>
    obtain ⟨k0, v0⟩ := e
    simp only [FdMap.modify]
    by_cases h0 : k0 = k
    · simp [h0]
    · simp [h0, ih]

theorem FdMap.mem_modify {α : Type} (m : FdMap α) (k : Int) (f : α → α) (e : Int × α)
    (h : e ∈ FdMap.modify m k f) : e ∈ m ∨ (e.1 = k ∧ ∃ v, (k, v) ∈ m ∧ e.2 = f v) := by
  induction m with
  | nil => simp [FdMap.modify] at h
  | cons e0 rest ih =>
    obtain ⟨k0, v0⟩ := e0
    simp only [FdMap.modify] at h
    by_cases h0 : k0 = k
    · simp only [h0, if_true, List.mem_cons] at h
      rcases h with h | h
      · right; subst h; exact ⟨rfl, v0, by simp [h0], rfl⟩
      · left; exact List.mem_cons_of_mem _ h
    · simp only [h0, if_false, List.mem_cons] at h
      rcases h with h | h
      · left; subst h; exact List.mem_cons_self _ _
      · rcases ih h with h' | ⟨h1, v, hv, h2⟩
        · left; exact List.mem_cons_of_mem _ h'
        · right; exact ⟨h1, v, List.mem_cons_of_mem _ hv, h2⟩

theorem FdMap.find?_isSome_iff {α : Type} (m : FdMap α) (k : Int) :
    (FdMap.find? m k).isSome = true ↔ k ∈ m.map Prod.fst := by
  induction m with
  | nil => simp [FdMap.find?]
  | cons e rest ih =>
    obtain ⟨k0, v0⟩ := e
    simp only [FdMap.find?]
    by_cases h0 : k0 = k
    · simp [h0]
    · have : ¬ k = k0 := fun h => h0 h.symm
      simp [h0, ih, this]

theorem FdMap.find?_mem {α : Type} (m : FdMap α) (k : Int) (v : α)
    (h : FdMap.find? m k = some v) : (k, v) ∈ m := by
  induction m with
  | nil => simp [FdMap.find?] at h
  | cons e rest ih =>
    obtain ⟨k0, v0⟩ := e
    simp only [FdMap.find?] at h
    by_cases h0 : k0 = k
    · simp only [h0, if_true, Option.some.injEq] at h
      subst h; subst h0; exact List.mem_cons_self _ _
    · simp only [h0, if_false] at h
      exact List.mem_cons_of_mem _ (ih h)

theorem FdMap.mem_find? {α : Type} (m : FdMap α) (k : Int) (v : α)
    (hs : m.Pairwise (fun a b => a.1 < b.1)) (h : (k, v) ∈ m) : FdMap.find? m k = some v := by
  induction m with
  | nil => simp at h
  | cons e rest ih =>
    obtain ⟨k0, v0⟩ := e
    rw [List.pairwise_cons] at hs
    simp only [FdMap.find?]
    rcases List.mem_cons.1 h with h | h
    · injection h with h1 h2
      simp [h1, h2]
    · have hlt := hs.1 _ h
      have : ¬ k0 = k := by intro hk; simp only at hlt; omega
      simp only [this, if_false]
      exact ih hs.2 h

theorem FdMap.find?_insert {α : Type} (m : FdMap α) (k k' : Int) (v : α) :
    FdMap.find? (FdMap.insert m k v) k' = if k' = k then some v else FdMap.find? m k' := by
  induction m with
  | nil =>
    by_cases h : k' = k
    · simp [FdMap.insert, FdMap.find?, h]
    · have : ¬ k = k' := fun e => h e.symm
      simp [FdMap.insert, FdMap.find?, h, this]
  | cons e rest ih =>
    obtain ⟨k0, v0⟩ := e
    simp only [FdMap.insert]
    by_cases h1 : k < k0
    · simp only [h1, if_true, FdMap.find?]
      by_cases h : k' = k
      · simp [h]
      · have : ¬ k = k' := fun e => h e.symm
        simp [h, this]
    · simp only [h1, if_false]
      by_cases h2 : k = k0
      · subst h2
        simp only [if_true, FdMap.find?]
        by_cases h : k' = k
        · simp [h]
        · have : ¬ k = k' := fun e => h e.symm
          simp [h, this]
      · simp only [h2, if_false, FdMap.find?, ih]
        by_cases h : k' = k
        · subst h
          have : ¬ k0 = k' := fun e => h2 e.symm
          simp [this]
        · simp [h]

theorem FdMap.mem_insert {α : Type} (m : FdMap α) (k : Int) (v : α) (e : Int × α)
    (h : e ∈ FdMap.insert m k v) : e = (k, v) ∨ e ∈ m := by
  induction m with
  | nil => simp [FdMap.insert] at h; exact Or.inl h
  | cons e0 rest ih =>
    obtain ⟨k0, v0⟩ := e0
    simp only [FdMap.insert] at h
    by_cases h1 : k < k0
    · simp only [h1, if_true, List.mem_cons] at h
      rcases h with h | h | h
      · exact Or.inl h
      · right; rw [h]; exact List.mem_cons_self _ _
      · right; exact List.mem_cons_of_mem _ h
    · simp only [h1, if_false] at h
      by_cases h2 : k = k0
      · simp only [h2, if_true, List.mem_cons] at h
        rcases h with h | h
        · left; rw [h, h2]
        · right; exact List.mem_cons_of_mem _ h
      · simp only [h2, if_false, List.mem_cons] at h
        rcases h with h | h
        · right; rw [h]; exact List.mem_cons_self _ _
        · rcases ih h with h' | h'
          · exact Or.inl h'
          · right; exact List.mem_cons_of_mem _ h'

theorem FdMap.sorted_insert {α : Type} (m : FdMap α) (k : Int) (v : α)
    (hs : m.Pairwise (fun a b => a.1 < b.1)) :
    (FdMap.insert m k v).Pairwise (fun a b => a.1 < b.1) := by
  induction m with
  | nil => simp [FdMap.insert]
  | cons e0 rest ih =>
    obtain ⟨k0, v0⟩ := e0
    rw [List.pairwise_cons] at hs
    simp only [FdMap.insert]
    by_cases h1 : k < k0
    · simp only [h1, if_true]
      rw [List.pairwise_cons]
      refine ⟨?_, List.pairwise_cons.2 hs⟩
      intro e he
      rcases List.mem_cons.1 he with he | he
      · rw [he]; exact h1
      · have := hs.1 e he; simp only at this ⊢; omega
    · simp only [h1, if_false]
      by_cases h2 : k = k0
      · simp only [h2, if_true]
        rw [List.pairwise_cons]
        exact ⟨hs.1, hs.2⟩
      · simp only [h2, if_false]
        rw [List.pairwise_cons]
        refine ⟨?_, ih hs.2⟩
        intro e he
        rcases FdMap.mem_insert rest k v e he with he | he
        · rw [he]; simp only; omega
        · exact hs.1 e he

theorem FdMap.find?_erase {α : Type} (m : FdMap α) (k k' : Int) :
    FdMap.find? (FdMap.erase m k) k' = if k' = k then none else FdMap.find? m k' := by
  induction m with
  | nil => simp [FdMap.erase, FdMap.find?]
  | cons e rest ih =>
    obtain ⟨k0, v0⟩ := e
    unfold FdMap.erase at ih ⊢
    by_cases h0 : k0 = k
    · subst h0
      simp only [List.filter, bne_self_eq_false, ih, FdMap.find?]
      by_cases h : k' = k0
      · simp [h]
      · have : ¬ k0 = k' := fun e => h e.symm
        simp [h, this]
    · have hb : ((k0, v0).1 != k) = true := by simpa using h0
      simp only [List.filter, hb, FdMap.find?, ih]
      by_cases h : k0 = k'
      · subst h; simp [h0]
      · simp [h]

/-! ## Sending -/

theorem queueDisconnect_fields (s : Server) (fd : Int) :
    (queueDisconnect s fd).clients = s.clients
    ∧ (queueDisconnect s fd).fileSessions = s.fileSessions
    ∧ (queueDisconnect s fd).recvBuffers = s.recvBuffers
    ∧ (queueDisconnect s fd).running = s.running
    ∧ (queueDisconnect s fd).sent = s.sent
    ∧ (queueDisconnect s fd).clientHandlers = s.clientHandlers := by
  simp [queueDisconnect]

theorem requestClose_fields (s : Server) (fd : Int) (c : Connection) :
    (requestClose s fd c).clients = s.clients
    ∧ (requestClose s fd c).fileSessions = s.fileSessions
    ∧ (requestClose s fd c).recvBuffers = s.recvBuffers
    ∧ (requestClose s fd c).running = s.running
    ∧ (requestClose s fd c).sent = s.sent
    ∧ (requestClose s fd c).clientHandlers.map Prod.fst = s.clientHandlers.map Prod.fst := by
  unfold requestClose
  split
  · simp
  · simp [queueDisconnect, FdMap.keys_modify]

/-- What `queueSend` leaves alone: the roster, the file sessions, the receive buffers, the
running flag and the set of handlers; and the call is recorded. -/
theorem queueSend_fields (s : Server) (fd : Int) (c : Connection) (data : List Nat) :
    (queueSend s fd c data).1.clients = s.clients
    ∧ (queueSend s fd c data).1.fileSessions = s.fileSessions
    ∧ (queueSend s fd c data).1.recvBuffers = s.recvBuffers
    ∧ (queueSend s fd c data).1.running = s.running
    ∧ (queueSend s fd c data).1.sent = s.sent ++ [(fd, data)]
    ∧ (queueSend s fd c data).1.clientHandlers.map Prod.fst = s.clientHandlers.map Prod.fst := by
  unfold queueSend
  simp only []
  split
  · simp
  · split
    · simp
    · split
      · split
        · have h := requestClose_fields
            { s with sent := s.sent ++ [(fd, data)]
                     sendScript := (immediateSend data.length s.sendScript 0).2.1
                     clientHandlers := FdMap.modify s.clientHandlers fd (fun _ =>
                        { c with wire := c.wire
                            ++ data.take (immediateSend data.length s.sendScript 0).1 }) }
            fd { c with wire := c.wire ++ data.take (immediateSend data.length s.sendScript 0).1 }
          simpa [FdMap.keys_modify] using h
        · have h := requestClose_fields
            { s with sent := s.sent ++ [(fd, data)]
                     sendScript := (immediateSend data.length s.sendScript 0).2.1
                     clientHandlers := FdMap.modify s.clientHandlers fd (fun _ =>
                        { c with wire := c.wire
                            ++ data.take (immediateSend data.length s.sendScript 0).1 }) }
            fd { c with wire := c.wire ++ data.take (immediateSend data.length s.sendScript 0).1 }
          simpa [FdMap.keys_modify] using h
        · split <;> simp [FdMap.keys_modify]
      · simp [FdMap.keys_modify]

/-- What `sendResponse` leaves alone, and what it records: one call of `queueSend` when the
descriptor has a handler, nothing otherwise. -/
theorem sendResponse_fields (s : Server) (fd : Int) (data : List Nat) :
    (sendResponse s fd data).1.clients = s.clients
    ∧ (sendResponse s fd data).1.fileSessions = s.fileSessions
    ∧ (sendResponse s fd data).1.recvBuffers = s.recvBuffers
    ∧ (sendResponse s fd data).1.running = s.running
    ∧ (sendResponse s fd data).1.sent
        = s.sent ++ (if (FdMap.find? s.clientHandlers fd).isSome then [(fd, data)] else [])
    ∧ (sendResponse s fd data).1.clientHandlers.map Prod.fst
        = s.clientHandlers.map Prod.fst := by
  unfold sendResponse
  split
  · rename_i h; simp [h]
  · rename_i c h
    have q := queueSend_fields s fd c data
    simp only [h, Option.isSome_some, if_true]
    split
    · simpa [queueDisconnect] using q
    · simpa using q

theorem sendResponse_none (s : Server) (fd : Int) (data : List Nat)
    (h : FdMap.find? s.clientHandlers fd = none) : (sendResponse s fd data).1 = s := by
  simp [sendResponse, h]

theorem hasHandler_congr (m m' : FdMap Connection) (h : m'.map Prod.fst = m.map Prod.fst)
    (fd : Int) : (FdMap.find? m' fd).isSome = (FdMap.find? m fd).isSome := by
  have a := FdMap.find?_isSome_iff m fd
  have b := FdMap.find?_isSome_iff m' fd
  rw [h] at b
  cases h1 : (FdMap.find? m' fd).isSome <;> cases h2 : (FdMap.find? m fd).isSome <;> simp_all

/-- The loop `sendToAll` sends the packet to each target that has a handler, in order, and
leaves the roster, the file sessions, the receive buffers and the running flag alone. -/
theorem sendToAll_fields (s : Server) (targets : List Int) (packet : List Nat) :
    (sendToAll s targets packet).clients = s.clients
    ∧ (sendToAll s targets packet).fileSessions = s.fileSessions
    ∧ (sendToAll s targets packet).recvBuffers = s.recvBuffers
    ∧ (sendToAll s targets packet).running = s.running
    ∧ (sendToAll s targets packet).sent
        = s.sent ++ (targets.filter (fun fd => (FdMap.find? s.clientHandlers fd).isSome)).map
            (fun fd => (fd, packet))
    ∧ (sendToAll s targets packet).clientHandlers.map Prod.fst
        = s.clientHandlers.map Prod.fst := by
  induction targets generalizing s with
  | nil => simp [sendToAll]
  | cons t rest ih =>
    have h1 := sendResponse_fields s t packet
    have h2 := ih (sendResponse s t packet).1
    have hk : ∀ fd, (FdMap.find? (sendResponse s t packet).1.clientHandlers fd).isSome
        = (FdMap.find? s.clientHandlers fd).isSome :=
      fun fd => hasHandler_congr _ _ h1.2.2.2.2.2 fd
    simp only [sendToAll, List.foldl_cons] at h2 ⊢
    refine ⟨h2.1.trans h1.1, h2.2.1.trans h1.2.1, h2.2.2.1.trans h1.2.2.1,
      h2.2.2.2.1.trans h1.2.2.2.1, ?_, h2.2.2.2.2.2.trans h1.2.2.2.2.2⟩
    rw [h2.2.2.2.2.1, h1.2.2.2.2.1]
    simp only [hk, List.filter_cons]
    by_cases ht : (FdMap.find? s.clientHandlers t).isSome = true
    · simp [ht]
    · simp [ht]

/-! ## Handlers that only send -/

theorem OnlySends.refl (s : Server) : OnlySends s s := ⟨rfl, rfl, rfl, rfl⟩

theorem OnlySends.trans {s t u : Server} (h1 : OnlySends s t) (h2 : OnlySends t u) :
    OnlySends s u :=
  ⟨h2.1.trans h1.1, h2.2.1.trans h1.2.1, h2.2.2.1.trans h1.2.2.1, h2.2.2.2.trans h1.2.2.2⟩

theorem sendResponse_onlySends (s : Server) (fd : Int) (data : List Nat) :
    OnlySends s (sendResponse s fd data).1 :=
  have h := sendResponse_fields s fd data
  ⟨h.1, h.2.1, h.2.2.1, h.2.2.2.1⟩

theorem sendToAll_onlySends (s : Server) (targets : List Int) (packet : List Nat) :
    OnlySends s (sendToAll s targets packet) :=
  have h := sendToAll_fields s targets packet
  ⟨h.1, h.2.1, h.2.2.1, h.2.2.2.1⟩

theorem queueDisconnect_onlySends (s : Server) (fd : Int) :
    OnlySends s (queueDisconnect s fd) := ⟨rfl, rfl, rfl, rfl⟩

theorem sendUserList_onlySends (be : Bool) (s : Server) (fd : Int) (sequence : Nat) :
    OnlySends s (sendUserList be s fd sequence) := by
  unfold sendUserList
  exact sendResponse_onlySends _ _ _

theorem broadcastUserList_onlySends (be : Bool) (s : Server) :
    OnlySends s (broadcastUserList be s) := by
  unfold broadcastUserList
  simp only []
  split
  · exact OnlySends.refl s
  · exact sendToAll_onlySends _ _ _

theorem forwardChat_onlySends (be : Bool) (epoch : Nat) (s : Server) (fd : Int)
    (header : MessageHeader) (msg : ChatMessage) :
    OnlySends s (forwardChat be epoch s fd header msg) := by
  unfold forwardChat
  simp only []
  repeat' first
    | exact OnlySends.refl s
    | exact sendToAll_onlySends _ _ _
    | exact sendResponse_onlySends _ _ _
    | split

theorem handleChatMessage_onlySends (be : Bool) (epoch : Nat) (s : Server) (fd : Int)
    (header : MessageHeader) (body : List Nat) :
    OnlySends s (handleChatMessage be epoch s fd header body) := by
  unfold handleChatMessage
  split
  · exact OnlySends.refl s
  · exact forwardChat_onlySends _ _ _ _ _ _

theorem handleUserListRequest_onlySends (be : Bool) (s : Server) (fd : Int)
    (header : MessageHeader) : OnlySends s (handleUserListRequest be s fd header) := by
  unfold handleUserListRequest
  split
  · exact OnlySends.refl s
  · split
    · exact OnlySends.refl s
    · exact sendUserList_onlySends _ _ _ _

theorem handleFileData_onlySends (be : Bool) (s : Server) (fd : Int)
    (header : MessageHeader) (body : List Nat) :
    OnlySends s (handleFileData be s fd header body) := by
  unfold handleFileData
  simp only []
  split
  · exact OnlySends.refl s
  · split
    · exact OnlySends.refl s
    · split
      · split
        · exact OnlySends.refl s
        · exact sendResponse_onlySends _ _ _
      · split
        · split
          · exact OnlySends.refl s
          · exact sendResponse_onlySends _ _ _
        · exact OnlySends.refl s

theorem offerToAll_onlySends (s : Server) (fd : Int) (packet : List Nat)
    (targets : List ClientInfo) (sent : Bool) :
    OnlySends s (offerToAll s fd packet targets sent).1 := by
  induction targets generalizing s sent with
  | nil => exact OnlySends.refl s
  | cons t rest ih =>
    simp only [offerToAll]
    split
    · exact ih s sent
    · exact (sendResponse_onlySends s t.fd packet).trans (ih _ _)

/-! ## Roster invariants -/

theorem pairwise_modify {α : Type} (m : FdMap α) (k : Int) (f : α → α)
    (h : m.Pairwise (fun a b => a.1 < b.1)) :
    (FdMap.modify m k f).Pairwise (fun a b => a.1 < b.1) := by
  have e : ∀ l : FdMap α, l.Pairwise (fun a b => a.1 < b.1)
      ↔ (l.map Prod.fst).Pairwise (fun a b => a < b) := by
    intro l; rw [List.pairwise_map]
  rw [e] at h ⊢
  rw [FdMap.keys_modify]; exact h

theorem rosterWF_modify (m : FdMap ClientInfo) (k : Int) (f : ClientInfo → ClientInfo)
    (hf : ∀ i, (f i).fd = i.fd) (h : RosterWF m) : RosterWF (FdMap.modify m k f) := by
  refine ⟨pairwise_modify m k f h.1, ?_⟩
  intro e he
  rcases FdMap.mem_modify m k f e he with h1 | ⟨h1, v, hv, h2⟩
  · exact h.2 e h1
  · have := h.2 (k, v) hv
    simp only at this
    rw [h2, hf, h1]; exact this

theorem rosterWF_addClient (m : FdMap ClientInfo) (fd : Int) (ip : List Nat) (port : Int)
    (now : Nat) (hfd : 0 ≤ fd) (h : RosterWF m) : RosterWF (addClient m fd ip port now) := by
  unfold addClient
  refine ⟨FdMap.sorted_insert m fd _ h.1, ?_⟩
  intro e he
  rcases FdMap.mem_insert m fd _ e he with h1 | h1
  · rw [h1]; exact ⟨rfl, hfd⟩
  · exact h.2 e h1

theorem rosterWF_removeClient (m : FdMap ClientInfo) (fd : Int) (h : RosterWF m) :
    RosterWF (removeClient m fd) := by
  unfold removeClient FdMap.erase
  refine ⟨h.1.sublist (List.filter_sublist _), ?_⟩
  intro e he
  exact h.2 e (List.mem_filter.1 he).1

theorem rosterUnique_addClient (m : FdMap ClientInfo) (fd : Int) (ip : List Nat) (port : Int)
    (now : Nat) (h : RosterUnique m) : RosterUnique (addClient m fd ip port now) := by
  unfold addClient
  intro e1 h1 e2 h2 hne o1 o2
  rcases FdMap.mem_insert m fd _ e1 h1 with a | a
  · rw [a] at o1; simp at o1
  · rcases FdMap.mem_insert m fd _ e2 h2 with b | b
    · rw [b] at o2; simp at o2
    · exact h e1 a e2 b hne o1 o2

theorem rosterUnique_removeClient (m : FdMap ClientInfo) (fd : Int) (h : RosterUnique m) :
    RosterUnique (removeClient m fd) := by
  unfold removeClient FdMap.erase
  intro e1 h1 e2 h2 hne o1 o2
  exact h e1 (List.mem_filter.1 h1).1 e2 (List.mem_filter.1 h2).1 hne o1 o2

theorem rosterUnique_updateHeartbeat (m : FdMap ClientInfo) (fd : Int) (now : Nat)
    (h : RosterUnique m) : RosterUnique (updateHeartbeat m fd now) := by
  unfold updateHeartbeat
  intro e1 h1 e2 h2 hne o1 o2
  -- every entry of the new map has the key, the identity and the online flag of an old entry
  have key : ∀ e ∈ FdMap.modify m fd (fun info => { info with lastHeartbeat := now }),
      ∃ e' ∈ m, e'.1 = e.1 ∧ e'.2.isOnline = e.2.isOnline ∧ e'.2.clientId = e.2.clientId
        ∧ e'.2.nickname = e.2.nickname := by
    intro e he
    rcases FdMap.mem_modify m fd _ e he with a | ⟨a, v, hv, b⟩
    · exact ⟨e, a, rfl, rfl, rfl, rfl⟩
    · exact ⟨(fd, v), hv, a.symm, by rw [b], by rw [b], by rw [b]⟩
  obtain ⟨a1, ha1, k1, on1, id1, n1⟩ := key e1 h1
  obtain ⟨a2, ha2, k2, on2, id2, n2⟩ := key e2 h2
  have := h a1 ha1 a2 ha2 (by rw [k1, k2]; exact hne) (by rw [on1]; exact o1)
    (by rw [on2]; exact o2)
  rw [id1, id2, n1, n2] at this
  exact this

theorem isClientIdOnline_false (m : FdMap ClientInfo) (clientId : List Nat) (fd : Int)
    (hne : clientId.isEmpty = false) (h : isClientIdOnline m clientId fd = false) :
    ∀ e ∈ m, e.1 ≠ fd → e.2.isOnline = true → e.2.clientId ≠ clientId := by
  intro e he hk ho hid
  unfold isClientIdOnline at h
  simp only [hne, Bool.false_eq_true, if_false] at h
  have : m.any (fun e => e.1 != fd && e.2.isOnline && e.2.clientId == clientId) = true := by
    rw [List.any_eq_true]
    exact ⟨e, he, by simp [hk, ho, hid]⟩
  rw [this] at h; exact absurd h (by simp)

theorem isNicknameOnline_false (m : FdMap ClientInfo) (nickname : List Nat) (fd : Int)
    (hne : nickname.isEmpty = false) (h : isNicknameOnline m nickname fd = false) :
    ∀ e ∈ m, e.1 ≠ fd → e.2.isOnline = true → e.2.nickname ≠ nickname := by
  intro e he hk ho hid
  unfold isNicknameOnline at h
  simp only [hne, Bool.false_eq_true, if_false] at h
  have : m.any (fun e => e.1 != fd && e.2.isOnline && e.2.nickname == nickname) = true := by
    rw [List.any_eq_true]
    exact ⟨e, he, by simp [hk, ho, hid]⟩
  rw [this] at h; exact absurd h (by simp)

/-- Binding an identity that no other online connection uses keeps the roster unique. -/
theorem rosterUnique_setClientIdentity (m : FdMap ClientInfo) (fd : Int)
    (clientId nickname : List Nat) (h : RosterUnique m)
    (hid : ∀ e ∈ m, e.1 ≠ fd → e.2.isOnline = true → e.2.clientId ≠ clientId)
    (hnick : ∀ e ∈ m, e.1 ≠ fd → e.2.isOnline = true → e.2.nickname ≠ nickname) :
    RosterUnique (setClientIdentity m fd clientId nickname).1 := by
  unfold setClientIdentity
  split
  · exact h
  · intro e1 h1 e2 h2 hne o1 o2
    simp only at h1 h2
    rcases FdMap.mem_modify m fd _ e1 h1 with a | ⟨a, v, hv, b⟩
    · rcases FdMap.mem_modify m fd _ e2 h2 with c | ⟨c, w, hw, d⟩
      · exact h e1 a e2 c hne o1 o2
      · rw [d]
        exact ⟨hid e1 a (by rw [← c]; exact hne) o1, hnick e1 a (by rw [← c]; exact hne) o1⟩
    · rcases FdMap.mem_modify m fd _ e2 h2 with c | ⟨c, w, hw, d⟩
      · rw [b]
        exact ⟨fun e => hid e2 c (by rw [← a]; exact fun x => hne x.symm) o2 e.symm,
          fun e => hnick e2 c (by rw [← a]; exact fun x => hne x.symm) o2 e.symm⟩
      · exact absurd (a.trans c.symm) hne

/-! ## The roster under the router -/

theorem handleLogin_roster (be : Bool) (s : Server) (c : Int) (header : MessageHeader)
    (body : List Nat) :
    (handleLogin be s c header body).fileSessions = s.fileSessions
    ∧ (handleLogin be s c header body).running = s.running
    ∧ ((handleLogin be s c header body).clients = s.clients
      ∨ ∃ id nick, id.isEmpty = false ∧ nick.isEmpty = false
          ∧ isClientIdOnline s.clients id c = false ∧ isNicknameOnline s.clients nick c = false
          ∧ getOnlineCount s.clients < kMaxOnlineClients
          ∧ (handleLogin be s c header body).clients
              = (setClientIdentity s.clients c id nick).1) := by
  unfold handleLogin
  split
  · have h := sendResponse_onlySends s c
      (packLoginResponse be header.sequence LOGIN_INVALID_PARAM (ascii "Invalid parameters"))
    exact ⟨h.2.1, h.2.2.2, Or.inl h.1⟩
  · rename_i req hreq
    simp only []
    split
    · have h := sendResponse_onlySends s c
        (packLoginResponse be header.sequence LOGIN_INVALID_PARAM (ascii "Invalid parameters"))
      exact ⟨h.2.1, h.2.2.2, Or.inl h.1⟩
    · rename_i hempty
      split
      · have h := sendResponse_onlySends s c
          (packLoginResponse be header.sequence LOGIN_ALREADY_ONLINE
            (ascii "Client already online"))
        exact ⟨h.2.1, h.2.2.2, Or.inl h.1⟩
      · rename_i hid
        split
        · have h := sendResponse_onlySends s c
            (packLoginResponse be header.sequence LOGIN_NICKNAME_TAKEN (ascii "Nickname taken"))
          exact ⟨h.2.1, h.2.2.2, Or.inl h.1⟩
        · rename_i hnick
          split
          · have h := sendResponse_onlySends s c
              (packLoginResponse be header.sequence LOGIN_SERVER_FULL (ascii "Server full"))
            exact ⟨h.2.1, h.2.2.2, Or.inl h.1⟩
          · rename_i hfull
            split
            · have h := sendResponse_onlySends s c
                (packLoginResponse be header.sequence LOGIN_INVALID_PARAM
                  (ascii "Invalid parameters"))
              exact ⟨h.2.1, h.2.2.2, Or.inl h.1⟩
            · have h1 := sendResponse_onlySends
                { s with clients := (setClientIdentity s.clients c
                    (fieldString req.clientId 32) (fieldString req.nickname 64)).1 } c
                (packLoginResponse be header.sequence LOGIN_SUCCESS (ascii "OK"))
              have h2 := broadcastUserList_onlySends be (sendResponse
                { s with clients := (setClientIdentity s.clients c
                    (fieldString req.clientId 32) (fieldString req.nickname 64)).1 } c
                (packLoginResponse be header.sequence LOGIN_SUCCESS (ascii "OK"))).1
              have h := h1.trans h2
              simp only [Bool.or_eq_true, not_or, Bool.not_eq_true] at hempty
              refine ⟨h.2.1, h.2.2.2, Or.inr ⟨_, _, hempty.1, hempty.2, ?_, ?_, ?_, h.1⟩⟩
              · simpa using hid
              · simpa using hnick
              · omega

theorem handleFileOffer_roster (be : Bool) (s : Server) (c : Int) (header : MessageHeader)
    (body : List Nat) :
    (handleFileOffer be s c header body).clients = s.clients
    ∧ (handleFileOffer be s c header body).running = s.running := by
  unfold handleFileOffer
  simp only []
  repeat' first
    | exact ⟨rfl, rfl⟩
    | exact ⟨(sendResponse_onlySends _ _ _).1, (sendResponse_onlySends _ _ _).2.2.2⟩
    | exact ⟨((offerToAll_onlySends _ _ _ _ _).trans (sendResponse_onlySends _ _ _)).1,
        ((offerToAll_onlySends _ _ _ _ _).trans (sendResponse_onlySends _ _ _)).2.2.2⟩
    | exact ⟨(offerToAll_onlySends _ _ _ _ _).1, (offerToAll_onlySends _ _ _ _ _).2.2.2⟩
    | split

theorem handleFileOfferResponse_roster (be : Bool) (s : Server) (c : Int)
    (header : MessageHeader) (body : List Nat) :
    (handleFileOfferResponse be s c header body).clients = s.clients
    ∧ (handleFileOfferResponse be s c header body).running = s.running := by
  unfold handleFileOfferResponse
  simp only []
  repeat' first
    | exact ⟨rfl, rfl⟩
    | exact ⟨(sendResponse_onlySends _ _ _).1, (sendResponse_onlySends _ _ _).2.2.2⟩
    | split

/-- What `handleMessage` can do to the roster: nothing, a heartbeat refresh of one entry, or
the binding of an identity that passed the uniqueness checks of the login case. -/
theorem handleMessage_roster (be : Bool) (now epoch : Nat) (s : Server) (c : Int)
    (header : MessageHeader) (body : List Nat) :
    (handleMessage be now epoch s c header body).running = s.running
    ∧ ((handleMessage be now epoch s c header body).clients = s.clients
      ∨ (handleMessage be now epoch s c header body).clients = updateHeartbeat s.clients c now
      ∨ ∃ id nick, id.isEmpty = false ∧ nick.isEmpty = false
          ∧ isClientIdOnline s.clients id c = false ∧ isNicknameOnline s.clients nick c = false
          ∧ getOnlineCount s.clients < kMaxOnlineClients
          ∧ (handleMessage be now epoch s c header body).clients
              = (setClientIdentity s.clients c id nick).1) := by
  unfold handleMessage
  split
  · split
    · exact ⟨rfl, Or.inl rfl⟩
    · have h := sendResponse_onlySends { s with clients := updateHeartbeat s.clients c now } c
        (packHeartbeatResponse be header.sequence)
      exact ⟨h.2.2.2, Or.inr (Or.inl h.1)⟩
  · split
    · have h := handleLogin_roster be s c header body
      exact ⟨h.2.1, h.2.2.elim Or.inl (fun x => Or.inr (Or.inr x))⟩
    · split
      · exact ⟨rfl, Or.inl rfl⟩
      · split
        · have h := handleChatMessage_onlySends be epoch s c header body
          exact ⟨h.2.2.2, Or.inl h.1⟩
        · split
          · have h := handleUserListRequest_onlySends be s c header
            exact ⟨h.2.2.2, Or.inl h.1⟩
          · split
            · have h := handleFileOffer_roster be s c header body
              exact ⟨h.2, Or.inl h.1⟩
            · split
              · have h := handleFileOfferResponse_roster be s c header body
                exact ⟨h.2, Or.inl h.1⟩
              · split
                · have h := handleFileData_onlySends be s c header body
                  exact ⟨h.2.2.2, Or.inl h.1⟩
                · exact ⟨rfl, Or.inl rfl⟩

/-! ## Roster uniqueness -/

theorem rosterWF_setClientIdentity (m : FdMap ClientInfo) (fd : Int)
    (clientId nickname : List Nat) (h : RosterWF m) :
    RosterWF (setClientIdentity m fd clientId nickname).1 := by
  unfold setClientIdentity
  split
  · exact h
  · exact rosterWF_modify m fd _ (fun _ => rfl) h

/-- A dispatched message keeps the roster well formed and unique. -/
theorem roster_message (be : Bool) (now epoch : Nat) (s : Server) (c : Int)
    (header : MessageHeader) (body : List Nat)
    (h : RosterWF s.clients ∧ RosterUnique s.clients) :
    RosterWF (handleMessage be now epoch s c header body).clients
      ∧ RosterUnique (handleMessage be now epoch s c header body).clients := by
  rcases (handleMessage_roster be now epoch s c header body).2 with e | e | ⟨id, nick, h1, h2, h3, h4, _, e⟩
  · rw [e]; exact h
  · rw [e]
    exact ⟨rosterWF_modify _ _ _ (fun _ => rfl) h.1, rosterUnique_updateHeartbeat _ _ _ h.2⟩
  · rw [e]
    exact ⟨rosterWF_setClientIdentity _ _ _ _ h.1,
      rosterUnique_setClientIdentity _ _ _ _ h.2 (isClientIdOnline_false _ _ _ h1 h3)
        (isNicknameOnline_false _ _ _ h2 h4)⟩

theorem handleClientDisconnect_clients (be : Bool) (s : Server) (fd : Int) :
    (handleClientDisconnect be s fd).clients
      = if fd < 0 then s.clients else removeClient s.clients fd := by
  unfold handleClientDisconnect
  split
  · rfl
  · simp only []
    split
    · exact (broadcastUserList_onlySends be _).1
    · rfl

/-- A disconnect keeps the roster well formed and unique. -/
theorem roster_disconnect (be : Bool) (s : Server) (fd : Int)
    (h : RosterWF s.clients ∧ RosterUnique s.clients) :
    RosterWF (handleClientDisconnect be s fd).clients
      ∧ RosterUnique (handleClientDisconnect be s fd).clients := by
  rw [handleClientDisconnect_clients]
  split
  · exact h
  · exact ⟨rosterWF_removeClient _ _ h.1, rosterUnique_removeClient _ _ h.2⟩

/-- An accept keeps the roster well formed and unique. -/
theorem roster_accept (s : Server) (fd : Int) (ip : List Nat) (port : Int) (now : Nat)
    (hfd : 0 ≤ fd) (h : RosterWF s.clients ∧ RosterUnique s.clients) :
    RosterWF (registerClient s fd ip port now).clients
      ∧ RosterUnique (registerClient s fd ip port now).clients :=
  ⟨rosterWF_addClient _ _ _ _ _ hfd h.1, rosterUnique_addClient _ _ _ _ _ h.2⟩

/-- C4: roster uniqueness invariant. In every server state reachable from the empty roster by
accepts, dispatched messages and disconnects, the roster holds each connection once (keys
strictly ascending) and any two distinct connections that are both online have different
clientIds and different nicknames. -/
theorem roster_unique_invariant (be : Bool) (s : Server) (h : Reachable be s) :
    s.clients.Pairwise (fun a b => a.1 < b.1)
    ∧ ∀ e1 ∈ s.clients, ∀ e2 ∈ s.clients, e1.1 ≠ e2.1 →
        e1.2.isOnline = true → e2.2.isOnline = true →
        e1.2.clientId ≠ e2.2.clientId ∧ e1.2.nickname ≠ e2.2.nickname := by
  have inv : RosterWF s.clients ∧ RosterUnique s.clients := by
    induction h with
    | start running script =>
      exact ⟨⟨List.Pairwise.nil, fun e he => by simp [Server.initial] at he⟩,
        fun e he => by simp [Server.initial] at he⟩
    | accept fd ip port now hfd _ ih => exact roster_accept _ fd ip port now hfd ih
    | message now epoch fd header body _ ih => exact roster_message be now epoch _ fd header body ih
    | disconnect fd _ ih => exact roster_disconnect be _ fd ih
    | queued fd _ ih => exact ih
    | environment running script _ ih => exact ih
  exact ⟨inv.1.1, inv.2⟩

theorem demoAccepted_reachable : Reachable false demoAccepted :=
  Reachable.accept 7 [] 1 0 (by decide)
    (Reachable.accept 6 [] 1 0 (by decide)
      (Reachable.accept 5 [] 1 0 (by decide) (Reachable.start true [])))

theorem demoAlice_reachable : Reachable false demoAlice :=
  Reachable.message 0 0 5 _ _ demoAccepted_reachable

theorem demoAll_reachable : Reachable false demoAll :=
  Reachable.message 0 0 7 _ _ (Reachable.message 0 0 6 _ _ demoAlice_reachable)

set_option maxRecDepth 1000000 in
/-- C4 at sample inputs: in the state with alice on connection 5, bob on connection 6 and
carol on connection 7 online, which is reachable, the roster keys ascend, and the online
connections 5 and 6, as any two distinct online connections, have different clientIds and
different nicknames. -/
theorem roster_unique_invariant_witness :
    Reachable false demoAll
    ∧ ((5 : Int), demoEntry demoAll 5) ∈ demoAll.clients
    ∧ ((6 : Int), demoEntry demoAll 6) ∈ demoAll.clients
    ∧ (demoEntry demoAll 5).isOnline = true
    ∧ (demoEntry demoAll 6).isOnline = true
    ∧ getOnlineCount demoAll.clients = 3
    ∧ demoAll.clients.Pairwise (fun a b => a.1 < b.1)
    ∧ ((demoEntry demoAll 5).clientId ≠ (demoEntry demoAll 6).clientId
      ∧ (demoEntry demoAll 5).nickname ≠ (demoEntry demoAll 6).nickname)
    ∧ ∀ e1 ∈ demoAll.clients, ∀ e2 ∈ demoAll.clients, e1.1 ≠ e2.1 →
        e1.2.isOnline = true → e2.2.isOnline = true →
        e1.2.clientId ≠ e2.2.clientId ∧ e1.2.nickname ≠ e2.2.nickname :=
  ⟨demoAll_reachable, by decide, by decide, by decide, by decide, by decide,
   (roster_unique_invariant false demoAll demoAll_reachable).1,
   (roster_unique_invariant false demoAll demoAll_reachable).2 (5, demoEntry demoAll 5)
     (by decide) (6, demoEntry demoAll 6) (by decide) (by decide) (by decide) (by decide),
   (roster_unique_invariant false demoAll demoAll_reachable).2⟩

/-! ## Headers of packed frames -/

theorem bswap16_bytes (a b : Nat) (ha : a < 256) (hb : b < 256) :
    bswap16 (a * 2 ^ 8 + b) = b * 2 ^ 8 + a := by
  unfold bswap16; omega

theorem bswap16_bswap16 (v : Nat) : bswap16 (bswap16 v) = v % 2 ^ 16 := by
  have h := bswap16_bytes (v % 256) (v / 2 ^ 8 % 256) (Nat.mod_lt _ (by norm_num))
    (Nat.mod_lt _ (by norm_num))
  have e : bswap16 v = v % 256 * 2 ^ 8 + v / 2 ^ 8 % 256 := rfl
  rw [e, h]
  have h1 : v / 2 ^ 8 / 256 = v / 2 ^ 16 := by rw [Nat.div_div_eq_div_mul]; norm_num
  clear e h
  omega

theorem ntohs_htons (be : Bool) (v : Nat) : ntohs be (htons be v) = v % 2 ^ 16 := by
  cases be
  · simp only [ntohs, htons, Bool.false_eq_true, if_false]; exact bswap16_bswap16 v
  · simp only [ntohs, htons, if_true, Nat.mod_mod]

theorem ntohl_htonl (be : Bool) (v : Nat) : ntohl be (htonl be v) = v % 2 ^ 32 := by
  cases be
  · simp only [ntohl, htonl, Bool.false_eq_true, if_false]; exact bswap32_bswap32 v
  · simp only [ntohl, htonl, if_true, Nat.mod_mod]

theorem htons_lt (be : Bool) (v : Nat) : htons be v < 2 ^ 16 := by
  cases be
  · simp only [htons, Bool.false_eq_true, if_false, bswap16]; omega
  · simp only [htons, if_true]; omega

theorem messageHeader_load_bytes (be : Bool) (h : MessageHeader) (rest : List Nat) :
    MessageHeader.load be (h.bytes be ++ rest) =
      { magic := h.magic % 2 ^ 32, version := h.version % 2 ^ 16, msgType := h.msgType % 2 ^ 16,
        bodyLength := h.bodyLength % 2 ^ 32, sequence := h.sequence % 2 ^ 32 } := by
  have l4 := fun v => memStore_length be 4 v
  have l2 := fun v => memStore_length be 2 v
  have f0 : (h.bytes be ++ rest).take 4 = memStore be 4 h.magic := by
    simp only [MessageHeader.bytes, List.append_assoc]
    exact List.take_left' (l4 _)
  have f1 : ((h.bytes be ++ rest).drop 4).take 2 = memStore be 2 h.version := by
    simp only [MessageHeader.bytes, List.append_assoc]
    exact mid_of_append _ _ _ 4 2 (l4 _) (l2 _)
  have f2 : ((h.bytes be ++ rest).drop 6).take 2 = memStore be 2 h.msgType := by
    have := mid_of_append (memStore be 4 h.magic ++ memStore be 2 h.version)
      (memStore be 2 h.msgType)
      (memStore be 4 h.bodyLength ++ (memStore be 4 h.sequence ++ rest)) 6 2
      (by simp [l4, l2]) (l2 _)
    simpa [MessageHeader.bytes, List.append_assoc] using this
  have f3 : ((h.bytes be ++ rest).drop 8).take 4 = memStore be 4 h.bodyLength := by
    have := mid_of_append
      (memStore be 4 h.magic ++ (memStore be 2 h.version ++ memStore be 2 h.msgType))
      (memStore be 4 h.bodyLength) (memStore be 4 h.sequence ++ rest) 8 4
      (by simp [l4, l2]) (l4 _)
    simpa [MessageHeader.bytes, List.append_assoc] using this
  have f4 : ((h.bytes be ++ rest).drop 12).take 4 = memStore be 4 h.sequence := by
    have := mid_of_append
      (memStore be 4 h.magic ++ (memStore be 2 h.version ++ (memStore be 2 h.msgType
        ++ memStore be 4 h.bodyLength)))
      (memStore be 4 h.sequence) rest 12 4 (by simp [l4, l2]) (l4 _)
    simpa [MessageHeader.bytes, List.append_assoc] using this
  unfold MessageHeader.load
  rw [f0, f1, f2, f3, f4]
  simp only [memLoad_memStore]
  norm_num

/-- Decoding the header of a packed frame gives back the constants, the message type, the
body length and the sequence number the `pack*` function was given. -/
theorem decodeHeader_mkHeader (be : Bool) (msgType bodyLength sequence : Nat)
    (rest : List Nat) :
    decodeHeader be ((mkHeader be msgType bodyLength sequence).bytes be ++ rest) =
      { magic := MAGIC_NUMBER, version := PROTOCOL_VERSION, msgType := msgType % 2 ^ 16,
        bodyLength := bodyLength % 2 ^ 32, sequence := sequence % 2 ^ 32 } := by
  unfold decodeHeader
  rw [messageHeader_load_bytes]
  simp only [mkHeader]
  rw [Nat.mod_eq_of_lt (htonl_lt be _), Nat.mod_eq_of_lt (htons_lt be _),
    Nat.mod_eq_of_lt (htons_lt be _), Nat.mod_eq_of_lt (htonl_lt be _),
    Nat.mod_eq_of_lt (htonl_lt be _), ntohl_htonl, ntohs_htons, ntohs_htons, ntohl_htonl,
    ntohl_htonl]
  simp [MAGIC_NUMBER, PROTOCOL_VERSION]

theorem decodeHeader_packUserListResponse (be : Bool) (sequence : Nat)
    (users : List UserInfo) :
    (decodeHeader be (packUserListResponse be sequence users)).msgType = MSG_USER_LIST_RSP
    ∧ (decodeHeader be (packUserListResponse be sequence users)).sequence
        = sequence % 2 ^ 32 := by
  unfold packUserListResponse
  simp only [List.append_assoc, decodeHeader_mkHeader]
  simp [MSG_USER_LIST_RSP]

/-! ## Login -/

theorem isClientIdOnline_iff (m : FdMap ClientInfo) (clientId : List Nat) (fd : Int)
    (hne : clientId.isEmpty = false) :
    isClientIdOnline m clientId fd = true
      ↔ ∃ e ∈ m, e.1 ≠ fd ∧ e.2.isOnline = true ∧ e.2.clientId = clientId := by
  unfold isClientIdOnline
  simp only [hne, Bool.false_eq_true, if_false, List.any_eq_true]
  constructor
  · rintro ⟨e, he, h⟩
    simp only [Bool.and_eq_true, bne_iff_ne, ne_eq, beq_iff_eq] at h
    exact ⟨e, he, h.1.1, h.1.2, h.2⟩
  · rintro ⟨e, he, h1, h2, h3⟩
    exact ⟨e, he, by simp [h1, h2, h3]⟩

theorem isNicknameOnline_iff (m : FdMap ClientInfo) (nickname : List Nat) (fd : Int)
    (hne : nickname.isEmpty = false) :
    isNicknameOnline m nickname fd = true
      ↔ ∃ e ∈ m, e.1 ≠ fd ∧ e.2.isOnline = true ∧ e.2.nickname = nickname := by
  unfold isNicknameOnline
  simp only [hne, Bool.false_eq_true, if_false, List.any_eq_true]
  constructor
  · rintro ⟨e, he, h⟩
    simp only [Bool.and_eq_true, bne_iff_ne, ne_eq, beq_iff_eq] at h
    exact ⟨e, he, h.1.1, h.1.2, h.2⟩
  · rintro ⟨e, he, h1, h2, h3⟩
    exact ⟨e, he, by simp [h1, h2, h3]⟩

theorem isEmpty_false_iff (l : List Nat) : l.isEmpty = false ↔ l ≠ [] := by
  cases l <;> simp

/-- The login case of the router computes the decision of the specification: it answers
with that result and, on SUCCESS only, binds the identity and broadcasts the user list. -/
theorem handleLogin_eq (be : Bool) (s : Server) (c : Int) (header : MessageHeader)
    (body : List Nat) (hreg : (getClientInfo s.clients c).isSome = true) :
    handleLogin be s c header body =
      if loginDecisionSpec s.clients c body = LOGIN_SUCCESS then
        broadcastUserList be
          (sendResponse
            { s with clients := (setClientIdentity s.clients c (loginClientId body)
                (loginNickname body)).1 } c
            (packLoginResponse be header.sequence LOGIN_SUCCESS (ascii "OK"))).1
      else
        (sendResponse s c
          (packLoginResponse be header.sequence (loginDecisionSpec s.clients c body)
            (loginText (loginDecisionSpec s.clients c body)))).1 := by
  unfold handleLogin loginDecisionSpec
  by_cases hlen : body.length < 96
  · have hp : parseLoginRequest body = none := by
      simp [parseLoginRequest, sizeofLoginRequest, hlen]
    simp [hp, hlen, LOGIN_INVALID_PARAM, LOGIN_SUCCESS, loginText, LOGIN_SERVER_FULL,
      LOGIN_ALREADY_ONLINE, LOGIN_NICKNAME_TAKEN]
  · have hp : parseLoginRequest body
        = some { clientId := terminate (body.take 32) 32
                 nickname := terminate ((body.drop 32).take 64) 64 } := by
      simp [parseLoginRequest, sizeofLoginRequest, hlen]
    have eid : fieldString (terminate (List.take 32 body) 32) 32 = loginClientId body := rfl
    have enick : fieldString (terminate (List.take 64 (List.drop 32 body)) 64) 64
        = loginNickname body := rfl
    simp only [hp, hlen, false_or, eid, enick]
    by_cases hid : loginClientId body = []
    · simp [hid, LOGIN_INVALID_PARAM, LOGIN_SUCCESS, loginText, LOGIN_SERVER_FULL,
        LOGIN_ALREADY_ONLINE, LOGIN_NICKNAME_TAKEN]
    · by_cases hnick : loginNickname body = []
      · simp [hnick, LOGIN_INVALID_PARAM, LOGIN_SUCCESS, loginText, LOGIN_SERVER_FULL,
          LOGIN_ALREADY_ONLINE, LOGIN_NICKNAME_TAKEN]
      · have hid' := (isEmpty_false_iff _).2 hid
        have hnick' := (isEmpty_false_iff _).2 hnick
        have hor : ((loginClientId body).isEmpty || (loginNickname body).isEmpty) = false := by
          simp [hid', hnick']
        simp only [hor, Bool.false_eq_true, if_false, hid, hnick, or_self]
        by_cases ha : isClientIdOnline s.clients (loginClientId body) c = true
        · have ha' := (isClientIdOnline_iff _ _ _ hid').1 ha
          simp [ha, ha', LOGIN_SUCCESS, loginText, LOGIN_SERVER_FULL, LOGIN_ALREADY_ONLINE,
            LOGIN_NICKNAME_TAKEN]
        · have ha' : ¬ ∃ e ∈ s.clients, e.1 ≠ c ∧ e.2.isOnline = true
              ∧ e.2.clientId = loginClientId body :=
            fun h => ha ((isClientIdOnline_iff _ _ _ hid').2 h)
          simp only [ha, ha', if_false]
          by_cases hn : isNicknameOnline s.clients (loginNickname body) c = true
          · have hn' := (isNicknameOnline_iff _ _ _ hnick').1 hn
            simp [hn, hn', LOGIN_SUCCESS, loginText, LOGIN_SERVER_FULL, LOGIN_ALREADY_ONLINE,
              LOGIN_NICKNAME_TAKEN]
          · have hn' : ¬ ∃ e ∈ s.clients, e.1 ≠ c ∧ e.2.isOnline = true
                ∧ e.2.nickname = loginNickname body :=
              fun h => hn ((isNicknameOnline_iff _ _ _ hnick').2 h)
            simp only [hn, hn', if_false]
            by_cases hfull : getOnlineCount s.clients ≥ kMaxOnlineClients
            · have hfull' : (s.clients.filter (fun e => e.2.isOnline)).length ≥ 1024 := hfull
              simp [hfull, hfull', LOGIN_SUCCESS, loginText, LOGIN_SERVER_FULL]
            · have hfull' : ¬ (s.clients.filter (fun e => e.2.isOnline)).length ≥ 1024 := hfull
              have hset : (setClientIdentity s.clients c (loginClientId body)
                  (loginNickname body)).2 = true := by
                unfold setClientIdentity
                unfold getClientInfo at hreg
                cases hf : FdMap.find? s.clients c with
                | none => rw [hf] at hreg; simp at hreg
                | some v => rfl
              simp only [hfull, hfull', if_false, hset, Bool.not_true, Bool.false_eq_true,
                if_true]

theorem broadcastUserList_sent (be : Bool) (s : Server) :
    (broadcastUserList be s).sent
      = s.sent ++ (((getOnlineClients s.clients).map (fun info => info.fd)).filter
          (fun fd => (FdMap.find? s.clientHandlers fd).isSome)).map
          (fun fd => (fd, packUserListResponse be 0 (userInfos (getOnlineClients s.clients)))) := by
  unfold broadcastUserList
  simp only []
  split
  · rename_i h
    have : getOnlineClients s.clients = [] := by
      cases h' : getOnlineClients s.clients with
      | nil => rfl
      | cons a b => rw [h'] at h; simp at h
    simp [this]
  · exact (sendToAll_fields _ _ _).2.2.2.2.1

theorem handleMessage_login (be : Bool) (now epoch : Nat) (s : Server) (c : Int)
    (header : MessageHeader) (body : List Nat) (hmsg : header.msgType = MSG_LOGIN_REQ) :
    handleMessage be now epoch s c header body = handleLogin be s c header body := by
  simp [handleMessage, hmsg, MSG_LOGIN_REQ, MSG_HEARTBEAT_REQ]

theorem onlineFds_eq_keys (m : FdMap ClientInfo) (hwf : RosterWF m) :
    (getOnlineClients m).map (fun i => i.fd)
      = (m.filter (fun e => e.2.isOnline)).map Prod.fst := by
  unfold getOnlineClients
  rw [List.map_map]
  apply List.map_congr_left
  intro e he
  exact (hwf.2 e (List.mem_filter.1 he).1).1

theorem onlineFds_nodup (m : FdMap ClientInfo) (hwf : RosterWF m) :
    ((getOnlineClients m).map (fun i => i.fd)).Nodup := by
  rw [onlineFds_eq_keys m hwf]
  have h1 : (m.map Prod.fst).Pairwise (fun a b => a < b) := by
    rw [List.pairwise_map]; exact hwf.1
  have h2 : (m.map Prod.fst).Nodup := h1.imp (fun h => ne_of_lt h)
  exact h2.sublist ((List.filter_sublist _).map _)

theorem mem_onlineFds (m : FdMap ClientInfo) (hwf : RosterWF m) (fd : Int) :
    fd ∈ (getOnlineClients m).map (fun i => i.fd) ↔ isOnlineFd m fd = true := by
  rw [onlineFds_eq_keys m hwf]
  unfold isOnlineFd
  constructor
  · intro h
    rw [List.mem_map] at h
    obtain ⟨e, he, rfl⟩ := h
    rw [List.mem_filter] at he
    have := FdMap.mem_find? m e.1 e.2 hwf.1 he.1
    rw [this]; exact he.2
  · intro h
    cases hf : FdMap.find? m fd with
    | none => rw [hf] at h; simp at h
    | some v =>
      rw [hf] at h
      rw [List.mem_map]
      exact ⟨(fd, v), List.mem_filter.2 ⟨FdMap.find?_mem m fd v hf, h⟩, rfl⟩

theorem setClientIdentity_eq (m : FdMap ClientInfo) (fd : Int) (clientId nickname : List Nat)
    (h : (getClientInfo m fd).isSome = true) :
    (setClientIdentity m fd clientId nickname).1
      = FdMap.modify m fd
          (fun info => { info with clientId := clientId, nickname := nickname,
                                   isOnline := true }) := by
  unfold setClientIdentity
  unfold getClientInfo at h
  cases hf : FdMap.find? m fd with
  | none => rw [hf] at h; simp at h
  | some v => rfl

/-- C6: successful login effects. When a LOGIN_REQ from a registered connection `c` is
answered with SUCCESS, in a well-formed roster whose online connections all have a handler
(as in every reachable state, `reachable_roster`): afterwards the roster entry of `c` has the requested clientId and nickname and is online,
every other roster entry is unchanged, and after the LOGIN_RSP the server sends one
USER_LIST_RSP with sequence 0, listing exactly the online sessions, to every connection that
is online afterwards, `c` included, and nothing else. -/
theorem login_success_effects (be : Bool) (now epoch : Nat) (s : Server) (c : Int)
    (header : MessageHeader) (body : List Nat)
    (hmsg : header.msgType = MSG_LOGIN_REQ)
    (hreg : (getClientInfo s.clients c).isSome = true)
    (hh : (FdMap.find? s.clientHandlers c).isSome = true)
    (hwf : RosterWF s.clients)
    (hlive : ∀ e ∈ s.clients, e.2.isOnline = true →
      (FdMap.find? s.clientHandlers e.1).isSome = true)
    (hd : loginDecisionSpec s.clients c body = LOGIN_SUCCESS) :
    (∃ info, getClientInfo s.clients c = some info
      ∧ getClientInfo (handleMessage be now epoch s c header body).clients c
          = some { info with clientId := loginClientId body, nickname := loginNickname body,
                             isOnline := true })
    ∧ (∀ fd, fd ≠ c →
        getClientInfo (handleMessage be now epoch s c header body).clients fd
          = getClientInfo s.clients fd)
    ∧ (handleMessage be now epoch s c header body).sent
        = s.sent ++ (c, packLoginResponse be header.sequence LOGIN_SUCCESS (ascii "OK")) ::
            (getOnlineClients (handleMessage be now epoch s c header body).clients).map
              (fun i => (i.fd, packUserListResponse be 0
                (userInfos (getOnlineClients (handleMessage be now epoch s c header body).clients))))
    ∧ ((getOnlineClients (handleMessage be now epoch s c header body).clients).map
        (fun i => i.fd)).Nodup
    ∧ c ∈ (getOnlineClients (handleMessage be now epoch s c header body).clients).map
        (fun i => i.fd)
    ∧ (∀ users, (decodeHeader be (packUserListResponse be 0 users)).msgType = MSG_USER_LIST_RSP
        ∧ (decodeHeader be (packUserListResponse be 0 users)).sequence = 0) := by
  rw [handleMessage_login be now epoch s c header body hmsg, handleLogin_eq be s c header body
    hreg]
  simp only [hd, if_true]
  rw [setClientIdentity_eq _ _ _ _ hreg]
  obtain ⟨m', hm'⟩ : ∃ m', m' = FdMap.modify s.clients c
      (fun info => { info with clientId := loginClientId body,
                               nickname := loginNickname body, isOnline := true }) := ⟨_, rfl⟩
  rw [← hm']
  obtain ⟨s1, hs1⟩ : ∃ s1, s1 = (sendResponse { s with clients := m' } c
      (packLoginResponse be header.sequence LOGIN_SUCCESS (ascii "OK"))).1 := ⟨_, rfl⟩
  rw [← hs1]
  have h1 := sendResponse_fields { s with clients := m' } c
    (packLoginResponse be header.sequence LOGIN_SUCCESS (ascii "OK"))
  rw [← hs1] at h1
  simp only [hh, if_true] at h1
  have hb := broadcastUserList_onlySends be s1
  have hc : (broadcastUserList be s1).clients = m' := by rw [hb.1, h1.1]
  have hwf' : RosterWF m' := by
    rw [hm']; exact rosterWF_modify _ _ _ (fun _ => rfl) hwf
  -- the entry of `c` before the login
  obtain ⟨info, hinfo⟩ : ∃ info, FdMap.find? s.clients c = some info := by
    unfold getClientInfo at hreg
    cases hf : FdMap.find? s.clients c with
    | none => rw [hf] at hreg; simp at hreg
    | some v => exact ⟨v, rfl⟩
  have hnew : FdMap.find? m' c
      = some { info with clientId := loginClientId body, nickname := loginNickname body,
                         isOnline := true } := by
    rw [hm', FdMap.find?_modify, if_pos rfl, hinfo]; rfl
  have hold : ∀ fd, fd ≠ c → FdMap.find? m' fd = FdMap.find? s.clients fd := by
    intro fd hfd
    rw [hm', FdMap.find?_modify, if_neg hfd]
  -- every connection online afterwards has a handler
  have hall : ∀ fd ∈ (getOnlineClients m').map (fun i => i.fd),
      (FdMap.find? s.clientHandlers fd).isSome = true := by
    intro fd hfd
    rw [onlineFds_eq_keys _ hwf', List.mem_map] at hfd
    obtain ⟨e, he, rfl⟩ := hfd
    rw [List.mem_filter] at he
    by_cases hk : e.1 = c
    · rw [hk]; exact hh
    · have hfind := FdMap.mem_find? _ e.1 e.2 hwf'.1 he.1
      rw [hold _ hk] at hfind
      exact hlive (e.1, e.2) (FdMap.find?_mem _ _ _ hfind) he.2
  have hk : ∀ fd, (FdMap.find? s1.clientHandlers fd).isSome
      = (FdMap.find? s.clientHandlers fd).isSome :=
    fun fd => hasHandler_congr _ _ h1.2.2.2.2.2 fd
  refine ⟨⟨info, hinfo, ?_⟩, ?_, ?_, ?_, ?_, ?_⟩
  · rw [hc]; exact hnew
  · intro fd hfd
    rw [hc]
    exact hold fd hfd
  · rw [broadcastUserList_sent, h1.2.2.2.2.1, List.append_assoc, List.singleton_append, hc, h1.1]
    congr 2
    simp only [hk]
    rw [List.filter_eq_self.2 (fun fd hfd => hall fd hfd), List.map_map]
    rfl
  · rw [hc]; exact onlineFds_nodup _ hwf'
  · rw [hc, mem_onlineFds _ hwf']
    unfold isOnlineFd
    rw [hnew]
  · intro users
    have := decodeHeader_packUserListResponse be 0 users
    exact ⟨this.1, by rw [this.2]; rfl⟩

set_option maxRecDepth 1000000 in
theorem login_success_effects_witness :
    (demoHeader MSG_LOGIN_REQ 96 11).msgType = MSG_LOGIN_REQ
    ∧ (getClientInfo demoAccepted.clients 5).isSome = true
    ∧ (FdMap.find? demoAccepted.clientHandlers 5).isSome = true
    ∧ RosterWF demoAccepted.clients
    ∧ (∀ e ∈ demoAccepted.clients, e.2.isOnline = true →
        (FdMap.find? demoAccepted.clientHandlers e.1).isSome = true)
    ∧ loginDecisionSpec demoAccepted.clients 5 (demoLoginBody "alice" "Alice") = LOGIN_SUCCESS
    ∧ demoAlice.sent
        = demoAccepted.sent ++ (5, packLoginResponse false 11 LOGIN_SUCCESS (ascii "OK")) ::
            (getOnlineClients demoAlice.clients).map
              (fun i => (i.fd, packUserListResponse false 0
                (userInfos (getOnlineClients demoAlice.clients))))
    ∧ (5 : Int) ∈ (getOnlineClients demoAlice.clients).map (fun i => i.fd) := by
  have h := login_success_effects false 0 0 demoAccepted 5 (demoHeader MSG_LOGIN_REQ 96 11)
    (demoLoginBody "alice" "Alice") rfl (by decide) (by decide) (by decide) (by decide)
    (by decide)
  exact ⟨rfl, by decide, by decide, by decide, by decide, by decide, h.2.2.1, h.2.2.2.2.1⟩

/-! ## Chat -/

theorem handleMessage_chat (be : Bool) (now epoch : Nat) (s : Server) (c : Int)
    (header : MessageHeader) (body : List Nat) (hmsg : header.msgType = MSG_CHAT_MSG) :
    handleMessage be now epoch s c header body = handleChatMessage be epoch s c header body := by
  simp [handleMessage, hmsg, MSG_CHAT_MSG, MSG_LOGIN_REQ, MSG_HEARTBEAT_REQ, MSG_LOGOUT_REQ]

theorem recipients_eq (m : FdMap ClientInfo) (c : Int) :
    ((getOnlineClients m).filter (fun t => t.fd != c)).map (fun t => t.fd)
      = ((getOnlineClients m).map (fun t => t.fd)).filter (fun fd => fd != c) := by
  rw [List.filter_map]; rfl

theorem decodeHeader_packChatMessage (be : Bool) (sequence : Nat) (scope : ChatScope)
    (fromId fromNick toId message : List Nat) (timestamp : Nat) :
    (decodeHeader be
      (packChatMessage be sequence scope fromId fromNick toId message timestamp)).msgType
      = MSG_CHAT_MSG := by
  unfold packChatMessage
  simp only [decodeHeader_mkHeader]
  simp [MSG_CHAT_MSG]

/-- C7: group fan-out. When an online connection `c` sends a CHAT_MSG with scope GROUP, in
a well-formed roster (as in every reachable state, `reachable_roster`) whose online
connections all have a handler, the server sends the
re-encoded CHAT_MSG frame exactly once to each online connection other than `c`, none to `c`
and nothing else, so the number of recipients is onlineCount - 1. -/
theorem group_fanout (be : Bool) (now epoch : Nat) (s : Server) (c : Int)
    (header : MessageHeader) (body : List Nat) (msg : ChatMessage) (sender : ClientInfo)
    (hmsg : header.msgType = MSG_CHAT_MSG)
    (hparse : parseChatMessage be body = some msg)
    (hscope : msg.chatType = ChatScope.CHAT_GROUP.toNat)
    (hsender : getClientInfo s.clients c = some sender)
    (honline : sender.isOnline = true)
    (hwf : RosterWF s.clients)
    (hlive : ∀ e ∈ s.clients, e.2.isOnline = true →
      (FdMap.find? s.clientHandlers e.1).isSome = true) :
    (handleMessage be now epoch s c header body).sent
        = s.sent ++ ((getOnlineClients s.clients).filter (fun t => t.fd != c)).map
            (fun t => (t.fd, chatPacket be epoch header sender msg))
    ∧ (((getOnlineClients s.clients).filter (fun t => t.fd != c)).map (fun t => t.fd)).Nodup
    ∧ c ∉ ((getOnlineClients s.clients).filter (fun t => t.fd != c)).map (fun t => t.fd)
    ∧ (∀ fd, isOnlineFd s.clients fd = true → fd ≠ c →
        fd ∈ ((getOnlineClients s.clients).filter (fun t => t.fd != c)).map (fun t => t.fd))
    ∧ (((getOnlineClients s.clients).filter (fun t => t.fd != c)).map (fun t => t.fd)).length
        = getOnlineCount s.clients - 1
    ∧ (decodeHeader be (chatPacket be epoch header sender msg)).msgType = MSG_CHAT_MSG := by
  have hscope' : chatScopeOf msg = ChatScope.CHAT_GROUP := by
    unfold chatScopeOf
    rw [hscope]
    decide
  have hnd := onlineFds_nodup s.clients hwf
  have hcin : c ∈ (getOnlineClients s.clients).map (fun t => t.fd) := by
    rw [mem_onlineFds _ hwf]
    unfold isOnlineFd
    unfold getClientInfo at hsender
    rw [hsender]; exact honline
  refine ⟨?_, ?_, ?_, ?_, ?_, decodeHeader_packChatMessage _ _ _ _ _ _ _ _⟩
  · rw [handleMessage_chat be now epoch s c header body hmsg]
    unfold handleChatMessage
    rw [hparse]
    simp only []
    unfold forwardChat
    rw [hsender]
    simp only [honline, Bool.not_true, Bool.false_eq_true, if_false, hscope', if_true]
    rw [(sendToAll_fields _ _ _).2.2.2.2.1]
    congr 1
    rw [List.filter_eq_self.2, List.map_map]
    · rfl
    · intro fd hfd
      rw [recipients_eq, List.mem_filter, onlineFds_eq_keys _ hwf, List.mem_map] at hfd
      obtain ⟨⟨e, he, rfl⟩, _⟩ := hfd
      rw [List.mem_filter] at he
      exact hlive e he.1 he.2
  · rw [recipients_eq]
    exact hnd.sublist (List.filter_sublist _)
  · rw [recipients_eq, List.mem_filter]
    simp
  · intro fd hfd hne
    rw [recipients_eq, List.mem_filter]
    exact ⟨(mem_onlineFds _ hwf fd).2 hfd, by simpa using hne⟩
  · rw [recipients_eq]
    have e1 : ((getOnlineClients s.clients).map (fun t => t.fd)).filter (fun fd => fd != c)
        = ((getOnlineClients s.clients).map (fun t => t.fd)).erase c := by
      rw [hnd.erase_eq_filter]
    rw [e1, List.length_erase_of_mem hcin]
    simp [getOnlineClients, getOnlineCount]

set_option maxRecDepth 1000000 in
theorem group_fanout_witness :
    (demoHeader MSG_CHAT_MSG 393 21).msgType = MSG_CHAT_MSG
    ∧ parseChatMessage false (demoChatBody ChatScope.CHAT_GROUP "mallory" "M" "" "hi")
        = some (demoChatMsg (demoChatBody ChatScope.CHAT_GROUP "mallory" "M" "" "hi"))
    ∧ (demoChatMsg (demoChatBody ChatScope.CHAT_GROUP "mallory" "M" "" "hi")).chatType
        = ChatScope.CHAT_GROUP.toNat
    ∧ getClientInfo demoAll.clients 5 = some (demoEntry demoAll 5)
    ∧ (demoEntry demoAll 5).isOnline = true
    ∧ RosterWF demoAll.clients
    ∧ (∀ e ∈ demoAll.clients, e.2.isOnline = true →
        (FdMap.find? demoAll.clientHandlers e.1).isSome = true)
    ∧ (handleMessage false 0 1700000000 demoAll 5 (demoHeader MSG_CHAT_MSG 393 21)
          (demoChatBody ChatScope.CHAT_GROUP "mallory" "M" "" "hi")).sent
        = demoAll.sent
          ++ [(6, packChatMessage false 21 ChatScope.CHAT_GROUP (ascii "alice") (ascii "Alice")
                [] (ascii "hi") 1700000000),
              (7, packChatMessage false 21 ChatScope.CHAT_GROUP (ascii "alice") (ascii "Alice")
                [] (ascii "hi") 1700000000)] := by
  have h := group_fanout false 0 1700000000 demoAll 5 (demoHeader MSG_CHAT_MSG 393 21)
    (demoChatBody ChatScope.CHAT_GROUP "mallory" "M" "" "hi")
    (demoChatMsg (demoChatBody ChatScope.CHAT_GROUP "mallory" "M" "" "hi"))
    (demoEntry demoAll 5) rfl (by decide) (by decide) (by decide) (by decide) (by decide)
    (by decide)
  refine ⟨rfl, by decide, by decide, by decide, by decide, by decide, by decide, ?_⟩
  rw [h.1]
  decide

/-! ## Sender identity -/

/-- What `forwardChat` reads of the decoded message: the scope byte, the target, the
timestamp and the text; never the sender fields. -/
theorem forwardChat_congr (be : Bool) (epoch : Nat) (s : Server) (c : Int)
    (header : MessageHeader) (m1 m2 : ChatMessage)
    (h1 : m1.chatType = m2.chatType) (h2 : m1.toId = m2.toId)
    (h3 : m1.timestamp = m2.timestamp) (h4 : m1.message = m2.message) :
    forwardChat be epoch s c header m1 = forwardChat be epoch s c header m2 := by
  unfold forwardChat chatPacket chatScopeOf
  simp only [h1, h2, h3, h4]

theorem headD_of_take_one (b1 b2 : List Nat) (h : b1.take 1 = b2.take 1) :
    b1.headD 0 = b2.headD 0 := by
  cases b1 <;> cases b2 <;> simp_all

/-- What the chat handler sends: one frame, to a list of targets, and when there is a target
the frame is the chat re-encoded with the clientId and nickname of the sender's roster
entry. -/
theorem forwardChat_sent (be : Bool) (epoch : Nat) (s : Server) (c : Int)
    (header : MessageHeader) (msg : ChatMessage) :
    ∃ targets frame,
      (forwardChat be epoch s c header msg).sent = s.sent ++ targets.map (fun fd => (fd, frame))
      ∧ (targets ≠ [] → ∃ sender scope toId text ts,
          getClientInfo s.clients c = some sender
          ∧ frame = packChatMessage be header.sequence scope sender.clientId sender.nickname
              toId text ts) := by
  unfold forwardChat
  cases hs : getClientInfo s.clients c with
  | none => exact ⟨[], [], by simp, fun h => absurd rfl h⟩
  | some sender =>
    simp only []
    by_cases ho : sender.isOnline = true
    · simp only [ho, Bool.not_true, Bool.false_eq_true, if_false]
      by_cases hg : chatScopeOf msg = ChatScope.CHAT_GROUP
      · simp only [hg, if_true]
        exact ⟨_, chatPacket be epoch header sender msg, (sendToAll_fields _ _ _).2.2.2.2.1,
          fun _ => ⟨sender, _, _, _, _, rfl, rfl⟩⟩
      · simp only [hg, if_false]
        by_cases he : (fieldString msg.toId 32).isEmpty = true
        · simp only [he, if_true]
          exact ⟨[], [], by simp, fun h => absurd rfl h⟩
        · simp only [he, if_false]
          by_cases ht : getFdByClientId s.clients (fieldString msg.toId 32) < 0
          · simp only [ht, if_true]
            exact ⟨[], [], by simp, fun h => absurd rfl h⟩
          · simp only [ht, if_false]
            have h := (sendResponse_fields s (getFdByClientId s.clients (fieldString msg.toId 32))
              (chatPacket be epoch header sender msg)).2.2.2.2.1
            by_cases hh : (FdMap.find? s.clientHandlers
                (getFdByClientId s.clients (fieldString msg.toId 32))).isSome = true
            · rw [if_pos hh] at h
              exact ⟨[getFdByClientId s.clients (fieldString msg.toId 32)],
                chatPacket be epoch header sender msg, h,
                fun _ => ⟨sender, _, _, _, _, rfl, rfl⟩⟩
            · rw [if_neg hh] at h
              exact ⟨[], [], by simpa using h, fun h => absurd rfl h⟩
    · simp only [ho, Bool.not_false, if_true]
      exact ⟨[], [], by simp, fun h => absurd rfl h⟩

/-- C8: sender identity cannot be spoofed. Two chat bodies from the same connection in the
same server state that differ only in their fromId and fromNick fields (bytes 1 to 96) lead
to the same server state, in particular to byte-identical frames sent to the same
recipients; and every frame the chat handler sends is the chat re-encoded with the clientId
and the nickname recorded in the roster for the sending connection. -/
theorem sender_identity (be : Bool) (now epoch : Nat) (s : Server) (c : Int)
    (header : MessageHeader) (b1 b2 : List Nat)
    (hmsg : header.msgType = MSG_CHAT_MSG)
    (hlen : b1.length = b2.length) (hhead : b1.take 1 = b2.take 1)
    (htail : b1.drop 97 = b2.drop 97) :
    handleMessage be now epoch s c header b1 = handleMessage be now epoch s c header b2
    ∧ ∃ targets frame,
        (handleMessage be now epoch s c header b1).sent
          = s.sent ++ targets.map (fun fd => (fd, frame))
        ∧ (targets ≠ [] → ∃ sender scope toId text ts,
            getClientInfo s.clients c = some sender
            ∧ frame = packChatMessage be header.sequence scope sender.clientId sender.nickname
                toId text ts) := by
  rw [handleMessage_chat be now epoch s c header b1 hmsg,
    handleMessage_chat be now epoch s c header b2 hmsg]
  unfold handleChatMessage
  by_cases hl : b1.length < sizeofChatMessage
  · have hp1 : parseChatMessage be b1 = none := by
      unfold parseChatMessage; rw [if_pos hl]
    have hp2 : parseChatMessage be b2 = none := by
      unfold parseChatMessage; rw [← hlen, if_pos hl]
    rw [hp1, hp2]
    exact ⟨rfl, [], [], by simp, fun h => absurd rfl h⟩
  · have hp : ∀ b : List Nat, b.length = b1.length → parseChatMessage be b
        = some { chatType := (ChatMessage.load be b).chatType
                 fromId := terminate (ChatMessage.load be b).fromId 32
                 fromNick := terminate (ChatMessage.load be b).fromNick 64
                 toId := terminate (ChatMessage.load be b).toId 32
                 message := terminate (ChatMessage.load be b).message 256
                 timestamp := networkToHost64 be (ChatMessage.load be b).timestamp } := by
      intro b hb
      unfold parseChatMessage; rw [hb, if_neg hl]
    rw [hp b1 rfl, hp b2 hlen.symm]
    refine ⟨?_, forwardChat_sent _ _ _ _ _ _⟩
    apply forwardChat_congr
    · simp only [ChatMessage.load, headD_of_take_one b1 b2 hhead]
    · have e : ∀ b : List Nat, b.drop 97 = (b.drop 97).drop 0 := fun b => rfl
      simp only [ChatMessage.load]
      rw [e b1, e b2, htail]
    · have e : ∀ b : List Nat, b.drop 129 = (b.drop 97).drop 32 := by
        intro b; rw [List.drop_drop]
      simp only [ChatMessage.load]
      rw [e b1, e b2, htail]
    · have e : ∀ b : List Nat, b.drop 137 = (b.drop 97).drop 40 := by
        intro b; rw [List.drop_drop]
      simp only [ChatMessage.load]
      rw [e b1, e b2, htail]

set_option maxRecDepth 1000000 in
theorem sender_identity_witness :
    (demoHeader MSG_CHAT_MSG 393 21).msgType = MSG_CHAT_MSG
    ∧ (demoChatBody ChatScope.CHAT_GROUP "mallory" "M" "" "hi").length
        = (demoChatBody ChatScope.CHAT_GROUP "alice" "Alice" "" "hi").length
    ∧ (demoChatBody ChatScope.CHAT_GROUP "mallory" "M" "" "hi").take 1
        = (demoChatBody ChatScope.CHAT_GROUP "alice" "Alice" "" "hi").take 1
    ∧ (demoChatBody ChatScope.CHAT_GROUP "mallory" "M" "" "hi").drop 97
        = (demoChatBody ChatScope.CHAT_GROUP "alice" "Alice" "" "hi").drop 97
    ∧ demoChatBody ChatScope.CHAT_GROUP "mallory" "M" "" "hi"
        ≠ demoChatBody ChatScope.CHAT_GROUP "alice" "Alice" "" "hi"
    ∧ handleMessage false 0 1700000000 demoAll 5 (demoHeader MSG_CHAT_MSG 393 21)
          (demoChatBody ChatScope.CHAT_GROUP "mallory" "M" "" "hi")
        = handleMessage false 0 1700000000 demoAll 5 (demoHeader MSG_CHAT_MSG 393 21)
          (demoChatBody ChatScope.CHAT_GROUP "alice" "Alice" "" "hi") :=
  ⟨rfl, by decide, by decide, by decide, by decide,
    (sender_identity false 0 1700000000 demoAll 5 (demoHeader MSG_CHAT_MSG 393 21)
      (demoChatBody ChatScope.CHAT_GROUP "mallory" "M" "" "hi")
      (demoChatBody ChatScope.CHAT_GROUP "alice" "Alice" "" "hi") rfl (by decide) (by decide)
      (by decide)).1⟩

/-! ## Private chat -/

theorem getFdByClientId_of_mem (m : FdMap ClientInfo) (huniq : RosterUnique m)
    (t : Int) (tinfo : ClientInfo) (id : List Nat) (hid : id ≠ [])
    (hmem : (t, tinfo) ∈ m) (hon : tinfo.isOnline = true) (hcid : tinfo.clientId = id) :
    getFdByClientId m id = t := by
  unfold getFdByClientId
  rw [(isEmpty_false_iff id).2 hid]
  simp only [Bool.false_eq_true, if_false]
  cases hf : List.find? (fun e => e.2.isOnline && e.2.clientId == id) m with
  | none =>
    rw [List.find?_eq_none] at hf
    have := hf (t, tinfo) hmem
    simp [hon, hcid] at this
  | some e =>
    have hp := List.find?_some hf
    have he := List.mem_of_find?_eq_some hf
    simp only [Bool.and_eq_true, beq_iff_eq] at hp
    by_cases hk : e.1 = t
    · exact hk
    · have := huniq e he (t, tinfo) hmem hk hp.1 hon
      exact absurd (hp.2.trans hcid.symm) this.1

theorem getFdByClientId_none (m : FdMap ClientInfo) (id : List Nat)
    (h : id = [] ∨ ∀ e ∈ m, e.2.isOnline = true → e.2.clientId ≠ id) :
    id.isEmpty = true ∨ getFdByClientId m id < 0 := by
  by_cases hid : id = []
  · left; rw [hid]; rfl
  · right
    have h' := h.resolve_left hid
    unfold getFdByClientId
    rw [(isEmpty_false_iff id).2 hid]
    simp only [Bool.false_eq_true, if_false]
    cases hf : List.find? (fun e => e.2.isOnline && e.2.clientId == id) m with
    | none => simp
    | some e =>
      have hp := List.find?_some hf
      have he := List.mem_of_find?_eq_some hf
      simp only [Bool.and_eq_true, beq_iff_eq] at hp
      exact absurd hp.2 (h' e he hp.1)

/-- C9: private chat routing. For a CHAT_MSG with scope PRIVATE from an online connection,
in a well-formed roster with unique identities (as in every reachable state,
`reachable_roster`): if toId is non-empty and is the clientId of
an online connection `t` that has a handler, exactly one frame is sent and it goes to `t`;
if toId is empty or no online connection has that clientId, no frame is sent and the server
state does not change at all. -/
theorem private_routing (be : Bool) (now epoch : Nat) (s : Server) (c : Int)
    (header : MessageHeader) (body : List Nat) (msg : ChatMessage) (sender : ClientInfo)
    (hmsg : header.msgType = MSG_CHAT_MSG)
    (hparse : parseChatMessage be body = some msg)
    (hscope : msg.chatType = ChatScope.CHAT_PRIVATE.toNat)
    (hsender : getClientInfo s.clients c = some sender)
    (honline : sender.isOnline = true)
    (hwf : RosterWF s.clients) (huniq : RosterUnique s.clients) :
    (∀ t tinfo, fieldString msg.toId 32 ≠ [] → (t, tinfo) ∈ s.clients →
        tinfo.isOnline = true → tinfo.clientId = fieldString msg.toId 32 →
        (FdMap.find? s.clientHandlers t).isSome = true →
        (handleMessage be now epoch s c header body).sent
          = s.sent ++ [(t, chatPacket be epoch header sender msg)])
    ∧ ((fieldString msg.toId 32 = []
          ∨ ∀ e ∈ s.clients, e.2.isOnline = true → e.2.clientId ≠ fieldString msg.toId 32) →
        handleMessage be now epoch s c header body = s) := by
  have hscope' : ¬ chatScopeOf msg = ChatScope.CHAT_GROUP := by
    unfold chatScopeOf
    rw [hscope]
    decide
  have hstep : handleMessage be now epoch s c header body
      = if (fieldString msg.toId 32).isEmpty then s
        else if getFdByClientId s.clients (fieldString msg.toId 32) < 0 then s
        else (sendResponse s (getFdByClientId s.clients (fieldString msg.toId 32))
                (chatPacket be epoch header sender msg)).1 := by
    rw [handleMessage_chat be now epoch s c header body hmsg]
    unfold handleChatMessage
    rw [hparse]
    simp only []
    unfold forwardChat
    rw [hsender]
    simp only [honline, Bool.not_true, Bool.false_eq_true, if_false, hscope']
  constructor
  · intro t tinfo hne hmem hon hcid hh
    have ht := getFdByClientId_of_mem s.clients huniq t tinfo _ hne hmem hon hcid
    have hpos : ¬ t < 0 := by
      have := (hwf.2 (t, tinfo) hmem).2
      simp only at this
      omega
    rw [hstep, ht, (isEmpty_false_iff _).2 hne]
    simp only [Bool.false_eq_true, if_false, hpos]
    rw [(sendResponse_fields _ _ _).2.2.2.2.1, if_pos hh]
  · intro h
    rw [hstep]
    rcases getFdByClientId_none s.clients _ h with h1 | h1
    · rw [if_pos h1]
    · simp only [h1, if_true, ite_self]

set_option maxRecDepth 1000000 in
theorem private_routing_witness :
    (demoHeader MSG_CHAT_MSG 393 22).msgType = MSG_CHAT_MSG
    ∧ parseChatMessage false (demoChatBody ChatScope.CHAT_PRIVATE "alice" "Alice" "bob" "yo")
        = some (demoChatMsg (demoChatBody ChatScope.CHAT_PRIVATE "alice" "Alice" "bob" "yo"))
    ∧ (demoChatMsg (demoChatBody ChatScope.CHAT_PRIVATE "alice" "Alice" "bob" "yo")).chatType
        = ChatScope.CHAT_PRIVATE.toNat
    ∧ getClientInfo demoAll.clients 5 = some (demoEntry demoAll 5)
    ∧ (demoEntry demoAll 5).isOnline = true
    ∧ RosterWF demoAll.clients ∧ RosterUnique demoAll.clients
    ∧ (handleMessage false 0 1700000000 demoAll 5 (demoHeader MSG_CHAT_MSG 393 22)
          (demoChatBody ChatScope.CHAT_PRIVATE "alice" "Alice" "bob" "yo")).sent
        = demoAll.sent
          ++ [(6, packChatMessage false 22 ChatScope.CHAT_PRIVATE (ascii "alice")
                (ascii "Alice") (ascii "bob") (ascii "yo") 1700000000)]
    ∧ handleMessage false 0 1700000000 demoAlice 5 (demoHeader MSG_CHAT_MSG 393 22)
          (demoChatBody ChatScope.CHAT_PRIVATE "alice" "Alice" "bob" "yo") = demoAlice := by
  have h := private_routing false 0 1700000000 demoAll 5 (demoHeader MSG_CHAT_MSG 393 22)
    (demoChatBody ChatScope.CHAT_PRIVATE "alice" "Alice" "bob" "yo")
    (demoChatMsg (demoChatBody ChatScope.CHAT_PRIVATE "alice" "Alice" "bob" "yo"))
    (demoEntry demoAll 5) rfl (by decide) (by decide) (by decide) (by decide) (by decide)
    (by decide)
  have h' := private_routing false 0 1700000000 demoAlice 5 (demoHeader MSG_CHAT_MSG 393 22)
    (demoChatBody ChatScope.CHAT_PRIVATE "alice" "Alice" "bob" "yo")
    (demoChatMsg (demoChatBody ChatScope.CHAT_PRIVATE "alice" "Alice" "bob" "yo"))
    (demoEntry demoAlice 5) rfl (by decide) (by decide) (by decide) (by decide) (by decide)
    (by decide)
  refine ⟨rfl, by decide, by decide, by decide, by decide, by decide, by decide, ?_,
    h'.2 (Or.inr (by decide))⟩
  rw [h.1 6 (demoEntry demoAll 6) (by decide) (by decide) (by decide) (by decide) (by decide)]
  decide

/-! ## File sessions name online connections -/

theorem isOnlineFd_key (m : FdMap ClientInfo) (hwf : RosterWF m) (k : Int)
    (h : isOnlineFd m k = true) : 0 ≤ k := by
  unfold isOnlineFd at h
  cases hf : FdMap.find? m k with
  | none => rw [hf] at h; simp at h
  | some v => exact (hwf.2 (k, v) (FdMap.find?_mem m k v hf)).2

theorem getFdByClientId_online (m : FdMap ClientInfo) (hwf : RosterWF m) (id : List Nat)
    (h : 0 ≤ getFdByClientId m id) : isOnlineFd m (getFdByClientId m id) = true := by
  unfold getFdByClientId at h ⊢
  by_cases he : id.isEmpty = true
  · rw [if_pos he] at h; omega
  · rw [if_neg he] at h ⊢
    cases hf : List.find? (fun e => e.2.isOnline && e.2.clientId == id) m with
    | none => rw [hf] at h; simp at h
    | some e =>
      have hp := List.find?_some hf
      have hm := List.mem_of_find?_eq_some hf
      simp only [Bool.and_eq_true] at hp
      simp only []
      unfold isOnlineFd
      rw [FdMap.mem_find? m e.1 e.2 hwf.1 hm]
      exact hp.1

theorem isOnlineFd_modify (m : FdMap ClientInfo) (c : Int) (f : ClientInfo → ClientInfo)
    (hf : ∀ i, i.isOnline = true → (f i).isOnline = true) (k : Int)
    (h : isOnlineFd m k = true) : isOnlineFd (FdMap.modify m c f) k = true := by
  unfold isOnlineFd at h ⊢
  rw [FdMap.find?_modify]
  by_cases hk : k = c
  · rw [if_pos hk]
    rw [hk] at h
    cases hfind : FdMap.find? m c with
    | none => rw [hfind] at h; simp at h
    | some v => rw [hfind] at h; exact hf v h
  · rw [if_neg hk]; exact h

theorem fsFind_mem (t : List (List Nat × FileSession)) (fileId : List Nat)
    (found : FileSession) (h : fsFind t fileId = some found) : ∃ k, (k, found) ∈ t := by
  unfold fsFind at h
  cases hf : List.find? (fun e => e.1 == fileId) t with
  | none => rw [hf] at h; simp at h
  | some e =>
    rw [hf] at h
    simp only [Option.map_some', Option.some.injEq] at h
    exact ⟨e.1, by rw [← h]; exact List.mem_of_find?_eq_some hf⟩

theorem isOnlineFd_of_getClientInfo (m : FdMap ClientInfo) (c : Int) (info : ClientInfo)
    (h : getClientInfo m c = some info) (ho : ¬ (!info.isOnline) = true) :
    isOnlineFd m c = true := by
  unfold isOnlineFd
  unfold getClientInfo at h
  rw [h]
  simpa using ho

theorem handleFileOffer_sessions_eq (be : Bool) (s : Server) (c : Int) (header : MessageHeader)
    (body : List Nat) :
    (handleFileOffer be s c header body).clients = s.clients
    ∧ ((handleFileOffer be s c header body).fileSessions = s.fileSessions
      ∨ ∃ fileId toId, isOnlineFd s.clients c = true
        ∧ 0 ≤ getFdByClientId s.clients toId
        ∧ (handleFileOffer be s c header body).fileSessions
            = fsInsert s.fileSessions fileId ⟨c, getFdByClientId s.clients toId⟩) := by
  refine ⟨(handleFileOffer_roster be s c header body).1, ?_⟩
  unfold handleFileOffer
  simp only []
  repeat' first
    | exact Or.inl rfl
    | exact Or.inl (sendResponse_fields _ _ _).2.1
    | split
  · rename_i _ offer _ _ info hinfo ho _ _ _ _ ht
    refine Or.inr ⟨fieldString offer.fileId 37, fieldString offer.toId 32,
      isOnlineFd_of_getClientInfo _ _ _ hinfo ho, ht, ?_⟩
    show fsInsert (sendResponse _ _ _).1.fileSessions _ _ = _
    rw [(sendResponse_fields _ _ _).2.1]
  · rename_i h1 h2 h3 h4 h5
    exfalso
    simp only [h2, Bool.true_and, decide_eq_true_eq] at h3
    omega
  · rename_i h1 h2 h3 h4 h5
    exfalso
    simp only [h2, Bool.true_and, decide_eq_true_eq] at h3
    omega
  all_goals first
    | (exfalso; omega)
    | (exfalso; simp_all)

/-- When every session joins online connections, a file-offer response only removes
sessions. -/
theorem handleFileOfferResponse_sessions (be : Bool) (s : Server) (c : Int)
    (header : MessageHeader) (body : List Nat) (hwf : RosterWF s.clients)
    (hso : SessionsOnline s) :
    ∀ e ∈ (handleFileOfferResponse be s c header body).fileSessions, e ∈ s.fileSessions := by
  have hrecv : ∀ id found, fsFind s.fileSessions id = some found → ¬ found.receiverFd = -1 := by
    intro id found hf
    obtain ⟨k, hk⟩ := fsFind_mem _ _ _ hf
    have := isOnlineFd_key _ hwf _ (hso (k, found) hk).2
    simp only at this
    omega
  unfold handleFileOfferResponse
  simp only []
  repeat' first
    | exact fun e he => he
    | split
  all_goals first
    | (exfalso
       have := hrecv _ _ ‹fsFind _ _ = some _›
       simp_all
       done)
    | (intro e he
       first
       | exact he
       | exact (List.mem_filter.1 he).1
       | (rw [(sendResponse_fields _ _ _).2.1] at he
          first
          | exact he
          | exact (List.mem_filter.1 he).1))

theorem rosterWF_message (be : Bool) (now epoch : Nat) (s : Server) (c : Int)
    (header : MessageHeader) (body : List Nat) (h : RosterWF s.clients) :
    RosterWF (handleMessage be now epoch s c header body).clients := by
  rcases (handleMessage_roster be now epoch s c header body).2 with e | e | ⟨id, nick, _, _, _, _, _, e⟩
  · rw [e]; exact h
  · rw [e]; exact rosterWF_modify _ _ _ (fun _ => rfl) h
  · rw [e]; exact rosterWF_setClientIdentity _ _ _ _ h

theorem sessionsOnline_of (s t : Server) (hso : SessionsOnline s)
    (hmono : ∀ k, isOnlineFd s.clients k = true → isOnlineFd t.clients k = true)
    (hfs : ∀ e ∈ t.fileSessions, e ∈ s.fileSessions
      ∨ (isOnlineFd s.clients e.2.senderFd = true ∧ isOnlineFd s.clients e.2.receiverFd = true)) :
    SessionsOnline t := by
  intro e he
  rcases hfs e he with h | h
  · exact ⟨hmono _ (hso e h).1, hmono _ (hso e h).2⟩
  · exact ⟨hmono _ h.1, hmono _ h.2⟩

theorem sessionsOnline_onlySends (s t : Server) (hso : SessionsOnline s) (h : OnlySends s t) :
    SessionsOnline t :=
  sessionsOnline_of s t hso (fun k hk => by rw [h.1]; exact hk)
    (fun e he => by rw [h.2.1] at he; exact Or.inl he)

theorem isOnlineFd_setClientIdentity (m : FdMap ClientInfo) (c : Int)
    (clientId nickname : List Nat) (k : Int) (h : isOnlineFd m k = true) :
    isOnlineFd (setClientIdentity m c clientId nickname).1 k = true := by
  unfold setClientIdentity
  split
  · exact h
  · exact isOnlineFd_modify m c _ (fun _ _ => rfl) k h

/-- A dispatched message keeps every file session between online connections. -/
theorem sessionsOnline_message (be : Bool) (now epoch : Nat) (s : Server) (c : Int)
    (header : MessageHeader) (body : List Nat) (hwf : RosterWF s.clients)
    (hso : SessionsOnline s) :
    SessionsOnline (handleMessage be now epoch s c header body) := by
  unfold handleMessage
  split
  · split
    · exact hso
    · have h := sendResponse_fields { s with clients := updateHeartbeat s.clients c now } c
        (packHeartbeatResponse be header.sequence)
      apply sessionsOnline_of s _ hso
      · intro k hk
        rw [h.1]
        exact isOnlineFd_modify s.clients c (fun info => { info with lastHeartbeat := now })
          (fun _ hi => hi) k hk
      · intro e he
        rw [h.2.1] at he
        exact Or.inl he
  · split
    · have h := handleLogin_roster be s c header body
      apply sessionsOnline_of s _ hso
      · intro k hk
        rcases h.2.2 with e | ⟨id, nick, _, _, _, _, _, e⟩
        · rw [e]; exact hk
        · rw [e]; exact isOnlineFd_setClientIdentity _ _ _ _ _ hk
      · intro e he
        rw [h.1] at he
        exact Or.inl he
    · split
      · exact hso
      · split
        · exact sessionsOnline_onlySends _ _ hso (handleChatMessage_onlySends _ _ _ _ _ _)
        · split
          · exact sessionsOnline_onlySends _ _ hso (handleUserListRequest_onlySends _ _ _ _)
          · split
            · have h := handleFileOffer_sessions_eq be s c header body
              apply sessionsOnline_of s _ hso
              · intro k hk; rw [h.1]; exact hk
              · intro e he
                rcases h.2 with h2 | ⟨fileId, toId, h3, h4, h5⟩
                · rw [h2] at he; exact Or.inl he
                · rw [h5] at he
                  simp only [fsInsert, fsErase, List.mem_append, List.mem_filter,
                    List.mem_singleton] at he
                  rcases he with he | he
                  · exact Or.inl he.1
                  · right; rw [he]
                    exact ⟨h3, getFdByClientId_online _ hwf _ h4⟩
            · split
              · apply sessionsOnline_of s _ hso
                · intro k hk
                  rw [(handleFileOfferResponse_roster be s c header body).1]; exact hk
                · intro e he
                  exact Or.inl (handleFileOfferResponse_sessions be s c header body hwf hso e he)
              · split
                · exact sessionsOnline_onlySends _ _ hso (handleFileData_onlySends _ _ _ _ _)
                · exact hso

theorem isOnlineFd_insert_fresh (m : FdMap ClientInfo) (fd : Int) (v : ClientInfo) (k : Int)
    (hfresh : FdMap.find? m fd = none) (hk : isOnlineFd m k = true) :
    isOnlineFd (FdMap.insert m fd v) k = true := by
  unfold isOnlineFd at hk ⊢
  rw [FdMap.find?_insert]
  by_cases h : k = fd
  · rw [h, hfresh] at hk; simp at hk
  · rw [if_neg h]; exact hk

/-- An accept of a descriptor that is not in the roster keeps the sessions online. -/
theorem sessionsOnline_accept (s : Server) (fd : Int) (ip : List Nat) (port : Int) (now : Nat)
    (hfresh : FdMap.find? s.clients fd = none) (hso : SessionsOnline s) :
    SessionsOnline (registerClient s fd ip port now) := by
  intro e he
  have h := hso e he
  exact ⟨isOnlineFd_insert_fresh _ _ _ _ hfresh h.1, isOnlineFd_insert_fresh _ _ _ _ hfresh h.2⟩

/-- A disconnect erases the sessions of the descriptor and keeps the others online. -/
theorem sessionsOnline_disconnect (be : Bool) (s : Server) (fd : Int)
    (hso : SessionsOnline s) : SessionsOnline (handleClientDisconnect be s fd) := by
  unfold handleClientDisconnect
  split
  · exact hso
  · have core : SessionsOnline
        { s with clientHandlers := FdMap.erase s.clientHandlers fd
                 clients := removeClient s.clients fd
                 recvBuffers := FdMap.erase s.recvBuffers fd
                 fileSessions := cleanupFileSessionsForFd s.fileSessions fd } := by
      intro e he
      simp only [cleanupFileSessionsForFd, List.mem_filter, Bool.not_eq_true',
        Bool.or_eq_false_iff, decide_eq_false_iff_not] at he
      have h := hso e he.1
      have key : ∀ k, k ≠ fd → isOnlineFd s.clients k = true
          → isOnlineFd (removeClient s.clients fd) k = true := by
        intro k hk hon
        unfold isOnlineFd removeClient at *
        rw [FdMap.find?_erase, if_neg hk]; exact hon
      exact ⟨key _ he.2.1 h.1, key _ he.2.2 h.2⟩
    simp only []
    split
    · exact sessionsOnline_onlySends _ _ core (broadcastUserList_onlySends be _)
    · exact core

/-- In every reachable state, when accepted descriptors are fresh, the roster is well formed
and both endpoints of every file session are online connections. -/
theorem reachable_sessions (be : Bool) (s : Server) (h : ReachableFresh be s) :
    RosterWF s.clients ∧ SessionsOnline s := by
  induction h with
  | start running script =>
    exact ⟨⟨List.Pairwise.nil, fun e he => by simp [Server.initial] at he⟩,
      fun e he => by simp [Server.initial] at he⟩
  | accept fd ip port now hfd hfresh _ ih =>
    exact ⟨rosterWF_addClient _ _ _ _ _ hfd ih.1, sessionsOnline_accept _ _ _ _ _ hfresh ih.2⟩
  | message now epoch fd header body _ ih =>
    exact ⟨rosterWF_message _ _ _ _ _ _ _ ih.1, sessionsOnline_message _ _ _ _ _ _ _ ih.1 ih.2⟩
  | disconnect fd _ ih =>
    refine ⟨?_, sessionsOnline_disconnect be _ fd ih.2⟩
    rw [handleClientDisconnect_clients]
    split
    · exact ih.1
    · exact rosterWF_removeClient _ _ ih.1
  | queued fd _ ih => exact ih
  | environment running script _ ih => exact ih

/-! ## Anonymous connections -/

theorem forwardChat_offline (be : Bool) (epoch : Nat) (s : Server) (c : Int)
    (header : MessageHeader) (msg : ChatMessage) (info : ClientInfo)
    (hinfo : getClientInfo s.clients c = some info) (hoff : info.isOnline = false) :
    forwardChat be epoch s c header msg = s := by
  unfold forwardChat
  rw [hinfo]
  simp [hoff]

theorem handleFileOffer_offline (be : Bool) (s : Server) (c : Int) (header : MessageHeader)
    (body : List Nat) (info : ClientInfo)
    (hinfo : getClientInfo s.clients c = some info) (hoff : info.isOnline = false) :
    handleFileOffer be s c header body = s := by
  unfold handleFileOffer
  rw [hinfo]
  split
  · rfl
  · simp [hoff]

theorem handleFileOfferResponse_stranger (be : Bool) (s : Server) (c : Int)
    (header : MessageHeader) (body : List Nat)
    (h : ∀ e ∈ s.fileSessions, e.2.receiverFd ≠ -1 ∧ e.2.receiverFd ≠ c) :
    handleFileOfferResponse be s c header body = s := by
  unfold handleFileOfferResponse
  split
  · rfl
  · simp only []
    split
    · rfl
    · split
      · rfl
      · rename_i found hf
        obtain ⟨k, hk⟩ := fsFind_mem _ _ _ hf
        have := h (k, found) hk
        simp only at this
        simp [this.1, this.2]

theorem handleFileData_stranger (be : Bool) (s : Server) (c : Int)
    (header : MessageHeader) (body : List Nat)
    (h : ∀ e ∈ s.fileSessions, e.2.senderFd ≠ c ∧ e.2.receiverFd ≠ c) :
    handleFileData be s c header body = s := by
  unfold handleFileData
  simp only []
  split
  · rfl
  · split
    · rfl
    · rename_i session hf
      obtain ⟨k, hk⟩ := fsFind_mem _ _ _ hf
      have := h (k, session) hk
      simp only at this
      have h1 : ¬ c = session.senderFd := fun e => this.1 e.symm
      have h2 : ¬ c = session.receiverFd := fun e => this.2 e.symm
      simp [h1, h2]

/-- C10 (as amended): anonymous connections are restricted. In every reachable server state
(accepted descriptors being fresh), for a connection that is in the roster but not online, every message whose type is none of
HEARTBEAT_REQ, LOGIN_REQ and LOGOUT_REQ is ignored: handling it leaves the whole server
state as it was, so no frame is sent and the roster, the file-session table and the
pending-disconnect queue are unchanged. -/
theorem anonymous_ignored (be : Bool) (now epoch : Nat) (s : Server) (c : Int)
    (header : MessageHeader) (body : List Nat) (info : ClientInfo)
    (hr : ReachableFresh be s)
    (hinfo : getClientInfo s.clients c = some info) (hoff : info.isOnline = false)
    (h1 : header.msgType ≠ MSG_HEARTBEAT_REQ) (h2 : header.msgType ≠ MSG_LOGIN_REQ)
    (h3 : header.msgType ≠ MSG_LOGOUT_REQ) :
    handleMessage be now epoch s c header body = s := by
  have inv := reachable_sessions be s hr
  have hc : isOnlineFd s.clients c = false := by
    unfold isOnlineFd
    unfold getClientInfo at hinfo
    rw [hinfo]; exact hoff
  have hends : ∀ e ∈ s.fileSessions,
      e.2.senderFd ≠ c ∧ e.2.receiverFd ≠ c ∧ e.2.receiverFd ≠ -1 := by
    intro e he
    have h := inv.2 e he
    refine ⟨?_, ?_, ?_⟩
    · intro e1; rw [e1, hc] at h; simp at h
    · intro e1; rw [e1, hc] at h; simp at h
    · have := isOnlineFd_key _ inv.1 _ h.2
      omega
  unfold handleMessage
  simp only [h1, h2, h3, if_false]
  split
  · unfold handleChatMessage
    split
    · rfl
    · exact forwardChat_offline _ _ _ _ _ _ info hinfo hoff
  · split
    · unfold handleUserListRequest
      rw [hinfo]
      simp [hoff]
    · split
      · exact handleFileOffer_offline _ _ _ _ _ info hinfo hoff
      · split
        · exact handleFileOfferResponse_stranger _ _ _ _ _
            (fun e he => ⟨(hends e he).2.2, (hends e he).2.1⟩)
        · split
          · exact handleFileData_stranger _ _ _ _ _
              (fun e he => ⟨(hends e he).1, (hends e he).2.1⟩)
          · rfl

theorem demoAlice_reachableFresh : ReachableFresh false demoAlice :=
  ReachableFresh.message 0 0 5 _ _
    (ReachableFresh.accept 7 [] 1 0 (by decide) (by decide)
      (ReachableFresh.accept 6 [] 1 0 (by decide) (by decide)
        (ReachableFresh.accept 5 [] 1 0 (by decide) (by decide)
          (ReachableFresh.start true []))))

set_option maxRecDepth 1000000 in
theorem anonymous_ignored_witness :
    ReachableFresh false demoAlice
    ∧ getClientInfo demoAlice.clients 6 = some (demoEntry demoAlice 6)
    ∧ (demoEntry demoAlice 6).isOnline = false
    ∧ (demoHeader MSG_CHAT_MSG 393 21).msgType ≠ MSG_HEARTBEAT_REQ
    ∧ (demoHeader MSG_CHAT_MSG 393 21).msgType ≠ MSG_LOGIN_REQ
    ∧ (demoHeader MSG_CHAT_MSG 393 21).msgType ≠ MSG_LOGOUT_REQ
    ∧ handleMessage false 0 0 demoAlice 6 (demoHeader MSG_CHAT_MSG 393 21)
        (demoChatBody ChatScope.CHAT_GROUP "bob" "Bob" "" "hi") = demoAlice :=
  ⟨demoAlice_reachableFresh, by decide, by decide, by decide, by decide, by decide,
    anonymous_ignored false 0 0 demoAlice 6 (demoHeader MSG_CHAT_MSG 393 21)
      (demoChatBody ChatScope.CHAT_GROUP "bob" "Bob" "" "hi") (demoEntry demoAlice 6)
      demoAlice_reachableFresh (by decide) (by decide) (by decide) (by decide) (by decide)⟩

set_option maxRecDepth 1000000 in
/-- C10 (as stated) fails: connection 6 is in the roster and not online, its LOGOUT_REQ is
neither a HEARTBEAT_REQ nor a LOGIN_REQ, and handling it puts 6 on the pending-disconnect
queue. -/
theorem anonymous_logout_queues :
    ReachableFresh false demoAlice
    ∧ getClientInfo demoAlice.clients 6 = some (demoEntry demoAlice 6)
    ∧ (demoEntry demoAlice 6).isOnline = false
    ∧ (demoHeader MSG_LOGOUT_REQ 0 31).msgType ≠ MSG_HEARTBEAT_REQ
    ∧ (demoHeader MSG_LOGOUT_REQ 0 31).msgType ≠ MSG_LOGIN_REQ
    ∧ demoAlice.pendingDisconnects = []
    ∧ (handleMessage false 0 0 demoAlice 6 (demoHeader MSG_LOGOUT_REQ 0 31)
        []).pendingDisconnects = [6] :=
  ⟨demoAlice_reachableFresh, by decide, by decide, by decide, by decide, by decide, by decide⟩

/-! ## Every roster entry has a handler -/

theorem sendResponse_handlers (s : Server) (fd : Int) (data : List Nat) :
    (sendResponse s fd data).1.clientHandlers.map Prod.fst = s.clientHandlers.map Prod.fst :=
  (sendResponse_fields s fd data).2.2.2.2.2

theorem sendToAll_handlers (s : Server) (targets : List Int) (packet : List Nat) :
    (sendToAll s targets packet).clientHandlers.map Prod.fst = s.clientHandlers.map Prod.fst :=
  (sendToAll_fields s targets packet).2.2.2.2.2

theorem broadcastUserList_handlers (be : Bool) (s : Server) :
    (broadcastUserList be s).clientHandlers.map Prod.fst = s.clientHandlers.map Prod.fst := by
  unfold broadcastUserList
  simp only []
  split
  · rfl
  · exact sendToAll_handlers _ _ _

theorem offerToAll_handlers (s : Server) (fd : Int) (packet : List Nat)
    (targets : List ClientInfo) (sent : Bool) :
    (offerToAll s fd packet targets sent).1.clientHandlers.map Prod.fst
      = s.clientHandlers.map Prod.fst := by
  induction targets generalizing s sent with
  | nil => rfl
  | cons t rest ih =>
    simp only [offerToAll]
    split
    · exact ih s sent
    · exact (ih _ _).trans (sendResponse_handlers s t.fd packet)

theorem handleLogin_handlers (be : Bool) (s : Server) (c : Int) (header : MessageHeader)
    (body : List Nat) :
    (handleLogin be s c header body).clientHandlers.map Prod.fst
      = s.clientHandlers.map Prod.fst := by
  unfold handleLogin
  simp only []
  repeat' first
    | exact sendResponse_handlers _ _ _
    | exact (broadcastUserList_handlers _ _).trans (sendResponse_handlers _ _ _)
    | split

theorem forwardChat_handlers (be : Bool) (epoch : Nat) (s : Server) (c : Int)
    (header : MessageHeader) (msg : ChatMessage) :
    (forwardChat be epoch s c header msg).clientHandlers.map Prod.fst
      = s.clientHandlers.map Prod.fst := by
  unfold forwardChat
  simp only []
  repeat' first
    | rfl
    | exact sendResponse_handlers _ _ _
    | exact sendToAll_handlers _ _ _
    | split

theorem handleFileOffer_handlers (be : Bool) (s : Server) (c : Int) (header : MessageHeader)
    (body : List Nat) :
    (handleFileOffer be s c header body).clientHandlers.map Prod.fst
      = s.clientHandlers.map Prod.fst := by
  unfold handleFileOffer
  simp only []
  repeat' first
    | rfl
    | exact sendResponse_handlers _ _ _
    | exact offerToAll_handlers _ _ _ _ _
    | exact (sendResponse_handlers _ _ _).trans (offerToAll_handlers _ _ _ _ _)
    | split

theorem handleFileOfferResponse_handlers (be : Bool) (s : Server) (c : Int)
    (header : MessageHeader) (body : List Nat) :
    (handleFileOfferResponse be s c header body).clientHandlers.map Prod.fst
      = s.clientHandlers.map Prod.fst := by
  unfold handleFileOfferResponse
  simp only []
  repeat' first
    | rfl
    | exact sendResponse_handlers _ _ _
    | split

theorem handleFileData_handlers (be : Bool) (s : Server) (c : Int) (header : MessageHeader)
    (body : List Nat) :
    (handleFileData be s c header body).clientHandlers.map Prod.fst
      = s.clientHandlers.map Prod.fst := by
  unfold handleFileData
  simp only []
  repeat' first
    | rfl
    | exact sendResponse_handlers _ _ _
    | split

/-- A dispatched message neither adds nor removes a handler. -/
theorem handleMessage_handlers (be : Bool) (now epoch : Nat) (s : Server) (c : Int)
    (header : MessageHeader) (body : List Nat) :
    (handleMessage be now epoch s c header body).clientHandlers.map Prod.fst
      = s.clientHandlers.map Prod.fst := by
  unfold handleMessage handleChatMessage handleUserListRequest sendUserList
  simp only []
  repeat' first
    | rfl
    | exact sendResponse_handlers _ _ _
    | exact handleLogin_handlers _ _ _ _ _
    | exact forwardChat_handlers _ _ _ _ _ _
    | exact handleFileOffer_handlers _ _ _ _ _
    | exact handleFileOfferResponse_handlers _ _ _ _ _
    | exact handleFileData_handlers _ _ _ _ _
    | split

theorem handleMessage_rosterKeys (be : Bool) (now epoch : Nat) (s : Server) (c : Int)
    (header : MessageHeader) (body : List Nat) :
    (handleMessage be now epoch s c header body).clients.map Prod.fst
      = s.clients.map Prod.fst := by
  rcases (handleMessage_roster be now epoch s c header body).2 with e | e | ⟨id, nick, _, _, _, _, _, e⟩
  · rw [e]
  · rw [e]; exact FdMap.keys_modify _ _ _
  · rw [e]
    unfold setClientIdentity
    split
    · rfl
    · exact FdMap.keys_modify _ _ _

theorem handlersCover_of_keys (s t : Server) (h : HandlersCover s)
    (hc : t.clients.map Prod.fst = s.clients.map Prod.fst)
    (hh : t.clientHandlers.map Prod.fst = s.clientHandlers.map Prod.fst) : HandlersCover t := by
  intro e he
  have h1 : e.1 ∈ t.clients.map Prod.fst := List.mem_map_of_mem _ he
  rw [hc, List.mem_map] at h1
  obtain ⟨e0, he0, hk⟩ := h1
  rw [hasHandler_congr _ _ hh, ← hk]
  exact h e0 he0

theorem handlersCover_accept (s : Server) (fd : Int) (ip : List Nat) (port : Int) (now : Nat)
    (h : HandlersCover s) : HandlersCover (registerClient s fd ip port now) := by
  intro e he
  have hkey : ∀ k, (FdMap.find? s.clientHandlers k).isSome = true ∨ k = fd →
      (FdMap.find? (registerClient s fd ip port now).clientHandlers k).isSome = true := by
    intro k hk
    unfold registerClient
    simp only []
    cases hf : FdMap.find? s.clientHandlers fd with
    | none =>
      simp only []
      rw [FdMap.find?_insert]
      by_cases hkf : k = fd
      · simp [hkf]
      · rw [if_neg hkf]; exact hk.resolve_right hkf
    | some v =>
      simp only []
      rw [FdMap.find?_modify]
      by_cases hkf : k = fd
      · simp [hkf, hf]
      · rw [if_neg hkf]; exact hk.resolve_right hkf
  rcases FdMap.mem_insert _ _ _ e he with h1 | h1
  · exact hkey _ (Or.inr (by rw [h1]))
  · exact hkey _ (Or.inl (h e h1))

theorem handlersCover_disconnect (be : Bool) (s : Server) (fd : Int) (h : HandlersCover s) :
    HandlersCover (handleClientDisconnect be s fd) := by
  unfold handleClientDisconnect
  split
  · exact h
  · have core : HandlersCover
        { s with clientHandlers := FdMap.erase s.clientHandlers fd
                 clients := removeClient s.clients fd
                 recvBuffers := FdMap.erase s.recvBuffers fd
                 fileSessions := cleanupFileSessionsForFd s.fileSessions fd } := by
      intro e he
      simp only [removeClient, FdMap.erase, List.mem_filter, bne_iff_ne, ne_eq] at he
      show (FdMap.find? (FdMap.erase s.clientHandlers fd) e.1).isSome = true
      rw [FdMap.find?_erase, if_neg he.2]
      exact h e he.1
    simp only []
    split
    · exact handlersCover_of_keys _ _ core (by rw [(broadcastUserList_onlySends be _).1])
        (broadcastUserList_handlers be _)
    · exact core

/-- In every reachable state the roster is well formed, its online identities are unique and
every connection of the roster has a handler. -/
theorem reachable_roster (be : Bool) (s : Server) (h : Reachable be s) :
    RosterWF s.clients ∧ RosterUnique s.clients
      ∧ ∀ e ∈ s.clients, (FdMap.find? s.clientHandlers e.1).isSome = true := by
  induction h with
  | start running script =>
    exact ⟨⟨List.Pairwise.nil, fun e he => by simp [Server.initial] at he⟩,
      fun e he => by simp [Server.initial] at he, fun e he => by simp [Server.initial] at he⟩
  | accept fd ip port now hfd _ ih =>
    have r := roster_accept _ fd ip port now hfd ⟨ih.1, ih.2.1⟩
    exact ⟨r.1, r.2, handlersCover_accept _ fd ip port now ih.2.2⟩
  | message now epoch fd header body _ ih =>
    have r := roster_message be now epoch _ fd header body ⟨ih.1, ih.2.1⟩
    exact ⟨r.1, r.2, handlersCover_of_keys _ _ ih.2.2 (handleMessage_rosterKeys _ _ _ _ _ _ _)
      (handleMessage_handlers _ _ _ _ _ _ _)⟩
  | disconnect fd _ ih =>
    have r := roster_disconnect be _ fd ⟨ih.1, ih.2.1⟩
    exact ⟨r.1, r.2, handlersCover_disconnect be _ fd ih.2.2⟩
  | queued fd _ ih => exact ih
  | environment running script _ ih => exact ih

/-! ## The number of online sessions -/

theorem onlineCount_insert_offline (m : FdMap ClientInfo) (fd : Int) (info : ClientInfo)
    (h : info.isOnline = false) :
    getOnlineCount (FdMap.insert m fd info) ≤ getOnlineCount m := by
  induction m with
  | nil => simp [FdMap.insert, getOnlineCount, h]
  | cons e rest ih =>
    obtain ⟨k, w⟩ := e
    unfold FdMap.insert
    split
    · simp [getOnlineCount, h]
    · split
      · simp only [getOnlineCount, List.filter_cons, h, Bool.false_eq_true, if_false]
        split
        · simp
        · exact le_refl _
      · simp only [getOnlineCount, List.filter_cons] at ih ⊢
        split
        · simp only [List.length_cons]; omega
        · exact ih

theorem onlineCount_erase (m : FdMap ClientInfo) (fd : Int) :
    getOnlineCount (FdMap.erase m fd) ≤ getOnlineCount m := by
  unfold getOnlineCount FdMap.erase
  exact (List.Sublist.filter _ (List.filter_sublist m)).length_le

theorem onlineCount_modify_same (m : FdMap ClientInfo) (fd : Int) (f : ClientInfo → ClientInfo)
    (hf : ∀ i, (f i).isOnline = i.isOnline) :
    getOnlineCount (FdMap.modify m fd f) = getOnlineCount m := by
  induction m with
  | nil => rfl
  | cons e rest ih =>
    obtain ⟨k, w⟩ := e
    unfold FdMap.modify
    split
    · simp only [getOnlineCount, List.filter_cons, hf]
      split <;> simp
    · simp only [getOnlineCount, List.filter_cons] at ih ⊢
      split
      · simp only [List.length_cons, ih]
      · exact ih

theorem onlineCount_modify_le (m : FdMap ClientInfo) (fd : Int) (f : ClientInfo → ClientInfo) :
    getOnlineCount (FdMap.modify m fd f) ≤ getOnlineCount m + 1 := by
  induction m with
  | nil => simp [FdMap.modify, getOnlineCount]
  | cons e rest ih =>
    obtain ⟨k, w⟩ := e
    unfold FdMap.modify
    split
    · simp only [getOnlineCount, List.filter_cons]
      split <;> split <;> first | (simp only [List.length_cons]; omega) | omega
    · simp only [getOnlineCount, List.filter_cons] at ih ⊢
      split
      · simp only [List.length_cons]; omega
      · exact ih

theorem onlineCount_setClientIdentity (m : FdMap ClientInfo) (fd : Int)
    (clientId nickname : List Nat) :
    getOnlineCount (setClientIdentity m fd clientId nickname).1 ≤ getOnlineCount m + 1 := by
  unfold setClientIdentity
  split
  · exact Nat.le_succ _
  · exact onlineCount_modify_le _ _ _

/-- A dispatched message keeps the online count within the cap. -/
theorem onlineCount_message (be : Bool) (now epoch : Nat) (s : Server) (c : Int)
    (header : MessageHeader) (body : List Nat)
    (h : getOnlineCount s.clients ≤ kMaxOnlineClients) :
    getOnlineCount (handleMessage be now epoch s c header body).clients ≤ kMaxOnlineClients := by
  rcases (handleMessage_roster be now epoch s c header body).2 with
    e | e | ⟨id, nick, _, _, _, _, hlt, e⟩
  · rw [e]; exact h
  · rw [e]
    exact le_of_eq_of_le
      (onlineCount_modify_same s.clients c (fun info => { info with lastHeartbeat := now })
        (fun _ => rfl)) h
  · rw [e]
    have := onlineCount_setClientIdentity s.clients c id nick
    omega

/-- In every reachable state an online connection has a non-empty clientId and a non-empty
nickname: the login case binds an identity only after it refused the empty ones. -/
theorem reachable_identities (be : Bool) (s : Server) (h : Reachable be s) :
    ∀ e ∈ s.clients, e.2.isOnline = true → e.2.clientId ≠ [] ∧ e.2.nickname ≠ [] := by
  induction h with
  | start running script => intro e he; simp [Server.initial] at he
  | accept fd ip port now _ _ ih =>
    intro e he hon
    rcases FdMap.mem_insert _ _ _ _ he with h1 | h1
    · rw [h1] at hon; simp at hon
    · exact ih e h1 hon
  | @message s now epoch fd header body _ ih =>
    rcases (handleMessage_roster be now epoch s fd header body).2 with
      e | e | ⟨id, nick, h1, h2, _, _, _, e⟩
    · rw [e]; exact ih
    · rw [e]
      intro x hx hon
      rcases FdMap.mem_modify _ _ _ _ hx with h3 | ⟨_, v, hv, h3⟩
      · exact ih x h3 hon
      · rw [h3] at hon ⊢
        exact ih (fd, v) hv hon
    · rw [e]
      intro x hx hon
      unfold setClientIdentity at hx
      split at hx
      · exact ih x hx hon
      · rcases FdMap.mem_modify _ _ _ _ hx with h3 | ⟨_, v, hv, h3⟩
        · exact ih x h3 hon
        · rw [h3]
          exact ⟨(isEmpty_false_iff id).1 h1, (isEmpty_false_iff nick).1 h2⟩
  | @disconnect s fd _ ih =>
    rw [handleClientDisconnect_clients]
    split
    · exact ih
    · intro x hx hon
      exact ih x (List.mem_of_mem_filter hx) hon
  | queued fd _ ih => rw [(queueDisconnect_fields _ _).1]; exact ih
  | environment running script _ ih => exact ih

/-- In every reachable state the number of online sessions is within the cap
`kMaxOnlineClients`. -/
theorem reachable_onlineCount (be : Bool) (s : Server) (h : Reachable be s) :
    getOnlineCount s.clients ≤ kMaxOnlineClients := by
  induction h with
  | start running script => simp [Server.initial, getOnlineCount]
  | accept fd ip port now _ _ ih =>
    exact le_trans (onlineCount_insert_offline _ _ _ rfl) ih
  | message now epoch fd header body _ ih => exact onlineCount_message _ _ _ _ _ _ _ ih
  | disconnect fd _ ih =>
    rw [handleClientDisconnect_clients]
    split
    · exact ih
    · exact le_trans (onlineCount_erase _ _) ih
  | queued fd _ ih => rw [(queueDisconnect_fields _ _).1]; exact ih
  | environment running script _ ih => exact ih

/-- C20: online cap invariant. In every server state reachable from the empty roster by
accepts, dispatched messages and disconnects (and by the disconnect requests and the changes
of the environment that `Reachable` also allows), the number of online sessions is at most
1024. -/
theorem online_cap_invariant (be : Bool) (s : Server) (h : Reachable be s) :
    getOnlineCount s.clients ≤ 1024 :=
  reachable_onlineCount be s h

set_option maxRecDepth 1000000 in
theorem online_cap_invariant_witness :
    Reachable false demoAlice ∧ getOnlineCount demoAlice.clients = 1
      ∧ getOnlineCount demoAlice.clients ≤ 1024 :=
  ⟨demoAlice_reachable, by decide, online_cap_invariant false demoAlice demoAlice_reachable⟩

/-! ## File offers -/

theorem boundedStrnlen_le_of_nul (a r : List Nat) (n : Nat) :
    boundedStrnlen (a ++ 0 :: r) n ≤ a.length := by
  induction a generalizing n with
  | nil => cases n <;> simp [boundedStrnlen]
  | cons c cs ih =>
    cases n with
    | zero => simp [boundedStrnlen]
    | succ n =>
      show boundedStrnlen (c :: (cs ++ 0 :: r)) (n + 1) ≤ _
      rw [boundedStrnlen]
      split
      · omega
      · have := ih n
        simp only [List.length_cons]; omega

theorem fieldString_nonNul (l : List Nat) (n : Nat) :
    ∀ c ∈ fieldString l n, c % 256 ≠ 0 := by
  unfold fieldString
  induction l generalizing n with
  | nil => intro c hc; simp at hc
  | cons x xs ih =>
    cases n with
    | zero => intro c hc; simp [boundedStrnlen] at hc
    | succ n =>
      rw [boundedStrnlen]
      split
      · intro c hc; simp at hc
      · rename_i hx
        intro c hc
        rw [List.take_succ_cons] at hc
        rcases List.mem_cons.1 hc with h | h
        · rw [h]; exact hx
        · exact ih n c h

/-- The text of a field that a decoder has NUL-terminated: at most `w - 1` bytes, none of
them NUL, all of them bytes of the field. -/
theorem fieldString_terminate (f : List Nat) (w : Nat) (hw : 1 ≤ w)
    (hb : ∀ b ∈ f, b < 256) :
    (fieldString (terminate f w) w).length + 1 ≤ w
      ∧ ∀ c ∈ fieldString (terminate f w) w, 0 < c ∧ c < 256 := by
  constructor
  · have h1 : boundedStrnlen (terminate f w) w ≤ (f.take (w - 1)).length := by
      unfold terminate
      exact boundedStrnlen_le_of_nul _ [] w
    have h2 : (f.take (w - 1)).length ≤ w - 1 := by
      rw [List.length_take]; exact Nat.min_le_left _ _
    have h3 : (fieldString (terminate f w) w).length ≤ boundedStrnlen (terminate f w) w := by
      unfold fieldString; rw [List.length_take]; exact Nat.min_le_left _ _
    omega
  · intro c hc
    have h1 := fieldString_nonNul _ _ c hc
    have h2 : c ∈ terminate f w := List.mem_of_mem_take hc
    unfold terminate at h2
    rcases List.mem_append.1 h2 with h3 | h3
    · have := hb c (List.mem_of_mem_take h3)
      omega
    · simp at h3; rw [h3] at h1; simp at h1

theorem fsFind_fsInsert (t : List (List Nat × FileSession)) (fileId : List Nat)
    (session : FileSession) (k : List Nat) :
    fsFind (fsInsert t fileId session) k
      = if k = fileId then some session else fsFind t k := by
  unfold fsInsert fsErase fsFind
  induction t with
  | nil =>
    by_cases h : k = fileId
    · simp [h]
    · have : ¬ fileId = k := fun e => h e.symm
      simp [h, this]
  | cons e rest ih =>
    by_cases he : e.1 = fileId
    · simp only [List.filter_cons, he, beq_self_eq_true, Bool.not_true, Bool.false_eq_true,
        if_false, List.find?_cons]
      rw [ih]
      by_cases h : k = fileId
      · simp [h]
      · have : (fileId == k) = false := by simp; exact fun e => h e.symm
        simp [h, this]
    · have he' : (e.1 == fileId) = false := by simp [he]
      simp only [List.filter_cons, he', Bool.not_false, if_true, List.cons_append,
        List.find?_cons]
      by_cases hk : e.1 = k
      · have : ¬ k = fileId := fun x => he (hk.trans x)
        simp [hk, this]
      · have hk' : (e.1 == k) = false := by simp [hk]
        simp only [hk']
        exact ih

/-- The frame of `packFileOfferResponse` read back: a FILE_OFFER_RSP header with the given
sequence number, and a body that `parseFileOfferResponse` decodes to the given result and
fileId. -/
theorem fileOfferResponse_roundtrip (be : Bool) (sequence result : Nat)
    (fileId message : List Nat)
    (hid : ∀ c ∈ fileId, 0 < c ∧ c < 256) (hl : fileId.length + 1 ≤ 37) :
    decodeHeader be (packFileOfferResponse be sequence fileId result message)
        = { magic := MAGIC_NUMBER, version := PROTOCOL_VERSION, msgType := MSG_FILE_OFFER_RSP,
            bodyLength := 105, sequence := sequence % 2 ^ 32 }
    ∧ (packFileOfferResponse be sequence fileId result message).length = 16 + 105
    ∧ ∃ rsp, parseFileOfferResponse be
          ((packFileOfferResponse be sequence fileId result message).drop 16) = some rsp
        ∧ rsp.result = result % 2 ^ 32 ∧ fieldString rsp.fileId 37 = fileId := by
  have r1 := field_roundtrip 37 fileId hid hl
  have r2 : (strncpy (List.replicate 64 0) message (64 - 1)).length = 64 := by
    rw [strncpy_length _ _ _ (by simp)]; simp
  have hh := headerBytes_length be (mkHeader be MSG_FILE_OFFER_RSP sizeofFileOfferResponse
    sequence)
  have hm : (memStore be 4 (htonl be result)).length = 4 := memStore_length _ _ _
  unfold packFileOfferResponse
  simp only []
  refine ⟨?_, ?_, ?_⟩
  · rw [decodeHeader_mkHeader]
    simp [MSG_FILE_OFFER_RSP, sizeofFileOfferResponse]
  · simp only [List.length_append, hh, hm, r1.2, r2]
  · rw [List.drop_left' hh]
    unfold parseFileOfferResponse
    have hlen : ¬ (strncpy (List.replicate 37 0) fileId (37 - 1)
        ++ memStore be 4 (htonl be result)
        ++ strncpy (List.replicate 64 0) message (64 - 1)).length < sizeofFileOfferResponse := by
      simp only [List.length_append, hm, r1.2, r2, sizeofFileOfferResponse]
      omega
    rw [if_neg hlen]
    refine ⟨_, rfl, ?_, ?_⟩
    · simp only []
      rw [List.append_assoc, mid_of_append _ _ _ 37 4 r1.2 hm, memLoad_memStore,
        Nat.mod_eq_of_lt (by have := htonl_lt be result; norm_num; omega), ntohl_htonl]
    · simp only []
      rw [List.append_assoc, List.take_left' r1.2]
      exact r1.1

/-- What `handleFileOffer` does with a decodable offer of an online connection: it declines
an empty fileId, declines an empty toId, answers BUSY when no online connection has the
toId, and otherwise forwards the offer to that connection and installs the session.  The
broadcast loop of server.cpp lines 688-704 is never reached. -/
theorem handleFileOffer_eq (be : Bool) (s : Server) (c : Int) (header : MessageHeader)
    (body : List Nat) (offer : FileOffer) (sender : ClientInfo)
    (hparse : parseFileOffer be body = some offer)
    (hsender : getClientInfo s.clients c = some sender) (hon : sender.isOnline = true) :
    handleFileOffer be s c header body =
      if fieldString offer.fileId 37 = [] then
        (sendResponse s c
          (packFileOfferResponse be header.sequence [] FILE_OFFER_DECLINE
            (ascii "Invalid file id"))).1
      else if fieldString offer.toId 32 = [] then
        (sendResponse s c
          (packFileOfferResponse be header.sequence (fieldString offer.fileId 37)
            FILE_OFFER_DECLINE (ascii "Target required"))).1
      else if getFdByClientId s.clients (fieldString offer.toId 32) < 0 then
        (sendResponse s c
          (packFileOfferResponse be header.sequence (fieldString offer.fileId 37)
            FILE_OFFER_BUSY (ascii "Target offline"))).1
      else
        { (sendResponse s (getFdByClientId s.clients (fieldString offer.toId 32))
            (packFileOffer be header.sequence (fieldString offer.fileId 37)
              (fieldString offer.fileName 256) offer.fileSize sender.clientId sender.nickname
              (fieldString offer.toId 32))).1 with
          fileSessions := fsInsert s.fileSessions (fieldString offer.fileId 37)
            ⟨c, getFdByClientId s.clients (fieldString offer.toId 32)⟩ } := by
  unfold handleFileOffer
  simp only [hparse, hsender, hon, Bool.not_true, Bool.false_eq_true, if_false,
    List.isEmpty_iff]
  by_cases h1 : fieldString offer.fileId 37 = []
  · simp only [h1, if_true]
  · by_cases h2 : fieldString offer.toId 32 = []
    · simp only [h1, h2, if_true, if_false]
    · by_cases h3 : getFdByClientId s.clients (fieldString offer.toId 32) < 0
      · simp [h1, h2, h3]
      · have h4 : getFdByClientId s.clients (fieldString offer.toId 32) ≥ 0 := by omega
        simp [h1, h2, h3, h4, (sendResponse_fields _ _ _).2.1]

theorem handleMessage_offer (be : Bool) (now epoch : Nat) (s : Server) (c : Int)
    (header : MessageHeader) (body : List Nat) (hmsg : header.msgType = MSG_FILE_OFFER) :
    handleMessage be now epoch s c header body = handleFileOffer be s c header body := by
  simp [handleMessage, hmsg, MSG_FILE_OFFER, MSG_CHAT_MSG, MSG_LOGIN_REQ, MSG_HEARTBEAT_REQ,
    MSG_LOGOUT_REQ, MSG_USER_LIST_REQ]

theorem decodeHeader_packFileOffer (be : Bool) (sequence : Nat) (fileId fileName : List Nat)
    (fileSize : Nat) (fromId fromNick toId : List Nat) :
    decodeHeader be (packFileOffer be sequence fileId fileName fileSize fromId fromNick toId)
      = { magic := MAGIC_NUMBER, version := PROTOCOL_VERSION, msgType := MSG_FILE_OFFER,
          bodyLength := 429, sequence := sequence % 2 ^ 32 } := by
  unfold packFileOffer
  simp only [decodeHeader_mkHeader]
  simp [MSG_FILE_OFFER, sizeofFileOffer]

/-- C11 (as amended): file-offer installation. In a well-formed roster with unique, non-empty
online identities (as in every reachable state, `reachable_roster` and
`reachable_identities`), when an online connection `a` sends a FILE_OFFER with non-empty
fileId F and a toId that is the clientId of an online connection `b` that has a handler, the
server sends exactly one frame, to `b`: the FILE_OFFER built by `packFileOffer` from the
request's sequence, F, the offered file name and size, the clientId and nickname of the
roster entry of `a`, and toId; afterwards the file-session table maps F to
{sender = a, receiver = b} and every other fileId as before, and the roster is unchanged. -/
theorem file_offer_install (be : Bool) (now epoch : Nat) (s : Server) (a b : Int)
    (header : MessageHeader) (body : List Nat) (offer : FileOffer) (sender binfo : ClientInfo)
    (hmsg : header.msgType = MSG_FILE_OFFER)
    (hparse : parseFileOffer be body = some offer)
    (hsender : getClientInfo s.clients a = some sender)
    (honline : sender.isOnline = true)
    (hfile : fieldString offer.fileId 37 ≠ [])
    (hb : (b, binfo) ∈ s.clients) (hbon : binfo.isOnline = true)
    (hbid : binfo.clientId = fieldString offer.toId 32)
    (hbh : (FdMap.find? s.clientHandlers b).isSome = true)
    (hwf : RosterWF s.clients) (huniq : RosterUnique s.clients)
    (hnamed : ∀ e ∈ s.clients, e.2.isOnline = true → e.2.clientId ≠ []) :
    (handleMessage be now epoch s a header body).sent
        = s.sent ++ [(b, packFileOffer be header.sequence (fieldString offer.fileId 37)
            (fieldString offer.fileName 256) offer.fileSize sender.clientId sender.nickname
            (fieldString offer.toId 32))]
    ∧ (decodeHeader be (packFileOffer be header.sequence (fieldString offer.fileId 37)
          (fieldString offer.fileName 256) offer.fileSize sender.clientId sender.nickname
          (fieldString offer.toId 32))).msgType = MSG_FILE_OFFER
    ∧ fsFind (handleMessage be now epoch s a header body).fileSessions
          (fieldString offer.fileId 37) = some { senderFd := a, receiverFd := b }
    ∧ (∀ k, k ≠ fieldString offer.fileId 37 →
        fsFind (handleMessage be now epoch s a header body).fileSessions k
          = fsFind s.fileSessions k)
    ∧ (handleMessage be now epoch s a header body).clients = s.clients := by
  have hto : fieldString offer.toId 32 ≠ [] := by
    rw [← hbid]; exact hnamed _ hb hbon
  have htarget : getFdByClientId s.clients (fieldString offer.toId 32) = b :=
    getFdByClientId_of_mem s.clients huniq b binfo _ hto hb hbon hbid
  have hb0 : ¬ b < 0 := by
    have := (hwf.2 _ hb).2
    simp only at this; omega
  rw [handleMessage_offer be now epoch s a header body hmsg,
    handleFileOffer_eq be s a header body offer sender hparse hsender honline,
    if_neg hfile, if_neg hto, htarget, if_neg hb0]
  have hf := sendResponse_fields s b (packFileOffer be header.sequence
    (fieldString offer.fileId 37) (fieldString offer.fileName 256) offer.fileSize
    sender.clientId sender.nickname (fieldString offer.toId 32))
  refine ⟨?_, ?_, ?_, ?_, ?_⟩
  · simp only [hf.2.2.2.2.1, hbh, if_true]
  · rw [decodeHeader_packFileOffer]
  · simp only [fsFind_fsInsert, if_true]
  · intro k hk
    simp only [fsFind_fsInsert, if_neg hk]
  · exact hf.1

set_option maxRecDepth 1000000 in
theorem file_offer_install_witness :
    (demoHeader MSG_FILE_OFFER 429 31).msgType = MSG_FILE_OFFER
    ∧ parseFileOffer false (demoOfferBody "f1" "bob") = some (demoOffer (demoOfferBody "f1" "bob"))
    ∧ getClientInfo demoAll.clients 5 = some (demoEntry demoAll 5)
    ∧ (demoEntry demoAll 5).isOnline = true
    ∧ fieldString (demoOffer (demoOfferBody "f1" "bob")).fileId 37 = ascii "f1"
    ∧ ((6 : Int), demoEntry demoAll 6) ∈ demoAll.clients
    ∧ (demoEntry demoAll 6).clientId = ascii "bob"
    ∧ demoOffered.sent = demoAll.sent
        ++ [(6, packFileOffer false 31 (ascii "f1") (ascii "a.txt") 1024 (ascii "alice")
              (ascii "Alice") (ascii "bob"))]
    ∧ fsFind demoOffered.fileSessions (ascii "f1") = some { senderFd := 5, receiverFd := 6 } :=
  have h := file_offer_install false 0 0 demoAll 5 6 (demoHeader MSG_FILE_OFFER 429 31)
    (demoOfferBody "f1" "bob") (demoOffer (demoOfferBody "f1" "bob")) (demoEntry demoAll 5)
    (demoEntry demoAll 6) (by decide) (by decide) (by decide) (by decide) (by decide)
    (by decide) (by decide) (by decide) (by decide) (by decide) (by decide) (by decide)
  ⟨by decide, by decide, by decide, by decide, by decide, by decide, by decide, h.1, h.2.2.1⟩

set_option maxRecDepth 1000000 in
/-- C11 (as stated) fails: after alice on connection 5 offered the file f1 to bob on
connection 6, the file-session table maps f1 to the session whose receiver is connection 6,
not to a session whose receiver is unassigned (-1). -/
theorem file_offer_receiver_assigned :
    getClientInfo demoAll.clients 5 = some (demoEntry demoAll 5)
    ∧ (demoEntry demoAll 5).isOnline = true
    ∧ (demoEntry demoAll 6).isOnline = true
    ∧ fieldString (demoOffer (demoOfferBody "f1" "bob")).fileId 37 = ascii "f1"
    ∧ fieldString (demoOffer (demoOfferBody "f1" "bob")).toId 32 = (demoEntry demoAll 6).clientId
    ∧ fsFind (handleMessage false 0 0 demoAll 5 (demoHeader MSG_FILE_OFFER 429 31)
          (demoOfferBody "f1" "bob")).fileSessions (ascii "f1")
        = some { senderFd := 5, receiverFd := 6 }
    ∧ fsFind (handleMessage false 0 0 demoAll 5 (demoHeader MSG_FILE_OFFER 429 31)
          (demoOfferBody "f1" "bob")).fileSessions (ascii "f1")
        ≠ some { senderFd := 5, receiverFd := -1 } := by
  decide

/-- The fileId a decoded offer carries is a NUL-free string of at most 36 bytes. -/
theorem parseFileOffer_fileId (be : Bool) (body : List Nat) (offer : FileOffer)
    (hparse : parseFileOffer be body = some offer) (hbytes : ∀ x ∈ body, x < 256) :
    (fieldString offer.fileId 37).length + 1 ≤ 37
      ∧ ∀ c ∈ fieldString offer.fileId 37, 0 < c ∧ c < 256 := by
  unfold parseFileOffer at hparse
  split at hparse
  · exact absurd hparse (by simp)
  · have e : offer.fileId = terminate (body.take 37) 37 := by
      injection hparse with h; rw [← h]
    rw [e]
    exact fieldString_terminate _ 37 (by norm_num)
      (fun b hb => hbytes b (List.mem_of_mem_take hb))

/-- C12: file-offer to an offline target. When an online connection `a` that has a handler
sends a FILE_OFFER (a body of bytes that decodes, a header whose sequence is a 32-bit value)
with non-empty fileId F and a non-empty toId that is not the clientId of any online
connection, the server sends exactly one frame, to `a`: the FILE_OFFER_RSP built by
`packFileOfferResponse`, whose header decodes to type FILE_OFFER_RSP with the request's
sequence and whose body decodes to fileId F and result BUSY (2); nothing is forwarded to any
peer, and the file-session table and the roster are unchanged. -/
theorem file_offer_target_offline (be : Bool) (now epoch : Nat) (s : Server) (a : Int)
    (header : MessageHeader) (body : List Nat) (offer : FileOffer) (sender : ClientInfo)
    (hmsg : header.msgType = MSG_FILE_OFFER)
    (hseq : header.sequence < 2 ^ 32)
    (hbytes : ∀ x ∈ body, x < 256)
    (hparse : parseFileOffer be body = some offer)
    (hsender : getClientInfo s.clients a = some sender)
    (honline : sender.isOnline = true)
    (hah : (FdMap.find? s.clientHandlers a).isSome = true)
    (hfile : fieldString offer.fileId 37 ≠ [])
    (hto : fieldString offer.toId 32 ≠ [])
    (hnone : ∀ e ∈ s.clients, e.2.isOnline = true →
      e.2.clientId ≠ fieldString offer.toId 32) :
    (handleMessage be now epoch s a header body).sent
        = s.sent ++ [(a, packFileOfferResponse be header.sequence (fieldString offer.fileId 37)
            FILE_OFFER_BUSY (ascii "Target offline"))]
    ∧ decodeHeader be (packFileOfferResponse be header.sequence (fieldString offer.fileId 37)
          FILE_OFFER_BUSY (ascii "Target offline"))
        = { magic := MAGIC_NUMBER, version := PROTOCOL_VERSION, msgType := MSG_FILE_OFFER_RSP,
            bodyLength := 105, sequence := header.sequence }
    ∧ (∃ rsp, parseFileOfferResponse be
          ((packFileOfferResponse be header.sequence (fieldString offer.fileId 37)
            FILE_OFFER_BUSY (ascii "Target offline")).drop 16) = some rsp
        ∧ rsp.result = 2 ∧ fieldString rsp.fileId 37 = fieldString offer.fileId 37)
    ∧ (handleMessage be now epoch s a header body).fileSessions = s.fileSessions
    ∧ (handleMessage be now epoch s a header body).clients = s.clients := by
  have htarget : getFdByClientId s.clients (fieldString offer.toId 32) < 0 := by
    rcases getFdByClientId_none s.clients _ (Or.inr hnone) with h | h
    · exact absurd (List.isEmpty_iff.1 h) hto
    · exact h
  have hid := parseFileOffer_fileId be body offer hparse hbytes
  have hrt := fileOfferResponse_roundtrip be header.sequence FILE_OFFER_BUSY
    (fieldString offer.fileId 37) (ascii "Target offline") hid.2 hid.1
  rw [handleMessage_offer be now epoch s a header body hmsg,
    handleFileOffer_eq be s a header body offer sender hparse hsender honline,
    if_neg hfile, if_neg hto, if_pos htarget]
  have hf := sendResponse_fields s a (packFileOfferResponse be header.sequence
    (fieldString offer.fileId 37) FILE_OFFER_BUSY (ascii "Target offline"))
  refine ⟨?_, ?_, ?_, hf.2.1, hf.1⟩
  · simp only [hf.2.2.2.2.1, hah, if_true]
  · rw [hrt.1, Nat.mod_eq_of_lt hseq]
  · obtain ⟨rsp, h1, h2, h3⟩ := hrt.2.2
    exact ⟨rsp, h1, by rw [h2]; rfl, h3⟩

set_option maxRecDepth 1000000 in
theorem file_offer_target_offline_witness :
    (demoHeader MSG_FILE_OFFER 429 32).msgType = MSG_FILE_OFFER
    ∧ parseFileOffer false (demoOfferBody "f2" "dave")
        = some (demoOffer (demoOfferBody "f2" "dave"))
    ∧ getClientInfo demoAll.clients 5 = some (demoEntry demoAll 5)
    ∧ (demoEntry demoAll 5).isOnline = true
    ∧ fieldString (demoOffer (demoOfferBody "f2" "dave")).fileId 37 = ascii "f2"
    ∧ fieldString (demoOffer (demoOfferBody "f2" "dave")).toId 32 = ascii "dave"
    ∧ (handleMessage false 0 0 demoAll 5 (demoHeader MSG_FILE_OFFER 429 32)
          (demoOfferBody "f2" "dave")).sent
        = demoAll.sent ++ [(5, packFileOfferResponse false 32 (ascii "f2") FILE_OFFER_BUSY
            (ascii "Target offline"))]
    ∧ (handleMessage false 0 0 demoAll 5 (demoHeader MSG_FILE_OFFER 429 32)
          (demoOfferBody "f2" "dave")).fileSessions = demoAll.fileSessions :=
  have h := file_offer_target_offline false 0 0 demoAll 5 (demoHeader MSG_FILE_OFFER 429 32)
    (demoOfferBody "f2" "dave") (demoOffer (demoOfferBody "f2" "dave")) (demoEntry demoAll 5)
    (by decide) (by decide) (by decide) (by decide) (by decide) (by decide) (by decide)
    (by decide) (by decide) (by decide)
  ⟨by decide, by decide, by decide, by decide, by decide, by decide, h.1, h.2.2.2.1⟩

/-- What `handleFileOffer` does when the offer does not decode or does not come from an
online connection: nothing. -/
theorem handleFileOffer_ignored (be : Bool) (s : Server) (c : Int) (header : MessageHeader)
    (body : List Nat)
    (h : parseFileOffer be body = none ∨ isOnlineFd s.clients c = false) :
    handleFileOffer be s c header body = s := by
  unfold handleFileOffer
  cases hp : parseFileOffer be body with
  | none => rfl
  | some offer =>
    simp only []
    have ho := h.resolve_left (by rw [hp]; simp)
    unfold isOnlineFd at ho
    unfold getClientInfo
    cases hi : FdMap.find? s.clients c with
    | none => rfl
    | some info =>
      rw [hi] at ho
      simp only [] at ho
      simp only [ho, Bool.not_false, if_true]

/-- Every call of `handleFileOffer` passes at most one frame to `queueSend`. -/
theorem handleFileOffer_sent (be : Bool) (s : Server) (c : Int) (header : MessageHeader)
    (body : List Nat) :
    ∃ l, (handleFileOffer be s c header body).sent = s.sent ++ l ∧ l.length ≤ 1 := by
  cases hp : parseFileOffer be body with
  | none =>
    rw [handleFileOffer_ignored be s c header body (Or.inl hp)]
    exact ⟨[], by simp, by simp⟩
  | some offer =>
    cases hi : getClientInfo s.clients c with
    | none =>
      rw [handleFileOffer_ignored be s c header body
        (Or.inr (by unfold isOnlineFd; unfold getClientInfo at hi; rw [hi]))]
      exact ⟨[], by simp, by simp⟩
    | some sender =>
      cases ho : sender.isOnline with
      | false =>
        rw [handleFileOffer_offline be s c header body sender hi ho]
        exact ⟨[], by simp, by simp⟩
      | true =>
        rw [handleFileOffer_eq be s c header body offer sender hp hi ho]
        have hone : ∀ (fd : Int) (data : List Nat),
            ∃ l, (sendResponse s fd data).1.sent = s.sent ++ l ∧ l.length ≤ 1 := by
          intro fd data
          refine ⟨_, (sendResponse_fields s fd data).2.2.2.2.1, ?_⟩
          split <;> simp
        split
        · exact hone _ _
        · split
          · exact hone _ _
          · split
            · exact hone _ _
            · exact hone _ _

/-- C13 (as amended): targeted offers only. For every FILE_OFFER and every server state, at
most one frame is sent, so the offer is forwarded to at most one connection.  If the body
decodes and its fileId or its toId is empty, no file session is installed and the offer is
forwarded to nobody: every frame sent goes to the offering connection and is a
FILE_OFFER_RSP; and when the offering connection is online and has a handler (and the body
is made of bytes), exactly one frame is sent, to the offering connection, a FILE_OFFER_RSP
whose result decodes to DECLINE (1), which is not ACCEPT. -/
theorem targeted_offers_only (be : Bool) (now epoch : Nat) (s : Server) (c : Int)
    (header : MessageHeader) (body : List Nat) (hmsg : header.msgType = MSG_FILE_OFFER) :
    (∃ l, (handleMessage be now epoch s c header body).sent = s.sent ++ l ∧ l.length ≤ 1)
    ∧ ∀ offer, parseFileOffer be body = some offer →
        fieldString offer.fileId 37 = [] ∨ fieldString offer.toId 32 = [] →
        (∀ x ∈ body, x < 256) →
        (handleMessage be now epoch s c header body).fileSessions = s.fileSessions
        ∧ (∃ l, (handleMessage be now epoch s c header body).sent = s.sent ++ l
            ∧ ∀ x ∈ l, x.1 = c ∧ (decodeHeader be x.2).msgType = MSG_FILE_OFFER_RSP)
        ∧ ∀ sender, getClientInfo s.clients c = some sender → sender.isOnline = true →
            (FdMap.find? s.clientHandlers c).isSome = true →
            ∃ frame rsp,
              (handleMessage be now epoch s c header body).sent = s.sent ++ [(c, frame)]
              ∧ (decodeHeader be frame).msgType = MSG_FILE_OFFER_RSP
              ∧ parseFileOfferResponse be (frame.drop 16) = some rsp
              ∧ rsp.result = FILE_OFFER_DECLINE ∧ rsp.result ≠ FILE_OFFER_ACCEPT := by
  rw [handleMessage_offer be now epoch s c header body hmsg]
  refine ⟨handleFileOffer_sent be s c header body, ?_⟩
  intro offer hp hempty hbytes
  have hid := parseFileOffer_fileId be body offer hp hbytes
  -- the frame sent in both cases, and what it decodes to
  obtain ⟨frame, hframe, hdec, rsp, hrsp, hres⟩ : ∃ frame,
      (∀ sender, getClientInfo s.clients c = some sender → sender.isOnline = true →
        handleFileOffer be s c header body = (sendResponse s c frame).1)
      ∧ (decodeHeader be frame).msgType = MSG_FILE_OFFER_RSP
      ∧ ∃ rsp, parseFileOfferResponse be (frame.drop 16) = some rsp
          ∧ rsp.result = FILE_OFFER_DECLINE := by
    by_cases h1 : fieldString offer.fileId 37 = []
    · have hrt := fileOfferResponse_roundtrip be header.sequence FILE_OFFER_DECLINE []
        (ascii "Invalid file id") (by simp) (by simp)
      refine ⟨_, ?_, by rw [hrt.1], ?_⟩
      · intro sender hi ho
        rw [handleFileOffer_eq be s c header body offer sender hp hi ho, if_pos h1]
      · obtain ⟨rsp, e1, e2, _⟩ := hrt.2.2
        exact ⟨rsp, e1, by rw [e2]; rfl⟩
    · have h2 := hempty.resolve_left h1
      have hrt := fileOfferResponse_roundtrip be header.sequence FILE_OFFER_DECLINE
        (fieldString offer.fileId 37) (ascii "Target required") hid.2 hid.1
      refine ⟨_, ?_, by rw [hrt.1], ?_⟩
      · intro sender hi ho
        rw [handleFileOffer_eq be s c header body offer sender hp hi ho, if_neg h1, if_pos h2]
      · obtain ⟨rsp, e1, e2, _⟩ := hrt.2.2
        exact ⟨rsp, e1, by rw [e2]; rfl⟩
  have hf := sendResponse_fields s c frame
  have hsame : handleFileOffer be s c header body = s
      ∨ handleFileOffer be s c header body = (sendResponse s c frame).1 := by
    cases hi : getClientInfo s.clients c with
    | none =>
      exact Or.inl (handleFileOffer_ignored be s c header body
        (Or.inr (by unfold isOnlineFd; unfold getClientInfo at hi; rw [hi])))
    | some sender =>
      cases ho : sender.isOnline with
      | false => exact Or.inl (handleFileOffer_offline be s c header body sender hi ho)
      | true => exact Or.inr (hframe sender hi ho)
  refine ⟨?_, ?_, ?_⟩
  · rcases hsame with e | e
    · rw [e]
    · rw [e]; exact hf.2.1
  · rcases hsame with e | e
    · rw [e]; exact ⟨[], by simp, by simp⟩
    · rw [e]
      refine ⟨_, hf.2.2.2.2.1, ?_⟩
      intro x hx
      split at hx
      · rw [List.mem_singleton] at hx
        rw [hx]; exact ⟨rfl, hdec⟩
      · simp at hx
  · intro sender hi ho hh
    refine ⟨frame, rsp, ?_, hdec, hrsp, hres, ?_⟩
    · rw [hframe sender hi ho, hf.2.2.2.2.1]
      simp only [hh, if_true]
    · rw [hres]; decide

set_option maxRecDepth 1000000 in
theorem targeted_offers_only_witness :
    (demoHeader MSG_FILE_OFFER 429 33).msgType = MSG_FILE_OFFER
    ∧ fieldString (demoOffer (demoOfferBody "f3" "")).toId 32 = []
    ∧ (handleMessage false 0 0 demoAll 5 (demoHeader MSG_FILE_OFFER 429 33)
          (demoOfferBody "f3" "")).sent
        = demoAll.sent ++ [(5, packFileOfferResponse false 33 (ascii "f3") FILE_OFFER_DECLINE
            (ascii "Target required"))]
    ∧ (handleMessage false 0 0 demoAll 5 (demoHeader MSG_FILE_OFFER 429 33)
          (demoOfferBody "f3" "")).fileSessions = demoAll.fileSessions
    ∧ ∃ l, (handleMessage false 0 0 demoAll 5 (demoHeader MSG_FILE_OFFER 429 33)
          (demoOfferBody "f3" "")).sent = demoAll.sent ++ l ∧ l.length ≤ 1 :=
  have h := targeted_offers_only false 0 0 demoAll 5 (demoHeader MSG_FILE_OFFER 429 33)
    (demoOfferBody "f3" "") (by decide)
  ⟨by decide, by decide, by decide,
    (h.2 (demoOffer (demoOfferBody "f3" "")) (by decide) (Or.inr (by decide)) (by decide)).1,
    h.1⟩

set_option maxRecDepth 1000000 in
/-- C13 (as stated) fails: connection 5 is accepted but has not logged in; its FILE_OFFER
with an empty fileId is dropped without any answer, so the offering connection receives no
FILE_OFFER_RSP. -/
theorem offer_anonymous_unanswered :
    parseFileOffer false (demoOfferBody "" "bob") = some (demoOffer (demoOfferBody "" "bob"))
    ∧ fieldString (demoOffer (demoOfferBody "" "bob")).fileId 37 = []
    ∧ (demoEntry demoAccepted 5).isOnline = false
    ∧ (FdMap.find? demoAccepted.clientHandlers 5).isSome = true
    ∧ (handleMessage false 0 0 demoAccepted 5 (demoHeader MSG_FILE_OFFER 429 33)
          (demoOfferBody "" "bob")).sent = [] := by
  decide

/-! ## File-offer responses -/

theorem handleMessage_offerRsp (be : Bool) (now epoch : Nat) (s : Server) (c : Int)
    (header : MessageHeader) (body : List Nat) (hmsg : header.msgType = MSG_FILE_OFFER_RSP) :
    handleMessage be now epoch s c header body
      = handleFileOfferResponse be s c header body := by
  simp [handleMessage, hmsg, MSG_FILE_OFFER_RSP, MSG_FILE_OFFER, MSG_CHAT_MSG, MSG_LOGIN_REQ,
    MSG_HEARTBEAT_REQ, MSG_LOGOUT_REQ, MSG_USER_LIST_REQ]

theorem fsFind_fsErase (t : List (List Nat × FileSession)) (fileId k : List Nat) :
    fsFind (fsErase t fileId) k = if k = fileId then none else fsFind t k := by
  unfold fsErase fsFind
  induction t with
  | nil => simp
  | cons e rest ih =>
    by_cases he : e.1 = fileId
    · simp only [List.filter_cons, he, beq_self_eq_true, Bool.not_true, Bool.false_eq_true,
        if_false, List.find?_cons]
      rw [ih]
      by_cases h : k = fileId
      · simp [h]
      · have : (fileId == k) = false := by simp; exact fun e => h e.symm
        simp [h, this]
    · have he' : (e.1 == fileId) = false := by simp [he]
      simp only [List.filter_cons, he', Bool.not_false, if_true, List.find?_cons]
      by_cases hk : e.1 = k
      · have : ¬ k = fileId := fun x => he (hk.trans x)
        simp [hk, this]
      · have hk' : (e.1 == k) = false := by simp [hk]
        simp only [hk']
        exact ih

theorem fsFind_update (t : List (List Nat × FileSession)) (fileId k : List Nat)
    (v : FileSession) :
    fsFind (t.map (fun e => if e.1 == fileId then (e.1, v) else e)) k
      = if k = fileId then (fsFind t fileId).map (fun _ => v) else fsFind t k := by
  unfold fsFind
  induction t with
  | nil => simp
  | cons e rest ih =>
    by_cases he : e.1 = fileId
    · by_cases h : k = fileId
      · simp [he, h]
      · have h' : (fileId == k) = false := by simp; exact fun e => h e.symm
        simp only [List.map_cons, he, beq_self_eq_true, if_true, List.find?_cons, h', ih,
          if_neg h]
    · have he' : (e.1 == fileId) = false := by simp [he]
      simp only [List.map_cons, he', Bool.false_eq_true, if_false, List.find?_cons]
      by_cases hk : e.1 = k
      · have : ¬ k = fileId := fun x => he (hk.trans x)
        simp [hk, this]
      · have hk' : (e.1 == k) = false := by simp [hk]
        simp only [hk']
        exact ih

/-- C14: file-offer response authorization. If the file-session table maps the fileId of a
decoded FILE_OFFER_RSP to a session whose receiver is assigned to connection `r` (so `r` is
not the value -1 of an unassigned receiver), and the response arrives from a connection
other than `r`, then whatever its result the server state does not change at all: nothing
is forwarded to anyone and the file-session table is as before. -/
theorem offer_response_authorization (be : Bool) (now epoch : Nat) (s : Server) (c r : Int)
    (header : MessageHeader) (body : List Nat) (rsp : FileOfferResponse)
    (session : FileSession)
    (hmsg : header.msgType = MSG_FILE_OFFER_RSP)
    (hparse : parseFileOfferResponse be body = some rsp)
    (hfind : fsFind s.fileSessions (fieldString rsp.fileId 37) = some session)
    (hr : session.receiverFd = r) (hassigned : r ≠ -1) (hc : c ≠ r) :
    handleMessage be now epoch s c header body = s
    ∧ (handleMessage be now epoch s c header body).sent = s.sent
    ∧ (handleMessage be now epoch s c header body).fileSessions = s.fileSessions := by
  have key : handleMessage be now epoch s c header body = s := by
    rw [handleMessage_offerRsp be now epoch s c header body hmsg]
    unfold handleFileOfferResponse
    simp only [hparse, hfind]
    split
    · rfl
    · have h1 : (session.receiverFd ≠ -1 && session.receiverFd ≠ c) = true := by
        rw [hr]
        simp only [ne_eq, Bool.and_eq_true, decide_eq_true_eq]
        exact ⟨hassigned, fun e => hc e.symm⟩
      rw [if_pos h1]
  exact ⟨key, by rw [key], by rw [key]⟩

set_option maxRecDepth 1000000 in
theorem offer_response_authorization_witness :
    (demoHeader MSG_FILE_OFFER_RSP 105 41).msgType = MSG_FILE_OFFER_RSP
    ∧ parseFileOfferResponse false (demoOfferRspBody "f1" FILE_OFFER_ACCEPT "ok")
        = some (demoOfferRsp (demoOfferRspBody "f1" FILE_OFFER_ACCEPT "ok"))
    ∧ fsFind demoOffered.fileSessions
          (fieldString (demoOfferRsp (demoOfferRspBody "f1" FILE_OFFER_ACCEPT "ok")).fileId 37)
        = some { senderFd := 5, receiverFd := 6 }
    ∧ handleMessage false 0 0 demoOffered 7 (demoHeader MSG_FILE_OFFER_RSP 105 41)
          (demoOfferRspBody "f1" FILE_OFFER_ACCEPT "ok") = demoOffered :=
  ⟨by decide, by decide, by decide,
    (offer_response_authorization false 0 0 demoOffered 7 6
      (demoHeader MSG_FILE_OFFER_RSP 105 41) (demoOfferRspBody "f1" FILE_OFFER_ACCEPT "ok")
      (demoOfferRsp (demoOfferRspBody "f1" FILE_OFFER_ACCEPT "ok"))
      { senderFd := 5, receiverFd := 6 } (by decide) (by decide) (by decide) (by decide)
      (by decide) (by decide)).1⟩

/-- What `handleFileOfferResponse` does with a decoded response for a session whose receiver
is the responding connection or is unassigned: the table afterwards maps the fileId to the
session bound to the responder when the result is ACCEPT and to nothing otherwise, every
other fileId as before, and the response is passed on to the sender of the session. -/
theorem handleFileOfferResponse_eq (be : Bool) (s : Server) (c : Int)
    (header : MessageHeader) (body : List Nat) (rsp : FileOfferResponse)
    (session : FileSession)
    (hparse : parseFileOfferResponse be body = some rsp)
    (hid : fieldString rsp.fileId 37 ≠ [])
    (hfind : fsFind s.fileSessions (fieldString rsp.fileId 37) = some session)
    (hrecv : session.receiverFd = c ∨ session.receiverFd = -1) :
    (∀ k, fsFind (handleFileOfferResponse be s c header body).fileSessions k
        = if k = fieldString rsp.fileId 37 then
            (if rsp.result = FILE_OFFER_ACCEPT then
              some { senderFd := session.senderFd, receiverFd := c }
             else none)
          else fsFind s.fileSessions k)
    ∧ (handleFileOfferResponse be s c header body).clients = s.clients
    ∧ (handleFileOfferResponse be s c header body).sent
        = s.sent ++
          (if 0 ≤ session.senderFd ∧ (FdMap.find? s.clientHandlers session.senderFd).isSome
            then [(session.senderFd, packFileOfferResponse be header.sequence
              (fieldString rsp.fileId 37) rsp.result (c_str rsp.message))]
            else []) := by
  have hguard : ¬ ((session.receiverFd ≠ -1 && session.receiverFd ≠ c) = true) := by
    simp only [ne_eq, Bool.and_eq_true, decide_eq_true_eq, not_and, not_not]
    intro h; exact hrecv.resolve_right h
  have hid' : ¬ (fieldString rsp.fileId 37).isEmpty = true := by
    rw [List.isEmpty_iff]; exact hid
  obtain ⟨sender, recv⟩ := session
  simp only at hrecv hguard ⊢
  unfold handleFileOfferResponse
  simp only [hparse, hfind, if_neg hid', if_neg hguard]
  by_cases hacc : rsp.result = FILE_OFFER_ACCEPT
  · by_cases hun : recv = -1
    · -- the receiver is bound now
      simp only [hacc, hun, decide_True, Bool.and_self, if_true, ne_eq, not_true_eq_false,
        decide_False, Bool.false_and, Bool.false_eq_true, if_false]
      refine ⟨?_, ?_, ?_⟩
      · intro k
        split
        · rw [fsFind_update, hfind]; simp
        · rw [(sendResponse_fields _ _ _).2.1, fsFind_update, hfind]; simp
      · split
        · rfl
        · exact (sendResponse_fields _ _ _).1
      · split
        · rename_i h; simp [show ¬ (0 ≤ sender) by omega]
        · rename_i h
          rw [(sendResponse_fields _ _ _).2.2.2.2.1]
          simp [show 0 ≤ sender by omega]
    · have hrc : recv = c := hrecv.resolve_right hun
      simp only [hacc, hun, decide_False, Bool.false_and, Bool.false_eq_true, if_false,
        ne_eq, not_true_eq_false]
      refine ⟨?_, ?_, ?_⟩
      · intro k
        split
        · by_cases hk : k = fieldString rsp.fileId 37
          · simp [hk, hfind, hrc]
          · simp [hk]
        · rw [(sendResponse_fields _ _ _).2.1]
          by_cases hk : k = fieldString rsp.fileId 37
          · simp [hk, hfind, hrc]
          · simp [hk]
      · split
        · rfl
        · exact (sendResponse_fields _ _ _).1
      · split
        · rename_i h; simp [show ¬ (0 ≤ sender) by omega]
        · rename_i h
          rw [(sendResponse_fields _ _ _).2.2.2.2.1]
          simp [show 0 ≤ sender by omega]
  · have herase : (recv = -1 ∨ recv = c) := hrecv.symm
    simp only [hacc, decide_False, Bool.and_false, Bool.false_eq_true, if_false, ne_eq,
      not_false_eq_true, decide_True, Bool.true_and, Bool.or_eq_true, decide_eq_true_eq,
      herase, if_true]
    refine ⟨?_, ?_, ?_⟩
    · intro k
      split
      · simp only [fsFind_fsErase]
      · rw [(sendResponse_fields _ _ _).2.1]; simp only [fsFind_fsErase]
    · split
      · rfl
      · exact (sendResponse_fields _ _ _).1
    · split
      · rename_i h; simp [show ¬ (0 ≤ sender) by omega]
      · rename_i h
        rw [(sendResponse_fields _ _ _).2.2.2.2.1]
        simp [show 0 ≤ sender by omega]

theorem reachableFresh_reachable (be : Bool) (s : Server) (h : ReachableFresh be s) :
    Reachable be s := by
  induction h with
  | start running script => exact Reachable.start running script
  | accept fd ip port now h0 _ _ ih => exact Reachable.accept fd ip port now h0 ih
  | message now epoch fd header body _ ih => exact Reachable.message now epoch fd header body ih
  | disconnect fd _ ih => exact Reachable.disconnect fd ih
  | queued fd _ ih => exact Reachable.queued fd ih
  | environment running script _ ih => exact Reachable.environment running script ih

theorem isOnlineFd_live (be : Bool) (s : Server) (h : Reachable be s) (k : Int)
    (hk : isOnlineFd s.clients k = true) :
    0 ≤ k ∧ (FdMap.find? s.clientHandlers k).isSome = true := by
  have hr := reachable_roster be s h
  refine ⟨isOnlineFd_key _ hr.1 k hk, ?_⟩
  unfold isOnlineFd at hk
  cases hf : FdMap.find? s.clients k with
  | none => rw [hf] at hk; simp at hk
  | some info => exact hr.2.2 (k, info) (FdMap.find?_mem _ _ _ hf)

/-- In every reachable state, when accepted descriptors are fresh, both endpoints of every
file session are descriptors (not negative) that have a handler. -/
theorem reachable_endpoints (be : Bool) (s : Server) (h : ReachableFresh be s) :
    ∀ e ∈ s.fileSessions,
      (0 ≤ e.2.senderFd ∧ (FdMap.find? s.clientHandlers e.2.senderFd).isSome = true)
      ∧ (0 ≤ e.2.receiverFd ∧ (FdMap.find? s.clientHandlers e.2.receiverFd).isSome = true) := by
  intro e he
  have hs := (reachable_sessions be s h).2 e he
  have hr := reachableFresh_reachable be s h
  exact ⟨isOnlineFd_live be s hr _ hs.1, isOnlineFd_live be s hr _ hs.2⟩

/-- C15: file-offer response effects. For a decoded FILE_OFFER_RSP with non-empty fileId F
whose session exists and names the responding connection `c` as its receiver, when the
session's sender is a descriptor with a handler (as in every reachable state,
`reachable_endpoints`): exactly one frame is sent, to the session's sender, and it is
`packFileOfferResponse` of the request's sequence, F, the decoded result and the decoded
message; if the result is ACCEPT the table still maps F to the session with its receiver
bound to `c`, otherwise F is erased; every other fileId maps to what it mapped to before,
and the roster is unchanged. -/
theorem offer_response_effects (be : Bool) (now epoch : Nat) (s : Server) (c : Int)
    (header : MessageHeader) (body : List Nat) (rsp : FileOfferResponse)
    (session : FileSession)
    (hmsg : header.msgType = MSG_FILE_OFFER_RSP)
    (hparse : parseFileOfferResponse be body = some rsp)
    (hid : fieldString rsp.fileId 37 ≠ [])
    (hfind : fsFind s.fileSessions (fieldString rsp.fileId 37) = some session)
    (hrecv : session.receiverFd = c)
    (hsender : 0 ≤ session.senderFd)
    (hlive : (FdMap.find? s.clientHandlers session.senderFd).isSome = true) :
    (handleMessage be now epoch s c header body).sent
        = s.sent ++ [(session.senderFd, packFileOfferResponse be header.sequence
            (fieldString rsp.fileId 37) rsp.result (c_str rsp.message))]
    ∧ (rsp.result = FILE_OFFER_ACCEPT →
        fsFind (handleMessage be now epoch s c header body).fileSessions
            (fieldString rsp.fileId 37)
          = some { senderFd := session.senderFd, receiverFd := c })
    ∧ (rsp.result ≠ FILE_OFFER_ACCEPT →
        fsFind (handleMessage be now epoch s c header body).fileSessions
            (fieldString rsp.fileId 37) = none)
    ∧ (∀ k, k ≠ fieldString rsp.fileId 37 →
        fsFind (handleMessage be now epoch s c header body).fileSessions k
          = fsFind s.fileSessions k)
    ∧ (handleMessage be now epoch s c header body).clients = s.clients := by
  rw [handleMessage_offerRsp be now epoch s c header body hmsg]
  have h := handleFileOfferResponse_eq be s c header body rsp session hparse hid hfind
    (Or.inl hrecv)
  refine ⟨?_, ?_, ?_, ?_, h.2.1⟩
  · rw [h.2.2, if_pos ⟨hsender, hlive⟩]
  · intro hacc; rw [h.1, if_pos rfl, if_pos hacc]
  · intro hacc; rw [h.1, if_pos rfl, if_neg hacc]
  · intro k hk; rw [h.1, if_neg hk]

set_option maxRecDepth 1000000 in
theorem offer_response_effects_witness :
    (demoHeader MSG_FILE_OFFER_RSP 105 42).msgType = MSG_FILE_OFFER_RSP
    ∧ parseFileOfferResponse false (demoOfferRspBody "f1" FILE_OFFER_DECLINE "no")
        = some (demoOfferRsp (demoOfferRspBody "f1" FILE_OFFER_DECLINE "no"))
    ∧ (demoOfferRsp (demoOfferRspBody "f1" FILE_OFFER_DECLINE "no")).result
        = FILE_OFFER_DECLINE
    ∧ fsFind demoOffered.fileSessions (ascii "f1") = some { senderFd := 5, receiverFd := 6 }
    ∧ (handleMessage false 0 0 demoOffered 6 (demoHeader MSG_FILE_OFFER_RSP 105 42)
          (demoOfferRspBody "f1" FILE_OFFER_DECLINE "no")).sent
        = demoOffered.sent ++ [(5, packFileOfferResponse false 42 (ascii "f1")
            FILE_OFFER_DECLINE (ascii "no"))]
    ∧ fsFind (handleMessage false 0 0 demoOffered 6 (demoHeader MSG_FILE_OFFER_RSP 105 42)
          (demoOfferRspBody "f1" FILE_OFFER_DECLINE "no")).fileSessions (ascii "f1") = none
    ∧ fsFind (handleMessage false 0 0 demoOffered 6 (demoHeader MSG_FILE_OFFER_RSP 105 42)
          (demoOfferRspBody "f1" FILE_OFFER_ACCEPT "ok")).fileSessions (ascii "f1")
        = some { senderFd := 5, receiverFd := 6 } :=
  have h := offer_response_effects false 0 0 demoOffered 6
    (demoHeader MSG_FILE_OFFER_RSP 105 42) (demoOfferRspBody "f1" FILE_OFFER_DECLINE "no")
    (demoOfferRsp (demoOfferRspBody "f1" FILE_OFFER_DECLINE "no"))
    { senderFd := 5, receiverFd := 6 } (by decide) (by decide) (by decide) (by decide)
    (by decide) (by decide) (by decide)
  ⟨by decide, by decide, by decide, by decide, h.1, h.2.2.1 (by decide), by decide⟩

/-! ## Relay of file data -/

theorem leValue_lt (bs : List Nat) : leValue bs < 256 ^ bs.length := by
  induction bs with
  | nil => simp [leValue]
  | cons b bs ih =>
    simp only [leValue, List.length_cons, pow_succ]
    have := Nat.mod_lt b (show 256 > 0 by norm_num)
    omega

theorem leBytes_leValue (bs : List Nat) (h : ∀ b ∈ bs, b < 256) :
    leBytes bs.length (leValue bs) = bs := by
  induction bs with
  | nil => rfl
  | cons b bs ih =>
    have hb : b < 256 := h b (List.mem_cons_self _ _)
    have ih' := ih (fun x hx => h x (List.mem_cons_of_mem _ hx))
    simp only [List.length_cons, leBytes, leValue]
    have e1 : (b % 256 + 256 * leValue bs) % 256 = b := by omega
    have e2 : (b % 256 + 256 * leValue bs) / 256 = leValue bs := by omega
    rw [e1, e2, ih']

/-- A `memcpy` into an integer followed by a `memcpy` out of it gives the bytes back. -/
theorem memStore_memLoad (be : Bool) (bs : List Nat) (n : Nat) (hn : bs.length = n)
    (h : ∀ b ∈ bs, b < 256) : memStore be n (memLoad be bs) = bs := by
  subst hn
  cases be
  · simp only [memStore, memLoad, Bool.false_eq_true, if_false]
    exact leBytes_leValue bs h
  · simp only [memStore, memLoad, if_true]
    have := leBytes_leValue bs.reverse (fun b hb => h b (List.mem_reverse.1 hb))
    rw [List.length_reverse] at this
    rw [this, List.reverse_reverse]

theorem memLoad_lt (be : Bool) (bs : List Nat) : memLoad be bs < 256 ^ bs.length := by
  cases be
  · simp only [memLoad, Bool.false_eq_true, if_false]; exact leValue_lt bs
  · simp only [memLoad, if_true]
    have := leValue_lt bs.reverse
    rw [List.length_reverse] at this
    exact this

theorem htonl_ntohl (be : Bool) (v : Nat) : htonl be (ntohl be v) = v % 2 ^ 32 :=
  ntohl_htonl be v

theorem htons_ntohs (be : Bool) (v : Nat) : htons be (ntohs be v) = v % 2 ^ 16 :=
  ntohs_htons be v

theorem ntohl_lt (be : Bool) (v : Nat) : ntohl be v < 2 ^ 32 := htonl_lt be v

theorem ntohs_lt (be : Bool) (v : Nat) : ntohs be v < 2 ^ 16 := htons_lt be v

/-- A frame the framer accepted, packed again by `packRawMessage` from its decoded header
and its body, is the same sequence of bytes. -/
theorem packRawMessage_decodeHeader (be : Bool) (frame : List Nat)
    (hbytes : ∀ b ∈ frame, b < 256) (hlen : 16 ≤ frame.length)
    (hvalid : validateHeader (decodeHeader be frame) = true)
    (hbody : (decodeHeader be frame).bodyLength = frame.length - 16) :
    packRawMessage be ((decodeHeader be frame).msgType % 2 ^ 16)
      (decodeHeader be frame).sequence (frame.drop 16) = frame := by
  have l0 : (frame.take 4).length = 4 := by rw [List.length_take]; omega
  have l1 : ((frame.drop 4).take 2).length = 2 := by
    rw [List.length_take, List.length_drop]; omega
  have l2 : ((frame.drop 6).take 2).length = 2 := by
    rw [List.length_take, List.length_drop]; omega
  have l3 : ((frame.drop 8).take 4).length = 4 := by
    rw [List.length_take, List.length_drop]; omega
  have l4 : ((frame.drop 12).take 4).length = 4 := by
    rw [List.length_take, List.length_drop]; omega
  have b0 : ∀ b ∈ frame.take 4, b < 256 := fun b hb => hbytes b (List.mem_of_mem_take hb)
  have b1 : ∀ b ∈ (frame.drop 4).take 2, b < 256 := fun b hb =>
    hbytes b (List.mem_of_mem_drop (List.mem_of_mem_take hb))
  have b2 : ∀ b ∈ (frame.drop 6).take 2, b < 256 := fun b hb =>
    hbytes b (List.mem_of_mem_drop (List.mem_of_mem_take hb))
  have b3 : ∀ b ∈ (frame.drop 8).take 4, b < 256 := fun b hb =>
    hbytes b (List.mem_of_mem_drop (List.mem_of_mem_take hb))
  have b4 : ∀ b ∈ (frame.drop 12).take 4, b < 256 := fun b hb =>
    hbytes b (List.mem_of_mem_drop (List.mem_of_mem_take hb))
  have v0 := memLoad_lt be (frame.take 4)
  have v1 := memLoad_lt be ((frame.drop 4).take 2)
  have v2 := memLoad_lt be ((frame.drop 6).take 2)
  have v3 := memLoad_lt be ((frame.drop 8).take 4)
  have v4 := memLoad_lt be ((frame.drop 12).take 4)
  rw [l0] at v0; rw [l1] at v1; rw [l2] at v2; rw [l3] at v3; rw [l4] at v4
  simp only [validateHeader, bne_iff_ne, ne_eq, ite_not, Bool.if_false_right,
    Bool.and_eq_true, decide_eq_true_eq, Bool.if_true_left, Bool.or_eq_true,
    Bool.not_eq_true', decide_eq_false_iff_not] at hvalid
  unfold decodeHeader MessageHeader.load at hvalid hbody
  simp only [] at hvalid hbody
  unfold packRawMessage mkHeader decodeHeader MessageHeader.load MessageHeader.bytes
  simp only []
  have e0 : htonl be MAGIC_NUMBER = memLoad be (frame.take 4) := by
    rw [← hvalid.1, htonl_ntohl]; exact Nat.mod_eq_of_lt (by norm_num at v0 ⊢; exact v0)
  have e1 : htons be PROTOCOL_VERSION = memLoad be ((frame.drop 4).take 2) := by
    rw [← hvalid.2.1, htons_ntohs]; exact Nat.mod_eq_of_lt (by norm_num at v1 ⊢; exact v1)
  have e2 : htons be (ntohs be (memLoad be ((frame.drop 6).take 2)) % 2 ^ 16)
      = memLoad be ((frame.drop 6).take 2) := by
    rw [Nat.mod_eq_of_lt (ntohs_lt be _), htons_ntohs]
    exact Nat.mod_eq_of_lt (by norm_num at v2 ⊢; exact v2)
  have e3 : htonl be ((frame.drop 16).length % 2 ^ 32)
      = memLoad be ((frame.drop 8).take 4) := by
    rw [List.length_drop, ← hbody, Nat.mod_eq_of_lt (ntohl_lt be _), htonl_ntohl]
    exact Nat.mod_eq_of_lt (by norm_num at v3 ⊢; exact v3)
  have e4 : htonl be (ntohl be (memLoad be ((frame.drop 12).take 4)))
      = memLoad be ((frame.drop 12).take 4) := by
    rw [htonl_ntohl]; exact Nat.mod_eq_of_lt (by norm_num at v4 ⊢; exact v4)
  rw [e0, e1, e2, e3, e4, memStore_memLoad be _ 4 l0 b0, memStore_memLoad be _ 2 l1 b1,
    memStore_memLoad be _ 2 l2 b2, memStore_memLoad be _ 4 l3 b3,
    memStore_memLoad be _ 4 l4 b4]
  have s1 : frame.take 4 ++ (frame.drop 4).take 2 = frame.take 6 := by
    rw [← List.take_add]
  have s2 : frame.take 6 ++ (frame.drop 6).take 2 = frame.take 8 := by
    rw [← List.take_add]
  have s3 : frame.take 8 ++ (frame.drop 8).take 4 = frame.take 12 := by
    rw [← List.take_add]
  have s4 : frame.take 12 ++ (frame.drop 12).take 4 = frame.take 16 := by
    rw [← List.take_add]
  rw [s1, s2, s3, s4, List.take_append_drop]

theorem handleMessage_fileData (be : Bool) (now epoch : Nat) (s : Server) (c : Int)
    (header : MessageHeader) (body : List Nat)
    (hmsg : header.msgType = MSG_FILE_DATA ∨ header.msgType = MSG_FILE_DATA_ACK) :
    handleMessage be now epoch s c header body = handleFileData be s c header body := by
  rcases hmsg with h | h <;>
  simp [handleMessage, h, MSG_FILE_DATA, MSG_FILE_DATA_ACK, MSG_FILE_OFFER_RSP, MSG_FILE_OFFER,
    MSG_CHAT_MSG, MSG_LOGIN_REQ, MSG_HEARTBEAT_REQ, MSG_LOGOUT_REQ, MSG_USER_LIST_REQ]

/-- C16: file-data relay. Let `frame` be a framed FILE_DATA or FILE_DATA_ACK message from
connection `c`: bytes, a 16-byte header that `validateHeader` accepts and whose bodyLength
is the number of bytes that follow, dispatched by `handleMessage` to `handleFileData` with
the decoded header and those bytes as body, whose first 37 bytes hold the fileId F.  When F
is not empty and in the table, `c` is the sender or the receiver of the session and the
other endpoint is assigned (not negative) and has a handler (as in every reachable state,
`reachable_endpoints`), exactly one frame is sent, to the other endpoint, and it is `frame`
itself, byte for byte.  When the body is shorter than 37 bytes, F is empty, F is not in the
table, `c` is not an endpoint or the other endpoint is unassigned, nothing is sent and the
state does not change.  The file-session table is never changed. -/
theorem file_data_relay (be : Bool) (now epoch : Nat) (s : Server) (c : Int)
    (frame : List Nat)
    (hbytes : ∀ b ∈ frame, b < 256) (hlen : 16 ≤ frame.length)
    (hvalid : validateHeader (decodeHeader be frame) = true)
    (hbody : (decodeHeader be frame).bodyLength = frame.length - 16)
    (htype : (decodeHeader be frame).msgType = MSG_FILE_DATA
      ∨ (decodeHeader be frame).msgType = MSG_FILE_DATA_ACK) :
    handleMessage be now epoch s c (decodeHeader be frame) (frame.drop 16)
        = handleFileData be s c (decodeHeader be frame) (frame.drop 16)
    ∧ (∀ session target, extractFileId (frame.drop 16) ≠ [] →
        fsFind s.fileSessions (extractFileId (frame.drop 16)) = some session →
        (c = session.senderFd ∧ target = session.receiverFd
          ∨ c ≠ session.senderFd ∧ c = session.receiverFd ∧ target = session.senderFd) →
        0 ≤ target → (FdMap.find? s.clientHandlers target).isSome = true →
        (handleMessage be now epoch s c (decodeHeader be frame) (frame.drop 16)).sent
          = s.sent ++ [(target, frame)])
    ∧ ((frame.drop 16).length < 37 →
        handleMessage be now epoch s c (decodeHeader be frame) (frame.drop 16) = s)
    ∧ (extractFileId (frame.drop 16) = [] →
        handleMessage be now epoch s c (decodeHeader be frame) (frame.drop 16) = s)
    ∧ (fsFind s.fileSessions (extractFileId (frame.drop 16)) = none →
        handleMessage be now epoch s c (decodeHeader be frame) (frame.drop 16) = s)
    ∧ (∀ session, fsFind s.fileSessions (extractFileId (frame.drop 16)) = some session →
        c ≠ session.senderFd → c ≠ session.receiverFd →
        handleMessage be now epoch s c (decodeHeader be frame) (frame.drop 16) = s)
    ∧ (∀ session target,
        fsFind s.fileSessions (extractFileId (frame.drop 16)) = some session →
        (c = session.senderFd ∧ target = session.receiverFd
          ∨ c ≠ session.senderFd ∧ c = session.receiverFd ∧ target = session.senderFd) →
        target < 0 →
        handleMessage be now epoch s c (decodeHeader be frame) (frame.drop 16) = s)
    ∧ (handleMessage be now epoch s c (decodeHeader be frame) (frame.drop 16)).fileSessions
        = s.fileSessions := by
  have hpack := packRawMessage_decodeHeader be frame hbytes hlen hvalid hbody
  have hempty : extractFileId (frame.drop 16) = [] →
      handleFileData be s c (decodeHeader be frame) (frame.drop 16) = s := by
    intro h
    unfold handleFileData
    simp only [h, List.isEmpty_nil, if_true]
  rw [handleMessage_fileData be now epoch s c _ _ htype]
  refine ⟨rfl, ?_, ?_, hempty, ?_, ?_, ?_,
    (handleFileData_onlySends be s c _ _).2.1⟩
  · intro session target hid hfind hend h0 hlive
    have hid' : ¬ (extractFileId (frame.drop 16)).isEmpty = true := by
      rw [List.isEmpty_iff]; exact hid
    unfold handleFileData
    simp only [hfind, if_neg hid']
    rcases hend with ⟨h1, h2⟩ | ⟨h1, h2, h3⟩
    · rw [if_pos h1, ← h2, if_neg (by omega), (sendResponse_fields _ _ _).2.2.2.2.1, hpack]
      simp only [hlive, if_true]
    · rw [if_neg h1, if_pos h2, ← h3, if_neg (by omega),
        (sendResponse_fields _ _ _).2.2.2.2.1, hpack]
      simp only [hlive, if_true]
  · intro hshort
    apply hempty
    unfold extractFileId
    rw [if_pos (by simpa [kFileIdSize] using hshort)]
  · intro hnone
    unfold handleFileData
    simp only [hnone]
    split <;> rfl
  · intro session hfind h1 h2
    unfold handleFileData
    simp only [hfind, if_neg h1, if_neg h2]
    split <;> rfl
  · intro session target hfind hend hneg
    unfold handleFileData
    simp only [hfind]
    split
    · rfl
    · rcases hend with ⟨h1, h2⟩ | ⟨h1, h2, h3⟩
      · rw [if_pos h1, ← h2, if_pos hneg]
      · rw [if_neg h1, if_pos h2, ← h3, if_pos hneg]

theorem demoDataFrame_header (fileId : String) :
    decodeHeader false (demoDataFrame fileId)
      = { magic := MAGIC_NUMBER, version := PROTOCOL_VERSION, msgType := MSG_FILE_DATA,
          bodyLength := 52, sequence := 51 } := by
  unfold demoDataFrame packRawMessage
  rw [decodeHeader_mkHeader]
  simp [MSG_FILE_DATA, strncpy_length]

set_option maxRecDepth 1000000 in
theorem file_data_relay_witness :
    (decodeHeader false (demoDataFrame "f1")).msgType = MSG_FILE_DATA
    ∧ extractFileId ((demoDataFrame "f1").drop 16) = ascii "f1"
    ∧ fsFind demoOffered.fileSessions (ascii "f1") = some { senderFd := 5, receiverFd := 6 }
    ∧ (handleMessage false 0 0 demoOffered 5 (decodeHeader false (demoDataFrame "f1"))
          ((demoDataFrame "f1").drop 16)).sent
        = demoOffered.sent ++ [(6, demoDataFrame "f1")]
    ∧ (handleMessage false 0 0 demoOffered 6 (decodeHeader false (demoDataFrame "f1"))
          ((demoDataFrame "f1").drop 16)).sent
        = demoOffered.sent ++ [(5, demoDataFrame "f1")]
    ∧ handleMessage false 0 0 demoOffered 7 (decodeHeader false (demoDataFrame "f1"))
          ((demoDataFrame "f1").drop 16) = demoOffered :=
  have hv : validateHeader (decodeHeader false (demoDataFrame "f1")) = true := by
    rw [demoDataFrame_header]; simp [validateHeader, MAGIC_NUMBER, PROTOCOL_VERSION]
  have hb : (decodeHeader false (demoDataFrame "f1")).bodyLength
      = (demoDataFrame "f1").length - 16 := by
    rw [demoDataFrame_header]; decide
  have ht : (decodeHeader false (demoDataFrame "f1")).msgType = MSG_FILE_DATA := by
    rw [demoDataFrame_header]
  have h5 := file_data_relay false 0 0 demoOffered 5 (demoDataFrame "f1") (by decide)
    (by decide) hv hb (Or.inl ht)
  have h6 := file_data_relay false 0 0 demoOffered 6 (demoDataFrame "f1") (by decide)
    (by decide) hv hb (Or.inl ht)
  have h7 := file_data_relay false 0 0 demoOffered 7 (demoDataFrame "f1") (by decide)
    (by decide) hv hb (Or.inl ht)
  ⟨ht, by decide, by decide,
    h5.2.1 { senderFd := 5, receiverFd := 6 } 6 (by decide) (by decide)
      (Or.inl ⟨by decide, by decide⟩) (by decide) (by decide),
    h6.2.1 { senderFd := 5, receiverFd := 6 } 5 (by decide) (by decide)
      (Or.inr ⟨by decide, by decide, by decide⟩) (by decide) (by decide),
    h7.2.2.2.2.2.1 { senderFd := 5, receiverFd := 6 } (by decide) (by decide) (by decide)⟩

/-! ## Heartbeats and user-list requests -/

/-- C17: heartbeat handling. For a HEARTBEAT_REQ with sequence `s` (a 32-bit value) from a
registered connection `c` (in the roster, with a handler): when the body is empty, the
last-heartbeat of the roster entry of `c` is set to the current time, every other entry is
as before, and exactly one frame is sent, to `c`: the 16-byte frame whose header decodes to
msgType HEARTBEAT_RSP (0x0002), bodyLength 0 and sequence `s`; when the body is not empty the
state does not change at all, so no frame is sent and no last-heartbeat changes. -/
theorem heartbeat_handling (be : Bool) (now epoch : Nat) (s : Server) (c : Int)
    (header : MessageHeader) (body : List Nat) (info : ClientInfo)
    (hmsg : header.msgType = MSG_HEARTBEAT_REQ)
    (hseq : header.sequence < 2 ^ 32)
    (hreg : getClientInfo s.clients c = some info)
    (hlive : (FdMap.find? s.clientHandlers c).isSome = true) :
    (body = [] →
      getClientInfo (handleMessage be now epoch s c header body).clients c
          = some { info with lastHeartbeat := now }
      ∧ (∀ k, k ≠ c → getClientInfo (handleMessage be now epoch s c header body).clients k
          = getClientInfo s.clients k)
      ∧ (handleMessage be now epoch s c header body).sent
          = s.sent ++ [(c, packHeartbeatResponse be header.sequence)]
      ∧ (packHeartbeatResponse be header.sequence).length = 16
      ∧ decodeHeader be (packHeartbeatResponse be header.sequence)
          = { magic := MAGIC_NUMBER, version := PROTOCOL_VERSION, msgType := 0x0002,
              bodyLength := 0, sequence := header.sequence })
    ∧ (body ≠ [] → handleMessage be now epoch s c header body = s) := by
  constructor
  · intro hb
    have hlen : ¬ body.length ≠ 0 := by rw [hb]; simp
    unfold handleMessage
    rw [if_pos hmsg, if_neg hlen]
    simp only []
    have hf := sendResponse_fields { s with clients := updateHeartbeat s.clients c now } c
      (packHeartbeatResponse be header.sequence)
    simp only [] at hf
    refine ⟨?_, ?_, ?_, ?_, ?_⟩
    · rw [hf.1]
      unfold getClientInfo updateHeartbeat at *
      rw [FdMap.find?_modify, if_pos rfl, hreg]; rfl
    · intro k hk
      rw [hf.1]
      unfold getClientInfo updateHeartbeat
      rw [FdMap.find?_modify, if_neg hk]
    · rw [hf.2.2.2.2.1]
      simp only [hlive, if_true]
    · exact headerBytes_length be _
    · unfold packHeartbeatResponse
      have := decodeHeader_mkHeader be MSG_HEARTBEAT_RSP 0 header.sequence []
      rw [List.append_nil] at this
      rw [this, Nat.mod_eq_of_lt hseq]
      simp [MSG_HEARTBEAT_RSP]
  · intro hb
    have hlen : body.length ≠ 0 := by
      intro h; exact hb (List.length_eq_zero.1 h)
    unfold handleMessage
    rw [if_pos hmsg, if_pos hlen]

set_option maxRecDepth 1000000 in
theorem heartbeat_handling_witness :
    (demoHeader MSG_HEARTBEAT_REQ 0 61).msgType = MSG_HEARTBEAT_REQ
    ∧ getClientInfo demoAlice.clients 6 = some (demoEntry demoAlice 6)
    ∧ (demoEntry demoAlice 6).lastHeartbeat = 0
    ∧ getClientInfo (handleMessage false 77 0 demoAlice 6 (demoHeader MSG_HEARTBEAT_REQ 0 61)
          []).clients 6 = some { demoEntry demoAlice 6 with lastHeartbeat := 77 }
    ∧ (handleMessage false 77 0 demoAlice 6 (demoHeader MSG_HEARTBEAT_REQ 0 61) []).sent
        = demoAlice.sent ++ [(6, packHeartbeatResponse false 61)]
    ∧ handleMessage false 77 0 demoAlice 6 (demoHeader MSG_HEARTBEAT_REQ 1 61) [0]
        = demoAlice :=
  have h := heartbeat_handling false 77 0 demoAlice 6 (demoHeader MSG_HEARTBEAT_REQ 0 61) []
    (demoEntry demoAlice 6) (by decide) (by decide) (by decide) (by decide)
  have h1 := heartbeat_handling false 77 0 demoAlice 6 (demoHeader MSG_HEARTBEAT_REQ 1 61) [0]
    (demoEntry demoAlice 6) (by decide) (by decide) (by decide) (by decide)
  ⟨by decide, by decide, by decide, (h.1 rfl).1, (h.1 rfl).2.2.1, h1.2 (by decide)⟩

theorem handleMessage_userList (be : Bool) (now epoch : Nat) (s : Server) (c : Int)
    (header : MessageHeader) (body : List Nat) (hmsg : header.msgType = MSG_USER_LIST_REQ) :
    handleMessage be now epoch s c header body = handleUserListRequest be s c header := by
  simp [handleMessage, hmsg, MSG_CHAT_MSG, MSG_LOGIN_REQ, MSG_HEARTBEAT_REQ, MSG_LOGOUT_REQ,
    MSG_USER_LIST_REQ]

theorem userInfos_length (m : FdMap ClientInfo) :
    (userInfos (getOnlineClients m)).length = getOnlineCount m := by
  simp [userInfos, getOnlineClients, getOnlineCount]

/-- C18: user-list request. For a USER_LIST_REQ with sequence `s` (a 32-bit value) from a
connection `c` of the roster that has a handler, when the online count fits the 32-bit count
field (it is at most 1024 in every reachable state, `reachable_onlineCount`): if `c` is
online, exactly one frame is sent, to `c`; its header decodes to msgType USER_LIST_RSP with
sequence `s` and bodyLength 4 + 96 * count, its count field decodes to the online count, and
the count field is followed by one 96-byte entry per online session, in roster order, holding
the clientId and the nickname of the session in its 32-byte and 64-byte fields, the session
of `c` among them; if `c` is not online, the state does not change and nothing is sent. -/
theorem user_list_request (be : Bool) (now epoch : Nat) (s : Server) (c : Int)
    (header : MessageHeader) (body : List Nat) (info : ClientInfo)
    (hmsg : header.msgType = MSG_USER_LIST_REQ)
    (hseq : header.sequence < 2 ^ 32)
    (hinfo : getClientInfo s.clients c = some info)
    (hlive : (FdMap.find? s.clientHandlers c).isSome = true)
    (hcount : getOnlineCount s.clients ≤ 1024) :
    (info.isOnline = true →
      (handleMessage be now epoch s c header body).sent
          = s.sent ++ [(c, packUserListResponse be header.sequence
              (userInfos (getOnlineClients s.clients)))]
      ∧ decodeHeader be (packUserListResponse be header.sequence
            (userInfos (getOnlineClients s.clients)))
          = { magic := MAGIC_NUMBER, version := PROTOCOL_VERSION, msgType := MSG_USER_LIST_RSP,
              bodyLength := 4 + 96 * getOnlineCount s.clients, sequence := header.sequence }
      ∧ ntohl be (memLoad be (((packUserListResponse be header.sequence
            (userInfos (getOnlineClients s.clients))).drop 16).take 4))
          = getOnlineCount s.clients
      ∧ (packUserListResponse be header.sequence
            (userInfos (getOnlineClients s.clients))).drop 20
          = ((getOnlineClients s.clients).map (fun i =>
              strncpy (List.replicate 32 0) i.clientId 31
                ++ strncpy (List.replicate 64 0) i.nickname 63)).flatten
      ∧ (getOnlineClients s.clients).length = getOnlineCount s.clients
      ∧ info ∈ getOnlineClients s.clients)
    ∧ (info.isOnline = false → handleMessage be now epoch s c header body = s) := by
  rw [handleMessage_userList be now epoch s c header body hmsg]
  unfold handleUserListRequest
  simp only [hinfo]
  constructor
  · intro hon
    simp only [hon, Bool.not_true, Bool.false_eq_true, if_false]
    have hlen := userInfos_length s.clients
    have hh := headerBytes_length be (mkHeader be MSG_USER_LIST_RSP
      (4 + (userInfos (getOnlineClients s.clients)).length * sizeofUserInfo) header.sequence)
    have hm : (memStore be 4 (htonl be
        ((userInfos (getOnlineClients s.clients)).length % 2 ^ 32))).length = 4 :=
      memStore_length _ _ _
    refine ⟨?_, ?_, ?_, ?_, ?_, ?_⟩
    · unfold sendUserList
      simp only []
      rw [(sendResponse_fields _ _ _).2.2.2.2.1]
      simp only [hlive, if_true]
    · unfold packUserListResponse
      have e1 : header.sequence % 2 ^ 32 = header.sequence := Nat.mod_eq_of_lt hseq
      have e2 : (4 + getOnlineCount s.clients * (32 + 64)) % 2 ^ 32
          = 4 + 96 * getOnlineCount s.clients := by omega
      have e3 : MSG_USER_LIST_RSP % 2 ^ 16 = MSG_USER_LIST_RSP := by decide
      simp only [List.append_assoc, decodeHeader_mkHeader, hlen, sizeofUserInfo, e1, e2, e3]
    · unfold packUserListResponse
      simp only [List.append_assoc]
      have hlt : htonl be ((userInfos (getOnlineClients s.clients)).length % 2 ^ 32)
          < 256 ^ 4 := by
        have := htonl_lt be ((userInfos (getOnlineClients s.clients)).length % 2 ^ 32)
        norm_num at this ⊢; exact this
      rw [List.drop_left' hh, List.take_left' hm, memLoad_memStore, Nat.mod_eq_of_lt hlt,
        ntohl_htonl, Nat.mod_mod, hlen, Nat.mod_eq_of_lt (by omega)]
    · unfold packUserListResponse
      simp only []
      have h20 : ((mkHeader be MSG_USER_LIST_RSP
          (4 + (userInfos (getOnlineClients s.clients)).length * sizeofUserInfo)
          header.sequence).bytes be ++ memStore be 4 (htonl be
            ((userInfos (getOnlineClients s.clients)).length % 2 ^ 32))).length = 20 := by
        rw [List.length_append, hh, hm]
      rw [List.drop_left' h20]
      simp only [userInfos, List.map_map]
      rfl
    · simp [getOnlineClients, getOnlineCount]
    · unfold getOnlineClients
      rw [List.mem_map]
      exact ⟨(c, info), List.mem_filter.2 ⟨FdMap.find?_mem _ _ _ hinfo, hon⟩, rfl⟩
  · intro hoff
    simp only [hoff, Bool.not_false, if_true]

set_option maxRecDepth 1000000 in
theorem user_list_request_witness :
    (demoHeader MSG_USER_LIST_REQ 0 71).msgType = MSG_USER_LIST_REQ
    ∧ getClientInfo demoAll.clients 6 = some (demoEntry demoAll 6)
    ∧ (demoEntry demoAll 6).isOnline = true
    ∧ getOnlineCount demoAll.clients = 3
    ∧ (handleMessage false 0 0 demoAll 6 (demoHeader MSG_USER_LIST_REQ 0 71) []).sent
        = demoAll.sent ++ [(6, packUserListResponse false 71
            (userInfos (getOnlineClients demoAll.clients)))]
    ∧ (getOnlineClients demoAll.clients).map (fun i => (i.clientId, i.nickname))
        = [(ascii "alice", ascii "Alice"), (ascii "bob", ascii "Bob"),
            (ascii "carol", ascii "Carol")]
    ∧ (demoEntry demoAlice 6).isOnline = false
    ∧ handleMessage false 0 0 demoAlice 6 (demoHeader MSG_USER_LIST_REQ 0 71) [] = demoAlice :=
  have h := user_list_request false 0 0 demoAll 6 (demoHeader MSG_USER_LIST_REQ 0 71) []
    (demoEntry demoAll 6) (by decide) (by decide) (by decide) (by decide) (by decide)
  have h1 := user_list_request false 0 0 demoAlice 6 (demoHeader MSG_USER_LIST_REQ 0 71) []
    (demoEntry demoAlice 6) (by decide) (by decide) (by decide) (by decide) (by decide)
  ⟨by decide, by decide, by decide, by decide, (h.1 (by decide)).1, by decide, by decide,
    h1.2 (by decide)⟩

/-! ## The timestamp of a forwarded chat -/

/-- The timestamp a decoded chat carries is a 64-bit value. -/
theorem parseChatMessage_timestamp_lt (be : Bool) (body : List Nat) (msg : ChatMessage)
    (hparse : parseChatMessage be body = some msg) : msg.timestamp < 2 ^ 64 := by
  unfold parseChatMessage at hparse
  split at hparse
  · exact absurd hparse (by simp)
  · have e : msg.timestamp
        = networkToHost64 be (memLoad be ((body.drop 129).take 8)) := by
      injection hparse with h; rw [← h]; rfl
    rw [e]
    cases be
    · simp only [networkToHost64, Bool.false_eq_true, if_false]
      exact swap64_lt false _
    · simp only [networkToHost64, if_true]
      have h1 := memLoad_lt true ((body.drop 129).take 8)
      have h2 : ((body.drop 129).take 8).length ≤ 8 := by
        rw [List.length_take]; exact Nat.min_le_left _ _
      have h3 : 256 ^ ((body.drop 129).take 8).length ≤ 256 ^ 8 :=
        Nat.pow_le_pow_right (by norm_num) h2
      have h4 : (256 : Nat) ^ 8 = 2 ^ 64 := by norm_num
      omega

/-- The body of a frame built by `packChatMessage` decodes, and to the timestamp that was
packed. -/
theorem packChatMessage_timestamp (be : Bool) (sequence : Nat) (scope : ChatScope)
    (fromId fromNick toId message : List Nat) (timestamp : Nat) (hts : timestamp < 2 ^ 64) :
    ∃ m, parseChatMessage be
        ((packChatMessage be sequence scope fromId fromNick toId message timestamp).drop 16)
          = some m
      ∧ m.timestamp = timestamp := by
  have r1 : (strncpy (List.replicate 32 0) fromId (32 - 1)).length = 32 := by
    rw [strncpy_length _ _ _ (by rw [List.length_replicate]; omega), List.length_replicate]
  have r2 : (strncpy (List.replicate 64 0) fromNick (64 - 1)).length = 64 := by
    rw [strncpy_length _ _ _ (by rw [List.length_replicate]; omega), List.length_replicate]
  have r3 : (strncpy (List.replicate 32 0) toId (32 - 1)).length = 32 := by
    rw [strncpy_length _ _ _ (by rw [List.length_replicate]; omega), List.length_replicate]
  have r4 : (strncpy (List.replicate 256 0) message (256 - 1)).length = 256 := by
    rw [strncpy_length _ _ _ (by rw [List.length_replicate]; omega), List.length_replicate]
  have hh := headerBytes_length be (mkHeader be MSG_CHAT_MSG sizeofChatMessage sequence)
  unfold packChatMessage
  simp only []
  rw [List.drop_left' hh]
  unfold parseChatMessage
  have hlen : ¬ (ChatMessage.bytes be
      { chatType := scope.toNat
        fromId := strncpy (List.replicate 32 0) fromId (32 - 1)
        fromNick := strncpy (List.replicate 64 0) fromNick (64 - 1)
        toId := strncpy (List.replicate 32 0) toId (32 - 1)
        timestamp := hostToNetwork64 be timestamp
        message := strncpy (List.replicate 256 0) message (256 - 1) }).length
      < sizeofChatMessage := by
    simp only [ChatMessage.bytes, List.length_append, memStore_length, r1, r2, r3, r4,
      List.length_singleton, sizeofChatMessage]
    omega
  rw [if_neg hlen]
  have hl := chatMessage_load_bytes be
      { chatType := scope.toNat
        fromId := strncpy (List.replicate 32 0) fromId (32 - 1)
        fromNick := strncpy (List.replicate 64 0) fromNick (64 - 1)
        toId := strncpy (List.replicate 32 0) toId (32 - 1)
        timestamp := hostToNetwork64 be timestamp
        message := strncpy (List.replicate 256 0) message (256 - 1) } [] r1 r2 r3 r4
  rw [List.append_nil] at hl
  refine ⟨_, rfl, ?_⟩
  have := timestamp_roundtrip be timestamp hts
  rw [memLoad_memStore] at this
  simp only [hl]
  exact this

/-- Every frame the chat handler sends is the frame `chatPacket` builds from the roster
entry of the sending connection. -/
theorem forwardChat_frames (be : Bool) (epoch : Nat) (s : Server) (c : Int)
    (header : MessageHeader) (msg : ChatMessage) :
    ∃ l, (forwardChat be epoch s c header msg).sent = s.sent ++ l
      ∧ ∀ x ∈ l, ∃ sender, getClientInfo s.clients c = some sender
          ∧ x.2 = chatPacket be epoch header sender msg := by
  unfold forwardChat
  cases hs : getClientInfo s.clients c with
  | none => exact ⟨[], by simp, by simp⟩
  | some sender =>
    simp only []
    split
    · exact ⟨[], by simp, by simp⟩
    · split
      · refine ⟨_, (sendToAll_fields _ _ _).2.2.2.2.1, ?_⟩
        intro x hx
        obtain ⟨fd, _, e⟩ := List.mem_map.1 hx
        exact ⟨sender, rfl, by rw [← e]⟩
      · split
        · exact ⟨[], by simp, by simp⟩
        · split
          · exact ⟨[], by simp, by simp⟩
          · refine ⟨_, (sendResponse_fields _ _ _).2.2.2.2.1, ?_⟩
            intro x hx
            split at hx
            · rw [List.mem_singleton] at hx
              exact ⟨sender, rfl, by rw [hx]⟩
            · simp at hx

/-- C19: chat timestamp substitution. For a CHAT_MSG whose body decodes, when the server's
current epoch-seconds value is a 64-bit value: every frame the server forwards is a CHAT_MSG
frame whose body decodes, and the timestamp it decodes to is the timestamp the sender
supplied when that value is not zero, and the server's current epoch-seconds value when the
sender supplied 0. -/
theorem chat_timestamp (be : Bool) (now epoch : Nat) (s : Server) (c : Int)
    (header : MessageHeader) (body : List Nat) (msg : ChatMessage)
    (hmsg : header.msgType = MSG_CHAT_MSG)
    (hparse : parseChatMessage be body = some msg)
    (hepoch : epoch < 2 ^ 64) :
    ∃ l, (handleMessage be now epoch s c header body).sent = s.sent ++ l
      ∧ ∀ x ∈ l, (decodeHeader be x.2).msgType = MSG_CHAT_MSG
          ∧ ∃ m, parseChatMessage be (x.2.drop 16) = some m
              ∧ (msg.timestamp ≠ 0 → m.timestamp = msg.timestamp)
              ∧ (msg.timestamp = 0 → m.timestamp = epoch) := by
  rw [handleMessage_chat be now epoch s c header body hmsg]
  unfold handleChatMessage
  simp only [hparse]
  obtain ⟨l, hl, hframes⟩ := forwardChat_frames be epoch s c header msg
  refine ⟨l, hl, ?_⟩
  intro x hx
  obtain ⟨sender, _, e⟩ := hframes x hx
  have hts := parseChatMessage_timestamp_lt be body msg hparse
  rw [e]
  unfold chatPacket
  simp only []
  refine ⟨decodeHeader_packChatMessage _ _ _ _ _ _ _ _, ?_⟩
  by_cases h0 : msg.timestamp = 0
  · obtain ⟨m, hm, ht⟩ := packChatMessage_timestamp be header.sequence (chatScopeOf msg)
      sender.clientId sender.nickname (fieldString msg.toId 32) (fieldString msg.message 256)
      epoch hepoch
    rw [if_pos h0]
    exact ⟨m, hm, fun h => absurd h0 h, fun _ => ht⟩
  · obtain ⟨m, hm, ht⟩ := packChatMessage_timestamp be header.sequence (chatScopeOf msg)
      sender.clientId sender.nickname (fieldString msg.toId 32) (fieldString msg.message 256)
      msg.timestamp hts
    rw [if_neg h0]
    exact ⟨m, hm, fun _ => ht, fun h => absurd h h0⟩

set_option maxRecDepth 1000000 in
theorem chat_timestamp_witness :
    (demoHeader MSG_CHAT_MSG 393 22).msgType = MSG_CHAT_MSG
    ∧ parseChatMessage false (demoStampedBody "bob" "yo" 1234)
        = some (demoChatMsg (demoStampedBody "bob" "yo" 1234))
    ∧ (demoChatMsg (demoStampedBody "bob" "yo" 1234)).timestamp = 1234
    ∧ (demoChatMsg (demoStampedBody "bob" "yo" 0)).timestamp = 0
    ∧ (handleMessage false 0 1700000000 demoAll 5 (demoHeader MSG_CHAT_MSG 393 22)
          (demoStampedBody "bob" "yo" 1234)).sent
        = demoAll.sent ++ [(6, packChatMessage false 22 ChatScope.CHAT_PRIVATE (ascii "alice")
            (ascii "Alice") (ascii "bob") (ascii "yo") 1234)]
    ∧ (handleMessage false 0 1700000000 demoAll 5 (demoHeader MSG_CHAT_MSG 393 22)
          (demoStampedBody "bob" "yo" 0)).sent
        = demoAll.sent ++ [(6, packChatMessage false 22 ChatScope.CHAT_PRIVATE (ascii "alice")
            (ascii "Alice") (ascii "bob") (ascii "yo") 1700000000)]
    ∧ ∃ l, (handleMessage false 0 1700000000 demoAll 5 (demoHeader MSG_CHAT_MSG 393 22)
          (demoStampedBody "bob" "yo" 1234)).sent = demoAll.sent ++ l
        ∧ ∀ x ∈ l, (decodeHeader false x.2).msgType = MSG_CHAT_MSG
            ∧ ∃ m, parseChatMessage false (x.2.drop 16) = some m
                ∧ ((demoChatMsg (demoStampedBody "bob" "yo" 1234)).timestamp ≠ 0 →
                    m.timestamp = (demoChatMsg (demoStampedBody "bob" "yo" 1234)).timestamp)
                ∧ ((demoChatMsg (demoStampedBody "bob" "yo" 1234)).timestamp = 0 →
                    m.timestamp = 1700000000) :=
  ⟨by decide, by decide, by decide, by decide, by decide, by decide,
    chat_timestamp false 0 1700000000 demoAll 5 (demoHeader MSG_CHAT_MSG 393 22)
      (demoStampedBody "bob" "yo" 1234) (demoChatMsg (demoStampedBody "bob" "yo" 1234))
      (by decide) (by decide) (by norm_num)⟩

/-! ## Layout of the frames (header bytes, body lengths, text fields) -/

theorem leBytes_four (v : Nat) :
    leBytes 4 v = [v % 256, v / 2 ^ 8 % 256, v / 2 ^ 16 % 256, v / 2 ^ 24 % 256] := by
  simp only [leBytes, Nat.div_div_eq_div_mul]
  norm_num

theorem leBytes_two (v : Nat) : leBytes 2 v = [v % 256, v / 2 ^ 8 % 256] := by
  simp only [leBytes]
  norm_num

theorem bswap32_digits (a b c d : Nat) (ha : a < 256) (hb : b < 256) (hc : c < 256)
    (hd : d < 256) :
    (a * 2 ^ 24 + b * 2 ^ 16 + c * 2 ^ 8 + d) % 256 = d
    ∧ (a * 2 ^ 24 + b * 2 ^ 16 + c * 2 ^ 8 + d) / 2 ^ 8 % 256 = c
    ∧ (a * 2 ^ 24 + b * 2 ^ 16 + c * 2 ^ 8 + d) / 2 ^ 16 % 256 = b
    ∧ (a * 2 ^ 24 + b * 2 ^ 16 + c * 2 ^ 8 + d) / 2 ^ 24 % 256 = a := by
  refine ⟨?_, ?_, ?_, ?_⟩ <;> omega

/-- A 32-bit value converted by `htonl` and stored by `memcpy` is, on either host, its four
bytes most significant first. -/
theorem store32_htonl (be : Bool) (v : Nat) :
    memStore be 4 (htonl be v)
      = [v / 2 ^ 24 % 256, v / 2 ^ 16 % 256, v / 2 ^ 8 % 256, v % 256] := by
  cases be
  · simp only [memStore, htonl, Bool.false_eq_true, if_false, leBytes_four, bswap32]
    have h := bswap32_digits (v % 256) (v / 2 ^ 8 % 256) (v / 2 ^ 16 % 256) (v / 2 ^ 24 % 256)
      (Nat.mod_lt _ (by norm_num)) (Nat.mod_lt _ (by norm_num)) (Nat.mod_lt _ (by norm_num))
      (Nat.mod_lt _ (by norm_num))
    rw [h.1, h.2.1, h.2.2.1, h.2.2.2]
  · simp only [memStore, htonl, if_true, leBytes_four, List.reverse_cons, List.reverse_nil,
      List.nil_append, List.cons_append]
    have e1 : v % 2 ^ 32 / 2 ^ 24 % 256 = v / 2 ^ 24 % 256 := by omega
    have e2 : v % 2 ^ 32 / 2 ^ 16 % 256 = v / 2 ^ 16 % 256 := by omega
    have e3 : v % 2 ^ 32 / 2 ^ 8 % 256 = v / 2 ^ 8 % 256 := by omega
    have e4 : v % 2 ^ 32 % 256 = v % 256 := by omega
    rw [e1, e2, e3, e4]

/-- A 16-bit value converted by `htons` and stored by `memcpy` is, on either host, its two
bytes most significant first. -/
theorem store16_htons (be : Bool) (v : Nat) :
    memStore be 2 (htons be v) = [v / 2 ^ 8 % 256, v % 256] := by
  cases be
  · simp only [memStore, htons, Bool.false_eq_true, if_false, leBytes_two, bswap16]
    have e1 : (v % 256 * 2 ^ 8 + v / 2 ^ 8 % 256) % 256 = v / 2 ^ 8 % 256 := by omega
    have e2 : (v % 256 * 2 ^ 8 + v / 2 ^ 8 % 256) / 2 ^ 8 % 256 = v % 256 := by omega
    rw [e1, e2]
  · simp only [memStore, htons, if_true, leBytes_two, List.reverse_cons, List.reverse_nil,
      List.nil_append, List.cons_append]
    have e1 : v % 2 ^ 16 / 2 ^ 8 % 256 = v / 2 ^ 8 % 256 := by omega
    have e2 : v % 2 ^ 16 % 256 = v % 256 := by omega
    rw [e1, e2]

/-- The 16 bytes of the header every `pack*` function of the server builds, on either host:
magic, version, message type, body length and sequence, each most significant byte first. -/
theorem headerBytes_eq (be : Bool) (msgType bodyLength sequence : Nat) :
    (mkHeader be msgType bodyLength sequence).bytes be
      = [0x12, 0x34, 0x56, 0x78, 0x00, 0x01, msgType / 2 ^ 8 % 256, msgType % 256,
         bodyLength / 2 ^ 24 % 256, bodyLength / 2 ^ 16 % 256, bodyLength / 2 ^ 8 % 256,
         bodyLength % 256,
         sequence / 2 ^ 24 % 256, sequence / 2 ^ 16 % 256, sequence / 2 ^ 8 % 256,
         sequence % 256] := by
  unfold MessageHeader.bytes mkHeader
  simp only [store32_htonl, store16_htons, MAGIC_NUMBER, PROTOCOL_VERSION, List.cons_append,
    List.nil_append]
  have e1 : bodyLength % 2 ^ 32 / 2 ^ 24 % 256 = bodyLength / 2 ^ 24 % 256 := by omega
  have e2 : bodyLength % 2 ^ 32 / 2 ^ 16 % 256 = bodyLength / 2 ^ 16 % 256 := by omega
  have e3 : bodyLength % 2 ^ 32 / 2 ^ 8 % 256 = bodyLength / 2 ^ 8 % 256 := by omega
  have e4 : bodyLength % 2 ^ 32 % 256 = bodyLength % 256 := by omega
  rw [e1, e2, e3, e4]
  norm_num

theorem headerBytes_networkHeader (be : Bool) (msgType bodyLength sequence : Nat) :
    (mkHeader be msgType bodyLength sequence).bytes be
      = networkHeader msgType bodyLength sequence :=
  headerBytes_eq be msgType bodyLength sequence

theorem networkHeader_length (msgType bodyLength sequence : Nat) :
    (networkHeader msgType bodyLength sequence).length = 16 := rfl

theorem field_length (w : Nat) (s : List Nat) (hw : 1 ≤ w) :
    (strncpy (List.replicate w 0) s (w - 1)).length = w := by
  rw [strncpy_length _ _ _ (by rw [List.length_replicate]; omega), List.length_replicate]

theorem packLoginResponse_length (be : Bool) (sequence result : Nat) (message : List Nat) :
    (packLoginResponse be sequence result message).length = 16 + 132 := by
  simp only [packLoginResponse, List.length_append, headerBytes_length, memStore_length,
    field_length 128 message (by norm_num)]

theorem packChatMessage_length (be : Bool) (sequence : Nat) (scope : ChatScope)
    (fromId fromNick toId message : List Nat) (timestamp : Nat) :
    (packChatMessage be sequence scope fromId fromNick toId message timestamp).length
      = 16 + 393 := by
  simp only [packChatMessage, ChatMessage.bytes, List.length_append, headerBytes_length,
    memStore_length, List.length_singleton, field_length 32 fromId (by norm_num),
    field_length 64 fromNick (by norm_num), field_length 32 toId (by norm_num),
    field_length 256 message (by norm_num)]

theorem packFileOffer_length (be : Bool) (sequence : Nat) (fileId fileName : List Nat)
    (fileSize : Nat) (fromId fromNick toId : List Nat) :
    (packFileOffer be sequence fileId fileName fileSize fromId fromNick toId).length
      = 16 + 429 := by
  simp only [packFileOffer, List.length_append, headerBytes_length, memStore_length,
    field_length 37 fileId (by norm_num), field_length 32 fromId (by norm_num),
    field_length 64 fromNick (by norm_num), field_length 32 toId (by norm_num),
    field_length 256 fileName (by norm_num)]

theorem packFileOfferResponse_length (be : Bool) (sequence : Nat) (fileId : List Nat)
    (result : Nat) (message : List Nat) :
    (packFileOfferResponse be sequence fileId result message).length = 16 + 105 := by
  simp only [packFileOfferResponse, List.length_append, headerBytes_length, memStore_length,
    field_length 37 fileId (by norm_num), field_length 64 message (by norm_num)]

theorem userBytes_length (users : List UserInfo)
    (h : ∀ u ∈ users, u.clientId.length = 32 ∧ u.nickname.length = 64) :
    ((users.map UserInfo.bytes).flatten).length = 96 * users.length := by
  induction users with
  | nil => rfl
  | cons u rest ih =>
    have hu := h u (List.mem_cons_self _ _)
    have := ih (fun x hx => h x (List.mem_cons_of_mem _ hx))
    simp only [List.map_cons, List.flatten_cons, List.length_append, List.length_cons,
      UserInfo.bytes, hu.1, hu.2, this]
    omega

theorem packUserListResponse_length (be : Bool) (sequence : Nat) (users : List UserInfo)
    (h : ∀ u ∈ users, u.clientId.length = 32 ∧ u.nickname.length = 64) :
    (packUserListResponse be sequence users).length = 16 + (4 + 96 * users.length) := by
  simp only [packUserListResponse, List.length_append, headerBytes_length, memStore_length,
    userBytes_length users h]
  omega

/-- C21 (as amended): frame header well-formedness. For every host byte order and every
server-side pack function (heartbeat response, login response, chat message, user-list
response, file offer, file-offer response, raw message), the first 16 output bytes are the
big-endian encodings of magic 0x12345678 (4 bytes), version 0x0001 (2), the message type (2),
bodyLength (4) and the given sequence (4), where bodyLength is the output length minus 16: 0
for the heartbeat response, 132 for the login response, 393 for the chat message, 429 for the
file offer, 105 for the file-offer response, 4 + 96*n for a user list of n records (of 32 +
64 bytes each) below 2^32 bytes, and the body length for a raw message with a 16-bit type
and a body shorter than 2^32 bytes. -/
theorem frame_header_layout (be : Bool) (sequence : Nat) :
    ((packHeartbeatResponse be sequence).take 16 = networkHeader 0x0002 0 sequence
      ∧ (packHeartbeatResponse be sequence).length = 16 + 0)
    ∧ (∀ result message,
        (packLoginResponse be sequence result message).take 16
          = networkHeader 0x0102 132 sequence
        ∧ (packLoginResponse be sequence result message).length = 16 + 132)
    ∧ (∀ scope fromId fromNick toId message timestamp,
        (packChatMessage be sequence scope fromId fromNick toId message timestamp).take 16
          = networkHeader 0x0201 393 sequence
        ∧ (packChatMessage be sequence scope fromId fromNick toId message timestamp).length
          = 16 + 393)
    ∧ (∀ users : List UserInfo,
        (∀ u ∈ users, u.clientId.length = 32 ∧ u.nickname.length = 64) →
        4 + 96 * users.length < 2 ^ 32 →
        (packUserListResponse be sequence users).take 16
          = networkHeader 0x0203 (4 + 96 * users.length) sequence
        ∧ (packUserListResponse be sequence users).length = 16 + (4 + 96 * users.length))
    ∧ (∀ fileId fileName fileSize fromId fromNick toId,
        (packFileOffer be sequence fileId fileName fileSize fromId fromNick toId).take 16
          = networkHeader 0x0301 429 sequence
        ∧ (packFileOffer be sequence fileId fileName fileSize fromId fromNick toId).length
          = 16 + 429)
    ∧ (∀ fileId result message,
        (packFileOfferResponse be sequence fileId result message).take 16
          = networkHeader 0x0302 105 sequence
        ∧ (packFileOfferResponse be sequence fileId result message).length = 16 + 105)
    ∧ (∀ msgType body, msgType < 2 ^ 16 → body.length < 2 ^ 32 →
        (packRawMessage be msgType sequence body).take 16
          = networkHeader msgType body.length sequence
        ∧ (packRawMessage be msgType sequence body).length = 16 + body.length) := by
  refine ⟨⟨?_, ?_⟩, ?_, ?_, ?_, ?_, ?_, ?_⟩
  · unfold packHeartbeatResponse
    rw [headerBytes_networkHeader, List.take_of_length_le (by rw [networkHeader_length])]
    rfl
  · exact headerBytes_length be _
  · intro result message
    refine ⟨?_, packLoginResponse_length be sequence result message⟩
    unfold packLoginResponse
    simp only [headerBytes_networkHeader]
    rw [List.take_left' (networkHeader_length _ _ _)]
    rfl
  · intro scope fromId fromNick toId message timestamp
    refine ⟨?_, packChatMessage_length be sequence scope fromId fromNick toId message
      timestamp⟩
    unfold packChatMessage
    simp only [headerBytes_networkHeader]
    rw [List.take_left' (networkHeader_length _ _ _)]
    rfl
  · intro users hu _
    refine ⟨?_, packUserListResponse_length be sequence users hu⟩
    unfold packUserListResponse
    simp only [headerBytes_networkHeader, List.append_assoc]
    rw [List.take_left' (networkHeader_length _ _ _)]
    have e : 4 + users.length * sizeofUserInfo = 4 + 96 * users.length := by
      simp only [sizeofUserInfo]; omega
    rw [e]
    rfl
  · intro fileId fileName fileSize fromId fromNick toId
    refine ⟨?_, packFileOffer_length be sequence fileId fileName fileSize fromId fromNick
      toId⟩
    unfold packFileOffer
    simp only [headerBytes_networkHeader]
    rw [List.take_left' (networkHeader_length _ _ _)]
    rfl
  · intro fileId result message
    refine ⟨?_, packFileOfferResponse_length be sequence fileId result message⟩
    unfold packFileOfferResponse
    simp only [headerBytes_networkHeader]
    rw [List.take_left' (networkHeader_length _ _ _)]
    rfl
  · intro msgType body _ _
    unfold packRawMessage
    simp only [headerBytes_networkHeader]
    rw [List.take_left' (networkHeader_length _ _ _), List.length_append,
      networkHeader_length]
    exact ⟨rfl, rfl⟩

theorem frame_header_layout_witness :
    (packRawMessage false 0x0303 7 [1, 2, 3]).take 16
        = [0x12, 0x34, 0x56, 0x78, 0, 1, 3, 3, 0, 0, 0, 3, 0, 0, 0, 7]
    ∧ (packRawMessage true 0x0303 7 [1, 2, 3]).take 16
        = [0x12, 0x34, 0x56, 0x78, 0, 1, 3, 3, 0, 0, 0, 3, 0, 0, 0, 7]
    ∧ (packUserListResponse false 7
          [{ clientId := List.replicate 32 0, nickname := List.replicate 64 0 }]).length
        = 16 + (4 + 96 * 1) :=
  ⟨((frame_header_layout false 7).2.2.2.2.2.2 0x0303 [1, 2, 3] (by decide) (by decide)).1,
    ((frame_header_layout true 7).2.2.2.2.2.2 0x0303 [1, 2, 3] (by decide) (by decide)).1,
    ((frame_header_layout false 7).2.2.2.1
      [{ clientId := List.replicate 32 0, nickname := List.replicate 64 0 }]
      (by decide) (by decide)).2⟩

/-- C21 (as stated) fails: the body of a chat frame has 393 bytes, not 389, and the body of
a file-offer frame has 429 bytes, not 409. -/
theorem frame_body_lengths_differ :
    (packChatMessage false 0 ChatScope.CHAT_GROUP [] [] [] [] 0).length - 16 = 393
    ∧ (packChatMessage false 0 ChatScope.CHAT_GROUP [] [] [] [] 0).length - 16 ≠ 389
    ∧ (packFileOffer false 0 [] [] 0 [] [] []).length - 16 = 429
    ∧ (packFileOffer false 0 [] [] 0 [] [] []).length - 16 ≠ 409 := by
  rw [packChatMessage_length, packFileOffer_length]
  decide

/-- A text field written by `strncpy` into a zeroed array of `w` bytes with the bound
`w - 1` is the field of the specification. -/
theorem strncpy_paddedField (w : Nat) (s : List Nat) (hw : 1 ≤ w) :
    strncpy (List.replicate w 0) s (w - 1) = paddedField w s := by
  unfold strncpy paddedField
  rw [List.drop_replicate, List.append_assoc, ← List.replicate_add, List.length_take]
  congr 2
  have := Nat.min_le_left (w - 1) (c_str s).length
  rw [Nat.min_comm (c_str s).length (w - 1)]
  omega

theorem paddedField_length (w : Nat) (s : List Nat) (hw : 1 ≤ w) :
    (paddedField w s).length = w := by
  rw [← strncpy_paddedField w s hw]; exact field_length w s hw

/-- The field of the specification: its first `min(len, w - 1)` bytes are those of the
string, every byte after them is zero, and so is its last byte. -/
theorem paddedField_spec (w : Nat) (s : List Nat) (hw : 1 ≤ w) :
    (paddedField w s).take (min (c_str s).length (w - 1)) = (c_str s).take (w - 1)
    ∧ (∀ b ∈ (paddedField w s).drop (min (c_str s).length (w - 1)), b = 0)
    ∧ (paddedField w s).drop (w - 1) = [0] := by
  have hl : ((c_str s).take (w - 1)).length = min (c_str s).length (w - 1) := by
    rw [List.length_take, Nat.min_comm]
  refine ⟨?_, ?_, ?_⟩
  · unfold paddedField
    rw [List.take_left' hl]
  · unfold paddedField
    rw [List.drop_left' hl]
    intro b hb
    exact List.eq_of_mem_replicate hb
  · unfold paddedField
    have hle : min (c_str s).length (w - 1) ≤ w - 1 := Nat.min_le_right _ _
    have key : ∀ (t : List Nat) (k m : Nat), t.length + k = m →
        (t ++ List.replicate (k + 1) 0).drop m = [0] := by
      intro t k m h
      rw [← h, List.drop_append, List.drop_replicate, Nat.add_sub_cancel_left]
      rfl
    have e : w - min (c_str s).length (w - 1) = (w - 1 - min (c_str s).length (w - 1)) + 1 := by
      omega
    rw [e]
    exact key _ _ _ (by rw [hl]; omega)

theorem slice_of_eq (p a f r : List Nat) (n k : Nat) (h : p = a ++ (f ++ r))
    (ha : a.length = n) (hf : f.length = k) : (p.drop n).take k = f := by
  rw [h]; exact mid_of_append a f r n k ha hf

/-- C22: encoded text fields are truncated and zero-padded. For every host byte order and
every pack function of the server with a text field (login response, chat message, file
offer, file-offer response, and the `UserInfo` records `sendUserList` builds for the user
list) and every input string, the field of width w in the output is `paddedField w s`: the
first min(len, w-1) bytes of the string taken up to its first NUL, followed only by zero
bytes up to the width w, so its last byte is 0 even when the input is longer than w-1
bytes. -/
theorem text_fields_padded (be : Bool) (sequence : Nat) :
    (∀ result message,
        ((packLoginResponse be sequence result message).drop 20).take 128
          = paddedField 128 message)
    ∧ (∀ scope fromId fromNick toId message timestamp,
        ((packChatMessage be sequence scope fromId fromNick toId message timestamp).drop
            17).take 32 = paddedField 32 fromId
        ∧ ((packChatMessage be sequence scope fromId fromNick toId message timestamp).drop
            49).take 64 = paddedField 64 fromNick
        ∧ ((packChatMessage be sequence scope fromId fromNick toId message timestamp).drop
            113).take 32 = paddedField 32 toId
        ∧ ((packChatMessage be sequence scope fromId fromNick toId message timestamp).drop
            153).take 256 = paddedField 256 message)
    ∧ (∀ fileId fileName fileSize fromId fromNick toId,
        ((packFileOffer be sequence fileId fileName fileSize fromId fromNick toId).drop
            16).take 37 = paddedField 37 fileId
        ∧ ((packFileOffer be sequence fileId fileName fileSize fromId fromNick toId).drop
            53).take 32 = paddedField 32 fromId
        ∧ ((packFileOffer be sequence fileId fileName fileSize fromId fromNick toId).drop
            85).take 64 = paddedField 64 fromNick
        ∧ ((packFileOffer be sequence fileId fileName fileSize fromId fromNick toId).drop
            149).take 32 = paddedField 32 toId
        ∧ ((packFileOffer be sequence fileId fileName fileSize fromId fromNick toId).drop
            189).take 256 = paddedField 256 fileName)
    ∧ (∀ fileId result message,
        ((packFileOfferResponse be sequence fileId result message).drop 16).take 37
          = paddedField 37 fileId
        ∧ ((packFileOfferResponse be sequence fileId result message).drop 57).take 64
          = paddedField 64 message)
    ∧ (∀ clients : List ClientInfo,
        userInfos clients = clients.map (fun info =>
          { clientId := paddedField 32 info.clientId
            nickname := paddedField 64 info.nickname }))
    ∧ (∀ w s, 1 ≤ w →
        (paddedField w s).length = w
        ∧ (paddedField w s).take (min (c_str s).length (w - 1)) = (c_str s).take (w - 1)
        ∧ (∀ b ∈ (paddedField w s).drop (min (c_str s).length (w - 1)), b = 0)
        ∧ (paddedField w s).drop (w - 1) = [0]) := by
  have p32 : ∀ s, strncpy (List.replicate 32 0) s (32 - 1) = paddedField 32 s :=
    fun s => strncpy_paddedField 32 s (by norm_num)
  have p37 : ∀ s, strncpy (List.replicate 37 0) s (37 - 1) = paddedField 37 s :=
    fun s => strncpy_paddedField 37 s (by norm_num)
  have p64 : ∀ s, strncpy (List.replicate 64 0) s (64 - 1) = paddedField 64 s :=
    fun s => strncpy_paddedField 64 s (by norm_num)
  have p128 : ∀ s, strncpy (List.replicate 128 0) s (128 - 1) = paddedField 128 s :=
    fun s => strncpy_paddedField 128 s (by norm_num)
  have p256 : ∀ s, strncpy (List.replicate 256 0) s (256 - 1) = paddedField 256 s :=
    fun s => strncpy_paddedField 256 s (by norm_num)
  have l32 : ∀ s, (paddedField 32 s).length = 32 := fun s => paddedField_length 32 s (by norm_num)
  have l37 : ∀ s, (paddedField 37 s).length = 37 := fun s => paddedField_length 37 s (by norm_num)
  have l64 : ∀ s, (paddedField 64 s).length = 64 := fun s => paddedField_length 64 s (by norm_num)
  have l128 : ∀ s, (paddedField 128 s).length = 128 :=
    fun s => paddedField_length 128 s (by norm_num)
  have l256 : ∀ s, (paddedField 256 s).length = 256 :=
    fun s => paddedField_length 256 s (by norm_num)
  refine ⟨?_, ?_, ?_, ?_, ?_, ?_⟩
  · intro result message
    unfold packLoginResponse
    simp only [p128]
    refine slice_of_eq _ ((mkHeader be MSG_LOGIN_RSP sizeofLoginResponse sequence).bytes be
      ++ memStore be 4 (htonl be result)) _ [] 20 128 (by simp only [List.append_assoc,
        List.append_nil]) ?_ (l128 _)
    simp only [List.length_append, headerBytes_length, memStore_length]
  · intro scope fromId fromNick toId message timestamp
    unfold packChatMessage ChatMessage.bytes
    simp only [p32, p64, p256]
    refine ⟨?_, ?_, ?_, ?_⟩
    · refine slice_of_eq _ ((mkHeader be MSG_CHAT_MSG sizeofChatMessage sequence).bytes be
        ++ [scope.toNat % 256]) _
        (paddedField 64 fromNick ++ paddedField 32 toId
          ++ memStore be 8 (hostToNetwork64 be timestamp) ++ paddedField 256 message)
        17 32 (by simp only [List.append_assoc]) ?_ (l32 _)
      simp only [List.length_append, headerBytes_length, List.length_singleton]
    · refine slice_of_eq _ ((mkHeader be MSG_CHAT_MSG sizeofChatMessage sequence).bytes be
        ++ [scope.toNat % 256] ++ paddedField 32 fromId) _
        (paddedField 32 toId
          ++ memStore be 8 (hostToNetwork64 be timestamp) ++ paddedField 256 message)
        49 64 (by simp only [List.append_assoc]) ?_ (l64 _)
      simp only [List.length_append, headerBytes_length, List.length_singleton, l32]
    · refine slice_of_eq _ ((mkHeader be MSG_CHAT_MSG sizeofChatMessage sequence).bytes be
        ++ [scope.toNat % 256] ++ paddedField 32 fromId ++ paddedField 64 fromNick) _
        (memStore be 8 (hostToNetwork64 be timestamp) ++ paddedField 256 message)
        113 32 (by simp only [List.append_assoc]) ?_ (l32 _)
      simp only [List.length_append, headerBytes_length, List.length_singleton, l32, l64]
    · refine slice_of_eq _ ((mkHeader be MSG_CHAT_MSG sizeofChatMessage sequence).bytes be
        ++ [scope.toNat % 256] ++ paddedField 32 fromId ++ paddedField 64 fromNick
        ++ paddedField 32 toId ++ memStore be 8 (hostToNetwork64 be timestamp)) _ []
        153 256 (by simp only [List.append_assoc, List.append_nil]) ?_ (l256 _)
      simp only [List.length_append, headerBytes_length, List.length_singleton, l32, l64,
        memStore_length]
  · intro fileId fileName fileSize fromId fromNick toId
    unfold packFileOffer
    simp only [p32, p37, p64, p256]
    refine ⟨?_, ?_, ?_, ?_, ?_⟩
    · refine slice_of_eq _ ((mkHeader be MSG_FILE_OFFER sizeofFileOffer sequence).bytes be) _
        (paddedField 32 fromId ++ paddedField 64 fromNick ++ paddedField 32 toId
          ++ memStore be 8 (hostToNetwork64 be fileSize) ++ paddedField 256 fileName)
        16 37 (by simp only [List.append_assoc]) ?_ (l37 _)
      simp only [headerBytes_length]
    · refine slice_of_eq _ ((mkHeader be MSG_FILE_OFFER sizeofFileOffer sequence).bytes be
        ++ paddedField 37 fileId) _
        (paddedField 64 fromNick ++ paddedField 32 toId
          ++ memStore be 8 (hostToNetwork64 be fileSize) ++ paddedField 256 fileName)
        53 32 (by simp only [List.append_assoc]) ?_ (l32 _)
      simp only [List.length_append, headerBytes_length, l37]
    · refine slice_of_eq _ ((mkHeader be MSG_FILE_OFFER sizeofFileOffer sequence).bytes be
        ++ paddedField 37 fileId ++ paddedField 32 fromId) _
        (paddedField 32 toId
          ++ memStore be 8 (hostToNetwork64 be fileSize) ++ paddedField 256 fileName)
        85 64 (by simp only [List.append_assoc]) ?_ (l64 _)
      simp only [List.length_append, headerBytes_length, l37, l32]
    · refine slice_of_eq _ ((mkHeader be MSG_FILE_OFFER sizeofFileOffer sequence).bytes be
        ++ paddedField 37 fileId ++ paddedField 32 fromId ++ paddedField 64 fromNick) _
        (memStore be 8 (hostToNetwork64 be fileSize) ++ paddedField 256 fileName)
        149 32 (by simp only [List.append_assoc]) ?_ (l32 _)
      simp only [List.length_append, headerBytes_length, l37, l32, l64]
    · refine slice_of_eq _ ((mkHeader be MSG_FILE_OFFER sizeofFileOffer sequence).bytes be
        ++ paddedField 37 fileId ++ paddedField 32 fromId ++ paddedField 64 fromNick
        ++ paddedField 32 toId ++ memStore be 8 (hostToNetwork64 be fileSize)) _ []
        189 256 (by simp only [List.append_assoc, List.append_nil]) ?_ (l256 _)
      simp only [List.length_append, headerBytes_length, l37, l32, l64, memStore_length]
  · intro fileId result message
    unfold packFileOfferResponse
    simp only [p37, p64]
    refine ⟨?_, ?_⟩
    · refine slice_of_eq _
        ((mkHeader be MSG_FILE_OFFER_RSP sizeofFileOfferResponse sequence).bytes be) _
        (memStore be 4 (htonl be result) ++ paddedField 64 message)
        16 37 (by simp only [List.append_assoc]) ?_ (l37 _)
      simp only [headerBytes_length]
    · refine slice_of_eq _
        ((mkHeader be MSG_FILE_OFFER_RSP sizeofFileOfferResponse sequence).bytes be
          ++ paddedField 37 fileId ++ memStore be 4 (htonl be result)) _ []
        57 64 (by simp only [List.append_assoc, List.append_nil]) ?_ (l64 _)
      simp only [List.length_append, headerBytes_length, l37, memStore_length]
  · intro clients
    unfold userInfos
    simp only [p32, p64]
  · intro w s hw
    exact ⟨paddedField_length w s hw, paddedField_spec w s hw⟩

theorem text_fields_padded_witness :
    paddedField 4 [65, 66, 67, 68, 69] = [65, 66, 67, 0]
    ∧ paddedField 4 [65, 0, 67] = [65, 0, 0, 0]
    ∧ (paddedField 4 [65, 66, 67, 68, 69]).length = 4
    ∧ (paddedField 4 [65, 66, 67, 68, 69]).drop (4 - 1) = [0] :=
  have h := (text_fields_padded false 0).2.2.2.2.2 4 [65, 66, 67, 68, 69] (by decide)
  ⟨by decide, by decide, h.1, h.2.2.2⟩

/-! ## Decoders: text fields, short bodies, trailing bytes -/

theorem c_str_take (l : List Nat) (n : Nat) : c_str (l.take n) = (c_str l).take n := by
  unfold c_str
  induction l generalizing n with
  | nil => simp
  | cons c cs ih =>
    cases n with
    | zero => simp
    | succ n =>
      rw [List.take_succ_cons, List.takeWhile_cons, List.takeWhile_cons]
      split
      · rw [List.take_succ_cons, ih]
      · simp

theorem fieldString_nul (g : List Nat) (n : Nat) (h : g.length < n) :
    fieldString (g ++ [0]) n = c_str g := by
  unfold fieldString c_str
  induction g generalizing n with
  | nil =>
    cases n with
    | zero => omega
    | succ n => simp [boundedStrnlen]
  | cons c cs ih =>
    cases n with
    | zero => omega
    | succ n =>
      have ih' := ih n (by simp only [List.length_cons] at h; omega)
      show List.take (boundedStrnlen (c :: (cs ++ [0])) (n + 1)) (c :: (cs ++ [0])) = _
      rw [boundedStrnlen, List.takeWhile_cons]
      by_cases hc : c % 256 = 0
      · simp [hc]
      · simp only [hc, if_false, List.take_succ_cons, bne_iff_ne, ne_eq, not_false_eq_true,
          decide_True, if_true]
        rw [ih']

/-- The string a decoder yields for a text field of width `w`: the bytes of the field up to
its first NUL, capped at `w - 1` bytes. -/
theorem fieldString_decoded (f : List Nat) (w : Nat) (hw : 1 ≤ w) :
    fieldString (terminate f w) w = (c_str f).take (w - 1) := by
  unfold terminate
  rw [fieldString_nul _ _ (by rw [List.length_take]; have := Nat.min_le_left (w - 1) f.length; omega),
    c_str_take]

theorem c_str_of_nonNul (f : List Nat) (h : ∀ b ∈ f, b % 256 ≠ 0) : c_str f = f := by
  unfold c_str
  rw [List.takeWhile_eq_self_iff]
  intro c hc
  simp [h c hc]

/-- C23: decoding a full-width text field. For each server decoder (parseLoginRequest,
parseChatMessage, parseFileOffer, parseFileOfferResponse) followed by the `boundedStrnlen`
string construction, the string decoded from a text field of width w is the field's bytes up
to its first NUL, capped at w - 1 bytes; so when the field holds w non-NUL bytes (no
terminator in the payload) the decoded string is exactly the first w - 1 bytes of the
field. -/
theorem full_width_field_decoding (be : Bool) :
    (∀ f w, 1 ≤ w → fieldString (terminate f w) w = (c_str f).take (w - 1))
    ∧ (∀ f w, 1 ≤ w → f.length = w → (∀ b ∈ f, b % 256 ≠ 0) →
        fieldString (terminate f w) w = f.take (w - 1)
        ∧ (fieldString (terminate f w) w).length = w - 1)
    ∧ (∀ body req, parseLoginRequest body = some req →
        fieldString req.clientId 32 = (c_str (body.take 32)).take 31
        ∧ fieldString req.nickname 64 = (c_str ((body.drop 32).take 64)).take 63)
    ∧ (∀ body msg, parseChatMessage be body = some msg →
        fieldString msg.fromId 32 = (c_str ((body.drop 1).take 32)).take 31
        ∧ fieldString msg.fromNick 64 = (c_str ((body.drop 33).take 64)).take 63
        ∧ fieldString msg.toId 32 = (c_str ((body.drop 97).take 32)).take 31
        ∧ fieldString msg.message 256 = (c_str ((body.drop 137).take 256)).take 255)
    ∧ (∀ body offer, parseFileOffer be body = some offer →
        fieldString offer.fileId 37 = (c_str (body.take 37)).take 36
        ∧ fieldString offer.fromId 32 = (c_str ((body.drop 37).take 32)).take 31
        ∧ fieldString offer.fromNick 64 = (c_str ((body.drop 69).take 64)).take 63
        ∧ fieldString offer.toId 32 = (c_str ((body.drop 133).take 32)).take 31
        ∧ fieldString offer.fileName 256 = (c_str ((body.drop 173).take 256)).take 255)
    ∧ (∀ body rsp, parseFileOfferResponse be body = some rsp →
        fieldString rsp.fileId 37 = (c_str (body.take 37)).take 36
        ∧ fieldString rsp.message 64 = (c_str ((body.drop 41).take 64)).take 63) := by
  refine ⟨fun f w hw => fieldString_decoded f w hw, ?_, ?_, ?_, ?_, ?_⟩
  · intro f w hw hl hn
    have e : fieldString (terminate f w) w = f.take (w - 1) := by
      rw [fieldString_decoded f w hw, c_str_of_nonNul f hn]
    refine ⟨e, ?_⟩
    rw [e, List.length_take]; omega
  · intro body req h
    unfold parseLoginRequest at h
    split at h
    · exact absurd h (by simp)
    · injection h with h
      rw [← h]
      exact ⟨fieldString_decoded _ 32 (by norm_num), fieldString_decoded _ 64 (by norm_num)⟩
  · intro body msg h
    unfold parseChatMessage at h
    split at h
    · exact absurd h (by simp)
    · injection h with h
      rw [← h]
      exact ⟨fieldString_decoded _ 32 (by norm_num), fieldString_decoded _ 64 (by norm_num),
        fieldString_decoded _ 32 (by norm_num), fieldString_decoded _ 256 (by norm_num)⟩
  · intro body offer h
    unfold parseFileOffer at h
    split at h
    · exact absurd h (by simp)
    · injection h with h
      rw [← h]
      exact ⟨fieldString_decoded _ 37 (by norm_num), fieldString_decoded _ 32 (by norm_num),
        fieldString_decoded _ 64 (by norm_num), fieldString_decoded _ 32 (by norm_num),
        fieldString_decoded _ 256 (by norm_num)⟩
  · intro body rsp h
    unfold parseFileOfferResponse at h
    split at h
    · exact absurd h (by simp)
    · injection h with h
      rw [← h]
      exact ⟨fieldString_decoded _ 37 (by norm_num), fieldString_decoded _ 64 (by norm_num)⟩

set_option maxRecDepth 1000000 in
theorem full_width_field_decoding_witness :
    parseLoginRequest (List.replicate 96 65)
        = some { clientId := List.replicate 31 65 ++ [0],
                 nickname := List.replicate 63 65 ++ [0] }
    ∧ fieldString (List.replicate 31 65 ++ [0]) 32 = List.replicate 31 65
    ∧ fieldString (terminate (List.replicate 32 65) 32) 32 = (List.replicate 32 65).take (32 - 1)
    ∧ fieldString (List.replicate 31 65 ++ [0]) 32
        = (c_str ((List.replicate 96 65).take 32)).take 31 :=
  ⟨by decide, by decide,
    ((full_width_field_decoding false).2.1 (List.replicate 32 65) 32 (by decide) (by decide)
      (by decide)).1,
    ((full_width_field_decoding false).2.2.1 (List.replicate 96 65)
      { clientId := List.replicate 31 65 ++ [0], nickname := List.replicate 63 65 ++ [0] }
      (by decide)).1⟩

theorem take_drop_take (l : List Nat) (n k w : Nat) (hn : n ≤ l.length) (h : k + w ≤ n) :
    ((l.take n).drop k).take w = (l.drop k).take w := by
  have e := take_drop_append (l.take n) (l.drop n) k w
    (by rw [List.length_take]; omega)
  rw [List.take_append_drop] at e
  exact e.symm

theorem headD_take (l : List Nat) (n : Nat) (hn : 1 ≤ n) :
    (l.take n).headD 0 = l.headD 0 := by
  cases l with
  | nil => simp
  | cons a t =>
    cases n with
    | zero => omega
    | succ n => simp

/-- C24 (as amended): short bodies are rejected. parseLoginRequest, parseChatMessage,
parseFileOffer and parseFileOfferResponse return failure if and only if the body length is
less than 96, 393, 429 and 105 bytes respectively (the sizes of the packed structures); on
success the result depends only on the first 96/393/429/105 bytes, so any trailing bytes are
ignored. -/
theorem short_bodies_rejected (be : Bool) (body : List Nat) :
    (parseLoginRequest body = none ↔ body.length < 96)
    ∧ (parseChatMessage be body = none ↔ body.length < 393)
    ∧ (parseFileOffer be body = none ↔ body.length < 429)
    ∧ (parseFileOfferResponse be body = none ↔ body.length < 105)
    ∧ (96 ≤ body.length → parseLoginRequest body = parseLoginRequest (body.take 96))
    ∧ (393 ≤ body.length → parseChatMessage be body = parseChatMessage be (body.take 393))
    ∧ (429 ≤ body.length → parseFileOffer be body = parseFileOffer be (body.take 429))
    ∧ (105 ≤ body.length →
        parseFileOfferResponse be body = parseFileOfferResponse be (body.take 105)) := by
  refine ⟨?_, ?_, ?_, ?_, ?_, ?_, ?_, ?_⟩
  · unfold parseLoginRequest
    simp only [sizeofLoginRequest, Nat.reduceAdd]
    split <;> simp [*]
  · unfold parseChatMessage
    simp only [sizeofChatMessage, Nat.reduceAdd]
    split <;> simp [*]
  · unfold parseFileOffer
    simp only [sizeofFileOffer, Nat.reduceAdd]
    split <;> simp [*]
  · unfold parseFileOfferResponse
    simp only [sizeofFileOfferResponse, Nat.reduceAdd]
    split <;> simp [*]
  · intro h
    have hl : (body.take 96).length = 96 := by rw [List.length_take]; omega
    unfold parseLoginRequest
    simp only [sizeofLoginRequest, Nat.reduceAdd, hl, if_neg (show ¬ body.length < 96 by omega),
      Nat.lt_irrefl, if_false]
    rw [take_drop_take body 96 32 64 h (by norm_num), List.take_take]
    rfl
  · intro h
    have hl : (body.take 393).length = 393 := by rw [List.length_take]; omega
    unfold parseChatMessage ChatMessage.load
    simp only [sizeofChatMessage, Nat.reduceAdd, hl,
      if_neg (show ¬ body.length < 393 by omega), Nat.lt_irrefl, if_false]
    rw [take_drop_take body 393 1 32 h (by norm_num),
      take_drop_take body 393 33 64 h (by norm_num),
      take_drop_take body 393 97 32 h (by norm_num),
      take_drop_take body 393 129 8 h (by norm_num),
      take_drop_take body 393 137 256 h (by norm_num), headD_take body 393 (by norm_num)]
  · intro h
    have hl : (body.take 429).length = 429 := by rw [List.length_take]; omega
    unfold parseFileOffer
    simp only [sizeofFileOffer, Nat.reduceAdd, hl,
      if_neg (show ¬ body.length < 429 by omega), Nat.lt_irrefl, if_false]
    rw [take_drop_take body 429 37 32 h (by norm_num),
      take_drop_take body 429 69 64 h (by norm_num),
      take_drop_take body 429 133 32 h (by norm_num),
      take_drop_take body 429 165 8 h (by norm_num),
      take_drop_take body 429 173 256 h (by norm_num), List.take_take]
    rfl
  · intro h
    have hl : (body.take 105).length = 105 := by rw [List.length_take]; omega
    unfold parseFileOfferResponse
    simp only [sizeofFileOfferResponse, Nat.reduceAdd, hl,
      if_neg (show ¬ body.length < 105 by omega), Nat.lt_irrefl, if_false]
    rw [take_drop_take body 105 37 4 h (by norm_num),
      take_drop_take body 105 41 64 h (by norm_num), List.take_take]
    rfl

set_option maxRecDepth 1000000 in
theorem short_bodies_rejected_witness :
    parseFileOfferResponse false (demoOfferRspBody "f1" 1 "no" ++ [7, 7, 7])
        = parseFileOfferResponse false ((demoOfferRspBody "f1" 1 "no" ++ [7, 7, 7]).take 105)
    ∧ parseFileOfferResponse false (demoOfferRspBody "f1" 1 "no" ++ [7, 7, 7])
        = parseFileOfferResponse false (demoOfferRspBody "f1" 1 "no")
    ∧ parseFileOfferResponse false ((demoOfferRspBody "f1" 1 "no").take 104) = none :=
  ⟨(short_bodies_rejected false (demoOfferRspBody "f1" 1 "no" ++ [7, 7, 7])).2.2.2.2.2.2.2
      (by decide),
    by decide, by decide⟩

/-- C24 (as stated) fails: a chat body of 389 bytes and a file-offer body of 409 bytes are
rejected although their lengths are not less than 389 and 409. -/
theorem parsers_reject_below_struct_size :
    (List.replicate 389 0).length = 389
    ∧ parseChatMessage false (List.replicate 389 0) = none
    ∧ (List.replicate 409 0).length = 409
    ∧ parseFileOffer false (List.replicate 409 0) = none := by
  refine ⟨List.length_replicate _ _, ?_, List.length_replicate _ _, ?_⟩
  · unfold parseChatMessage
    rw [if_pos (by rw [List.length_replicate]; decide)]
  · unfold parseFileOffer
    rw [if_pos (by rw [List.length_replicate]; decide)]

/-! ## Round trips of the codec -/

/-- C25: file-offer round trip. For every host byte order, every sequence, every 64-bit
fileSize and all NUL-free byte strings fileId (at most 36 bytes), fromId (at most 31),
fromNick (at most 63), toId (at most 31) and fileName (at most 255), `parseFileOffer`
applied to the body of `packFileOffer` (the bytes after the 16-byte header) succeeds and
returns the same fileSize and, reading each text field up to its first NUL, the same five
strings. -/
theorem file_offer_roundtrip (be : Bool) (sequence fileSize : Nat)
    (fileId fromId fromNick toId fileName : List Nat)
    (hsize : fileSize < 2 ^ 64)
    (hFileId : ∀ c ∈ fileId, 0 < c ∧ c < 256) (lFileId : fileId.length ≤ 36)
    (hFromId : ∀ c ∈ fromId, 0 < c ∧ c < 256) (lFromId : fromId.length ≤ 31)
    (hFromNick : ∀ c ∈ fromNick, 0 < c ∧ c < 256) (lFromNick : fromNick.length ≤ 63)
    (hToId : ∀ c ∈ toId, 0 < c ∧ c < 256) (lToId : toId.length ≤ 31)
    (hFileName : ∀ c ∈ fileName, 0 < c ∧ c < 256) (lFileName : fileName.length ≤ 255) :
    ∃ offer, parseFileOffer be
          ((packFileOffer be sequence fileId fileName fileSize fromId fromNick toId).drop 16)
        = some offer
      ∧ offer.fileSize = fileSize
      ∧ fieldString offer.fileId 37 = fileId ∧ fieldString offer.fromId 32 = fromId
      ∧ fieldString offer.fromNick 64 = fromNick ∧ fieldString offer.toId 32 = toId
      ∧ fieldString offer.fileName 256 = fileName := by
  have r0 := field_roundtrip 37 fileId hFileId (by omega)
  have r1 := field_roundtrip 32 fromId hFromId (by omega)
  have r2 := field_roundtrip 64 fromNick hFromNick (by omega)
  have r3 := field_roundtrip 32 toId hToId (by omega)
  have r5 := field_roundtrip 256 fileName hFileName (by omega)
  have hh := headerBytes_length be (mkHeader be MSG_FILE_OFFER sizeofFileOffer sequence)
  have hm : (memStore be 8 (hostToNetwork64 be fileSize)).length = 8 := memStore_length _ _ _
  obtain ⟨f0, e0⟩ : ∃ f, f = strncpy (List.replicate 37 0) fileId (37 - 1) := ⟨_, rfl⟩
  obtain ⟨f1, e1⟩ : ∃ f, f = strncpy (List.replicate 32 0) fromId (32 - 1) := ⟨_, rfl⟩
  obtain ⟨f2, e2⟩ : ∃ f, f = strncpy (List.replicate 64 0) fromNick (64 - 1) := ⟨_, rfl⟩
  obtain ⟨f3, e3⟩ : ∃ f, f = strncpy (List.replicate 32 0) toId (32 - 1) := ⟨_, rfl⟩
  obtain ⟨f5, e5⟩ : ∃ f, f = strncpy (List.replicate 256 0) fileName (256 - 1) := ⟨_, rfl⟩
  obtain ⟨ts, ets⟩ : ∃ t, t = memStore be 8 (hostToNetwork64 be fileSize) := ⟨_, rfl⟩
  rw [← e0] at r0; rw [← e1] at r1; rw [← e2] at r2; rw [← e3] at r3; rw [← e5] at r5
  rw [← ets] at hm
  unfold packFileOffer
  simp only []
  rw [List.drop_left' hh, ← e0, ← e1, ← e2, ← e3, ← e5, ← ets]
  have hlen : ¬ (f0 ++ f1 ++ f2 ++ f3 ++ ts ++ f5).length < sizeofFileOffer := by
    simp only [List.length_append, r0.2, r1.2, r2.2, r3.2, r5.2, hm, sizeofFileOffer]
    omega
  have s0 : (f0 ++ f1 ++ f2 ++ f3 ++ ts ++ f5).take 37 = f0 := by
    simp only [List.append_assoc]; exact List.take_left' r0.2
  have s1 : ((f0 ++ f1 ++ f2 ++ f3 ++ ts ++ f5).drop 37).take 32 = f1 :=
    slice_of_eq _ f0 f1 (f2 ++ f3 ++ ts ++ f5) 37 32 (by simp only [List.append_assoc]) r0.2
      r1.2
  have s2 : ((f0 ++ f1 ++ f2 ++ f3 ++ ts ++ f5).drop 69).take 64 = f2 :=
    slice_of_eq _ (f0 ++ f1) f2 (f3 ++ ts ++ f5) 69 64 (by simp only [List.append_assoc])
      (by simp only [List.length_append, r0.2, r1.2]) r2.2
  have s3 : ((f0 ++ f1 ++ f2 ++ f3 ++ ts ++ f5).drop 133).take 32 = f3 :=
    slice_of_eq _ (f0 ++ f1 ++ f2) f3 (ts ++ f5) 133 32 (by simp only [List.append_assoc])
      (by simp only [List.length_append, r0.2, r1.2, r2.2]) r3.2
  have s4 : ((f0 ++ f1 ++ f2 ++ f3 ++ ts ++ f5).drop 165).take 8 = ts :=
    slice_of_eq _ (f0 ++ f1 ++ f2 ++ f3) ts f5 165 8 (by simp only [List.append_assoc])
      (by simp only [List.length_append, r0.2, r1.2, r2.2, r3.2]) hm
  have s5 : ((f0 ++ f1 ++ f2 ++ f3 ++ ts ++ f5).drop 173).take 256 = f5 :=
    slice_of_eq _ (f0 ++ f1 ++ f2 ++ f3 ++ ts) f5 [] 173 256
      (by simp only [List.append_assoc, List.append_nil])
      (by simp only [List.length_append, r0.2, r1.2, r2.2, r3.2, hm]) r5.2
  unfold parseFileOffer
  rw [if_neg hlen, s0, s1, s2, s3, s4, s5]
  refine ⟨_, rfl, ?_, r0.1, r1.1, r2.1, r3.1, r5.1⟩
  rw [ets]
  exact timestamp_roundtrip be fileSize hsize

theorem file_offer_roundtrip_witness :
    ∃ offer, parseFileOffer false
          ((packFileOffer false 7 [102, 49] [97, 46, 116] 1024 [97] [65] [98]).drop 16)
        = some offer
      ∧ offer.fileSize = 1024
      ∧ fieldString offer.fileId 37 = [102, 49] ∧ fieldString offer.fromId 32 = [97]
      ∧ fieldString offer.fromNick 64 = [65] ∧ fieldString offer.toId 32 = [98]
      ∧ fieldString offer.fileName 256 = [97, 46, 116] :=
  file_offer_roundtrip false 7 1024 [102, 49] [97] [65] [98] [97, 46, 116]
    (by norm_num) (by decide) (by decide) (by decide) (by decide) (by decide) (by decide)
    (by decide) (by decide) (by decide) (by decide)

/-- C26: login-request round trip across client and server. For every byte order of the
client host, every sequence and all NUL-free byte strings clientId (at most 31 bytes) and
nickname (at most 63 bytes), the frame of the client's `packLoginRequest` has a 96-byte body
after its 16-byte header, and the server's `parseLoginRequest` applied to that body succeeds
and yields, reading each field up to its first NUL, the same clientId and nickname. -/
theorem login_request_roundtrip (be : Bool) (sequence : Nat) (clientId nickname : List Nat)
    (hId : ∀ c ∈ clientId, 0 < c ∧ c < 256) (lId : clientId.length ≤ 31)
    (hNick : ∀ c ∈ nickname, 0 < c ∧ c < 256) (lNick : nickname.length ≤ 63) :
    (Client.packLoginRequest be sequence clientId nickname).length = 16 + 96
    ∧ ∃ req, parseLoginRequest ((Client.packLoginRequest be sequence clientId nickname).drop 16)
          = some req
        ∧ fieldString req.clientId 32 = clientId ∧ fieldString req.nickname 64 = nickname := by
  have r1 := field_roundtrip 32 clientId hId (by omega)
  have r2 := field_roundtrip 64 nickname hNick (by omega)
  have hh := headerBytes_length be
    (Client.mkHeader be Client.MSG_LOGIN_REQ Client.sizeofLoginRequest sequence)
  unfold Client.packLoginRequest
  simp only []
  refine ⟨by simp only [List.length_append, hh, r1.2, r2.2], ?_⟩
  rw [List.drop_left' hh]
  unfold parseLoginRequest
  have hlen : ¬ (strncpy (List.replicate 32 0) clientId (32 - 1)
      ++ strncpy (List.replicate 64 0) nickname (64 - 1)).length < sizeofLoginRequest := by
    simp only [List.length_append, r1.2, r2.2, sizeofLoginRequest]
    omega
  rw [if_neg hlen, List.take_left' r1.2, List.drop_left' r1.2,
    List.take_of_length_le (by rw [r2.2])]
  exact ⟨_, rfl, r1.1, r2.1⟩

theorem login_request_roundtrip_witness :
    (Client.packLoginRequest false 3 [97, 108] [65]).length = 16 + 96
    ∧ ∃ req, parseLoginRequest ((Client.packLoginRequest false 3 [97, 108] [65]).drop 16)
          = some req
        ∧ fieldString req.clientId 32 = [97, 108] ∧ fieldString req.nickname 64 = [65] :=
  login_request_roundtrip false 3 [97, 108] [65] (by decide) (by decide) (by decide)
    (by decide)

theorem leBytes_four_mod (v : Nat) : leBytes 4 (v % 2 ^ 32) = leBytes 4 v := by
  rw [leBytes_four, leBytes_four]
  have e1 : v % 2 ^ 32 / 2 ^ 24 % 256 = v / 2 ^ 24 % 256 := by omega
  have e2 : v % 2 ^ 32 / 2 ^ 16 % 256 = v / 2 ^ 16 % 256 := by omega
  have e3 : v % 2 ^ 32 / 2 ^ 8 % 256 = v / 2 ^ 8 % 256 := by omega
  have e4 : v % 2 ^ 32 % 256 = v % 256 := by omega
  rw [e1, e2, e3, e4]

theorem leBytes_bswap32 (v : Nat) : leBytes 4 (bswap32 v) = (leBytes 4 v).reverse := by
  have h := store32_htonl false v
  simp only [memStore, htonl, Bool.false_eq_true, if_false] at h
  rw [h, leBytes_four]
  rfl

theorem leBytes_add (m n v : Nat) :
    leBytes (m + n) v = leBytes m v ++ leBytes n (v / 256 ^ m) := by
  induction m generalizing v with
  | zero => simp [leBytes]
  | succ m ih =>
    rw [Nat.add_right_comm, leBytes, leBytes, ih, List.cons_append, Nat.div_div_eq_div_mul,
      pow_succ, Nat.mul_comm]

/-- A 64-bit value converted by `hostToNetwork64` and stored by `memcpy` is, on either host,
its eight bytes most significant first. -/
theorem store64_hton (be : Bool) (v : Nat) :
    memStore be 8 (hostToNetwork64 be v) = (leBytes 8 v).reverse := by
  cases be
  · simp only [memStore, hostToNetwork64, Bool.false_eq_true, if_false]
    rw [swap64_eq]
    simp only [htonl, Bool.false_eq_true, if_false]
    have hb := bswap32_lt (v / 2 ^ 32 % 2 ^ 32)
    have s1 := leBytes_add 4 4 (bswap32 (v % 2 ^ 32) * 2 ^ 32 + bswap32 (v / 2 ^ 32 % 2 ^ 32))
    have s2 := leBytes_add 4 4 v
    have h256 : (256 : Nat) ^ 4 = 2 ^ 32 := by norm_num
    have e1 : (bswap32 (v % 2 ^ 32) * 2 ^ 32 + bswap32 (v / 2 ^ 32 % 2 ^ 32)) / 256 ^ 4
        = bswap32 (v % 2 ^ 32) := by
      rw [h256]; omega
    have e2 : (bswap32 (v % 2 ^ 32) * 2 ^ 32 + bswap32 (v / 2 ^ 32 % 2 ^ 32)) % 2 ^ 32
        = bswap32 (v / 2 ^ 32 % 2 ^ 32) := by omega
    have e3 : v / 256 ^ 4 = v / 2 ^ 32 := by rw [h256]
    rw [show (4 + 4 = 8) from rfl] at s1 s2
    rw [s1, s2, e1, e3, ← leBytes_four_mod (bswap32 (v % 2 ^ 32) * 2 ^ 32 + _), e2,
      leBytes_bswap32, leBytes_bswap32, leBytes_four_mod, leBytes_four_mod,
      List.reverse_append]
  · simp only [memStore, hostToNetwork64, if_true]

/-- The bytes a 32-bit value is stored as do not depend on the host. -/
theorem store32_host (b1 b2 : Bool) (v : Nat) :
    memStore b1 4 (htonl b1 v) = memStore b2 4 (htonl b2 v) := by
  rw [store32_htonl, store32_htonl]

theorem store16_host (b1 b2 : Bool) (v : Nat) :
    memStore b1 2 (htons b1 v) = memStore b2 2 (htons b2 v) := by
  rw [store16_htons, store16_htons]

theorem store64_host (b1 b2 : Bool) (v : Nat) :
    memStore b1 8 (hostToNetwork64 b1 v) = memStore b2 8 (hostToNetwork64 b2 v) := by
  rw [store64_hton, store64_hton]

theorem headerBytes_host (b1 b2 : Bool) (msgType bodyLength sequence : Nat) :
    (mkHeader b1 msgType bodyLength sequence).bytes b1
      = (mkHeader b2 msgType bodyLength sequence).bytes b2 := by
  rw [headerBytes_eq, headerBytes_eq]

theorem leValue_map_mod (bs : List Nat) : leValue (bs.map (fun b => b % 256)) = leValue bs := by
  induction bs with
  | nil => rfl
  | cons b bs ih => simp only [List.map_cons, leValue, ih, Nat.mod_mod]

theorem memLoad_map_mod (be : Bool) (bs : List Nat) :
    memLoad be (bs.map (fun b => b % 256)) = memLoad be bs := by
  cases be
  · simp only [memLoad, Bool.false_eq_true, if_false]; exact leValue_map_mod bs
  · simp only [memLoad, if_true, ← List.map_reverse]; exact leValue_map_mod bs.reverse

/-- The big-endian bytes of the value a byte string denotes when read most significant byte
first are the bytes themselves, reduced modulo 256. -/
theorem leBytes_reverse_value (bs : List Nat) (n : Nat) (h : bs.length = n) :
    (leBytes n (leValue bs.reverse)).reverse = bs.map (fun b => b % 256) := by
  have hb : ∀ b ∈ (bs.map (fun b => b % 256)).reverse, b < 256 := by
    intro b hb
    rw [List.mem_reverse, List.mem_map] at hb
    obtain ⟨a, _, e⟩ := hb
    rw [← e]; exact Nat.mod_lt _ (by norm_num)
  have := leBytes_leValue _ hb
  rw [List.length_reverse, List.length_map, h, ← List.map_reverse, leValue_map_mod] at this
  rw [this, List.map_reverse, List.reverse_reverse]

/-- Four bytes loaded by `memcpy` and converted by `ntohl` are, on either host, the value of
the bytes read most significant byte first. -/
theorem load32_net (be : Bool) (bs : List Nat) (h : bs.length = 4) :
    ntohl be (memLoad be bs) = leValue bs.reverse := by
  have hT : leValue bs.reverse < 2 ^ 32 := by
    have := leValue_lt bs.reverse
    rw [List.length_reverse, h] at this
    norm_num at this ⊢; exact this
  have hs : memStore be 4 (htonl be (leValue bs.reverse)) = bs.map (fun b => b % 256) := by
    rw [store32_htonl, ← leBytes_reverse_value bs 4 h, leBytes_four]
    rfl
  have hl : memLoad be bs = htonl be (leValue bs.reverse) := by
    rw [← memLoad_map_mod, ← hs, memLoad_memStore]
    exact Nat.mod_eq_of_lt (by have := htonl_lt be (leValue bs.reverse); norm_num; omega)
  rw [hl, ntohl_htonl, Nat.mod_eq_of_lt hT]

/-- Eight bytes loaded by `memcpy` and converted by `networkToHost64` are, on either host,
the value of the bytes read most significant byte first. -/
theorem load64_net (be : Bool) (bs : List Nat) (h : bs.length = 8) :
    networkToHost64 be (memLoad be bs) = leValue bs.reverse := by
  have hT : leValue bs.reverse < 2 ^ 64 := by
    have := leValue_lt bs.reverse
    rw [List.length_reverse, h] at this
    norm_num at this ⊢; exact this
  have hs : memStore be 8 (hostToNetwork64 be (leValue bs.reverse))
      = bs.map (fun b => b % 256) := by
    rw [store64_hton, leBytes_reverse_value bs 8 h]
  have := timestamp_roundtrip be (leValue bs.reverse) hT
  rw [hs, memLoad_map_mod] at this
  exact this

theorem load32_host (b1 b2 : Bool) (bs : List Nat) (h : bs.length = 4) :
    ntohl b1 (memLoad b1 bs) = ntohl b2 (memLoad b2 bs) := by
  rw [load32_net b1 bs h, load32_net b2 bs h]

theorem load64_host (b1 b2 : Bool) (bs : List Nat) (h : bs.length = 8) :
    networkToHost64 b1 (memLoad b1 bs) = networkToHost64 b2 (memLoad b2 bs) := by
  rw [load64_net b1 bs h, load64_net b2 bs h]

/-! ## Agreement of the client codec with the server codec -/

theorem clientHeader_eq (be : Bool) (msgType bodyLength sequence : Nat) :
    Client.mkHeader be msgType bodyLength sequence = mkHeader be msgType bodyLength sequence :=
  rfl

theorem clientHostToNetwork64_eq (be : Bool) (v : Nat) :
    Client.hostToNetwork64 be v = hostToNetwork64 be v := rfl

theorem clientNetworkToHost64_eq (be : Bool) (v : Nat) :
    Client.networkToHost64 be v = networkToHost64 be v := rfl

theorem chatBytes_host (b1 b2 : Bool) (chatType : Nat) (fromId fromNick toId message : List Nat)
    (timestamp : Nat) :
    ChatMessage.bytes b1
        { chatType := chatType, fromId := fromId, fromNick := fromNick, toId := toId,
          timestamp := hostToNetwork64 b1 timestamp, message := message }
      = ChatMessage.bytes b2
        { chatType := chatType, fromId := fromId, fromNick := fromNick, toId := toId,
          timestamp := hostToNetwork64 b2 timestamp, message := message } := by
  simp only [ChatMessage.bytes, store64_host b1 b2 timestamp]

/-- C29: client and server codecs agree bit for bit. Whatever the byte orders of the client
host and of the server host, for all inputs the client's and the server's packChatMessage,
packFileOffer and packFileOfferResponse return identical byte vectors, their
parseChatMessage, parseFileOffer and parseFileOfferResponse return identical results on
every body, and their validateHeader functions accept exactly the same headers. -/
theorem codecs_agree (beC beS : Bool) :
    (∀ sequence scope fromId fromNick toId message timestamp,
        Client.packChatMessage beC sequence scope fromId fromNick toId message timestamp
          = packChatMessage beS sequence scope fromId fromNick toId message timestamp)
    ∧ (∀ sequence fileId fileName fileSize fromId fromNick toId,
        Client.packFileOffer beC sequence fileId fileName fileSize fromId fromNick toId
          = packFileOffer beS sequence fileId fileName fileSize fromId fromNick toId)
    ∧ (∀ sequence fileId result message,
        Client.packFileOfferResponse beC sequence fileId result message
          = packFileOfferResponse beS sequence fileId result message)
    ∧ (∀ body, Client.parseChatMessage beC body = parseChatMessage beS body)
    ∧ (∀ body, Client.parseFileOffer beC body = parseFileOffer beS body)
    ∧ (∀ body, Client.parseFileOfferResponse beC body = parseFileOfferResponse beS body)
    ∧ (∀ header, Client.validateHeader header = validateHeader header) := by
  refine ⟨?_, ?_, ?_, ?_, ?_, ?_, fun _ => rfl⟩
  · intro sequence scope fromId fromNick toId message timestamp
    unfold Client.packChatMessage packChatMessage
    simp only [clientHeader_eq, clientHostToNetwork64_eq]
    rw [headerBytes_host beC beS, chatBytes_host beC beS]
    rfl
  · intro sequence fileId fileName fileSize fromId fromNick toId
    unfold Client.packFileOffer packFileOffer
    simp only [clientHeader_eq, clientHostToNetwork64_eq]
    rw [headerBytes_host beC beS, store64_host beC beS]
    rfl
  · intro sequence fileId result message
    unfold Client.packFileOfferResponse packFileOfferResponse
    simp only [clientHeader_eq]
    rw [headerBytes_host beC beS, store32_host beC beS]
    rfl
  · intro body
    unfold Client.parseChatMessage parseChatMessage
    have e : Client.sizeofChatMessage = sizeofChatMessage := rfl
    rw [e]
    split
    · rfl
    · rename_i hlen
      have h8 : ((body.drop 129).take 8).length = 8 := by
        rw [List.length_take, List.length_drop]
        simp only [sizeofChatMessage] at hlen
        omega
      simp only [ChatMessage.load, clientNetworkToHost64_eq, load64_host beC beS _ h8]
  · intro body
    unfold Client.parseFileOffer parseFileOffer
    have e : Client.sizeofFileOffer = sizeofFileOffer := rfl
    rw [e]
    split
    · rfl
    · rename_i hlen
      have h8 : ((body.drop 165).take 8).length = 8 := by
        rw [List.length_take, List.length_drop]
        simp only [sizeofFileOffer] at hlen
        omega
      simp only [clientNetworkToHost64_eq, load64_host beC beS _ h8]
  · intro body
    unfold Client.parseFileOfferResponse parseFileOfferResponse
    have e : Client.sizeofFileOfferResponse = sizeofFileOfferResponse := rfl
    rw [e]
    split
    · rfl
    · rename_i hlen
      have h4 : ((body.drop 37).take 4).length = 4 := by
        rw [List.length_take, List.length_drop]
        simp only [sizeofFileOfferResponse] at hlen
        omega
      simp only [load32_host beC beS _ h4]

/-! ## User list and file data between client and server -/

theorem terminate_of_last (f : List Nat) (w : Nat) (h : f.drop (w - 1) = [0]) :
    terminate f w = f := by
  unfold terminate
  rw [← h, List.take_append_drop]

/-- The loop of the client's `parseUserListResponse` reads back the records the server laid
out one after another, when their text fields end in a NUL byte. -/
theorem readUsers_flatten (users : List UserInfo) (pre rest : List Nat)
    (h : ∀ u ∈ users, (u.clientId.length = 32 ∧ u.clientId.drop 31 = [0])
      ∧ (u.nickname.length = 64 ∧ u.nickname.drop 63 = [0])) :
    Client.readUsers (pre ++ ((users.map UserInfo.bytes).flatten ++ rest)) users.length
      pre.length = users := by
  induction users generalizing pre with
  | nil => rfl
  | cons u us ih =>
    have hu := h u (List.mem_cons_self _ _)
    have ih' := ih (pre ++ UserInfo.bytes u) (fun x hx => h x (List.mem_cons_of_mem _ hx))
    simp only [List.map_cons, List.flatten_cons, List.length_cons, Client.readUsers]
    have eb : u.bytes = u.clientId ++ u.nickname := rfl
    have e1 : ((pre ++ (u.bytes ++ (us.map UserInfo.bytes).flatten ++ rest)).drop
        pre.length).take 32 = u.clientId := by
      rw [eb]
      exact slice_of_eq _ pre u.clientId
        (u.nickname ++ ((us.map UserInfo.bytes).flatten ++ rest)) pre.length 32
        (by simp only [List.append_assoc]) rfl hu.1.1
    have e2 : ((pre ++ (u.bytes ++ (us.map UserInfo.bytes).flatten ++ rest)).drop
        (pre.length + 32)).take 64 = u.nickname := by
      rw [eb]
      exact slice_of_eq _ (pre ++ u.clientId) u.nickname
        ((us.map UserInfo.bytes).flatten ++ rest) (pre.length + 32) 64
        (by simp only [List.append_assoc]) (by rw [List.length_append, hu.1.1]) hu.2.1
    have e3 : pre ++ (u.bytes ++ (us.map UserInfo.bytes).flatten ++ rest)
        = (pre ++ u.bytes) ++ ((us.map UserInfo.bytes).flatten ++ rest) := by
      simp only [List.append_assoc]
    have e4 : pre.length + Client.sizeofUserInfo = (pre ++ u.bytes).length := by
      rw [List.length_append, eb, List.length_append, hu.1.1, hu.2.1]
      rfl
    rw [e1, e2, terminate_of_last _ 32 hu.1.2,
      terminate_of_last _ 64 hu.2.2, e3, e4, ih']

/-- What the client's `parseUserListResponse` answers: failure exactly when the body is
shorter than 4 bytes or than 4 + 96 * count bytes, where count is the value of its first four
bytes read most significant byte first. -/
theorem parseUserListResponse_isSome (be : Bool) (data : List Nat) :
    (Client.parseUserListResponse be data).isSome = true
      ↔ 4 ≤ data.length ∧ 4 + 96 * leValue (data.take 4).reverse ≤ data.length := by
  unfold Client.parseUserListResponse
  by_cases h4 : data.length < 4
  · rw [if_pos h4]
    simp only [Option.isSome_none, Bool.false_eq_true, false_iff, not_and]
    intro h; omega
  · rw [if_neg h4]
    have hl : (data.take 4).length = 4 := by rw [List.length_take]; omega
    have hc := load32_net be (data.take 4) hl
    have hlt : leValue (data.take 4).reverse < 2 ^ 32 := by
      have := leValue_lt (data.take 4).reverse
      rw [List.length_reverse, hl] at this
      norm_num at this ⊢; exact this
    simp only [hc, Client.sizeofUserInfo]
    have e : (4 + leValue (data.take 4).reverse * (32 + 64)) % 2 ^ 64
        = 4 + 96 * leValue (data.take 4).reverse := by omega
    rw [e]
    split
    · simp only [Option.isSome_none, Bool.false_eq_true, false_iff, not_and]
      intro _; omega
    · simp only [Option.isSome_some, true_iff]
      omega

/-- The client's `parseUserListResponse` on the body of the server's `packUserListResponse`:
the count it reads is the number of records modulo 2^32. -/
theorem parseUserListResponse_packed (beS beC : Bool) (sequence : Nat) (users : List UserInfo) :
    Client.parseUserListResponse beC ((packUserListResponse beS sequence users).drop 16)
      = if (memStore beS 4 (htonl beS (users.length % 2 ^ 32))
            ++ (users.map UserInfo.bytes).flatten).length
          < 4 + 96 * (users.length % 2 ^ 32) then none
        else some (Client.readUsers (memStore beS 4 (htonl beS (users.length % 2 ^ 32))
            ++ (users.map UserInfo.bytes).flatten) (users.length % 2 ^ 32) 4) := by
  have hh := headerBytes_length beS (mkHeader beS MSG_USER_LIST_RSP
    (4 + users.length * sizeofUserInfo) sequence)
  have hm : (memStore beS 4 (htonl beS (users.length % 2 ^ 32))).length = 4 :=
    memStore_length _ _ _
  unfold packUserListResponse
  simp only [List.append_assoc]
  rw [List.drop_left' hh]
  unfold Client.parseUserListResponse
  have h4 : ¬ (memStore beS 4 (htonl beS (users.length % 2 ^ 32))
      ++ (users.map UserInfo.bytes).flatten).length < 4 := by
    rw [List.length_append, hm]; omega
  rw [if_neg h4, List.take_left' hm, store32_host beS beC, memLoad_memStore]
  have hlt : htonl beC (users.length % 2 ^ 32) < 256 ^ 4 := by
    have := htonl_lt beC (users.length % 2 ^ 32)
    norm_num at this ⊢; exact this
  rw [Nat.mod_eq_of_lt hlt, ntohl_htonl, Nat.mod_mod]
  have hc : users.length % 2 ^ 32 < 2 ^ 32 := Nat.mod_lt _ (by norm_num)
  have e : (4 + users.length % 2 ^ 32 * Client.sizeofUserInfo) % 2 ^ 64
      = 4 + 96 * (users.length % 2 ^ 32) := by
    simp only [Client.sizeofUserInfo]; omega
  simp only [e, store32_host beC beS]

/-- C27 (as amended): user-list round trip across server and client. Whatever the byte
orders of the two hosts, for every sequence and every list of fewer than 2^32 UserInfo
records whose 32-byte clientId and 64-byte nickname fields end in a NUL byte, the client's
`parseUserListResponse` applied to the body of the server's `packUserListResponse` succeeds
and returns exactly the same records in the same order; and in general
`parseUserListResponse` succeeds if and only if the body has at least 4 bytes and at least
4 + 96*count bytes, where count is the big-endian 32-bit value in its first 4 bytes. -/
theorem user_list_roundtrip (beS beC : Bool) (sequence : Nat) (users : List UserInfo)
    (hfields : ∀ u ∈ users, (u.clientId.length = 32 ∧ u.clientId.drop 31 = [0])
      ∧ (u.nickname.length = 64 ∧ u.nickname.drop 63 = [0]))
    (hcount : users.length < 2 ^ 32) :
    Client.parseUserListResponse beC ((packUserListResponse beS sequence users).drop 16)
        = some users
    ∧ ∀ body, (Client.parseUserListResponse beC body).isSome = true
        ↔ 4 ≤ body.length ∧ 4 + 96 * leValue (body.take 4).reverse ≤ body.length := by
  refine ⟨?_, fun body => parseUserListResponse_isSome beC body⟩
  rw [parseUserListResponse_packed, Nat.mod_eq_of_lt hcount]
  have hm : (memStore beS 4 (htonl beS users.length)).length = 4 := memStore_length _ _ _
  have hl := userBytes_length users (fun u hu => ⟨(hfields u hu).1.1, (hfields u hu).2.1⟩)
  rw [if_neg (by rw [List.length_append, hm, hl]; omega)]
  have := readUsers_flatten users (memStore beS 4 (htonl beS users.length)) [] hfields
  rw [List.append_nil, hm] at this
  rw [this]

theorem user_list_roundtrip_witness :
    Client.parseUserListResponse true
        ((packUserListResponse false 9
          [{ clientId := [97] ++ List.replicate 31 0, nickname := [65] ++ List.replicate 63 0 },
           { clientId := [98] ++ List.replicate 31 0, nickname := [66] ++ List.replicate 63 0 }]
          ).drop 16)
      = some
          [{ clientId := [97] ++ List.replicate 31 0, nickname := [65] ++ List.replicate 63 0 },
           { clientId := [98] ++ List.replicate 31 0, nickname := [66] ++ List.replicate 63 0 }]
    ∧ (Client.parseUserListResponse true [0, 0, 0, 1]).isSome = false :=
  ⟨(user_list_roundtrip false true 9
      [{ clientId := [97] ++ List.replicate 31 0, nickname := [65] ++ List.replicate 63 0 },
       { clientId := [98] ++ List.replicate 31 0, nickname := [66] ++ List.replicate 63 0 }]
      (by decide) (by decide)).1,
    by decide⟩

/-- C27 (as stated) fails for a list of 2^32 records: the 32-bit count field of the frame
wraps to 0 and the client decodes an empty list. -/
theorem user_list_count_wraps :
    (∀ u ∈ List.replicate 4294967296
          ({ clientId := List.replicate 32 0, nickname := List.replicate 64 0 } : UserInfo),
        (u.clientId.length = 32 ∧ u.clientId.drop 31 = [0])
          ∧ (u.nickname.length = 64 ∧ u.nickname.drop 63 = [0]))
    ∧ Client.parseUserListResponse false
        ((packUserListResponse false 0
          (List.replicate 4294967296
            ({ clientId := List.replicate 32 0, nickname := List.replicate 64 0 } : UserInfo))
          ).drop 16) = some []
    ∧ (List.replicate 4294967296
          ({ clientId := List.replicate 32 0, nickname := List.replicate 64 0 } : UserInfo)
        ).length = 4294967296 := by
  refine ⟨?_, ?_, List.length_replicate _ _⟩
  · intro u hu
    rw [List.eq_of_mem_replicate hu]
    decide
  · rw [parseUserListResponse_packed, List.length_replicate]
    have e : 4294967296 % 2 ^ 32 = 0 := by norm_num
    rw [e, if_neg (by rw [List.length_append, memStore_length]; omega)]
    rfl

/-- What the client's `parseFileData` answers: failure exactly when the body is shorter than
the 49-byte `FileDataHeader` or than 49 + chunkSize bytes, where chunkSize is the value of
the bytes 45 to 48 read most significant byte first. -/
theorem parseFileData_none (be : Bool) (data : List Nat) :
    Client.parseFileData be data = none
      ↔ data.length < 49 ∨ data.length < 49 + leValue ((data.drop 45).take 4).reverse := by
  unfold Client.parseFileData
  simp only [Client.sizeofFileDataHeader, Nat.reduceAdd]
  by_cases h : data.length < 49
  · simp only [h, if_true, true_or]
  · rw [if_neg h]
    have hl : ((data.drop 45).take 4).length = 4 := by
      rw [List.length_take, List.length_drop]; omega
    have hc := load32_net be _ hl
    have hlt : leValue ((data.drop 45).take 4).reverse < 2 ^ 32 := by
      have := leValue_lt ((data.drop 45).take 4).reverse
      rw [List.length_reverse, hl] at this
      norm_num at this ⊢; exact this
    simp only [hc]
    have e : (49 + leValue ((data.drop 45).take 4).reverse) % 2 ^ 64
        = 49 + leValue ((data.drop 45).take 4).reverse := by omega
    rw [e]
    split
    · rename_i h2; simp only [true_iff]; exact Or.inr h2
    · rename_i h2
      constructor
      · intro h3; exact absurd h3 (by simp)
      · intro h3
        rcases h3 with h3 | h3
        · exact absurd h3 h
        · exact absurd h3 h2

/-- C28: file-data round trip. Whatever the byte orders of the sending and of the receiving
client host, for every sequence, every NUL-free fileId of at most 36 bytes, every 64-bit
offset and every payload shorter than 2^32 - 49 bytes, `parseFileData` applied to the body of
`packFileData` succeeds and returns the same fileId and offset, chunkSize equal to the
payload length, and a payload equal to the original bytes; and `parseFileData` fails
whenever the body is shorter than 49 bytes or than 49 + chunkSize bytes (and only then). -/
theorem file_data_roundtrip (bP bR : Bool) (sequence offset : Nat)
    (fileId payload : List Nat)
    (hoff : offset < 2 ^ 64)
    (hid : ∀ c ∈ fileId, 0 < c ∧ c < 256) (lid : fileId.length ≤ 36)
    (hlen : payload.length < 2 ^ 32 - 49) :
    (∃ header, Client.parseFileData bR
          ((Client.packFileData bP sequence fileId offset payload).drop 16)
        = some (header, payload)
      ∧ fieldString header.fileId 37 = fileId ∧ header.offset = offset
      ∧ header.chunkSize = payload.length)
    ∧ ∀ body, Client.parseFileData bR body = none
        ↔ body.length < 49 ∨ body.length < 49 + leValue ((body.drop 45).take 4).reverse := by
  refine ⟨?_, fun body => parseFileData_none bR body⟩
  have r0 := field_roundtrip 37 fileId hid (by omega)
  have hh := headerBytes_length bP (Client.mkHeader bP Client.MSG_FILE_DATA
    (Client.sizeofFileDataHeader + payload.length) sequence)
  have hm : (memStore bP 8 (Client.hostToNetwork64 bP offset)).length = 8 :=
    memStore_length _ _ _
  have hc : (memStore bP 4 (htonl bP (payload.length % 2 ^ 32))).length = 4 :=
    memStore_length _ _ _
  obtain ⟨f0, e0⟩ : ∃ f, f = strncpy (List.replicate 37 0) fileId (37 - 1) := ⟨_, rfl⟩
  obtain ⟨ts, ets⟩ : ∃ t, t = memStore bP 8 (Client.hostToNetwork64 bP offset) := ⟨_, rfl⟩
  obtain ⟨cs, ecs⟩ : ∃ t, t = memStore bP 4 (htonl bP (payload.length % 2 ^ 32)) := ⟨_, rfl⟩
  rw [← e0] at r0; rw [← ets] at hm; rw [← ecs] at hc
  unfold Client.packFileData
  simp only [List.append_assoc]
  rw [List.drop_left' hh, ← e0, ← ets, ← ecs]
  have s0 : (f0 ++ (ts ++ (cs ++ payload))).take 37 = f0 := List.take_left' r0.2
  have s1 : ((f0 ++ (ts ++ (cs ++ payload))).drop 37).take 8 = ts :=
    slice_of_eq _ f0 ts (cs ++ payload) 37 8 rfl r0.2 hm
  have s2 : ((f0 ++ (ts ++ (cs ++ payload))).drop 45).take 4 = cs :=
    slice_of_eq _ (f0 ++ ts) cs payload 45 4 (by simp only [List.append_assoc])
      (by rw [List.length_append, r0.2, hm]) hc
  have s3 : (f0 ++ (ts ++ (cs ++ payload))).drop 49 = payload := by
    have e : f0 ++ (ts ++ (cs ++ payload)) = (f0 ++ ts ++ cs) ++ payload := by
      simp only [List.append_assoc]
    rw [e]
    exact List.drop_left' (by simp only [List.length_append, r0.2, hm, hc])
  have hl : (f0 ++ (ts ++ (cs ++ payload))).length = 49 + payload.length := by
    simp only [List.length_append, r0.2, hm, hc]; omega
  have hoffset : Client.networkToHost64 bR (memLoad bR ts) = offset := by
    rw [ets, clientNetworkToHost64_eq, clientHostToNetwork64_eq, store64_host bP bR]
    exact timestamp_roundtrip bR offset hoff
  have hchunk : ntohl bR (memLoad bR cs) = payload.length := by
    rw [ecs, store32_host bP bR, memLoad_memStore]
    have hlt : htonl bR (payload.length % 2 ^ 32) < 256 ^ 4 := by
      have := htonl_lt bR (payload.length % 2 ^ 32)
      norm_num at this ⊢; exact this
    rw [Nat.mod_eq_of_lt hlt, ntohl_htonl, Nat.mod_mod]
    exact Nat.mod_eq_of_lt (by omega)
  unfold Client.parseFileData
  simp only [Client.sizeofFileDataHeader, Nat.reduceAdd, s0, s1, s2, s3, hl, hoffset, hchunk]
  rw [if_neg (by omega), if_neg (by omega), List.take_of_length_le (le_refl _)]
  exact ⟨_, rfl, r0.1, rfl, rfl⟩

theorem file_data_roundtrip_witness :
    (∃ header, Client.parseFileData true
          ((Client.packFileData false 5 [102, 49] 4096 [1, 2, 3]).drop 16)
        = some (header, [1, 2, 3])
      ∧ fieldString header.fileId 37 = [102, 49] ∧ header.offset = 4096
      ∧ header.chunkSize = 3)
    ∧ Client.parseFileData true
        (((Client.packFileData false 5 [102, 49] 4096 [1, 2, 3]).drop 16).take 51) = none :=
  ⟨(file_data_roundtrip false true 5 4096 [102, 49] [1, 2, 3] (by norm_num) (by decide)
      (by decide) (by decide)).1,
    by decide⟩

/-! ## Resynchronisation of the framer -/

/-- One iteration of the framer loop on an accumulator whose first 16 bytes decode to a
header that fails `validateHeader`: the accumulator is cleared and the loop ends, without a
callback. -/
theorem parseLoop_corrupt {σ : Type} (be : Bool) (fd : Int)
    (cb : σ → Int → MessageHeader → List Nat → σ) (fuel : Nat) (buffer : List Nat) (st : σ)
    (hlen : 16 ≤ buffer.length) (hbad : validateHeader (decodeHeader be buffer) = false) :
    parseLoop be fd cb (fuel + 1) buffer st = ([], st) := by
  rw [parseLoop]
  simp only [sizeofMessageHeader, Nat.reduceAdd, ge_iff_le, hlen, if_true, hbad, Bool.not_false]

/-- C30: corrupt header resync. Let the accumulator of a connection after the new bytes are
appended be `good ++ bad`, where the framer loop consumes `good` entirely without meeting a
bad header (complete valid frames, each dispatched to the callback) and `bad` has at least
16 bytes whose decoded header fails `validateHeader`.  Then `parseData` discards the whole
rest of the accumulator, `bad` included with every byte that follows its first 16 bytes: the
accumulator it leaves is empty, and the callback has been invoked for the frames of `good`
and for no further message. -/
theorem corrupt_header_resync {σ : Type} (be : Bool) (fd : Int)
    (cb : σ → Int → MessageHeader → List Nat → σ) (buffer data good bad : List Nat) (st : σ)
    (hsplit : buffer ++ data = good ++ bad)
    (hclean : resyncFree be (good.length + 1) good = true)
    (hconsumed : (parseLoop be fd cb (good.length + 1) good st).1 = [])
    (hlen : 16 ≤ bad.length)
    (hbad : validateHeader (decodeHeader be bad) = false) :
    parseData be fd buffer data cb st
      = ([], (parseLoop be fd cb (good.length + 1) good st).2) := by
  unfold parseData
  rw [hsplit]
  have h := (parseLoop_append be fd cb (good.length + 1) good bad st (Nat.lt_succ_self _)
    hclean ((good ++ bad).length + 1) (Nat.lt_succ_self _)).1
  rw [h, hconsumed, List.nil_append]
  exact parseLoop_corrupt be fd cb _ bad _ hlen hbad

set_option maxRecDepth 1000000 in
theorem corrupt_header_resync_witness :
    validateHeader (decodeHeader false
        (List.replicate 16 0 ++ [0x12, 0x34, 0x56, 0x78, 0, 1, 0, 1, 0, 0, 0, 0, 0, 0, 0, 9]))
      = false
    ∧ parseData false 5 [0x12, 0x34, 0x56, 0x78, 0, 1, 0, 1]
        ([0, 0, 0, 0, 0, 0, 0, 8] ++ List.replicate 16 0
          ++ [0x12, 0x34, 0x56, 0x78, 0, 1, 0, 1, 0, 0, 0, 0, 0, 0, 0, 9])
        recordMessage []
      = ([], [(⟨0x12345678, 1, 1, 0, 8⟩, [])]) :=
  ⟨by decide,
    corrupt_header_resync false 5 recordMessage [0x12, 0x34, 0x56, 0x78, 0, 1, 0, 1]
      ([0, 0, 0, 0, 0, 0, 0, 8] ++ List.replicate 16 0
        ++ [0x12, 0x34, 0x56, 0x78, 0, 1, 0, 1, 0, 0, 0, 0, 0, 0, 0, 9])
      [0x12, 0x34, 0x56, 0x78, 0, 1, 0, 1, 0, 0, 0, 0, 0, 0, 0, 8]
      (List.replicate 16 0 ++ [0x12, 0x34, 0x56, 0x78, 0, 1, 0, 1, 0, 0, 0, 0, 0, 0, 0, 9])
      [] (by decide) (by decide) (by decide) (by decide) (by decide)⟩

/-! ## Zero-length bodies -/

/-- A call of `queueSend` leaves the pending-disconnect queue alone or reports failure. -/
theorem queueSend_pending (s : Server) (fd : Int) (c : Connection) (data : List Nat) :
    (queueSend s fd c data).1.pendingDisconnects = s.pendingDisconnects
      ∨ (queueSend s fd c data).2 = false := by
  unfold queueSend
  simp only []
  split
  · right; rfl
  · split
    · left; rfl
    · split
      · split
        · right; rfl
        · right; rfl
        · left; split <;> rfl
      · left; rfl

/-- A call of `sendResponse` that reports success leaves the pending-disconnect queue
alone. -/
theorem sendResponse_pending (s : Server) (fd : Int) (data : List Nat)
    (h : (sendResponse s fd data).2 = true) :
    (sendResponse s fd data).1.pendingDisconnects = s.pendingDisconnects := by
  unfold sendResponse at h ⊢
  split
  · rfl
  · rename_i c hc
    rw [hc] at h
    simp only [] at h ⊢
    by_cases hq : (queueSend s fd c data).2 = true
    · simp only [hq, Bool.not_true, Bool.false_eq_true, if_false]
      rcases queueSend_pending s fd c data with h1 | h1
      · exact h1
      · rw [hq] at h1; exact absurd h1 (by decide)
    · simp [hq] at h

/-- C31 (as stated) fails: a LOGOUT_REQ is neither a HEARTBEAT_REQ nor a USER_LIST_REQ, and
handling one with an empty body from the online connection 5 changes the pending-disconnect
queue: 5 is appended to it. -/
theorem empty_logout_changes_queue :
    (demoHeader MSG_LOGOUT_REQ 0 61).msgType ≠ MSG_HEARTBEAT_REQ
    ∧ (demoHeader MSG_LOGOUT_REQ 0 61).msgType ≠ MSG_USER_LIST_REQ
    ∧ (demoHeader MSG_LOGOUT_REQ 0 61).bodyLength = 0
    ∧ (handleMessage false 0 0 demoAll 5 (demoHeader MSG_LOGOUT_REQ 0 61) []).pendingDisconnects
        = demoAll.pendingDisconnects ++ [5]
    ∧ (handleMessage false 0 0 demoAll 5 (demoHeader MSG_LOGOUT_REQ 0 61) []).pendingDisconnects
        ≠ demoAll.pendingDisconnects := by
  have h : (handleMessage false 0 0 demoAll 5 (demoHeader MSG_LOGOUT_REQ 0 61)
      []).pendingDisconnects = demoAll.pendingDisconnects ++ [5] := by
    simp [handleMessage, demoHeader, MSG_LOGOUT_REQ, MSG_HEARTBEAT_REQ, MSG_LOGIN_REQ,
      queueDisconnect]
  refine ⟨by decide, by decide, rfl, h, ?_⟩
  rw [h]
  intro e
  have := congrArg List.length e
  simp at this

/-- C31 (as amended): zero-length bodies. A frame with an empty body is acted on when its
type is HEARTBEAT_REQ (the heartbeat is refreshed and answered), USER_LIST_REQ (the request
is served) or LOGOUT_REQ (the sender is put on the pending-disconnect queue). For every
other type the roster, the file-session table and the receive buffers are unchanged, the
only frame sent, if any, is the LOGIN_RSP with INVALID_PARAM that answers a LOGIN_REQ, to the
sender, the pending-disconnect queue changes only when sending that reply fails, and a type
other than LOGIN_REQ leaves the whole state as it is. -/
theorem zero_length_bodies (be : Bool) (now epoch : Nat) (s : Server) (c : Int)
    (header : MessageHeader) :
    (header.msgType = MSG_HEARTBEAT_REQ →
      handleMessage be now epoch s c header []
        = (sendResponse { s with clients := updateHeartbeat s.clients c now } c
            (packHeartbeatResponse be header.sequence)).1)
    ∧ (header.msgType = MSG_USER_LIST_REQ →
      handleMessage be now epoch s c header [] = handleUserListRequest be s c header)
    ∧ (header.msgType = MSG_LOGOUT_REQ →
      handleMessage be now epoch s c header [] = queueDisconnect s c)
    ∧ (header.msgType ≠ MSG_HEARTBEAT_REQ → header.msgType ≠ MSG_USER_LIST_REQ →
        header.msgType ≠ MSG_LOGOUT_REQ →
      (handleMessage be now epoch s c header []).clients = s.clients
      ∧ (handleMessage be now epoch s c header []).fileSessions = s.fileSessions
      ∧ (handleMessage be now epoch s c header []).recvBuffers = s.recvBuffers
      ∧ ((handleMessage be now epoch s c header []).sent = s.sent
          ∨ (header.msgType = MSG_LOGIN_REQ
            ∧ (handleMessage be now epoch s c header []).sent = s.sent ++ [(c,
                packLoginResponse be header.sequence LOGIN_INVALID_PARAM
                  (ascii "Invalid parameters"))]))
      ∧ ((handleMessage be now epoch s c header []).pendingDisconnects = s.pendingDisconnects
          ∨ (header.msgType = MSG_LOGIN_REQ
            ∧ (sendResponse s c (packLoginResponse be header.sequence LOGIN_INVALID_PARAM
                  (ascii "Invalid parameters"))).2 = false))
      ∧ (header.msgType ≠ MSG_LOGIN_REQ → handleMessage be now epoch s c header [] = s)) := by
  refine ⟨?_, ?_, ?_, ?_⟩
  · intro h
    simp [handleMessage, h]
  · intro h
    exact handleMessage_userList be now epoch s c header [] h
  · intro h
    simp [handleMessage, h, MSG_LOGOUT_REQ, MSG_HEARTBEAT_REQ, MSG_LOGIN_REQ]
  · intro h1 h2 h3
    by_cases hl : header.msgType = MSG_LOGIN_REQ
    · have e : handleMessage be now epoch s c header []
          = (sendResponse s c (packLoginResponse be header.sequence LOGIN_INVALID_PARAM
              (ascii "Invalid parameters"))).1 := by
        rw [handleMessage_login be now epoch s c header [] hl]
        rfl
      rw [e]
      obtain ⟨f1, f2, f3, -, f5, -⟩ := sendResponse_fields s c
        (packLoginResponse be header.sequence LOGIN_INVALID_PARAM (ascii "Invalid parameters"))
      refine ⟨f1, f2, f3, ?_, ?_, fun h => absurd hl h⟩
      · rw [f5]
        split
        · exact Or.inr ⟨hl, rfl⟩
        · exact Or.inl (List.append_nil _)
      · cases hb : (sendResponse s c (packLoginResponse be header.sequence LOGIN_INVALID_PARAM
            (ascii "Invalid parameters"))).2
        · exact Or.inr ⟨hl, rfl⟩
        · exact Or.inl (sendResponse_pending s c _ hb)
    · have e : handleMessage be now epoch s c header [] = s := by
        unfold handleMessage
        rw [if_neg h1, if_neg hl, if_neg h3, if_neg h2]
        simp [handleChatMessage, handleFileOffer, handleFileOfferResponse, handleFileData,
          parseChatMessage, parseFileOffer, parseFileOfferResponse, extractFileId,
          sizeofChatMessage, sizeofFileOffer, sizeofFileOfferResponse, kFileIdSize]
      rw [e]
      exact ⟨rfl, rfl, rfl, Or.inl rfl, Or.inl rfl, fun _ => rfl⟩

set_option maxRecDepth 1000000 in
/-- C31 at sample inputs: an empty CHAT_MSG from the online connection 5 leaves the state as
it is, and an empty LOGIN_REQ from it is answered with INVALID_PARAM. -/
theorem zero_length_bodies_witness :
    handleMessage false 0 0 demoAll 5 (demoHeader MSG_CHAT_MSG 0 62) [] = demoAll
    ∧ ((handleMessage false 0 0 demoAll 5 (demoHeader MSG_LOGIN_REQ 0 63) []).sent = demoAll.sent
        ∨ ((demoHeader MSG_LOGIN_REQ 0 63).msgType = MSG_LOGIN_REQ
          ∧ (handleMessage false 0 0 demoAll 5 (demoHeader MSG_LOGIN_REQ 0 63) []).sent
            = demoAll.sent ++ [(5, packLoginResponse false 63 LOGIN_INVALID_PARAM
                (ascii "Invalid parameters"))])) :=
  ⟨((zero_length_bodies false 0 0 demoAll 5 (demoHeader MSG_CHAT_MSG 0 62)).2.2.2
      (by decide) (by decide) (by decide)).2.2.2.2.2 (by decide),
   ((zero_length_bodies false 0 0 demoAll 5 (demoHeader MSG_LOGIN_REQ 0 63)).2.2.2
      (by decide) (by decide) (by decide)).2.2.2.1⟩

/-! ## Dispatch after a disconnect was queued -/

set_option maxRecDepth 1000000 in
/-- C32 at a failing input: the online connection 5 sends a LOGOUT_REQ frame followed by a
group CHAT_MSG frame. The LOGOUT_REQ puts 5 on the pending-disconnect queue and leaves the
handler of 5 not closing; the chat frame is then passed to `handleMessage` and forwarded to
the connections 6 and 7 while 5 is still on the queue, whether it came in the same read as
the LOGOUT_REQ or in a later one. After `requestClose` (here: the peer closed), by contrast,
the handler is closing and a later read dispatches nothing. -/
theorem dispatch_after_logout :
    (handleRead false 0 0 demoAll 5 [.data demoLogoutFrame]).pendingDisconnects = [5]
    ∧ (FdMap.find? (handleRead false 0 0 demoAll 5 [.data demoLogoutFrame]).clientHandlers
        5).map (fun h => h.closing) = some false
    ∧ handleRead false 0 0 demoAll 5 [.data (demoLogoutFrame ++ demoChatFrame)]
      = { handleMessage false 0 0
            (handleMessage false 0 0 demoAll 5 (demoHeader MSG_LOGOUT_REQ 0 71) []) 5
            (demoHeader MSG_CHAT_MSG 393 72) (demoChatFrame.drop 16) with
          recvBuffers := FdMap.insert demoAll.recvBuffers 5 [] }
    ∧ handleRead false 0 0 (handleRead false 0 0 demoAll 5 [.data demoLogoutFrame]) 5
        [.data demoChatFrame]
      = handleRead false 0 0 demoAll 5 [.data (demoLogoutFrame ++ demoChatFrame)]
    ∧ (handleRead false 0 0 demoAll 5 [.data (demoLogoutFrame ++ demoChatFrame)]).sent
      = demoAll.sent
        ++ [(6, packChatMessage false 72 ChatScope.CHAT_GROUP (ascii "alice") (ascii "Alice") []
              (ascii "hi") 0),
            (7, packChatMessage false 72 ChatScope.CHAT_GROUP (ascii "alice") (ascii "Alice") []
              (ascii "hi") 0)]
    ∧ (handleRead false 0 0 demoAll 5
        [.data (demoLogoutFrame ++ demoChatFrame)]).pendingDisconnects = [5]
    ∧ (FdMap.find? (handleRead false 0 0 demoAll 5 [.closed]).clientHandlers 5).map
        (fun h => h.closing) = some true
    ∧ handleRead false 0 0 (handleRead false 0 0 demoAll 5 [.closed]) 5 [.data demoChatFrame]
      = handleRead false 0 0 demoAll 5 [.closed] :=
  ⟨by decide, by decide, by decide!, by decide!, by decide!, by decide, by decide,
   by decide!⟩

/-! ## Timeout detection -/

/-- The whole seconds between two readings of the clock, as `checkTimeout` computes them,
exceed `t` exactly when at least `t + 1` seconds of ticks have passed. -/
theorem elapsed_gt_iff (tps now last t : Nat) (htps : 0 < tps) :
    Int.tdiv ((now : Int) - (last : Int)) (tps : Int) > (t : Int)
      ↔ (t + 1) * tps ≤ now - last := by
  by_cases h : last ≤ now
  · have e : (now : Int) - (last : Int) = ((now - last : Nat) : Int) := by omega
    rw [e]
    have e2 : Int.tdiv ((now - last : Nat) : Int) (tps : Int) = (((now - last) / tps : Nat) : Int) :=
      rfl
    rw [e2, gt_iff_lt, Int.ofNat_lt, ← Nat.le_div_iff_mul_le htps]
    omega
  · have hneg : (now : Int) - (last : Int) ≤ 0 := by omega
    have h1 : Int.tdiv ((now : Int) - (last : Int)) (tps : Int) ≤ 0 := by
      obtain ⟨k, hk⟩ : ∃ k : Nat, (now : Int) - (last : Int) = -(k : Int) :=
        ⟨last - now, by omega⟩
      rw [hk, Int.neg_tdiv]
      have : (0 : Int) ≤ Int.tdiv (k : Int) (tps : Int) :=
        Int.tdiv_nonneg (Int.ofNat_nonneg k) (Int.ofNat_nonneg tps)
      omega
    have h2 : now - last = 0 := by omega
    rw [h2]
    constructor
    · intro h3; omega
    · intro h3
      have : 0 < (t + 1) * tps := Nat.mul_pos (by omega) htps
      omega

/-- The descriptors `checkTimeout` returns are the keys of the entries whose whole seconds
since the last heartbeat exceed the timeout. -/
theorem checkTimeout_mem (tps : Nat) (clients : FdMap ClientInfo) (now : Nat) (t : Int)
    (fd : Int) :
    fd ∈ checkTimeout tps clients now t
      ↔ ∃ info, (fd, info) ∈ clients
          ∧ Int.tdiv ((now : Int) - (info.lastHeartbeat : Int)) (tps : Int) > t := by
  unfold checkTimeout
  simp only [List.mem_map, List.mem_filter, decide_eq_true_eq]
  constructor
  · rintro ⟨⟨k, info⟩, ⟨hm, hc⟩, rfl⟩
    exact ⟨info, hm, hc⟩
  · rintro ⟨info, hm, hc⟩
    exact ⟨(fd, info), ⟨hm, hc⟩, rfl⟩

set_option maxRecDepth 1000000 in
/-- C33 (as stated) fails: on a steady clock of nanosecond ticks, connection 5 was accepted
at reading 0 and has been silent until reading 10 500 000 000, for 10.5 seconds, which is
longer than 10 seconds; `checkTimeout(10)` does not return it. -/
theorem timeout_truncates_seconds :
    getClientInfo demoAccepted.clients 5 = some (demoEntry demoAccepted 5)
    ∧ (demoEntry demoAccepted 5).lastHeartbeat = 0
    ∧ 10 * 1000000000 < 10500000000 - (demoEntry demoAccepted 5).lastHeartbeat
    ∧ 5 ∉ checkTimeout 1000000000 demoAccepted.clients 10500000000 kHeartbeatTimeoutSec := by
  refine ⟨by decide, by decide, by decide, ?_⟩
  rw [checkTimeout_mem]
  rintro ⟨info, hm, hc⟩
  have hf := FdMap.mem_find? demoAccepted.clients 5 info (by decide) hm
  have hi : info = demoEntry demoAccepted 5 := by
    have h0 : FdMap.find? demoAccepted.clients 5 = some (demoEntry demoAccepted 5) := by decide
    rw [h0] at hf
    exact (Option.some.inj hf).symm
  have hl : info.lastHeartbeat = 0 := by rw [hi]; decide
  rw [hl] at hc
  have := (elapsed_gt_iff 1000000000 10500000000 0 10 (by norm_num)).mp hc
  omega

/-- C33 (as amended): timeout detection. On a well-formed roster and for a timeout of `t`
seconds, `checkTimeout(t)` returns exactly the connection ids in the roster, online or
anonymous, whose whole seconds since the last heartbeat exceed `t`, that is, for which at
least `t + 1` seconds of clock ticks have passed since the last heartbeat; it returns them
in ascending order, each once. With `t = 10` a connection silent for 11 seconds or more is
returned and one silent for less than 11 seconds is not. -/
theorem timeout_detection (tps : Nat) (clients : FdMap ClientInfo) (now t : Nat)
    (htps : 0 < tps) (hwf : RosterWF clients) :
    (∀ fd, fd ∈ checkTimeout tps clients now (t : Int)
      ↔ ∃ info, getClientInfo clients fd = some info
          ∧ (t + 1) * tps ≤ now - info.lastHeartbeat)
    ∧ (checkTimeout tps clients now (t : Int)).Pairwise (fun a b => a < b)
    ∧ (∀ fd, fd ∈ checkTimeout tps clients now kHeartbeatTimeoutSec
      ↔ ∃ info, getClientInfo clients fd = some info
          ∧ 11 * tps ≤ now - info.lastHeartbeat) := by
  have key : ∀ (t : Nat) fd, fd ∈ checkTimeout tps clients now (t : Int)
      ↔ ∃ info, getClientInfo clients fd = some info
          ∧ (t + 1) * tps ≤ now - info.lastHeartbeat := by
    intro t fd
    rw [checkTimeout_mem]
    constructor
    · rintro ⟨info, hm, hc⟩
      exact ⟨info, FdMap.mem_find? clients fd info hwf.1 hm,
        (elapsed_gt_iff tps now info.lastHeartbeat t htps).mp hc⟩
    · rintro ⟨info, hf, hc⟩
      exact ⟨info, FdMap.find?_mem clients fd info hf,
        (elapsed_gt_iff tps now info.lastHeartbeat t htps).mpr hc⟩
  refine ⟨key t, ?_, fun fd => key 10 fd⟩
  unfold checkTimeout
  rw [List.pairwise_map]
  exact List.Pairwise.sublist (List.filter_sublist _) hwf.1

set_option maxRecDepth 1000000 in
/-- C33 at sample inputs: on a clock of nanosecond ticks and the roster of the accepted
connections 5, 6 and 7, all last heard at reading 0, `checkTimeout(10)` at reading
11 000 000 000 returns connection 5. -/
theorem timeout_detection_witness :
    0 < 1000000000 ∧ RosterWF demoAccepted.clients
    ∧ (5 ∈ checkTimeout 1000000000 demoAccepted.clients 11000000000 kHeartbeatTimeoutSec
      ↔ ∃ info, getClientInfo demoAccepted.clients 5 = some info
          ∧ 11 * 1000000000 ≤ 11000000000 - info.lastHeartbeat) :=
  ⟨by decide, (reachable_roster false demoAccepted demoAccepted_reachable).1,
   (timeout_detection 1000000000 demoAccepted.clients 11000000000 10 (by decide)
      (reachable_roster false demoAccepted demoAccepted_reachable).1).2.2 5⟩

/-! ## Disconnect erases file sessions -/

/-- The sessions `cleanupFileSessionsForFd` keeps are the sessions that do not have `fd` as
an endpoint. -/
theorem cleanup_mem (t : List (List Nat × FileSession)) (fd : Int)
    (e : List Nat × FileSession) :
    e ∈ cleanupFileSessionsForFd t fd ↔ e ∈ t ∧ e.2.senderFd ≠ fd ∧ e.2.receiverFd ≠ fd := by
  unfold cleanupFileSessionsForFd
  simp [List.mem_filter]

/-- The file sessions after a teardown. -/
theorem handleClientDisconnect_sessions (be : Bool) (s : Server) (fd : Int) (hfd : 0 ≤ fd) :
    (handleClientDisconnect be s fd).fileSessions
      = cleanupFileSessionsForFd s.fileSessions fd := by
  unfold handleClientDisconnect
  rw [if_neg (by omega)]
  simp only []
  split
  · exact (broadcastUserList_onlySends be _).2.1
  · rfl

/-- C34: disconnect erases file sessions. The teardown of a connection `fd` (a descriptor,
not negative) runs `cleanupFileSessionsForFd(fd)` on the file-session table; the sessions of
the table afterwards are exactly the sessions of the table before whose sender is not `fd`
and whose receiver is not `fd`, each unchanged and in the order they had. -/
theorem disconnect_erases_sessions (be : Bool) (s : Server) (fd : Int) (hfd : 0 ≤ fd) :
    (handleClientDisconnect be s fd).fileSessions = cleanupFileSessionsForFd s.fileSessions fd
    ∧ (∀ e, e ∈ cleanupFileSessionsForFd s.fileSessions fd
        ↔ e ∈ s.fileSessions ∧ e.2.senderFd ≠ fd ∧ e.2.receiverFd ≠ fd)
    ∧ (cleanupFileSessionsForFd s.fileSessions fd).Sublist s.fileSessions
    ∧ (∀ e, e ∈ (handleClientDisconnect be s fd).fileSessions
        ↔ e ∈ s.fileSessions ∧ e.2.senderFd ≠ fd ∧ e.2.receiverFd ≠ fd) := by
  refine ⟨handleClientDisconnect_sessions be s fd hfd, cleanup_mem s.fileSessions fd,
    List.filter_sublist _, fun e => ?_⟩
  rw [handleClientDisconnect_sessions be s fd hfd]
  exact cleanup_mem s.fileSessions fd e

set_option maxRecDepth 1000000 in
/-- C34 at sample inputs: in the state where alice on connection 5 has offered f1 to bob on
connection 6, the teardown of 6 empties the table, and the teardown of 7 keeps the
session. -/
theorem disconnect_erases_sessions_witness :
    (0 : Int) ≤ 6
    ∧ demoOffered.fileSessions = [(ascii "f1", { senderFd := 5, receiverFd := 6 })]
    ∧ (handleClientDisconnect false demoOffered 6).fileSessions
        = cleanupFileSessionsForFd demoOffered.fileSessions 6
    ∧ cleanupFileSessionsForFd demoOffered.fileSessions 6 = []
    ∧ cleanupFileSessionsForFd demoOffered.fileSessions 7 = demoOffered.fileSessions :=
  ⟨by decide, by decide, (disconnect_erases_sessions false demoOffered 6 (by decide)).1,
   by decide, by decide⟩

/-! ## Well-formed streams -/

/-- One iteration of the loop on a buffer that starts with a complete frame: the callback
gets the header and the body of the frame, and the loop goes on behind it. -/
theorem parseLoop_frame {σ : Type} (be : Bool) (fd : Int)
    (cb : σ → Int → MessageHeader → List Nat → σ) (fuel : Nat) (f q : List Nat) (st : σ)
    (h16 : 16 ≤ f.length) (hv : validateHeader (decodeHeader be f) = true)
    (hlen : (decodeHeader be f).bodyLength + 16 = f.length) :
    parseLoop be fd cb (fuel + 1) (f ++ q) st
      = parseLoop be fd cb fuel q (cb st fd (decodeHeader be f) (f.drop 16))
    ∧ resyncFree be (fuel + 1) (f ++ q) = resyncFree be fuel q := by
  have hd : decodeHeader be (f ++ q) = decodeHeader be f := decodeHeader_append be f q h16
  have hl : (f ++ q).length ≥ 16 := by rw [List.length_append]; omega
  have htot : ¬ (f ++ q).length < 16 + (decodeHeader be f).bodyLength := by
    rw [List.length_append]; omega
  have hdrop : (f ++ q).drop (16 + (decodeHeader be f).bodyLength) = q := by
    have : 16 + (decodeHeader be f).bodyLength = f.length := by omega
    rw [this, List.drop_left]
  have hbody : ((f ++ q).drop 16).take (decodeHeader be f).bodyLength = f.drop 16 := by
    rw [take_drop_append f q 16 _ (by omega)]
    apply List.take_of_length_le
    rw [List.length_drop]; omega
  constructor
  · simp only [parseLoop, sizeofMessageHeader, hd, hv, hl, htot, hdrop, hbody, if_true,
      if_false, Bool.not_true, Bool.false_eq_true]
  · simp only [resyncFree, sizeofMessageHeader, hd, hv, hl, htot, hdrop, if_true,
      if_false, Bool.not_true, Bool.false_eq_true]

/-- The loop on the beginning of a frame, a buffer that a non-empty rest would complete
to a frame: nothing is dispatched, the buffer stays. -/
theorem parseLoop_incomplete {σ : Type} (be : Bool) (fd : Int)
    (cb : σ → Int → MessageHeader → List Nat → σ) (fuel : Nat) (tail : List Nat) (st : σ)
    (htail : tail = [] ∨ ∃ rest, rest ≠ [] ∧ 16 ≤ (tail ++ rest).length
      ∧ validateHeader (decodeHeader be (tail ++ rest)) = true
      ∧ (decodeHeader be (tail ++ rest)).bodyLength + 16 = (tail ++ rest).length) :
    parseLoop be fd cb fuel tail st = (tail, st) ∧ resyncFree be fuel tail = true := by
  cases fuel with
  | zero => exact ⟨rfl, rfl⟩
  | succ fuel =>
    by_cases h16 : tail.length ≥ 16
    · rcases htail with h | ⟨rest, hne, -, hv, hlen⟩
      · rw [h] at h16; simp at h16
      · rw [decodeHeader_append be tail rest h16] at hv hlen
        have hpos : 0 < rest.length := List.length_pos.mpr hne
        have htot : tail.length < 16 + (decodeHeader be tail).bodyLength := by
          rw [List.length_append] at hlen; omega
        constructor
        · simp only [parseLoop, sizeofMessageHeader, hv, h16, htot, if_true,
            Bool.not_true, Bool.false_eq_true, if_false]
        · simp only [resyncFree, sizeofMessageHeader, hv, h16, htot, if_true,
            Bool.not_true, Bool.false_eq_true, if_false]
    · constructor
      · simp only [parseLoop, sizeofMessageHeader, h16, if_false]
      · simp only [resyncFree, sizeofMessageHeader, h16, if_false]

/-- The loop on a sequence of complete frames followed by the beginning of a frame: one
callback per frame, in order, and the beginning of the last frame stays. -/
theorem parseLoop_frames {σ : Type} (be : Bool) (fd : Int)
    (cb : σ → Int → MessageHeader → List Nat → σ) (frames : List (List Nat))
    (tail : List Nat)
    (hframes : ∀ f ∈ frames, 16 ≤ f.length ∧ validateHeader (decodeHeader be f) = true
      ∧ (decodeHeader be f).bodyLength + 16 = f.length)
    (htail : tail = [] ∨ ∃ rest, rest ≠ [] ∧ 16 ≤ (tail ++ rest).length
      ∧ validateHeader (decodeHeader be (tail ++ rest)) = true
      ∧ (decodeHeader be (tail ++ rest)).bodyLength + 16 = (tail ++ rest).length) :
    ∀ (fuel : Nat) (st : σ), (frames.flatten ++ tail).length < fuel →
      parseLoop be fd cb fuel (frames.flatten ++ tail) st
        = (tail, frames.foldl (fun st f => cb st fd (decodeHeader be f) (f.drop 16)) st)
      ∧ resyncFree be fuel (frames.flatten ++ tail) = true := by
  induction frames with
  | nil =>
    intro fuel st _
    simpa using parseLoop_incomplete be fd cb fuel tail st htail
  | cons f fs ih =>
    intro fuel st hfuel
    obtain ⟨h16, hv, hlen⟩ := hframes f (List.mem_cons_self f fs)
    have hfs := ih (fun g hg => hframes g (List.mem_cons_of_mem f hg))
    rw [List.flatten_cons, List.append_assoc] at hfuel ⊢
    cases fuel with
    | zero => omega
    | succ fuel =>
      obtain ⟨e1, e2⟩ := parseLoop_frame be fd cb fuel f (fs.flatten ++ tail) st h16 hv hlen
      rw [e1, e2, List.foldl_cons]
      apply hfs
      rw [List.length_append] at hfuel
      omega

theorem foldl_recordMessage (be : Bool) (fd : Int) (frames : List (List Nat))
    (trace : List (MessageHeader × List Nat)) :
    frames.foldl (fun st f => recordMessage st fd (decodeHeader be f) (f.drop 16)) trace
      = trace ++ frames.map (fun f => (decodeHeader be f, f.drop 16)) := by
  induction frames generalizing trace with
  | nil => simp
  | cons f fs ih =>
    rw [List.foldl_cons, ih]
    simp [recordMessage]

/-- C35: well-formed streams are framed exactly. Let `frames` be frames, each a 16-byte
header that `validateHeader` accepts followed by exactly bodyLength body bytes, let `tail` be
empty or the beginning of such a frame (a non-empty rest is missing), and let `chunks` be any
split of the concatenation of the frames and `tail`. Feeding the chunks to `parseData` from
an empty accumulator invokes the callback once per frame, in order, with the decoded header
and the body bytes of that frame, and leaves `tail` in the accumulator: nothing when the
stream ends with a frame, the bytes of the incomplete frame otherwise. -/
theorem well_formed_framing (be : Bool) (fd : Int) (frames : List (List Nat))
    (tail : List Nat) (chunks : List (List Nat))
    (hframes : ∀ f ∈ frames, 16 ≤ f.length ∧ validateHeader (decodeHeader be f) = true
      ∧ (decodeHeader be f).bodyLength + 16 = f.length)
    (htail : tail = [] ∨ ∃ rest, rest ≠ [] ∧ 16 ≤ (tail ++ rest).length
      ∧ validateHeader (decodeHeader be (tail ++ rest)) = true
      ∧ (decodeHeader be (tail ++ rest)).bodyLength + 16 = (tail ++ rest).length)
    (hchunks : chunks.flatten = frames.flatten ++ tail) :
    feedChunks be fd recordMessage chunks [] []
      = (tail, frames.map (fun f => (decodeHeader be f, f.drop 16))) := by
  have h := parseLoop_frames be fd recordMessage frames tail hframes htail
    (chunks.flatten.length + 1) [] (by rw [hchunks]; omega)
  rw [← hchunks] at h
  have hs := feedChunks_eq_single be fd recordMessage chunks [] [] (by simpa using h.2)
  have h0 : parseLoop be fd recordMessage ([] : List Nat).length.succ [] []
      = (([] : List Nat), ([] : List (MessageHeader × List Nat))) := by
    simp [parseLoop, sizeofMessageHeader]
  rw [h0] at hs
  simp only [List.nil_append] at hs
  rw [hs, h.1, foldl_recordMessage]
  simp

set_option maxRecDepth 1000000 in
/-- C35 at sample inputs: a frame of type 0x0201 with the body 7, 8, 9, a HEARTBEAT_REQ frame
without body and the first two bytes of a third frame, cut into three chunks that split the
header of the first frame and the body from its header. -/
theorem well_formed_framing_witness :
    (∀ f ∈ [[0x12, 0x34, 0x56, 0x78, 0, 1, 2, 1, 0, 0, 0, 3, 0, 0, 0, 9, 7, 8, 9],
            [0x12, 0x34, 0x56, 0x78, 0, 1, 0, 1, 0, 0, 0, 0, 0, 0, 0, 10]],
        16 ≤ f.length ∧ validateHeader (decodeHeader false f) = true
          ∧ (decodeHeader false f).bodyLength + 16 = f.length)
    ∧ feedChunks false 5 recordMessage
        [[0x12, 0x34, 0x56], [0x78, 0, 1, 2, 1, 0, 0, 0, 3, 0, 0, 0, 9, 7],
         [8, 9, 0x12, 0x34, 0x56, 0x78, 0, 1, 0, 1, 0, 0, 0, 0, 0, 0, 0, 10, 0x12, 0x34]] [] []
      = ([0x12, 0x34],
         [[0x12, 0x34, 0x56, 0x78, 0, 1, 2, 1, 0, 0, 0, 3, 0, 0, 0, 9, 7, 8, 9],
          [0x12, 0x34, 0x56, 0x78, 0, 1, 0, 1, 0, 0, 0, 0, 0, 0, 0, 10]].map
            (fun f => (decodeHeader false f, f.drop 16))) :=
  ⟨by decide,
   well_formed_framing false 5
     [[0x12, 0x34, 0x56, 0x78, 0, 1, 2, 1, 0, 0, 0, 3, 0, 0, 0, 9, 7, 8, 9],
      [0x12, 0x34, 0x56, 0x78, 0, 1, 0, 1, 0, 0, 0, 0, 0, 0, 0, 10]]
     [0x12, 0x34]
     [[0x12, 0x34, 0x56], [0x78, 0, 1, 2, 1, 0, 0, 0, 3, 0, 0, 0, 9, 7],
      [8, 9, 0x12, 0x34, 0x56, 0x78, 0, 1, 0, 1, 0, 0, 0, 0, 0, 0, 0, 10, 0x12, 0x34]]
     (by decide)
     (Or.inr ⟨[0x56, 0x78, 0, 1, 0, 1, 0, 0, 0, 0, 0, 0, 0, 11], by decide, by decide,
       by decide, by decide⟩)
     (by decide)⟩

/-! ## The outbound buffer -/

/-- The immediate-send loop moves the offset forward and never past the length. -/
theorem immediateSend_bounds (len : Nat) (script : List SendResult) (off : Nat)
    (h : off ≤ len) :
    off ≤ (immediateSend len script off).1 ∧ (immediateSend len script off).1 ≤ len := by
  induction script generalizing off with
  | nil => simp [immediateSend, h]
  | cons r rest ih =>
    unfold immediateSend
    split
    · cases r with
      | bytes k =>
        have := ih (off + min (k + 1) (len - off)) (by omega)
        simp only []
        omega
      | zero => simp [h]
      | eintr => exact ih off h
      | eagain => simp [h]
      | error => simp [h]
    · simp [h]

/-- A handler without pending bytes has nothing unsent. -/
theorem unsent_of_pending_zero (c : Connection) (h : c.pending = 0) : c.unsent = [] := by
  unfold Connection.pending at h
  unfold Connection.unsent
  apply List.drop_of_length_le
  omega

/-- Compaction keeps the unsent bytes, the bytes on the wire and the closing flag, and the
offset stays inside the buffer. -/
theorem compact_unsent (c : Connection) (hinv : c.outOffset ≤ c.outbuf.length) :
    c.compact.unsent = c.unsent ∧ c.compact.wire = c.wire ∧ c.compact.closing = c.closing
    ∧ c.compact.outOffset ≤ c.compact.outbuf.length := by
  unfold Connection.compact
  split
  · rename_i h
    refine ⟨?_, rfl, rfl, by simp⟩
    rw [unsent_of_pending_zero c h]
    rfl
  · split
    · refine ⟨?_, rfl, rfl, by simp⟩
      simp [Connection.unsent]
    · exact ⟨rfl, rfl, rfl, hinv⟩

/-- The flush loop moves bytes from the front of the unsent part to the wire and nothing
else: the wire followed by the unsent part stays the same. -/
theorem flushOut_stream (script : List SendResult) (c : Connection)
    (hinv : c.outOffset ≤ c.outbuf.length) :
    (flushOut c script).1.wire ++ (flushOut c script).1.unsent = c.wire ++ c.unsent
    ∧ (flushOut c script).1.outOffset ≤ (flushOut c script).1.outbuf.length
    ∧ (flushOut c script).1.closing = c.closing := by
  induction script generalizing c with
  | nil => simp [flushOut, hinv]
  | cons r rest ih =>
    unfold flushOut
    split
    · rename_i hp
      cases r with
      | bytes k =>
        simp only []
        obtain ⟨c1, hc1⟩ : ∃ c1 : Connection, c1 = { c with
            wire := c.wire ++ (c.outbuf.drop c.outOffset).take (min (k + 1) c.pending)
            outOffset := c.outOffset + min (k + 1) c.pending } := ⟨_, rfl⟩
        rw [← hc1]
        have hinv1 : c1.outOffset ≤ c1.outbuf.length := by
          rw [hc1]
          simp only [Connection.pending] at hp ⊢
          omega
        have hs1 : c1.wire ++ c1.unsent = c.wire ++ c.unsent := by
          rw [hc1]
          simp only [Connection.unsent, List.append_assoc, ← List.drop_drop]
          rw [List.take_append_drop]
        have hcl1 : c1.closing = c.closing := by rw [hc1]
        obtain ⟨k1, k2, k3, k4⟩ := compact_unsent c1 hinv1
        obtain ⟨i1, i2, i3⟩ := ih c1.compact k4
        exact ⟨by rw [i1, k1, k2, hs1], i2, by rw [i3, k3, hcl1]⟩
      | zero => exact ⟨rfl, hinv, rfl⟩
      | eintr => exact ih c hinv
      | eagain => exact ⟨rfl, hinv, rfl⟩
      | error => exact ⟨rfl, hinv, rfl⟩
    · exact ⟨rfl, hinv, rfl⟩

/-- After `requestClose` on a handler that was not closing the handler is closing. -/
theorem requestClose_closing (t : Server) (fd : Int) (c1 : Connection)
    (hx : (FdMap.find? t.clientHandlers fd).isSome = true) (h1 : c1.closing = false) :
    FdMap.find? (requestClose t fd c1).clientHandlers fd = some { c1 with closing := true } := by
  obtain ⟨x, hx⟩ := Option.isSome_iff_exists.mp hx
  simp [requestClose, h1, queueDisconnect, FdMap.find?_modify, hx]

/-- What `queueSend` does to the handler of a connection that is not closing: either the
handler is closing afterwards (a fatal send error), or the frame has been added behind the
bytes on the wire and the unsent bytes. -/
theorem queueSend_stream (s : Server) (fd : Int) (c : Connection) (data : List Nat)
    (hfd : 0 ≤ fd) (hc : FdMap.find? s.clientHandlers fd = some c) (hcl : c.closing = false)
    (hinv : c.outOffset ≤ c.outbuf.length) :
    ∃ c2, FdMap.find? (queueSend s fd c data).1.clientHandlers fd = some c2
      ∧ (c2.closing = false →
          c2.wire ++ c2.unsent = c.wire ++ c.unsent ++ data
          ∧ c2.outOffset ≤ c2.outbuf.length) := by
  unfold queueSend
  simp only []
  rw [if_neg (by simp [hcl]; omega)]
  split
  · rename_i he
    refine ⟨c, hc, fun _ => ⟨?_, hinv⟩⟩
    have : data = [] := by simpa using he
    rw [this, List.append_nil]
  · rename_i hne
    have hdata : data ≠ [] := by simpa using hne
    split
    · rename_i hp
      have hu := unsent_of_pending_zero c hp
      obtain ⟨b1, b2⟩ := immediateSend_bounds data.length s.sendScript 0 (Nat.zero_le _)
      obtain ⟨off, hoff⟩ : ∃ off, off = (immediateSend data.length s.sendScript 0).1 :=
        ⟨_, rfl⟩
      rw [← hoff] at b2 ⊢
      split
      · exact ⟨_, requestClose_closing _ fd _ (by simp [FdMap.find?_modify, hc]) hcl,
          fun h => absurd h (by simp)⟩
      · exact ⟨_, requestClose_closing _ fd _ (by simp [FdMap.find?_modify, hc]) hcl,
          fun h => absurd h (by simp)⟩
      · split
        · rename_i hfull
          refine ⟨{ c with wire := c.wire ++ data.take off }, ?_, fun _ => ⟨?_, hinv⟩⟩
          · simp [FdMap.find?_modify, hc]
          · have e : c.unsent = ({ c with wire := c.wire ++ data.take off } : Connection).unsent :=
              rfl
            rw [← e, hu, hfull, List.take_length]
            simp
        · rename_i hpart
          have hlt : off < data.length := by omega
          have hdrop : (data.drop off).length ≠ 0 := by
            rw [List.length_drop]; omega
          refine ⟨{ ({ c with wire := c.wire ++ data.take off } : Connection).appendOut
              (data.drop off) with events := EVENT_READ ||| EVENT_WRITE }, ?_, fun _ => ?_⟩
          · simp [FdMap.find?_modify, hc]
          · have hp1 : ({ c with wire := c.wire ++ data.take off } : Connection).pending = 0 :=
              hp
            simp only [Connection.appendOut, if_neg hdrop, hp1, if_true, Connection.unsent,
              List.drop_zero]
            refine ⟨?_, Nat.zero_le _⟩
            have hu2 : List.drop c.outOffset c.outbuf = [] := hu
            rw [hu2, List.append_nil, List.append_assoc, List.take_append_drop]
    · rename_i hp
      have hlen : data.length ≠ 0 := by
        intro h; exact hdata (List.length_eq_zero.mp h)
      refine ⟨{ c.appendOut data with events := EVENT_READ ||| EVENT_WRITE }, ?_, fun _ => ?_⟩
      · simp [FdMap.find?_modify, hc]
      · simp only [Connection.appendOut, if_neg hlen, if_neg hp, Connection.unsent]
        refine ⟨?_, ?_⟩
        · rw [List.drop_append_of_le_length hinv, List.append_assoc]
        · rw [List.length_append]; omega

/-- The same for `sendResponse`, which looks the handler up. -/
theorem sendResponse_stream (s : Server) (fd : Int) (c : Connection) (data : List Nat)
    (hfd : 0 ≤ fd) (hc : FdMap.find? s.clientHandlers fd = some c) (hcl : c.closing = false)
    (hinv : c.outOffset ≤ c.outbuf.length) :
    ∃ c2, FdMap.find? (sendResponse s fd data).1.clientHandlers fd = some c2
      ∧ (c2.closing = false →
          c2.wire ++ c2.unsent = c.wire ++ c.unsent ++ data
          ∧ c2.outOffset ≤ c2.outbuf.length) := by
  obtain ⟨c2, h1, h2⟩ := queueSend_stream s fd c data hfd hc hcl hinv
  refine ⟨c2, ?_, h2⟩
  unfold sendResponse
  rw [hc]
  simp only []
  split
  · rw [(queueDisconnect_fields _ fd).2.2.2.2.2]
    exact h1
  · exact h1

/-- What `handleWrite` does to the handler of a connection that is not closing: either the
handler is closing afterwards (a fatal send error), or the wire followed by the unsent bytes
is what it was. -/
theorem handleWrite_stream (s : Server) (fd : Int) (c : Connection)
    (hc : FdMap.find? s.clientHandlers fd = some c) (hcl : c.closing = false)
    (hinv : c.outOffset ≤ c.outbuf.length) :
    ∃ c2, FdMap.find? (handleWrite s fd).clientHandlers fd = some c2
      ∧ (c2.closing = false →
          c2.wire ++ c2.unsent = c.wire ++ c.unsent
          ∧ c2.outOffset ≤ c2.outbuf.length) := by
  obtain ⟨f1, f2, f3⟩ := flushOut_stream s.sendScript c hinv
  unfold handleWrite
  rw [hc]
  simp only [hcl, Bool.false_eq_true, if_false]
  split
  · exact ⟨_, requestClose_closing _ fd _ (by simp [FdMap.find?_modify, hc]) (by rw [f3, hcl]),
      fun h => absurd h (by simp)⟩
  · exact ⟨_, requestClose_closing _ fd _ (by simp [FdMap.find?_modify, hc]) (by rw [f3, hcl]),
      fun h => absurd h (by simp)⟩
  · split
    · refine ⟨{ (flushOut c s.sendScript).1 with events := EVENT_READ }, ?_, fun _ => ⟨f1, f2⟩⟩
      simp [FdMap.find?_modify, hc]
    · refine ⟨(flushOut c s.sendScript).1, ?_, fun _ => ⟨f1, f2⟩⟩
      simp [FdMap.find?_modify, hc]

/-- The invariant of the outbound side of one connection along any sequence of queued frames
and write events. -/
theorem connSteps_stream (fd : Int) (hfd : 0 ≤ fd) (ops : List ConnOp) :
    ∀ (s : Server) (c : Connection), FdMap.find? s.clientHandlers fd = some c →
      (c.closing = false → c.outOffset ≤ c.outbuf.length) →
      ∃ c2, FdMap.find? (ops.foldl (connStep fd) s).clientHandlers fd = some c2
        ∧ (c2.closing = false →
            c.closing = false
            ∧ c2.wire ++ c2.unsent = c.wire ++ c.unsent ++ queuedBytes ops
            ∧ c2.outOffset ≤ c2.outbuf.length) := by
  induction ops with
  | nil =>
    intro s c hc hinv
    exact ⟨c, hc, fun h => ⟨h, by simp [queuedBytes], hinv h⟩⟩
  | cons op rest ih =>
    intro s c hc hinv
    rw [List.foldl_cons]
    cases hcl : c.closing with
    | true =>
      have hsame : FdMap.find? (connStep fd s op).clientHandlers fd = some c := by
        cases op with
        | queue data =>
          simp only [connStep, sendResponse, hc, queueSend, hcl, Bool.true_or, if_true,
            Bool.not_false]
          simp [queueDisconnect, hc]
        | write => simp [connStep, handleWrite, hc, hcl]
      obtain ⟨c2, h1, h2⟩ := ih (connStep fd s op) c hsame hinv
      refine ⟨c2, h1, fun h => ?_⟩
      have := (h2 h).1
      rw [hcl] at this
      exact absurd this (by simp)
    | false =>
      have hstep : ∃ c1, FdMap.find? (connStep fd s op).clientHandlers fd = some c1
          ∧ (c1.closing = false →
              c1.wire ++ c1.unsent = c.wire ++ c.unsent ++ queuedBytes [op]
              ∧ c1.outOffset ≤ c1.outbuf.length) := by
        cases op with
        | queue data =>
          simpa [connStep, queuedBytes] using
            sendResponse_stream s fd c data hfd hc hcl (hinv hcl)
        | write =>
          simpa [connStep, queuedBytes] using handleWrite_stream s fd c hc hcl (hinv hcl)
      obtain ⟨c1, g1, g2⟩ := hstep
      obtain ⟨c2, h1, h2⟩ := ih (connStep fd s op) c1 g1 (fun h => (g2 h).2)
      refine ⟨c2, h1, fun h => ?_⟩
      obtain ⟨k1, k2, k3⟩ := h2 h
      refine ⟨rfl, ?_, k3⟩
      rw [k2, (g2 k1).1]
      cases op <;> simp [queuedBytes]

/-- C36: outbound bytes are never lost or reordered. Take a connection `fd` (a descriptor,
not negative) whose handler `c` has its offset inside its buffer, as it has from its
creation on, and any sequence `ops` of frames passed to
`sendResponse` (and so to `queueSend`) and of `handleWrite` calls, for any results of the
coming socket sends (any number of bytes accepted, would-block, interruptions, errors). The
connection still has a handler afterwards, and unless a fatal send error has set it closing,
the bytes on the wire followed by the unsent part of the outbound buffer (outbuf from offset
to end) are the bytes that were on the wire and unsent before followed by the queued frames
in order, and the offset does not exceed the buffer length. Compaction of the consumed
prefix changes neither the unsent part nor the bytes on the wire. -/
theorem outbound_stream_preserved (fd : Int) (s : Server) (c : Connection) (ops : List ConnOp)
    (hfd : 0 ≤ fd) (hc : FdMap.find? s.clientHandlers fd = some c)
    (hinv : c.outOffset ≤ c.outbuf.length) :
    (∃ c2, FdMap.find? (ops.foldl (connStep fd) s).clientHandlers fd = some c2
      ∧ (c2.closing = false →
          c2.wire ++ c2.unsent = c.wire ++ c.unsent ++ queuedBytes ops
          ∧ c2.outOffset ≤ c2.outbuf.length))
    ∧ (∀ h : Connection, h.outOffset ≤ h.outbuf.length →
        h.compact.unsent = h.unsent ∧ h.compact.wire = h.wire
        ∧ h.compact.outOffset ≤ h.compact.outbuf.length) := by
  constructor
  · obtain ⟨c2, h1, h2⟩ := connSteps_stream fd hfd ops s c hc (fun _ => hinv)
    exact ⟨c2, h1, fun h => (h2 h).2⟩
  · intro h hh
    obtain ⟨k1, k2, -, k4⟩ := compact_unsent h hh
    exact ⟨k1, k2, k4⟩

set_option maxRecDepth 1000000 in
/-- C36 at sample inputs: connection 5 right after its accept; the frames 1 2 3 4 5 and 6 7
are queued and two write events follow, while the socket takes two bytes, would block, takes
one byte, would block, and takes three bytes. Six bytes are on the wire and one is unsent. -/
theorem outbound_stream_preserved_witness :
    (0 : Int) ≤ 5
    ∧ FdMap.find? ({ demoAccepted with sendScript :=
          [.bytes 1, .eagain, .bytes 0, .eagain, .bytes 2] }).clientHandlers 5
        = some { closing := false, outbuf := [], outOffset := 0, events := EVENT_READ,
                 wire := [] }
    ∧ (FdMap.find? ([ConnOp.queue [1, 2, 3, 4, 5], ConnOp.queue [6, 7], ConnOp.write,
          ConnOp.write].foldl (connStep 5)
          { demoAccepted with sendScript :=
              [.bytes 1, .eagain, .bytes 0, .eagain, .bytes 2] }).clientHandlers 5).map
        (fun h => (h.closing, h.wire, h.unsent)) = some (false, [1, 2, 3, 4, 5, 6], [7])
    ∧ ∃ c2, FdMap.find? ([ConnOp.queue [1, 2, 3, 4, 5], ConnOp.queue [6, 7], ConnOp.write,
          ConnOp.write].foldl (connStep 5)
          { demoAccepted with sendScript :=
              [.bytes 1, .eagain, .bytes 0, .eagain, .bytes 2] }).clientHandlers 5 = some c2
      ∧ (c2.closing = false →
          c2.wire ++ c2.unsent
            = queuedBytes [ConnOp.queue [1, 2, 3, 4, 5], ConnOp.queue [6, 7], ConnOp.write,
                ConnOp.write]
          ∧ c2.outOffset ≤ c2.outbuf.length) :=
  ⟨by decide, by decide, by decide,
   (outbound_stream_preserved 5
      { demoAccepted with sendScript := [.bytes 1, .eagain, .bytes 0, .eagain, .bytes 2] }
      { closing := false, outbuf := [], outOffset := 0, events := EVENT_READ, wire := [] }
      [ConnOp.queue [1, 2, 3, 4, 5], ConnOp.queue [6, 7], ConnOp.write, ConnOp.write]
      (by decide) (by decide) (by decide)).1⟩

/-! ## The drain of the pending-disconnect queue -/

/-- Stripping equal neighbours keeps the members of a list. -/
theorem uniqueAdjacent_mem (l : List Int) (x : Int) : x ∈ uniqueAdjacent l ↔ x ∈ l := by
  induction l with
  | nil => simp [uniqueAdjacent]
  | cons a rest ih =>
    cases rest with
    | nil => simp [uniqueAdjacent]
    | cons b rest2 =>
      unfold uniqueAdjacent
      simp only []
      split
      · rename_i hab
        rw [ih, hab]
        simp
      · rw [List.mem_cons, ih]
        simp

/-- Stripping equal neighbours from an ascending list leaves a strictly ascending list. -/
theorem uniqueAdjacent_sorted (l : List Int) (h : l.Pairwise (fun a b => a ≤ b)) :
    (uniqueAdjacent l).Pairwise (fun a b => a < b) := by
  induction l with
  | nil => simp [uniqueAdjacent]
  | cons a rest ih =>
    rw [List.pairwise_cons] at h
    cases rest with
    | nil => simp [uniqueAdjacent]
    | cons b rest2 =>
      unfold uniqueAdjacent
      simp only []
      split
      · exact ih h.2
      · rename_i hab
        rw [List.pairwise_cons]
        refine ⟨fun x hx => ?_, ih h.2⟩
        rw [uniqueAdjacent_mem] at hx
        have h1 : a ≤ b := h.1 b (List.mem_cons_self b rest2)
        have h2 : b ≤ x := by
          rcases List.mem_cons.mp hx with e | e
          · rw [e]
          · exact (List.pairwise_cons.mp h.2).1 x e
        omega

/-- A teardown while the server is not running leaves the queue and the flag alone. -/
theorem handleClientDisconnect_stopped (be : Bool) (s : Server) (fd : Int)
    (h : s.running = false) :
    (handleClientDisconnect be s fd).running = false
    ∧ (handleClientDisconnect be s fd).pendingDisconnects = s.pendingDisconnects := by
  unfold handleClientDisconnect
  split
  · exact ⟨h, rfl⟩
  · simp [h]

theorem teardowns_stopped (be : Bool) (ids : List Int) (s : Server) (h : s.running = false) :
    (ids.foldl (fun st fd => handleClientDisconnect be st fd) s).pendingDisconnects
      = s.pendingDisconnects := by
  induction ids generalizing s with
  | nil => rfl
  | cons fd rest ih =>
    rw [List.foldl_cons, ih _ (handleClientDisconnect_stopped be s fd h).1]
    exact (handleClientDisconnect_stopped be s fd h).2

theorem sendToAll_accepted (targets : List Int) (packet : List Nat) (s : Server)
    (h : sendToAllAccepted s targets packet = true) :
    (sendToAll s targets packet).pendingDisconnects = s.pendingDisconnects := by
  unfold sendToAll
  induction targets generalizing s with
  | nil => rfl
  | cons fd rest ih =>
    simp only [sendToAllAccepted, Bool.and_eq_true] at h
    rw [List.foldl_cons, ih _ h.2]
    exact sendResponse_pending s fd packet h.1

theorem broadcastUserList_accepted (be : Bool) (s : Server)
    (h : broadcastAccepted be s = true) :
    (broadcastUserList be s).pendingDisconnects = s.pendingDisconnects := by
  unfold broadcastAccepted at h
  unfold broadcastUserList
  simp only [] at h ⊢
  split
  · rfl
  · rename_i hne
    rw [if_neg hne] at h
    exact sendToAll_accepted _ _ s h

/-- A teardown whose broadcast is accepted by every handler leaves the queue alone. -/
theorem handleClientDisconnect_accepted (be : Bool) (s : Server) (fd : Int)
    (h : teardownAccepted be s fd = true) :
    (handleClientDisconnect be s fd).pendingDisconnects = s.pendingDisconnects := by
  unfold teardownAccepted at h
  unfold handleClientDisconnect
  split
  · rfl
  · rename_i hfd
    rw [if_neg hfd] at h
    simp only [] at h ⊢
    split
    · rename_i hr
      rw [if_pos hr] at h
      rw [broadcastUserList_accepted be _ h]
    · rfl

theorem teardowns_accepted (be : Bool) (ids : List Int) (s : Server)
    (h : teardownsAccepted be ids s = true) :
    (ids.foldl (fun st fd => handleClientDisconnect be st fd) s).pendingDisconnects
      = s.pendingDisconnects := by
  induction ids generalizing s with
  | nil => rfl
  | cons fd rest ih =>
    simp only [teardownsAccepted, Bool.and_eq_true] at h
    rw [List.foldl_cons, ih _ h.2]
    exact handleClientDisconnect_accepted be s fd h.1

set_option maxRecDepth 1000000 in
/-- The drain with the connections 6 (closing after its peer closed) and 5 (after its
LOGOUT_REQ) on the queue: 5 is torn down first, the user-list broadcast of that teardown is
refused by the closing handler of 6, and `sendResponse` puts 6 on the queue once more,
where it stays after 6 itself has been torn down in the same drain. -/
theorem drain_requeues_closing :
    demoTwoQueued.pendingDisconnects = [6, 5]
    ∧ (processPendingDisconnects false demoTwoQueued).pendingDisconnects = [6]
    ∧ (FdMap.find? (processPendingDisconnects false demoTwoQueued).clientHandlers 6).isSome
        = false :=
  ⟨by decide, by decide!, by decide!⟩

set_option maxRecDepth 1000000 in
/-- C37 (as stated) fails: connection 5 is alone on the queue and connection 7 is live, not
closing, with an empty outbound buffer. The teardown of 5 broadcasts the user list, the
`send` to 7 fails with an error, and 7 is queued for the next drain (by `requestClose` and by
`sendResponse`): after the drain the queue is not empty, and 7 is still in the roster with
its handler. -/
theorem drain_queues_failed_send :
    demoSendFails.pendingDisconnects = [5]
    ∧ (FdMap.find? demoSendFails.clientHandlers 7).map (fun h => (h.closing, h.pending))
        = some (false, 0)
    ∧ (processPendingDisconnects false demoSendFails).pendingDisconnects = [7, 7]
    ∧ (processPendingDisconnects false demoSendFails).pendingDisconnects ≠ []
    ∧ (FdMap.find? (processPendingDisconnects false demoSendFails).clientHandlers 7).isSome
        = true
    ∧ (getClientInfo (processPendingDisconnects false demoSendFails).clients 7).isSome = true
    ∧ (FdMap.find? (processPendingDisconnects false demoSendFails).clientHandlers 5).isSome
        = false :=
  ⟨by decide!, by decide!, by decide!, by decide!, by decide!, by decide!, by decide!⟩

/-- C37 (as amended): deterministic drain. For every content of the pending-disconnect queue
(any ids, with any repetitions, in any order), `processPendingDisconnects` takes the queued
ids off the queue and tears down each distinct queued id exactly once, in ascending id
order: its result is the teardowns of the strictly ascending list of the queued ids, run
one after another from the state with an empty queue. It leaves the queue empty provided
every send of the user-list broadcasts of these teardowns is accepted, and whenever the
server is not running (nothing is broadcast then). With an empty queue the call does
nothing. -/
theorem deterministic_drain (be : Bool) (s : Server) :
    (uniqueAdjacent (s.pendingDisconnects.insertionSort (fun a b => a ≤ b))).Pairwise
      (fun a b => a < b)
    ∧ (∀ fd, fd ∈ uniqueAdjacent (s.pendingDisconnects.insertionSort (fun a b => a ≤ b))
        ↔ fd ∈ s.pendingDisconnects)
    ∧ processPendingDisconnects be s
      = (uniqueAdjacent (s.pendingDisconnects.insertionSort (fun a b => a ≤ b))).foldl
          (fun st fd => handleClientDisconnect be st fd) { s with pendingDisconnects := [] }
    ∧ (s.pendingDisconnects = [] → processPendingDisconnects be s = s)
    ∧ (teardownsAccepted be
          (uniqueAdjacent (s.pendingDisconnects.insertionSort (fun a b => a ≤ b)))
          { s with pendingDisconnects := [] } = true →
        (processPendingDisconnects be s).pendingDisconnects = [])
    ∧ (s.running = false → (processPendingDisconnects be s).pendingDisconnects = []) := by
  have hempty : s.pendingDisconnects = [] → processPendingDisconnects be s = s := by
    intro h
    simp [processPendingDisconnects, h]
  have heq : processPendingDisconnects be s
      = (uniqueAdjacent (s.pendingDisconnects.insertionSort (fun a b => a ≤ b))).foldl
          (fun st fd => handleClientDisconnect be st fd)
          { s with pendingDisconnects := [] } := by
    by_cases h : s.pendingDisconnects = []
    · rw [hempty h, h]
      simp only [List.insertionSort, uniqueAdjacent, List.foldl_nil]
      rw [← h]
    · have hne : s.pendingDisconnects.isEmpty = false := by
        cases hq : s.pendingDisconnects with
        | nil => exact absurd hq h
        | cons a l => rfl
      simp [processPendingDisconnects, hne]
  refine ⟨?_, ?_, heq, hempty, ?_, ?_⟩
  · apply uniqueAdjacent_sorted
    exact List.sorted_insertionSort (fun a b : Int => a ≤ b) s.pendingDisconnects
  · intro fd
    rw [uniqueAdjacent_mem]
    exact (List.perm_insertionSort (fun a b : Int => a ≤ b) s.pendingDisconnects).mem_iff
  · intro hacc
    rw [heq]
    exact teardowns_accepted be _ { s with pendingDisconnects := [] } hacc
  · intro hr
    rw [heq]
    exact teardowns_stopped be _ { s with pendingDisconnects := [] } hr

set_option maxRecDepth 1000000 in
/-- C37 at sample inputs: the queue 7, 5, 7 is drained as the teardown of 5 followed by the
teardown of 7, every broadcast of these teardowns is accepted and the queue is empty
afterwards; so it is when the closing connection 6 is alone on the queue; and with an empty
queue the state stays as it is. -/
theorem deterministic_drain_witness :
    uniqueAdjacent (([7, 5, 7] : List Int).insertionSort (fun a b => a ≤ b)) = [5, 7]
    ∧ processPendingDisconnects false { demoAll with pendingDisconnects := [7, 5, 7] }
      = handleClientDisconnect false
          (handleClientDisconnect false { demoAll with pendingDisconnects := [] } 5) 7
    ∧ teardownsAccepted false [5, 7] { demoAll with pendingDisconnects := [] } = true
    ∧ (processPendingDisconnects false
        { demoAll with pendingDisconnects := [7, 5, 7] }).pendingDisconnects = []
    ∧ (handleRead false 0 0 demoAll 6 [.closed]).pendingDisconnects = [6]
    ∧ (processPendingDisconnects false
        (handleRead false 0 0 demoAll 6 [.closed])).pendingDisconnects = []
    ∧ demoAll.pendingDisconnects = []
    ∧ processPendingDisconnects false demoAll = demoAll :=
  ⟨by decide,
   (deterministic_drain false { demoAll with pendingDisconnects := [7, 5, 7] }).2.2.1,
   by decide!,
   (deterministic_drain false { demoAll with pendingDisconnects := [7, 5, 7] }).2.2.2.2.1
     (by decide!),
   by decide!,
   (deterministic_drain false (handleRead false 0 0 demoAll 6 [.closed])).2.2.2.2.1
     (by decide!),
   by decide, (deterministic_drain false demoAll).2.2.2.1 (by decide)⟩

/-! ## Liveness -/

/-- A change of one entry that keeps its last heartbeat keeps the readings. -/
theorem heartbeats_modify (m : FdMap ClientInfo) (k : Int) (f : ClientInfo → ClientInfo)
    (hf : ∀ v, (f v).lastHeartbeat = v.lastHeartbeat) :
    heartbeats (FdMap.modify m k f) = heartbeats m := by
  unfold heartbeats
  induction m with
  | nil => rfl
  | cons e rest ih =>
    obtain ⟨k0, v0⟩ := e
    simp only [FdMap.modify]
    split
    · simp [hf]
    · simp only [List.map_cons, ih]

theorem heartbeats_setClientIdentity (m : FdMap ClientInfo) (c : Int) (id nick : List Nat) :
    heartbeats (setClientIdentity m c id nick).1 = heartbeats m := by
  unfold setClientIdentity
  split
  · rfl
  · exact heartbeats_modify m c _ (fun _ => rfl)

/-- The result of `checkTimeout` is a function of the last-heartbeat readings. -/
theorem checkTimeout_heartbeats (tps : Nat) (clients : FdMap ClientInfo) (now : Nat) (t : Int) :
    checkTimeout tps clients now t
      = ((heartbeats clients).filter (fun p =>
          Int.tdiv ((now : Int) - (p.2 : Int)) (tps : Int) > t)).map Prod.fst := by
  unfold checkTimeout heartbeats
  rw [List.filter_map, List.map_map]
  rfl

/-- A message that is not a HEARTBEAT_REQ with an empty body keeps every last-heartbeat
reading. -/
theorem handleMessage_heartbeats (be : Bool) (now epoch : Nat) (s : Server) (c : Int)
    (header : MessageHeader) (body : List Nat)
    (h : header.msgType = MSG_HEARTBEAT_REQ → body ≠ []) :
    heartbeats (handleMessage be now epoch s c header body).clients = heartbeats s.clients := by
  unfold handleMessage
  by_cases hb : header.msgType = MSG_HEARTBEAT_REQ
  · have hne : body.length ≠ 0 := fun e => h hb (List.length_eq_zero.mp e)
    rw [if_pos hb, if_pos hne]
  rw [if_neg hb]
  split
  · rcases (handleLogin_roster be s c header body).2.2 with e | ⟨id, nick, -, -, -, -, -, e⟩
    · rw [e]
    · rw [e, heartbeats_setClientIdentity]
  · split
    · rfl
    · split
      · rw [(handleChatMessage_onlySends be epoch s c header body).1]
      · split
        · rw [(handleUserListRequest_onlySends be s c header).1]
        · split
          · rw [(handleFileOffer_roster be s c header body).1]
          · split
            · rw [(handleFileOfferResponse_roster be s c header body).1]
            · split
              · rw [(handleFileData_onlySends be s c header body).1]
              · rfl

theorem handleMessages_heartbeats (be : Bool) (msgs : List Incoming) (s : Server)
    (h : ∀ m ∈ msgs, m.header.msgType = MSG_HEARTBEAT_REQ → m.body ≠ []) :
    heartbeats (handleMessages be s msgs).clients = heartbeats s.clients := by
  unfold handleMessages
  induction msgs generalizing s with
  | nil => rfl
  | cons m rest ih =>
    rw [List.foldl_cons, ih _ (fun x hx => h x (List.mem_cons_of_mem m hx))]
    exact handleMessage_heartbeats be m.now m.epoch s m.fd m.header m.body
      (h m (List.mem_cons_self m rest))

/-- C38: only heartbeats count as liveness. Handling messages none of which is a
HEARTBEAT_REQ with an empty body (messages of any other type, and HEARTBEAT_REQ frames that
carry a body), from any connections, leaves the last-heartbeat reading of every roster entry
unchanged, and with it the answer of `checkTimeout` for every clock reading and timeout; so
a connection of the roster whose last heartbeat (or accept time) is more than `t` whole
seconds old is still returned by `checkTimeout(t)` after these messages. -/
theorem only_heartbeats_refresh (be : Bool) (s : Server) (msgs : List Incoming)
    (h : ∀ m ∈ msgs, m.header.msgType = MSG_HEARTBEAT_REQ → m.body ≠ []) :
    heartbeats (handleMessages be s msgs).clients = heartbeats s.clients
    ∧ (∀ fd, (getClientInfo (handleMessages be s msgs).clients fd).map
          (fun info => info.lastHeartbeat)
        = (getClientInfo s.clients fd).map (fun info => info.lastHeartbeat))
    ∧ (∀ tps now t, checkTimeout tps (handleMessages be s msgs).clients now t
        = checkTimeout tps s.clients now t)
    ∧ (∀ (tps now t : Nat) fd info, 0 < tps → getClientInfo s.clients fd = some info →
        (t + 1) * tps ≤ now - info.lastHeartbeat →
        fd ∈ checkTimeout tps (handleMessages be s msgs).clients now (t : Int)) := by
  have hb := handleMessages_heartbeats be msgs s h
  have hct : ∀ tps now t, checkTimeout tps (handleMessages be s msgs).clients now t
      = checkTimeout tps s.clients now t := by
    intro tps now t
    rw [checkTimeout_heartbeats, checkTimeout_heartbeats, hb]
  have hfind : ∀ (m : FdMap ClientInfo) fd,
      (getClientInfo m fd).map (fun info => info.lastHeartbeat)
        = FdMap.find? (heartbeats m) fd := by
    intro m fd
    unfold getClientInfo heartbeats
    induction m with
    | nil => rfl
    | cons e rest ih =>
      obtain ⟨k0, v0⟩ := e
      simp only [FdMap.find?, List.map_cons]
      split
      · rfl
      · exact ih
  refine ⟨hb, fun fd => by rw [hfind, hfind, hb], hct, ?_⟩
  intro tps now t fd info htps hinfo hold
  rw [hct, checkTimeout_mem]
  exact ⟨info, FdMap.find?_mem s.clients fd info hinfo,
    (elapsed_gt_iff tps now info.lastHeartbeat t htps).mpr hold⟩

set_option maxRecDepth 1000000 in
/-- C38 at sample inputs: connection 5, last heard at clock reading 0, is returned by
`checkTimeout(10)` at reading 11 000 000 000 of a clock of nanosecond ticks although it sent a
chat and a user-list request at reading 9 000 000 000. -/
theorem only_heartbeats_refresh_witness :
    (∀ m ∈ demoBusy, m.header.msgType = MSG_HEARTBEAT_REQ → m.body ≠ [])
    ∧ getClientInfo demoAlice.clients 5 = some (demoEntry demoAlice 5)
    ∧ (demoEntry demoAlice 5).lastHeartbeat = 0
    ∧ 5 ∈ checkTimeout 1000000000 (handleMessages false demoAlice demoBusy).clients
        11000000000 kHeartbeatTimeoutSec :=
  ⟨by decide, by decide, by decide,
   (only_heartbeats_refresh false demoAlice demoBusy (by decide)).2.2.2 1000000000
      11000000000 10 5 (demoEntry demoAlice 5) (by decide) (by decide) (by decide)⟩

/-! ## A repeated fileId -/

/-- The entries of a fileId after `fsInsert`: the new one and no other. -/
theorem fsInsert_filter (t : List (List Nat × FileSession)) (fileId : List Nat)
    (session : FileSession) :
    (fsInsert t fileId session).filter (fun e => e.1 == fileId) = [(fileId, session)] := by
  unfold fsInsert fsErase
  rw [List.filter_append, List.filter_filter]
  simp

/-- C39: a repeated fileId replaces the session. In a well-formed roster with unique,
non-empty online identities (as in every reachable state), let the file-session table hold
a session `old` for the fileId F, and let an online connection `c` send a FILE_OFFER with
the same F and a toId that is the clientId of an online connection `b`. Afterwards the
table holds exactly one entry for F, the session {sender = c, receiver = b}, and every other
fileId as before; and a FILE_DATA or FILE_DATA_ACK for F that then comes from the original
sender is not relayed (the state stays as it is, nothing is sent) unless that connection is
`c` or `b`. -/
theorem repeated_file_id_replaces (be : Bool) (now epoch : Nat) (s : Server) (c b : Int)
    (header : MessageHeader) (body : List Nat) (offer : FileOffer) (sender binfo : ClientInfo)
    (old : FileSession)
    (hmsg : header.msgType = MSG_FILE_OFFER)
    (hparse : parseFileOffer be body = some offer)
    (hsender : getClientInfo s.clients c = some sender)
    (honline : sender.isOnline = true)
    (hfile : fieldString offer.fileId 37 ≠ [])
    (_hold : fsFind s.fileSessions (fieldString offer.fileId 37) = some old)
    (hb : (b, binfo) ∈ s.clients) (hbon : binfo.isOnline = true)
    (hbid : binfo.clientId = fieldString offer.toId 32)
    (hwf : RosterWF s.clients) (huniq : RosterUnique s.clients)
    (hnamed : ∀ e ∈ s.clients, e.2.isOnline = true → e.2.clientId ≠ []) :
    fsFind (handleMessage be now epoch s c header body).fileSessions
        (fieldString offer.fileId 37) = some { senderFd := c, receiverFd := b }
    ∧ (handleMessage be now epoch s c header body).fileSessions.filter
        (fun e => e.1 == fieldString offer.fileId 37)
        = [(fieldString offer.fileId 37, { senderFd := c, receiverFd := b })]
    ∧ (∀ k, k ≠ fieldString offer.fileId 37 →
        fsFind (handleMessage be now epoch s c header body).fileSessions k
          = fsFind s.fileSessions k)
    ∧ (∀ (now2 epoch2 : Nat) (header2 : MessageHeader) (body2 : List Nat),
        (header2.msgType = MSG_FILE_DATA ∨ header2.msgType = MSG_FILE_DATA_ACK) →
        extractFileId body2 = fieldString offer.fileId 37 →
        old.senderFd ≠ c → old.senderFd ≠ b →
        handleMessage be now2 epoch2 (handleMessage be now epoch s c header body) old.senderFd
            header2 body2
          = handleMessage be now epoch s c header body) := by
  have hto : fieldString offer.toId 32 ≠ [] := by
    rw [← hbid]; exact hnamed _ hb hbon
  have htarget : getFdByClientId s.clients (fieldString offer.toId 32) = b :=
    getFdByClientId_of_mem s.clients huniq b binfo _ hto hb hbon hbid
  have hb0 : ¬ b < 0 := by
    have := (hwf.2 _ hb).2
    simp only at this
    omega
  have hs : (handleMessage be now epoch s c header body).fileSessions
      = fsInsert s.fileSessions (fieldString offer.fileId 37)
          { senderFd := c, receiverFd := b } := by
    rw [handleMessage_offer be now epoch s c header body hmsg,
      handleFileOffer_eq be s c header body offer sender hparse hsender honline,
      if_neg hfile, if_neg hto, htarget, if_neg hb0]
  have hfind : fsFind (handleMessage be now epoch s c header body).fileSessions
      (fieldString offer.fileId 37) = some { senderFd := c, receiverFd := b } := by
    rw [hs, fsFind_fsInsert, if_pos rfl]
  refine ⟨hfind, ?_, ?_, ?_⟩
  · rw [hs, fsInsert_filter]
  · intro k hk
    rw [hs, fsFind_fsInsert, if_neg hk]
  · intro now2 epoch2 header2 body2 hm2 hid hc hb2
    rw [handleMessage_fileData be now2 epoch2 _ old.senderFd header2 body2 hm2]
    unfold handleFileData
    simp only [hid, hfind]
    have he : (fieldString offer.fileId 37).isEmpty = false := by
      cases hq : fieldString offer.fileId 37 with
      | nil => exact absurd hq hfile
      | cons a l => rfl
    rw [he]
    simp only [Bool.false_eq_true, if_false]
    rw [if_neg hc, if_neg hb2]

set_option maxRecDepth 1000000 in
/-- C39 at sample inputs: after alice on connection 5 offered f1 to bob on connection 6,
carol on connection 7 offers a file with the same fileId f1 to bob. The session of f1 is
then {sender = 7, receiver = 6}, and a FILE_DATA frame for f1 from connection 5 changes
nothing. -/
theorem repeated_file_id_replaces_witness :
    fsFind demoOffered.fileSessions (ascii "f1") = some { senderFd := 5, receiverFd := 6 }
    ∧ getClientInfo demoOffered.clients 7 = some (demoEntry demoOffered 7)
    ∧ (demoEntry demoOffered 7).isOnline = true
    ∧ fsFind (handleMessage false 0 0 demoOffered 7 (demoHeader MSG_FILE_OFFER 429 95)
          (demoOfferBody "f1" "bob")).fileSessions
          (fieldString (demoOffer (demoOfferBody "f1" "bob")).fileId 37)
        = some { senderFd := 7, receiverFd := 6 }
    ∧ handleMessage false 0 0 (handleMessage false 0 0 demoOffered 7
          (demoHeader MSG_FILE_OFFER 429 95) (demoOfferBody "f1" "bob")) 5
          (demoHeader MSG_FILE_DATA 52 51) ((demoDataFrame "f1").drop 16)
        = handleMessage false 0 0 demoOffered 7 (demoHeader MSG_FILE_OFFER 429 95)
            (demoOfferBody "f1" "bob") :=
  have h := repeated_file_id_replaces false 0 0 demoOffered 7 6
    (demoHeader MSG_FILE_OFFER 429 95) (demoOfferBody "f1" "bob")
    (demoOffer (demoOfferBody "f1" "bob")) (demoEntry demoOffered 7) (demoEntry demoOffered 6)
    { senderFd := 5, receiverFd := 6 }
    (by decide) (by decide) (by decide) (by decide) (by decide) (by decide) (by decide)
    (by decide) (by decide) (by decide) (by decide) (by decide)
  ⟨by decide, by decide, by decide, h.1,
   h.2.2.2 0 0 (demoHeader MSG_FILE_DATA 52 51) ((demoDataFrame "f1").drop 16)
     (Or.inl (by decide)) (by decide) (by decide) (by decide)⟩

/-! ## Progress of the framer -/

/-- The loop ends within one iteration per 16 bytes of the buffer, and one more: any two
fuels above a sixteenth of the buffer length give the same result. -/
theorem parseLoop_fuel16 {σ : Type} (be : Bool) (fd : Int)
    (cb : σ → Int → MessageHeader → List Nat → σ) (f g : Nat) (buffer : List Nat) (st : σ)
    (hf : buffer.length / 16 < f) (hg : buffer.length / 16 < g) :
    parseLoop be fd cb f buffer st = parseLoop be fd cb g buffer st := by
  induction f generalizing g buffer st with
  | zero => omega
  | succ f ih =>
    cases g with
    | zero => omega
    | succ g =>
      simp only [parseLoop, sizeofMessageHeader, Nat.reduceAdd]
      split
      · split
        · rfl
        · split
          · rfl
          · rename_i h16 _ htot
            apply ih
            · rw [List.length_drop]; omega
            · rw [List.length_drop]; omega
      · rfl

/-- After any number of iterations of the loop, every message dispatched so far has taken
at least 16 bytes off the accumulator. -/
theorem parseLoop_progress (be : Bool) (fd : Int) (fuel : Nat) (buffer : List Nat)
    (trace : List (MessageHeader × List Nat)) :
    ∃ msgs, (parseLoop be fd recordMessage fuel buffer trace).2 = trace ++ msgs
      ∧ 16 * msgs.length + (parseLoop be fd recordMessage fuel buffer trace).1.length
          ≤ buffer.length := by
  induction fuel generalizing buffer trace with
  | zero => exact ⟨[], by simp [parseLoop]⟩
  | succ fuel ih =>
    simp only [parseLoop, sizeofMessageHeader, Nat.reduceAdd]
    split
    · split
      · exact ⟨[], by simp⟩
      · split
        · exact ⟨[], by simp⟩
        · rename_i h16 _ htot
          obtain ⟨msgs, h1, h2⟩ := ih (buffer.drop (16 + (decodeHeader be buffer).bodyLength))
            (recordMessage trace fd (decodeHeader be buffer)
              ((buffer.drop 16).take (decodeHeader be buffer).bodyLength))
          refine ⟨((decodeHeader be buffer),
            (buffer.drop 16).take (decodeHeader be buffer).bodyLength) :: msgs, ?_, ?_⟩
          · rw [h1]
            simp [recordMessage]
          · rw [List.length_drop] at h2
            rw [List.length_cons]
            omega
    · exact ⟨[], by simp⟩

/-- C40: framer progress and termination. For the accumulator `buffer` of a connection and
new bytes `data`, with `n` the accumulator length after the new bytes are appended: the loop
of `parseData` ends within `n / 16 + 1` iterations (any bound on the iterations above
`n / 16` gives the result of `parseData`); after any number of iterations every callback
invocation so far has removed at least 16 bytes from the accumulator, so the accumulator is
never longer than `n`; and one call emits at most `n / 16` messages. -/
theorem framer_progress (be : Bool) (fd : Int) (buffer data : List Nat)
    (trace : List (MessageHeader × List Nat)) :
    (∀ fuel, (buffer ++ data).length / 16 < fuel →
      parseLoop be fd recordMessage fuel (buffer ++ data) trace
        = parseData be fd buffer data recordMessage trace)
    ∧ (∀ fuel, ∃ msgs,
        (parseLoop be fd recordMessage fuel (buffer ++ data) trace).2 = trace ++ msgs
        ∧ 16 * msgs.length
            + (parseLoop be fd recordMessage fuel (buffer ++ data) trace).1.length
          ≤ (buffer ++ data).length)
    ∧ (∃ msgs, (parseData be fd buffer data recordMessage trace).2 = trace ++ msgs
        ∧ msgs.length ≤ (buffer ++ data).length / 16
        ∧ (parseData be fd buffer data recordMessage trace).1.length
            ≤ (buffer ++ data).length) := by
  refine ⟨fun fuel hfuel => ?_, fun fuel => parseLoop_progress be fd fuel _ trace, ?_⟩
  · unfold parseData
    exact parseLoop_fuel16 be fd recordMessage _ _ _ trace hfuel (by omega)
  · obtain ⟨msgs, h1, h2⟩ :=
      parseLoop_progress be fd ((buffer ++ data).length + 1) (buffer ++ data) trace
    refine ⟨msgs, h1, ?_, ?_⟩
    · omega
    · unfold parseData
      omega

/-- C40 at sample inputs: on an accumulator holding the first three bytes of a 19-byte frame
and the remaining sixteen bytes as new data, two iterations of the loop give the result of
`parseData`: one message, an empty accumulator. -/
theorem framer_progress_witness :
    ([0x12, 0x34, 0x56] ++ [0x78, 0, 1, 2, 1, 0, 0, 0, 3, 0, 0, 0, 9, 7, 8, 9]).length / 16 < 2
    ∧ parseLoop false 5 recordMessage 2
        ([0x12, 0x34, 0x56] ++ [0x78, 0, 1, 2, 1, 0, 0, 0, 3, 0, 0, 0, 9, 7, 8, 9]) []
      = parseData false 5 [0x12, 0x34, 0x56] [0x78, 0, 1, 2, 1, 0, 0, 0, 3, 0, 0, 0, 9, 7, 8, 9]
          recordMessage []
    ∧ parseData false 5 [0x12, 0x34, 0x56] [0x78, 0, 1, 2, 1, 0, 0, 0, 3, 0, 0, 0, 9, 7, 8, 9]
          recordMessage []
      = ([], [(⟨0x12345678, 1, 0x0201, 3, 9⟩, [7, 8, 9])]) :=
  ⟨by decide,
   (framer_progress false 5 [0x12, 0x34, 0x56]
      [0x78, 0, 1, 2, 1, 0, 0, 0, 3, 0, 0, 0, 9, 7, 8, 9] []).1 2 (by decide),
   by decide⟩

end IM

